import Mathlib

/-!
Resource packing of `vulkan_sandbox`.

A shallow embedding of the resource-pack build of the renderer
(`src/src/vk/resource_pack.cpp`, `src/src/vk/buffer.cpp`,
`src/src/vk/device.cpp`) and the statements proved about it.

Conventions of the embedding.

* `VkDeviceSize`, `size_t` (64 bit) and `uint32_t` values are natural numbers;
  every addition and multiplication the source performs on 64-bit values is
  followed by an explicit reduction modulo `2 ^ 64` (`wrap64`), so wrap-around
  is part of the model.
* A `std::vector` whose contents are only copied to the device is represented
  by its element count (`size()`).
* `std::unordered_map` is a function from names to optional values, `at` is
  its lookup and an absent key is the exception `std::out_of_range`.
* `std::unordered_set` is the list of its elements in insertion order; the
  order in which it is enumerated is left open through `HashOrder`.
* Exceptions are the `Except String` monad. The Vulkan calls that create
  buffers and images and allocate memory may fail, as the fields of `Device`
  say; the other Vulkan calls are taken to succeed.
* An index out of the bounds of a vector, which is undefined behaviour in the
  source and never happens in `build`, is an error of the model.
-/

namespace vks

/-! ## Machine integers and constants -/

/-- Reduction of an exact result to the value a 64-bit unsigned variable holds. -/
def wrap64 (n : Nat) : Nat := n % 2 ^ 64

/-- The constant `UINT32_MAX`. -/
def UINT32_MAX : Nat := 2 ^ 32 - 1

/-- The constant `SIZE_MAX` of a 64-bit target. -/
def SIZE_MAX : Nat := 2 ^ 64 - 1

/-- The value of `sizeof(Model::Vertex)`: two `glm::vec3` and one `glm::vec2` of
`float`, tightly packed (`resources.h`). -/
def sizeofVertex : Nat := 32

/-- The value of `sizeof(uint32_t)`. -/
def sizeofIndex : Nat := 4

/-- The value of `sizeof(MaterialUniform)`: three 16-byte aligned `glm::vec3`
at offsets 0, 16, 32, then four `float` up to byte 60, padded to a multiple of
16 (`material.h`). -/
def sizeofMaterialUniform : Nat := 64

/-- The flag `VK_MEMORY_PROPERTY_DEVICE_LOCAL_BIT`. -/
def VK_MEMORY_PROPERTY_DEVICE_LOCAL_BIT : Nat := 1

/-- The constant `VK_MAX_MEMORY_TYPES`, the length of the `memoryTypes` array. -/
def VK_MAX_MEMORY_TYPES : Nat := 32

/-! ## Vulkan structures -/

/-- The structure `VkMemoryRequirements`. -/
structure VkMemoryRequirements where
  size : Nat
  alignment : Nat
  memoryTypeBits : Nat
  deriving DecidableEq, Repr

/-- The structure `VkPhysicalDeviceMemoryProperties`, reduced to what
`getMemoryIndex` reads: `memoryTypes i` is `memoryTypes[i].propertyFlags`. -/
structure VkPhysicalDeviceMemoryProperties where
  memoryTypeCount : Nat
  memoryTypes : Nat → Nat

/-- The part of `Device` the resource pack uses: the memory properties found
at device selection and the answers of the driver to the calls the build makes.
`vkAllocateMemory size type`, `vkCreateBuffer usage size` and
`vkCreateImage width height` tell whether the call returns `VK_SUCCESS`;
`bufferRequirements usage size` and `imageRequirements width height` are what
`vkGetBufferMemoryRequirements` and `vkGetImageMemoryRequirements` report.
The remaining Vulkan calls of the build (binding, mapping, command recording
and submission, view and descriptor creation) are taken to succeed. -/
structure Device where
  memory_properties : VkPhysicalDeviceMemoryProperties
  vkAllocateMemory : Nat → Nat → Bool
  vkCreateBuffer : Nat → Nat → Bool
  vkCreateImage : Nat → Nat → Bool
  bufferRequirements : Nat → Nat → VkMemoryRequirements
  imageRequirements : Nat → Nat → VkMemoryRequirements

/-! ## `Device::getMemoryIndex` (`device.cpp`) -/

/-- The test of the loop body of `getMemoryIndex` for index `i`:
`(1 << i) & type_bits && (memoryTypes[i].propertyFlags & properties) == properties`.
The shift is an `int` shift converted to `uint32_t`, defined for `i < 32`. -/
def memoryTypeMatches (mp : VkPhysicalDeviceMemoryProperties)
    (type_bits properties i : Nat) : Bool :=
  (((1 <<< i) % 2 ^ 32) &&& type_bits != 0) &&
    ((mp.memoryTypes i &&& properties) == properties)

/-- The loop `for (size_t i{0}; i < memoryTypeCount; i++)` of `getMemoryIndex`,
started at index `i` with `n` iterations left; falling out of the loop throws. -/
def getMemoryIndexLoop (mp : VkPhysicalDeviceMemoryProperties)
    (type_bits properties : Nat) : Nat → Nat → Except String Nat
  | _, 0 => .error "Failed to find suitable memory index"
  | i, n + 1 =>
    if memoryTypeMatches mp type_bits properties i then .ok i
    else getMemoryIndexLoop mp type_bits properties (i + 1) n

/-- The method `Device::getMemoryIndex`. -/
def Device.getMemoryIndex (device : Device) (type_bits properties : Nat) :
    Except String Nat :=
  getMemoryIndexLoop device.memory_properties type_bits properties 0
    device.memory_properties.memoryTypeCount

/-! ## `ResourcePack::allocateMemory` (`resource_pack.cpp`) -/

/-- The two variables captured by reference by the lambda `memoryOffset`. -/
structure AllocState where
  alloc_size : Nat
  type_bits : Nat
  deriving DecidableEq, Repr

/-- The lambda `memoryOffset` of `allocateMemory`: returns the offset and the
updated captured variables. All arithmetic is `VkDeviceSize` arithmetic. The
source divides by `req.alignment`; an alignment of zero is undefined behaviour
there and every statement below assumes alignments of at least one. -/
def memoryOffset (s : AllocState) (req : VkMemoryRequirements) : Nat × AllocState :=
  let offset :=
    wrap64 (wrap64 (s.alloc_size + wrap64 (req.alignment + (2 ^ 64 - 1))) / req.alignment
      * req.alignment)
  (offset, { alloc_size := wrap64 (offset + req.size),
             type_bits := s.type_bits &&& req.memoryTypeBits })

/-- The loop `texture_offsets[i] = memoryOffset(texture_requirements[i].second)`:
the offsets in list order and the captured variables after the loop. -/
def memoryOffsets (s : AllocState) : List VkMemoryRequirements → List Nat × AllocState
  | [] => ([], s)
  | req :: rest =>
    let r := memoryOffset s req
    let rs := memoryOffsets r.2 rest
    (r.1 :: rs.1, rs.2)

/-- The type alias `TextureRequirements`: image index and its requirements. -/
abbrev TextureRequirements := Nat × VkMemoryRequirements

/-- What `allocateMemory` has done when it returns: the block it allocated and
the offsets passed to the `bindMemory` calls. `image_bindings` lists, in call
order, the image index and the offset of `images[index].bindMemory`. -/
structure Allocation where
  allocationSize : Nat
  memoryTypeIndex : Nat
  vertex_offset : Nat
  index_offset : Nat
  uniform_offset : Nat
  texture_offsets : List Nat
  image_bindings : List (Nat × Nat)
  deriving DecidableEq, Repr

/-- The function `ResourcePack::allocateMemory`. -/
def allocateMemory (device : Device)
    (vertex_requirements index_requirements uniform_requirements : VkMemoryRequirements)
    (texture_requirements : List TextureRequirements) : Except String Allocation :=
  let s0 : AllocState := { alloc_size := 0, type_bits := UINT32_MAX }
  let v := memoryOffset s0 vertex_requirements
  let i := memoryOffset v.2 index_requirements
  let u := memoryOffset i.2 uniform_requirements
  let t := memoryOffsets u.2 (texture_requirements.map Prod.snd)
  match device.getMemoryIndex t.2.type_bits VK_MEMORY_PROPERTY_DEVICE_LOCAL_BIT with
  | .error e => .error e
  | .ok memoryTypeIndex =>
    if device.vkAllocateMemory t.2.alloc_size memoryTypeIndex then
      .ok { allocationSize := t.2.alloc_size
            memoryTypeIndex := memoryTypeIndex
            vertex_offset := v.1
            index_offset := i.1
            uniform_offset := u.1
            texture_offsets := t.1
            image_bindings := List.zip (texture_requirements.map Prod.fst) t.1 }
    else .error "Failed to allocate resource pack device memory"


/-! ## Specification-side definitions for the memory layout -/

/-- The quotient `ceil(n / a)` of the specification, on natural numbers. -/
def ceilDiv (n a : Nat) : Nat := if n % a = 0 then n / a else n / a + 1

/-- The offset of the specification: `ceil(running_size / alignment) * alignment`. -/
def alignUp (running_size alignment : Nat) : Nat := ceilDiv running_size alignment * alignment

/-- The walk of the specification in exact arithmetic: each offset is
`alignUp running_size alignment`, the running size after a resource is
`offset + size`; returns the offsets in order and the final running size. -/
def specOffsets (running_size : Nat) : List VkMemoryRequirements → List Nat × Nat
  | [] => ([], running_size)
  | req :: rest =>
    let offset := alignUp running_size req.alignment
    let rs := specOffsets (offset + req.size) rest
    (offset :: rs.1, rs.2)

/-- No 64-bit addition of the walk wraps: for every resource, in order,
`running_size + (alignment - 1) < 2 ^ 64` and `offset + size < 2 ^ 64`. -/
def fits64 (running_size : Nat) : List VkMemoryRequirements → Bool
  | [] => true
  | req :: rest =>
    decide (running_size + (req.alignment - 1) < 2 ^ 64) &&
    (decide (alignUp running_size req.alignment + req.size < 2 ^ 64) &&
      fits64 (alignUp running_size req.alignment + req.size) rest)

/-- The requirements in the order `allocateMemory` walks them. -/
def walkOrder (vertex_requirements index_requirements uniform_requirements : VkMemoryRequirements)
    (texture_requirements : List TextureRequirements) : List VkMemoryRequirements :=
  vertex_requirements :: index_requirements :: uniform_requirements ::
    texture_requirements.map Prod.snd

/-- The offsets of an allocation in the order of `walkOrder`. -/
def Allocation.offsets (a : Allocation) : List Nat :=
  a.vertex_offset :: a.index_offset :: a.uniform_offset :: a.texture_offsets

/-- The pairs `(offset, size)` of the resources bound by `allocateMemory`, in
the order vertex buffer, index buffer, uniform buffer, then the images in the
order of `texture_requirements`; the size is the one of the resource's memory
requirements. -/
def boundRanges (a : Allocation)
    (vertex_requirements index_requirements uniform_requirements : VkMemoryRequirements)
    (texture_requirements : List TextureRequirements) : List (Nat × Nat) :=
  List.zip a.offsets
    ((walkOrder vertex_requirements index_requirements uniform_requirements
      texture_requirements).map VkMemoryRequirements.size)

/-- The set of byte addresses `[offset, offset + size)` of a bound resource. -/
def byteRange (p : Nat × Nat) : Set Nat := Set.Ico p.1 (p.1 + p.2)

/-- The bitwise AND of `UINT32_MAX` and the `memoryTypeBits` of a list of requirements. -/
def combinedTypeBits (reqs : List VkMemoryRequirements) : Nat :=
  reqs.foldl (fun acc req => acc &&& req.memoryTypeBits) UINT32_MAX

/-- The property of index `i` the loop of `getMemoryIndex` looks for, in
words of the specification: bit `i` of `type_bits` is set and the property
flags of memory type `i` contain all of `properties`. -/
def Suitable (mp : VkPhysicalDeviceMemoryProperties) (type_bits properties i : Nat) : Prop :=
  type_bits.testBit i = true ∧ mp.memoryTypes i &&& properties = properties

/-! ## Example device and requirements -/

/-- A device with two memory types: type 0 is host visible and coherent
(flags 6), type 1 is device local (flags 1); every allocation succeeds. -/
def exampleDevice : Device where
  memory_properties :=
    { memoryTypeCount := 2
      memoryTypes := fun i => if i = 0 then 6 else if i = 1 then 1 else 0 }
  vkAllocateMemory := fun _ _ => true
  vkCreateBuffer := fun _ _ => true
  vkCreateImage := fun _ _ => true
  bufferRequirements := fun _ size => { size := size, alignment := 16, memoryTypeBits := 3 }
  imageRequirements := fun width height =>
    { size := width * height * 4, alignment := 4, memoryTypeBits := 2 }

/-- Requirements of a 96-byte vertex buffer. -/
def exampleVertexReq : VkMemoryRequirements := { size := 96, alignment := 16, memoryTypeBits := 3 }

/-- Requirements of a 12-byte index buffer. -/
def exampleIndexReq : VkMemoryRequirements := { size := 12, alignment := 16, memoryTypeBits := 3 }

/-- Requirements of a 64-byte uniform buffer. -/
def exampleUniformReq : VkMemoryRequirements :=
  { size := 64, alignment := 256, memoryTypeBits := 3 }

/-- Requirements of two images, listed by descending alignment. -/
def exampleTextureReqs : List TextureRequirements :=
  [(1, { size := 70, alignment := 64, memoryTypeBits := 2 }),
   (0, { size := 4, alignment := 4, memoryTypeBits := 2 })]

/-- The allocation `allocateMemory` returns for the example requirements. -/
def exampleAllocation : Allocation where
  allocationSize := 396
  memoryTypeIndex := 1
  vertex_offset := 0
  index_offset := 96
  uniform_offset := 256
  texture_offsets := [320, 392]
  image_bindings := [(1, 320), (0, 392)]

/-- Requirements of a buffer of `2 ^ 63` bytes. -/
def hugeReq : VkMemoryRequirements := { size := 2 ^ 63, alignment := 16, memoryTypeBits := 3 }

/-- Requirements of a buffer of `2 ^ 64 - 16` bytes. -/
def almostFullReq : VkMemoryRequirements :=
  { size := 2 ^ 64 - 16, alignment := 16, memoryTypeBits := 3 }

/-- Requirements of a 32-byte index buffer. -/
def smallIndexReq : VkMemoryRequirements := { size := 32, alignment := 16, memoryTypeBits := 3 }

/-- Requirements of the placeholder image alone. -/
def placeholderReqs : List TextureRequirements :=
  [(0, { size := 4, alignment := 4, memoryTypeBits := 2 })]

/-! ## The scene (`resources.h`) -/

/-- The class `Texture`: `data` is `data().size()`, the number of pixel bytes. -/
structure Texture where
  data : Nat
  width : Nat
  height : Nat
  deriving DecidableEq, Repr

/-- The class `Material`: `textures` is the array `m_textures` with one name per
`TextureMap` value (six entries), the empty string standing for an unset slot;
colours and scalars are kept as bit patterns. -/
structure Material where
  textures : List String
  diffuse : Nat × Nat × Nat := (0, 0, 0)
  ambient : Nat × Nat × Nat := (0, 0, 0)
  emission : Nat × Nat × Nat := (0, 0, 0)
  roughness : Nat := 0
  metalness : Nat := 0
  deriving DecidableEq, Repr

/-- The class `Model`: `vertices` is `vertices().size()` and `indices` is
`indices().size()`. -/
structure Model where
  material : String
  vertices : Nat
  indices : Nat
  deriving DecidableEq, Repr

/-- The structure `Resources`: three maps keyed by name. -/
structure Resources where
  models : String → Option Model
  textures : String → Option Texture
  materials : String → Option Material

/-- The call `map.at(key)`: throws `std::out_of_range` for an absent key. -/
def mapAt {α : Type} (map : String → Option α) (key : String) : Except String α :=
  match map key with
  | some value => .ok value
  | none => .error "unordered_map::at"

/-! ## Hash containers -/

/-- The order in which a `std::unordered_set<std::string>` is enumerated. The
standard leaves it open: `iterate l` is the enumeration of the set whose
elements were inserted in the order `l`, some rearrangement of `l`. -/
structure HashOrder where
  iterate : List String → List String
  perm : ∀ l, (iterate l).Perm l

/-- The call `set.insert(x)` on a set kept as the list of its elements. -/
def setInsert (set : List String) (x : String) : List String :=
  if x ∈ set then set else set ++ [x]

/-- The call `map.emplace(key, value)`: an existing entry is kept. -/
def mapEmplace (map : String → Option Nat) (key : String) (value : Nat) :
    String → Option Nat :=
  fun k => if k = key then (match map key with
    | some old => some old
    | none => some value) else map k

/-- The loop `for (i...) map.emplace(names[i], i)` continued at index `i`. -/
def emplaceIndices (i : Nat) : List String → (String → Option Nat) → (String → Option Nat)
  | [], map => map
  | name :: rest, map => emplaceIndices (i + 1) rest (mapEmplace map name i)

/-- The map from names to positions built by the loop
`for (size_t i{0}; i < names.size(); i++) map.emplace(names[i], i)`. -/
def indexMap (names : List String) : String → Option Nat :=
  emplaceIndices 0 names (fun _ => none)

/-! ## `ResourcePack::getResourceNames` (`resource_pack.cpp`) -/

/-- The structure `ResourcePack::ModelOffset`. -/
structure ModelOffset where
  vertex_offset : Nat
  index_offset : Nat
  index_count : Nat
  material_index : Nat
  deriving DecidableEq, Repr

/-- The variables of `getResourceNames` the first loop updates. -/
structure SizingState where
  vertex_offset : Nat
  index_offset : Nat
  staging_buffer_size : Nat
  vertex_buffer_size : Nat
  index_buffer_size : Nat
  model_offsets : List ModelOffset
  unique_materials : List String
  deriving DecidableEq, Repr

/-- The body of the loop `for (const auto& name : model_names)` for the model
found under `name`. -/
def sizingStep (st : SizingState) (model : Model) : SizingState :=
  let vertex_bytes := wrap64 (model.vertices * sizeofVertex)
  let index_bytes := wrap64 (model.indices * sizeofIndex)
  { vertex_offset := wrap64 (st.vertex_offset + model.vertices)
    index_offset := wrap64 (st.index_offset + model.indices)
    staging_buffer_size := max st.staging_buffer_size (max vertex_bytes index_bytes)
    vertex_buffer_size := wrap64 (st.vertex_buffer_size + vertex_bytes)
    index_buffer_size := wrap64 (st.index_buffer_size + index_bytes)
    model_offsets := st.model_offsets ++
      [{ vertex_offset := st.vertex_offset, index_offset := st.index_offset,
         index_count := model.indices, material_index := SIZE_MAX }]
    unique_materials := setInsert st.unique_materials model.material }

/-- The loop `for (const auto& name : model_names)` of `getResourceNames`. -/
def sizingLoop (resources : Resources) : List String → SizingState → Except String SizingState
  | [], st => .ok st
  | name :: rest, st =>
    match mapAt resources.models name with
    | .error e => .error e
    | .ok model => sizingLoop resources rest (sizingStep st model)

/-- The inner loop `for (const auto& name : material.textures())`: inserts the
non-empty names. -/
def insertTextures (unique_textures : List String) : List String → List String
  | [] => unique_textures
  | name :: rest =>
    insertTextures (if name = "" then unique_textures else setInsert unique_textures name) rest

/-- The loop `for (const auto& name : unique_materials)` of `getResourceNames`,
over the names in enumeration order. -/
def texturesLoop (resources : Resources) : List String → List String → Except String (List String)
  | [], unique_textures => .ok unique_textures
  | name :: rest, unique_textures =>
    match mapAt resources.materials name with
    | .error e => .error e
    | .ok material => texturesLoop resources rest (insertTextures unique_textures material.textures)

/-- The last loop of `getResourceNames`:
`model_offsets[i].material_index = material_indices.at(model.material())`. -/
def assignMaterialIndices (resources : Resources) (material_indices : String → Option Nat) :
    List String → List ModelOffset → Except String (List ModelOffset)
  | [], model_offsets => .ok model_offsets
  | _ :: _, [] => .error "model_offsets index out of range"
  | name :: rest, offset :: offsets =>
    match mapAt resources.models name with
    | .error e => .error e
    | .ok model =>
      match mapAt material_indices model.material with
      | .error e => .error e
      | .ok index =>
        match assignMaterialIndices resources material_indices rest offsets with
        | .error e => .error e
        | .ok tail => .ok ({ offset with material_index := index } :: tail)

/-- The output parameters of `getResourceNames`. -/
structure ResourceNames where
  model_offsets : List ModelOffset
  material_names : List String
  texture_names : List String
  vertex_buffer_size : Nat
  index_buffer_size : Nat
  staging_buffer_size : Nat
  deriving DecidableEq, Repr

/-- The function `ResourcePack::getResourceNames`. -/
def getResourceNames (order : HashOrder) (model_names : List String) (resources : Resources) :
    Except String ResourceNames :=
  let st0 : SizingState :=
    { vertex_offset := 0, index_offset := 0, staging_buffer_size := 0,
      vertex_buffer_size := 0, index_buffer_size := 0, model_offsets := [],
      unique_materials := [] }
  match sizingLoop resources model_names st0 with
  | .error e => .error e
  | .ok st =>
    match texturesLoop resources (order.iterate st.unique_materials) [] with
    | .error e => .error e
    | .ok unique_textures =>
      let material_names := order.iterate st.unique_materials
      let texture_names := order.iterate unique_textures ++ [""]
      let staging_buffer_size :=
        max st.staging_buffer_size (wrap64 (material_names.length * sizeofMaterialUniform))
      match assignMaterialIndices resources (indexMap material_names) model_names
          st.model_offsets with
      | .error e => .error e
      | .ok model_offsets =>
        .ok { model_offsets := model_offsets
              material_names := material_names
              texture_names := texture_names
              vertex_buffer_size := st.vertex_buffer_size
              index_buffer_size := st.index_buffer_size
              staging_buffer_size := staging_buffer_size }

/-! ## Buffers and images (`buffer.h`, `image.h`) -/

/-- The flag `VK_BUFFER_USAGE_TRANSFER_SRC_BIT`. -/
def VK_BUFFER_USAGE_TRANSFER_SRC_BIT : Nat := 1

/-- The flag `VK_BUFFER_USAGE_TRANSFER_DST_BIT`. -/
def VK_BUFFER_USAGE_TRANSFER_DST_BIT : Nat := 2

/-- The flag `VK_BUFFER_USAGE_UNIFORM_BUFFER_BIT`. -/
def VK_BUFFER_USAGE_UNIFORM_BUFFER_BIT : Nat := 16

/-- The flag `VK_BUFFER_USAGE_INDEX_BUFFER_BIT`. -/
def VK_BUFFER_USAGE_INDEX_BUFFER_BIT : Nat := 64

/-- The flag `VK_BUFFER_USAGE_VERTEX_BUFFER_BIT`. -/
def VK_BUFFER_USAGE_VERTEX_BUFFER_BIT : Nat := 128

/-- The flag `VK_MEMORY_PROPERTY_HOST_VISIBLE_BIT`. -/
def VK_MEMORY_PROPERTY_HOST_VISIBLE_BIT : Nat := 2

/-- The flag `VK_MEMORY_PROPERTY_HOST_COHERENT_BIT`. -/
def VK_MEMORY_PROPERTY_HOST_COHERENT_BIT : Nat := 4

/-- The class `Buffer`: `size` is `m_size`, the size given to the constructor. -/
structure Buffer where
  size : Nat
  usage : Nat
  deriving DecidableEq, Repr

/-- The constructor `Buffer::Buffer`. -/
def Buffer.create (device : Device) (size usage : Nat) : Except String Buffer :=
  if device.vkCreateBuffer usage size then .ok { size := size, usage := usage }
  else .error "Failed to create buffer"

/-- The method `Buffer::memoryRequirements`. -/
def Buffer.memoryRequirements (device : Device) (b : Buffer) : VkMemoryRequirements :=
  device.bufferRequirements b.usage b.size

/-- The class `Image2D`, reduced to its extent. -/
structure Image2D where
  width : Nat
  height : Nat
  deriving DecidableEq, Repr

/-- The constructor `Image2D::Image2D`. -/
def Image2D.create (device : Device) (width height : Nat) : Except String Image2D :=
  if device.vkCreateImage width height then .ok { width := width, height := height }
  else .error "Failed to create image"

/-- The method `Image2D::memoryRequirements`. -/
def Image2D.memoryRequirements (device : Device) (image : Image2D) : VkMemoryRequirements :=
  device.imageRequirements image.width image.height

/-- The class `ImageView2D`: the view of one image. -/
structure ImageView2D where
  image : Image2D
  deriving DecidableEq, Repr

/-- The structure `ResourcePack::Buffers`. -/
structure Buffers where
  vertex : Buffer
  index : Buffer
  uniform : Buffer
  deriving DecidableEq, Repr

/-! ## `ResourcePack::createBuffers` and `ResourcePack::createTextureImages` -/

/-- The function `ResourcePack::createBuffers`: the three buffers and the
requirements written back through the reference parameters. -/
def createBuffers (device : Device)
    (vertex_requirements index_requirements uniform_requirements : VkMemoryRequirements) :
    Except String (Buffers × VkMemoryRequirements × VkMemoryRequirements × VkMemoryRequirements) :=
  match Buffer.create device vertex_requirements.size
      (VK_BUFFER_USAGE_VERTEX_BUFFER_BIT ||| VK_BUFFER_USAGE_TRANSFER_DST_BIT) with
  | .error e => .error e
  | .ok vertex =>
    match Buffer.create device index_requirements.size
        (VK_BUFFER_USAGE_INDEX_BUFFER_BIT ||| VK_BUFFER_USAGE_TRANSFER_DST_BIT) with
    | .error e => .error e
    | .ok index =>
      match Buffer.create device uniform_requirements.size
          (VK_BUFFER_USAGE_UNIFORM_BUFFER_BIT ||| VK_BUFFER_USAGE_TRANSFER_DST_BIT) with
      | .error e => .error e
      | .ok uniform =>
        .ok ({ vertex := vertex, index := index, uniform := uniform },
          vertex.memoryRequirements device, index.memoryRequirements device,
          uniform.memoryRequirements device)

/-- The variables the loop of `createTextureImages` updates. -/
structure TextureImages where
  texture_images : List Image2D
  requirements : List TextureRequirements
  staging_buffer_size : Nat
  deriving DecidableEq, Repr

/-- The loop `for (size_t i{0}; i < texture_names.size() - 1; i++)` of
`createTextureImages` continued at index `i` over the remaining real names. -/
def textureImagesLoop (device : Device) (resources : Resources) :
    Nat → List String → TextureImages → Except String TextureImages
  | _, [], st => .ok st
  | i, name :: rest, st =>
    match mapAt resources.textures name with
    | .error e => .error e
    | .ok texture =>
      match Image2D.create device texture.width texture.height with
      | .error e => .error e
      | .ok image =>
        textureImagesLoop device resources (i + 1) rest
          { texture_images := st.texture_images ++ [image]
            requirements := st.requirements ++ [(i, image.memoryRequirements device)]
            staging_buffer_size := max st.staging_buffer_size texture.data }

/-- The comparison of `std::sort` in `createTextureImages`, as the order of
the sorted list: an entry never precedes one of larger alignment. -/
def byAlignment (a b : TextureRequirements) : Prop := b.2.alignment ≤ a.2.alignment

instance byAlignment.decidable : DecidableRel byAlignment :=
  fun a b => inferInstanceAs (Decidable (b.2.alignment ≤ a.2.alignment))

/-- The function `ResourcePack::createTextureImages`. The list
`texture_names` is never empty when `build` calls it; the loop runs over all
names but the last. `std::sort` is rendered by insertion sort, one of the
results the unstable sort may produce. -/
def createTextureImages (device : Device) (texture_names : List String)
    (resources : Resources) (staging_buffer_size : Nat) : Except String TextureImages :=
  match textureImagesLoop device resources 0 texture_names.dropLast
      { texture_images := [], requirements := [], staging_buffer_size := staging_buffer_size } with
  | .error e => .error e
  | .ok st =>
    match Image2D.create device 1 1 with
    | .error e => .error e
    | .ok image =>
      .ok { texture_images := st.texture_images ++ [image]
            requirements := List.insertionSort byAlignment
              (st.requirements ++
                [(wrap64 (texture_names.length + (2 ^ 64 - 1)), image.memoryRequirements device)])
            staging_buffer_size := max st.staging_buffer_size 4 }

/-! ## The staging buffer (`buffer.cpp`) -/

/-- The structure `MaterialUniform` without its padding. -/
structure MaterialUniform where
  diffuse : Nat × Nat × Nat
  ambient : Nat × Nat × Nat
  emission : Nat × Nat × Nat
  roughness : Nat
  metalness : Nat
  deriving DecidableEq, Repr

/-- What a source pointer handed to the staging buffer points to. -/
inductive Payload where
  | indices (model : String)
  | vertices (model : String)
  | uniforms (records : List MaterialUniform)
  | pixels (texture : String)
  | zeroPixel
  deriving DecidableEq, Repr

/-- The image layouts used by `copyImage`. -/
inductive VkImageLayout where
  | UNDEFINED
  | TRANSFER_DST_OPTIMAL
  | SHADER_READ_ONLY_OPTIMAL
  deriving DecidableEq, Repr

/-- The structure `VkBufferImageCopy` as `copyImage` fills it. -/
structure VkBufferImageCopy where
  bufferOffset : Nat
  bufferRowLength : Nat
  bufferImageHeight : Nat
  imageOffset : Nat × Nat × Nat
  imageExtent : Nat × Nat × Nat
  deriving DecidableEq, Repr

/-- The device-visible steps of a staging transfer, in program order. -/
inductive Effect where
  | mapMemory (size : Nat)
  | memcpy (src : Payload) (size : Nat)
  | unmapMemory
  | beginTransferCommand
  | cmdCopyBuffer (dst : Buffer) (srcOffset dstOffset size : Nat)
  | cmdPipelineBarrier (image : Image2D) (oldLayout newLayout : VkImageLayout)
  | cmdCopyBufferToImage (image : Image2D) (region : VkBufferImageCopy)
  | endTransferCommand
  deriving DecidableEq, Repr

/-- The class `StagingBuffer`: `size` is `m_size`. -/
structure StagingBuffer where
  size : Nat
  deriving DecidableEq, Repr

/-- The constructor `StagingBuffer::StagingBuffer`. -/
def StagingBuffer.create (device : Device) (size : Nat) : Except String StagingBuffer :=
  if device.vkCreateBuffer VK_BUFFER_USAGE_TRANSFER_SRC_BIT size then
    let requirements := device.bufferRequirements VK_BUFFER_USAGE_TRANSFER_SRC_BIT size
    match device.getMemoryIndex requirements.memoryTypeBits
        (VK_MEMORY_PROPERTY_HOST_VISIBLE_BIT ||| VK_MEMORY_PROPERTY_HOST_COHERENT_BIT) with
    | .error e => .error e
    | .ok memoryTypeIndex =>
      if device.vkAllocateMemory requirements.size memoryTypeIndex then .ok { size := size }
      else .error "Failed to allocate staging buffer memory"
  else .error "Failed to create staging buffer"

/-- The method `StagingBuffer::copyBuffer`. -/
def StagingBuffer.copyBuffer (staging : StagingBuffer) (dst : Buffer) (offset : Nat)
    (src : Payload) (size : Nat) : Except String (List Effect) :=
  if size > staging.size then .error "Not enough memory allocated for staging buffer"
  else if dst.size < wrap64 (offset + size) then .error "Invalid destination buffer offset"
  else .ok [.mapMemory size, .memcpy src size, .unmapMemory, .beginTransferCommand,
    .cmdCopyBuffer dst 0 offset size, .endTransferCommand]

/-- The method `StagingBuffer::copyImage`; `size` is `src.size()`. -/
def StagingBuffer.copyImage (staging : StagingBuffer) (dst : Image2D) (src : Payload)
    (size : Nat) : Except String (List Effect) :=
  if size > staging.size then .error "Not enough memory allocated for staging buffer"
  else .ok [.mapMemory size, .memcpy src size, .unmapMemory, .beginTransferCommand,
    .cmdPipelineBarrier dst .UNDEFINED .TRANSFER_DST_OPTIMAL,
    .cmdCopyBufferToImage dst
      { bufferOffset := 0, bufferRowLength := dst.height, bufferImageHeight := dst.width,
        imageOffset := (0, 0, 0), imageExtent := (dst.width, dst.height, 1) },
    .cmdPipelineBarrier dst .TRANSFER_DST_OPTIMAL .SHADER_READ_ONLY_OPTIMAL,
    .endTransferCommand]

/-! ## `ResourcePack::copyResources` -/

/-- The loop `for (size_t i{0}; i < model_names.size(); i++)` of
`copyResources`: the index transfer, then the vertex transfer, of each model. -/
def copyModels (staging : StagingBuffer) (resources : Resources) (buffers : Buffers) :
    List String → List ModelOffset → Except String (List Effect)
  | [], _ => .ok []
  | _ :: _, [] => .error "model_offsets index out of range"
  | name :: rest, offsets :: more =>
    match mapAt resources.models name with
    | .error e => .error e
    | .ok model =>
      match staging.copyBuffer buffers.index (wrap64 (offsets.index_offset * sizeofIndex))
          (.indices name) (wrap64 (offsets.index_count * sizeofIndex)) with
      | .error e => .error e
      | .ok indexEffects =>
        match staging.copyBuffer buffers.vertex (wrap64 (offsets.vertex_offset * sizeofVertex))
            (.vertices name) (wrap64 (model.vertices * sizeofVertex)) with
        | .error e => .error e
        | .ok vertexEffects =>
          match copyModels staging resources buffers rest more with
          | .error e => .error e
          | .ok tail => .ok (indexEffects ++ vertexEffects ++ tail)

/-- The loop of `copyResources` filling `material_uniforms`. -/
def materialUniforms (resources : Resources) : List String → Except String (List MaterialUniform)
  | [] => .ok []
  | name :: rest =>
    match mapAt resources.materials name with
    | .error e => .error e
    | .ok material =>
      match materialUniforms resources rest with
      | .error e => .error e
      | .ok tail =>
        .ok ({ diffuse := material.diffuse, ambient := material.ambient,
               emission := material.emission, roughness := material.roughness,
               metalness := material.metalness } :: tail)

/-- The loop `for (size_t i{0}; i < texture_names.size() - 1; i++)` of
`copyResources` continued at index `i` over the remaining real names. -/
def copyTextures (staging : StagingBuffer) (resources : Resources) (images : List Image2D) :
    Nat → List String → Except String (List Effect)
  | _, [] => .ok []
  | i, name :: rest =>
    match mapAt resources.textures name with
    | .error e => .error e
    | .ok texture =>
      match images[i]? with
      | none => .error "images index out of range"
      | some image =>
        match staging.copyImage image (.pixels name) texture.data with
        | .error e => .error e
        | .ok effects =>
          match copyTextures staging resources images (i + 1) rest with
          | .error e => .error e
          | .ok tail => .ok (effects ++ tail)

/-- The function `ResourcePack::copyResources`: the transfers in program order. -/
def copyResources (device : Device) (staging_buffer_size : Nat) (model_names : List String)
    (model_offsets : List ModelOffset) (material_names texture_names : List String)
    (resources : Resources) (buffers : Buffers) (images : List Image2D) :
    Except String (List Effect) :=
  match StagingBuffer.create device staging_buffer_size with
  | .error e => .error e
  | .ok staging_buffer =>
    match copyModels staging_buffer resources buffers model_names model_offsets with
    | .error e => .error e
    | .ok modelEffects =>
      match materialUniforms resources material_names with
      | .error e => .error e
      | .ok material_uniforms =>
        match staging_buffer.copyBuffer buffers.uniform 0 (.uniforms material_uniforms)
            (wrap64 (material_uniforms.length * sizeofMaterialUniform)) with
        | .error e => .error e
        | .ok uniformEffects =>
          match copyTextures staging_buffer resources images 0 texture_names.dropLast with
          | .error e => .error e
          | .ok textureEffects =>
            match images.getLast? with
            | none => .error "images.back() on an empty vector"
            | some placeholder =>
              match staging_buffer.copyImage placeholder .zeroPixel 4 with
              | .error e => .error e
              | .ok placeholderEffects =>
                .ok (modelEffects ++ uniformEffects ++ textureEffects ++ placeholderEffects)

/-! ## Image views and material descriptors -/

/-- The function `ResourcePack::createTextureImageViews`. -/
def createTextureImageViews (images : List Image2D) : List ImageView2D :=
  images.map (fun image => { image := image })

/-- One material descriptor set as `createMaterialDescriptors` writes it: the
image view of each texture-map slot and the uniform-buffer binding. -/
structure DescriptorSet where
  image_views : List ImageView2D
  buffer : Buffer
  offset : Nat
  range : Nat
  deriving DecidableEq, Repr

/-- The loop `for (auto map : enum_values<Material::TextureMap>())`: the view
bound to each slot. -/
def slotViews (texture_indices : String → Option Nat) (texture_views : List ImageView2D) :
    List String → Except String (List ImageView2D)
  | [] => .ok []
  | name :: rest =>
    match mapAt texture_indices name with
    | .error e => .error e
    | .ok index =>
      match texture_views[index]? with
      | none => .error "texture_views index out of range"
      | some view =>
        match slotViews texture_indices texture_views rest with
        | .error e => .error e
        | .ok tail => .ok (view :: tail)

/-- The loop `for (size_t i{0}; i < material_count; i++)` of
`createMaterialDescriptors` continued at index `i`. -/
def descriptorLoop (resources : Resources) (texture_indices : String → Option Nat)
    (texture_views : List ImageView2D) (buffers : Buffers) :
    Nat → List String → Except String (List DescriptorSet)
  | _, [] => .ok []
  | i, name :: rest =>
    match mapAt resources.materials name with
    | .error e => .error e
    | .ok material =>
      match slotViews texture_indices texture_views material.textures with
      | .error e => .error e
      | .ok views =>
        match descriptorLoop resources texture_indices texture_views buffers (i + 1) rest with
        | .error e => .error e
        | .ok tail =>
          .ok ({ image_views := views, buffer := buffers.uniform,
                 offset := wrap64 (i * sizeofMaterialUniform),
                 range := sizeofMaterialUniform } :: tail)

/-- The function `ResourcePack::createMaterialDescriptors`. -/
def createMaterialDescriptors (material_names texture_names : List String)
    (resources : Resources) (buffers : Buffers) (texture_views : List ImageView2D) :
    Except String (List DescriptorSet) :=
  descriptorLoop resources (indexMap texture_names) texture_views buffers 0 material_names

/-! ## `ResourcePack::build` -/

/-- The class `ResourcePack` as `build` returns it, together with the
transfers `build` has issued. -/
structure ResourcePack where
  buffers : Buffers
  materials : List DescriptorSet
  model_indices : String → Option Nat
  model_offsets : List ModelOffset
  texture_images : List Image2D
  texture_views : List ImageView2D
  memory : Allocation
  transfers : List Effect

/-- The lines of `build` that size the three requirement structures from the
output of `getResourceNames` and call `createBuffers`. -/
def buildBuffers (device : Device) (names : ResourceNames) :
    Except String (Buffers × VkMemoryRequirements × VkMemoryRequirements × VkMemoryRequirements) :=
  createBuffers device
    { size := names.vertex_buffer_size, alignment := 0, memoryTypeBits := 0 }
    { size := names.index_buffer_size, alignment := 0, memoryTypeBits := 0 }
    { size := wrap64 (names.material_names.length * sizeofMaterialUniform),
      alignment := 0, memoryTypeBits := 0 }

/-- The function `ResourcePack::build`. -/
def build (device : Device) (order : HashOrder) (model_names : List String)
    (resources : Resources) : Except String ResourcePack :=
  match getResourceNames order model_names resources with
  | .error e => .error e
  | .ok names =>
    match buildBuffers device names with
    | .error e => .error e
    | .ok (buffers, vertex_requirements, index_requirements, uniform_requirements) =>
      match createTextureImages device names.texture_names resources
          names.staging_buffer_size with
      | .error e => .error e
      | .ok textures =>
        match allocateMemory device vertex_requirements index_requirements
            uniform_requirements textures.requirements with
        | .error e => .error e
        | .ok memory =>
          match copyResources device textures.staging_buffer_size model_names
              names.model_offsets names.material_names names.texture_names resources buffers
              textures.texture_images with
          | .error e => .error e
          | .ok transfers =>
            let texture_views := createTextureImageViews textures.texture_images
            match createMaterialDescriptors names.material_names names.texture_names
                resources buffers texture_views with
            | .error e => .error e
            | .ok materials =>
              .ok { buffers := buffers
                    materials := materials
                    model_indices := indexMap model_names
                    model_offsets := names.model_offsets
                    texture_images := textures.texture_images
                    texture_views := texture_views
                    memory := memory
                    transfers := transfers }

/-! ## Example scene -/

/-- The enumeration order that follows insertion order. -/
def insertionOrder : HashOrder where
  iterate := fun l => l
  perm := fun l => List.Perm.refl l

/-- The enumeration order that reverses insertion order. -/
def reverseOrder : HashOrder where
  iterate := List.reverse
  perm := List.reverse_perm

/-- A scene with three models, two materials and two textures; model `C` has
no vertices. -/
def exampleResources : Resources where
  models := fun name =>
    if name = "A" then some { material := "M1", vertices := 3, indices := 3 }
    else if name = "B" then some { material := "M1", vertices := 4, indices := 6 }
    else if name = "C" then some { material := "M2", vertices := 0, indices := 0 }
    else none
  materials := fun name =>
    if name = "M1" then some { textures := ["t1", "t2", "", "", "", ""] }
    else if name = "M2" then some { textures := ["t2", "", "", "", "", ""] }
    else none
  textures := fun name =>
    if name = "t1" then some { data := 16, width := 2, height := 2 }
    else if name = "t2" then some { data := 64, width := 4, height := 4 }
    else none

/-- The batch `A, C, B`. -/
def exampleBatch : List String := ["A", "C", "B"]

/-- The models of `exampleBatch`, in order. -/
def exampleModels : List Model :=
  [{ material := "M1", vertices := 3, indices := 3 },
   { material := "M2", vertices := 0, indices := 0 },
   { material := "M1", vertices := 4, indices := 6 }]

/-- A scene whose only model has `2 ^ 61 - 1` indices, the largest size of a
`std::vector<uint32_t>`. -/
def hugeIndexResources : Resources where
  models := fun name =>
    if name = "m" then some { material := "M", vertices := 3, indices := 2 ^ 61 - 1 } else none
  materials := fun name =>
    if name = "M" then some { textures := ["", "", "", "", "", ""] } else none
  textures := fun _ => none

/-- The model of `hugeIndexResources`. -/
def hugeIndexModel : Model := { material := "M", vertices := 3, indices := 2 ^ 61 - 1 }

/-- The batch naming the model of `hugeIndexResources` ten times. -/
def hugeIndexBatch : List String := List.replicate 10 "m"

/-- The output of `getResourceNames` for `exampleBatch` and insertion order. -/
def exampleNames : ResourceNames where
  model_offsets := [⟨0, 0, 3, 0⟩, ⟨3, 3, 0, 1⟩, ⟨3, 3, 6, 0⟩]
  material_names := ["M1", "M2"]
  texture_names := ["t1", "t2", ""]
  vertex_buffer_size := 224
  index_buffer_size := 36
  staging_buffer_size := 128

/-- A scene with a model `X` of `2 ^ 58 - 1` vertices, the largest size of a
`std::vector<Model::Vertex>`, and a model `Y` of two vertices. -/
def hugeVertexResources : Resources where
  models := fun name =>
    if name = "X" then some { material := "M", vertices := 2 ^ 58 - 1, indices := 3 }
    else if name = "Y" then some { material := "M", vertices := 2, indices := 3 }
    else none
  materials := fun name =>
    if name = "M" then some { textures := ["", "", "", "", "", ""] } else none
  textures := fun _ => none

/-- The model `X` of `hugeVertexResources`. -/
def hugeVertexModel : Model := { material := "M", vertices := 2 ^ 58 - 1, indices := 3 }

/-- The model `Y` of `hugeVertexResources`. -/
def smallVertexModel : Model := { material := "M", vertices := 2, indices := 3 }

/-! ## Specification-side definitions for the sizing step -/

/-- The table of the specification: entry `i` is the sum of the counts of the
models at positions `0 .. i - 1` of the batch. -/
def offsetTable (counts : List Nat) : List Nat :=
  (List.range counts.length).map (fun i => (counts.take i).sum)

/-- The largest element of a list of sizes (zero for the empty list). -/
def listMax (sizes : List Nat) : Nat := sizes.foldr max 0

/-- The value of `vertex_bytes` of `getResourceNames` for a model. -/
def Model.vertexBytes (m : Model) : Nat := wrap64 (m.vertices * sizeofVertex)

/-- The value of `index_bytes` of `getResourceNames` for a model. -/
def Model.indexBytes (m : Model) : Nat := wrap64 (m.indices * sizeofIndex)

/-- The models the batch names resolve to, position by position. -/
def Resolves (resources : Resources) (model_names : List String) (models : List Model) : Prop :=
  List.Forall₂ (fun name model => resources.models name = some model) model_names models

/-- The texture names of the material stored under `name` (none if absent). -/
def texturesOf (resources : Resources) (name : String) : List String :=
  match resources.materials name with
  | some material => material.textures
  | none => []

/-- The entries pushed by the first loop of `getResourceNames` for the models
`ms` when it starts with the running offsets `vo` and `io`. -/
def entriesFrom (vo io : Nat) : List Model → List ModelOffset
  | [] => []
  | m :: ms =>
    { vertex_offset := vo, index_offset := io, index_count := m.indices,
      material_index := SIZE_MAX } ::
      entriesFrom (wrap64 (vo + m.vertices)) (wrap64 (io + m.indices)) ms

/-- The running offsets of a 64-bit counter started at `s`. -/
def runningSums (s : Nat) : List Nat → List Nat
  | [] => []
  | c :: cs => s :: runningSums (wrap64 (s + c)) cs

/-- The set `unique_materials` after the first loop of `getResourceNames`, as
the list of its elements in insertion order. -/
def uniqueMaterials (ms : List Model) : List String :=
  (ms.map Model.material).foldl setInsert []

/-- The set `unique_textures` after the second loop of `getResourceNames` has
run over the material names `mats`. -/
def uniqueTextures (resources : Resources) (mats : List String) : List String :=
  mats.foldl (fun acc name => insertTextures acc (texturesOf resources name)) []

/-- The entry of a model after the last loop of `getResourceNames`. -/
def withMaterialIndex (material_indices : String → Option Nat) (e : ModelOffset) (m : Model) :
    ModelOffset :=
  { e with material_index := (material_indices m.material).getD 0 }

/-- The number of pixel bytes of the texture stored under `name` (zero if absent). -/
def textureBytes (resources : Resources) (name : String) : Nat :=
  match resources.textures name with
  | some texture => texture.data
  | none => 0

/-- The image created for the texture stored under `name`: an image has the
width and height of its texture. -/
def ImageOf (resources : Resources) (image : Image2D) (name : String) : Prop :=
  ∃ texture, resources.textures name = some texture ∧
    image = { width := texture.width, height := texture.height }

/-- Neither transfer of a model with offset entry `e`, first its indices and
then its vertices, makes `copyBuffer` raise the error `bad`. -/
def ModelTransfersPass (staging : StagingBuffer) (buffers : Buffers) (bad : String)
    (e : ModelOffset) (m : Model) : Prop :=
  (∀ src, staging.copyBuffer buffers.index (wrap64 (e.index_offset * sizeofIndex)) src
      (wrap64 (e.index_count * sizeofIndex)) ≠ .error bad) ∧
  (∀ src, staging.copyBuffer buffers.vertex (wrap64 (e.vertex_offset * sizeofVertex)) src
      (wrap64 (m.vertices * sizeofVertex)) ≠ .error bad)

/-! ## Staging transfers with a fallible driver

`StagingBuffer.copyBuffer` and `StagingBuffer.copyImage` above take the driver
calls of `beginTransferCommand`, `endTransferCommand` and `waitFence` to
succeed. The definitions below follow the same methods call by call: every
Vulkan call whose result the source tests is answered by `TransferDriver`, and
the calls made up to the return or the `throw` are listed in program order. -/

/-- The result of each driver call that `beginTransferCommand`,
`endTransferCommand` and `waitFence` test; `true` is `VK_SUCCESS`. -/
structure TransferDriver where
  vkAllocateCommandBuffers : Bool
  vkBeginCommandBuffer : Bool
  vkEndCommandBuffer : Bool
  vkQueueSubmit : Bool
  vkWaitForFences : Bool
  deriving DecidableEq, Repr

/-- A call made by a staging transfer on the device or on host memory. -/
inductive DeviceCall where
  | vkMapMemory (size : Nat)
  | memcpy (src : Payload) (size : Nat)
  | vkUnmapMemory
  | vkAllocateCommandBuffers
  | vkBeginCommandBuffer
  | vkCmdCopyBuffer (dst : Buffer) (srcOffset dstOffset size : Nat)
  | vkCmdPipelineBarrier (image : Image2D) (oldLayout newLayout : VkImageLayout)
  | vkCmdCopyBufferToImage (image : Image2D) (dstImageLayout : VkImageLayout)
      (region : VkBufferImageCopy)
  | vkEndCommandBuffer
  | vkQueueSubmit
  | vkWaitForFences
  | vkResetFences
  | vkFreeCommandBuffers
  deriving DecidableEq, Repr

/-- The method `StagingBuffer::beginTransferCommand`: the calls made, and
whether a command buffer in the recording state is returned. -/
def StagingBuffer.beginTransferCommand (driver : TransferDriver) :
    List DeviceCall × Except String Unit :=
  if !driver.vkAllocateCommandBuffers then
    ([.vkAllocateCommandBuffers],
      .error "Failed to alloacte staging buffer transfer command buffer")
  else if !driver.vkBeginCommandBuffer then
    ([.vkAllocateCommandBuffers, .vkBeginCommandBuffer],
      .error "Failed to begin recording staging buffer transfer command")
  else ([.vkAllocateCommandBuffers, .vkBeginCommandBuffer], .ok ())

/-- The method `StagingBuffer::waitFence`. -/
def StagingBuffer.waitFence (driver : TransferDriver) : List DeviceCall × Except String Unit :=
  if !driver.vkWaitForFences then ([.vkWaitForFences], .error "Staging buffer fence timeout")
  else ([.vkWaitForFences, .vkResetFences], .ok ())

/-- The method `StagingBuffer::endTransferCommand`. -/
def StagingBuffer.endTransferCommand (driver : TransferDriver) :
    List DeviceCall × Except String Unit :=
  if !driver.vkEndCommandBuffer then
    ([.vkEndCommandBuffer], .error "Failed to record staging buffer transfer command")
  else if !driver.vkQueueSubmit then
    ([.vkEndCommandBuffer, .vkQueueSubmit],
      .error "Failed to submit staging buffer transfer command")
  else
    match StagingBuffer.waitFence driver with
    | (calls, .error e) => ([.vkEndCommandBuffer, .vkQueueSubmit] ++ calls, .error e)
    | (calls, .ok _) =>
      ([.vkEndCommandBuffer, .vkQueueSubmit] ++ calls ++ [.vkFreeCommandBuffers], .ok ())

/-- The part of a transfer shared by `copyBuffer` and `copyImage`: the staging
memory is filled, a command buffer is begun, `commands` are recorded into it and
it is ended, submitted and waited for. -/
def StagingBuffer.transfer (driver : TransferDriver) (src : Payload) (size : Nat)
    (commands : List DeviceCall) : List DeviceCall × Except String Unit :=
  let staged : List DeviceCall := [.vkMapMemory size, .memcpy src size, .vkUnmapMemory]
  match StagingBuffer.beginTransferCommand driver with
  | (begun, .error e) => (staged ++ begun, .error e)
  | (begun, .ok _) =>
    match StagingBuffer.endTransferCommand driver with
    | (ended, result) => (staged ++ begun ++ commands ++ ended, result)

/-- The method `StagingBuffer::copyBuffer`, call by call. -/
def StagingBuffer.copyBufferCalls (staging : StagingBuffer) (driver : TransferDriver)
    (dst : Buffer) (offset : Nat) (src : Payload) (size : Nat) :
    List DeviceCall × Except String Unit :=
  if size > staging.size then ([], .error "Not enough memory allocated for staging buffer")
  else if dst.size < wrap64 (offset + size) then
    ([], .error "Invalid destination buffer offset")
  else StagingBuffer.transfer driver src size [.vkCmdCopyBuffer dst 0 offset size]

/-- The method `StagingBuffer::copyImage`, call by call; `size` is `src.size()`. -/
def StagingBuffer.copyImageCalls (staging : StagingBuffer) (driver : TransferDriver)
    (dst : Image2D) (src : Payload) (size : Nat) : List DeviceCall × Except String Unit :=
  if size > staging.size then ([], .error "Not enough memory allocated for staging buffer")
  else StagingBuffer.transfer driver src size
    [.vkCmdPipelineBarrier dst .UNDEFINED .TRANSFER_DST_OPTIMAL,
     .vkCmdCopyBufferToImage dst .TRANSFER_DST_OPTIMAL
       { bufferOffset := 0, bufferRowLength := dst.height, bufferImageHeight := dst.width,
         imageOffset := (0, 0, 0), imageExtent := (dst.width, dst.height, 1) },
     .vkCmdPipelineBarrier dst .TRANSFER_DST_OPTIMAL .SHADER_READ_ONLY_OPTIMAL]

/-- The commands a list of calls records into the transfer command buffer. -/
def recorded (calls : List DeviceCall) : List DeviceCall :=
  calls.filter fun call =>
    match call with
    | .vkCmdCopyBuffer _ _ _ _ => true
    | .vkCmdPipelineBarrier _ _ _ => true
    | .vkCmdCopyBufferToImage _ _ _ => true
    | _ => false

/-- Every driver call of a transfer succeeds. -/
def TransferDriver.Succeeds (driver : TransferDriver) : Prop :=
  driver.vkAllocateCommandBuffers = true ∧ driver.vkBeginCommandBuffer = true ∧
    driver.vkEndCommandBuffer = true ∧ driver.vkQueueSubmit = true ∧
    driver.vkWaitForFences = true

instance (driver : TransferDriver) : Decidable driver.Succeeds := by
  unfold TransferDriver.Succeeds; infer_instance

/-- A driver all of whose calls succeed. -/
def reliableDriver : TransferDriver :=
  { vkAllocateCommandBuffers := true, vkBeginCommandBuffer := true,
    vkEndCommandBuffer := true, vkQueueSubmit := true, vkWaitForFences := true }

/-- A driver whose queue rejects the submission. -/
def rejectingDriver : TransferDriver := { reliableDriver with vkQueueSubmit := false }

/-! ## Swapchain: frame cursor and per-image synchronisation

Vulkan handles are natural numbers. An index past the end of a vector is
undefined behaviour in the source; the model reads `VK_NULL_HANDLE = 0` there. -/

/-- The class `Swapchain`: the per-image vectors and the frame cursor. -/
structure Swapchain where
  m_commands : List Nat
  m_framebuffers : List Nat
  m_image_views : List Nat
  m_images : List Nat
  m_image_available : List Nat
  m_image_draw_finished : List Nat
  m_image_draw_ready : List Nat
  m_current_frame : Nat
  deriving DecidableEq, Repr

/-- The nested struct `Swapchain::FrameState`. -/
structure FrameState where
  _index : Nat
  _framebuffer : Nat
  _draw_ready : Nat
  _draw_finished : Nat
  _submit_fence : Nat
  _command : Nat
  deriving DecidableEq, Repr

/-- What the driver hands to the constructor of `Swapchain`: `count` is the
`uint32_t` written by `vkGetSwapchainImagesKHR`, and each function gives the
handle created for position `i` of the vector of that name. -/
structure SwapchainDriver where
  count : Nat
  command : Nat → Nat
  framebuffer : Nat → Nat
  image_view : Nat → Nat
  image : Nat → Nat
  image_available : Nat → Nat
  image_draw_finished : Nat → Nat
  image_draw_ready : Nat → Nat

/-- The constructor `Swapchain::Swapchain`, every creation call succeeding:
`createFramebuffers`, `createSynchronizationPrimitives` and
`createCommandBuffers` size each vector to the image count, and
`m_current_frame = 0` is the last statement. -/
def Swapchain.create (driver : SwapchainDriver) : Swapchain :=
  { m_commands := (List.range driver.count).map driver.command,
    m_framebuffers := (List.range driver.count).map driver.framebuffer,
    m_image_views := (List.range driver.count).map driver.image_view,
    m_images := (List.range driver.count).map driver.image,
    m_image_available := (List.range driver.count).map driver.image_available,
    m_image_draw_finished := (List.range driver.count).map driver.image_draw_finished,
    m_image_draw_ready := (List.range driver.count).map driver.image_draw_ready,
    m_current_frame := 0 }

/-- A call made by `acquireImage` or `presentImage` on the device. -/
inductive SwapchainCall where
  | vkAcquireNextImageKHR (semaphore : Nat)
  | vkWaitForFences (fence : Nat)
  | vkResetFences (fence : Nat)
  | vkQueuePresentKHR (imageIndex waitSemaphore : Nat)
  deriving DecidableEq, Repr

/-- The method `Swapchain::acquireImage`. `acquired` is the image index written
by `vkAcquireNextImageKHR` when it returns `VK_SUCCESS`, and `waited` tells
whether `vkWaitForFences` returns `VK_SUCCESS`. No member is assigned. -/
def Swapchain.acquireImage (sc : Swapchain) (acquired : Option Nat) (waited : Bool) :
    List SwapchainCall × Except String FrameState :=
  let draw_finished := sc.m_image_draw_finished.getD sc.m_current_frame 0
  let draw_ready := sc.m_image_draw_ready.getD sc.m_current_frame 0
  match acquired with
  | none =>
    ([.vkAcquireNextImageKHR draw_ready], .error "Failed to acquire next swapchain image")
  | some index =>
    let submit_fence := sc.m_image_available.getD index 0
    if !waited then
      ([.vkAcquireNextImageKHR draw_ready, .vkWaitForFences submit_fence],
        .error "Swapchain image available fence timeout")
    else
      ([.vkAcquireNextImageKHR draw_ready, .vkWaitForFences submit_fence,
          .vkResetFences submit_fence],
        .ok { _index := index,
              _framebuffer := sc.m_framebuffers.getD index 0,
              _draw_ready := draw_ready,
              _draw_finished := draw_finished,
              _submit_fence := submit_fence,
              _command := sc.m_commands.getD index 0 })

/-- The method `Swapchain::presentImage`; `presented` tells whether
`vkQueuePresentKHR` returns `VK_SUCCESS`. The cursor is a `uint32_t`: the
increment wraps at `2 ^ 32`, the remainder is taken in `size_t`, and the
assignment truncates to 32 bits. -/
def Swapchain.presentImage (sc : Swapchain) (state : FrameState) (presented : Bool) :
    List SwapchainCall × Except String Swapchain :=
  if !presented then
    ([.vkQueuePresentKHR state._index state._draw_finished],
      .error "Failed to present swapchain image")
  else
    ([.vkQueuePresentKHR state._index state._draw_finished],
      .ok { sc with
        m_current_frame := (sc.m_current_frame + 1) % 2 ^ 32 % sc.m_images.length % 2 ^ 32 })

/-- A call of one of the two frame methods of `Swapchain`, with the answers of
the driver. -/
inductive SwapchainOp where
  | acquireImage (acquired : Option Nat) (waited : Bool)
  | presentImage (state : FrameState) (presented : Bool)
  deriving DecidableEq, Repr

/-- The swapchain after one call; a call that throws leaves the object as it
was when the exception left the method. -/
def Swapchain.step (sc : Swapchain) : SwapchainOp → Swapchain
  | .acquireImage _ _ => sc
  | .presentImage state presented =>
    match (sc.presentImage state presented).2 with
    | .ok next => next
    | .error _ => sc

/-- The swapchain after a sequence of calls. -/
def Swapchain.run (sc : Swapchain) (ops : List SwapchainOp) : Swapchain :=
  ops.foldl Swapchain.step sc

/-- The number of `presentImage` calls of a sequence that return. -/
def successfulPresents (ops : List SwapchainOp) : Nat :=
  ops.countP fun op =>
    match op with
    | .presentImage _ presented => presented
    | .acquireImage _ _ => false

/-- The cursor after each of a sequence of rounds; a round is an `acquireImage`
that returns image `index` followed by a `presentImage` of the acquired frame
that returns. -/
def Swapchain.rounds (sc : Swapchain) : List Nat → List Nat
  | [] => []
  | index :: rest =>
    match (sc.acquireImage (some index) true).2 with
    | .error _ => []
    | .ok state =>
      match (sc.presentImage state true).2 with
      | .error _ => []
      | .ok next => next.m_current_frame :: Swapchain.rounds next rest

/-- A driver for three images whose handles are all different. -/
def threeImages : SwapchainDriver :=
  { count := 3, command := fun i => 10 + i, framebuffer := fun i => 20 + i,
    image_view := fun i => 30 + i, image := fun i => 40 + i,
    image_available := fun i => 50 + i, image_draw_finished := fun i => 60 + i,
    image_draw_ready := fun i => 70 + i }

/-! ## The frame loop

`Application::run` repeats `beginFrame`, `bindPipeline`, `draw`, `endFrame`.
`beginFrame` calls `acquireImage` and records into the command buffer of the
frame state; `endFrame` submits that command buffer with the fence of the frame
state and calls `presentImage`. The GPU finishes a submission at any later time
and signals its fence then; `vkWaitForFences` returns `VK_SUCCESS` on a signalled
fence only, and `vkResetFences` unsignals it. -/

/-- A submission made by `Context::endFrame`: the command buffer submitted, the
framebuffer its render pass draws to, and the fence passed to `vkQueueSubmit`. -/
structure Submission where
  command : Nat
  framebuffer : Nat
  fence : Nat
  deriving DecidableEq, Repr

/-- The `vkQueueSubmit` of `Context::endFrame` for the frame state `state`. -/
def endFrameSubmission (state : FrameState) : Submission :=
  { command := state._command, framebuffer := state._framebuffer,
    fence := state._submit_fence }

/-- Where the frame loop stands. -/
inductive FramePhase where
  | idle
  | recording (state : FrameState)
  | submitted (state : FrameState)
  deriving DecidableEq, Repr

/-- The state of the frame loop: the swapchain, which fences are signalled, the
submissions the GPU has not finished, and the phase of the loop. -/
structure LoopState where
  swapchain : Swapchain
  signalled : Nat → Bool
  in_flight : List Submission
  phase : FramePhase

/-- The state after the constructor of `Swapchain`: the fences are created with
`VK_FENCE_CREATE_SIGNALED_BIT` and nothing has been submitted. -/
def LoopState.initial (driver : SwapchainDriver) : LoopState :=
  { swapchain := Swapchain.create driver, signalled := fun _ => true, in_flight := [],
    phase := .idle }

/-- One step of the frame loop. -/
inductive LoopStep : LoopState → LoopState → Prop where
  | acquire (s : LoopState) (index : Nat) (calls : List SwapchainCall) (state : FrameState)
      (hphase : s.phase = .idle) (hindex : index < s.swapchain.m_images.length)
      (hacquire : s.swapchain.acquireImage (some index) true = (calls, .ok state))
      (hwait : s.signalled state._submit_fence = true) :
      LoopStep s { s with
        signalled := fun fence => if fence = state._submit_fence then false
          else s.signalled fence,
        phase := .recording state }
  | record (s : LoopState) (state : FrameState) (hphase : s.phase = .recording state) :
      LoopStep s s
  | submit (s : LoopState) (state : FrameState) (hphase : s.phase = .recording state) :
      LoopStep s { s with
        in_flight := endFrameSubmission state :: s.in_flight,
        phase := .submitted state }
  | present (s : LoopState) (state : FrameState) (calls : List SwapchainCall)
      (next : Swapchain) (hphase : s.phase = .submitted state)
      (hpresent : s.swapchain.presentImage state true = (calls, .ok next)) :
      LoopStep s { s with swapchain := next, phase := .idle }
  | complete (s : LoopState) (submission : Submission) (hmem : submission ∈ s.in_flight) :
      LoopStep s { s with
        signalled := fun fence => if fence = submission.fence then true
          else s.signalled fence,
        in_flight := s.in_flight.erase submission }

/-- The states the frame loop reaches from the constructed swapchain. -/
inductive Reachable (driver : SwapchainDriver) : LoopState → Prop where
  | initial : Reachable driver (LoopState.initial driver)
  | step (s t : LoopState) (hs : Reachable driver s) (hstep : LoopStep s t) :
      Reachable driver t

/-- The command buffers and the framebuffers created for different images are
different objects. -/
def SwapchainDriver.Distinct (driver : SwapchainDriver) : Prop :=
  ∀ i j, i < driver.count → j < driver.count →
    (driver.command i = driver.command j ∨ driver.framebuffer i = driver.framebuffer j) →
      i = j

/-- The frame state `acquireImage` returns for image 1 of `threeImages` with the
cursor at slot 0. -/
def exampleFrame : FrameState :=
  { _index := 1, _framebuffer := 21, _draw_ready := 70, _draw_finished := 60,
    _submit_fence := 51, _command := 11 }

/-- The frame loop of `threeImages` after image 1 was acquired, recorded and
submitted, before it is presented. -/
def exampleLoopState : LoopState :=
  { swapchain := Swapchain.create threeImages,
    signalled := fun fence => if fence = 51 then false else true,
    in_flight := [endFrameSubmission exampleFrame],
    phase := .submitted exampleFrame }

/-- The invariant of the frame loop. -/
structure LoopInvariant (driver : SwapchainDriver) (s : LoopState) : Prop where
  commands : s.swapchain.m_commands = (List.range driver.count).map driver.command
  framebuffers : s.swapchain.m_framebuffers = (List.range driver.count).map driver.framebuffer
  fences : s.swapchain.m_image_available =
    (List.range driver.count).map driver.image_available
  images : s.swapchain.m_images.length = driver.count
  owned : ∀ sub ∈ s.in_flight, ∃ i, i < driver.count ∧
    sub = ⟨driver.command i, driver.framebuffer i, driver.image_available i⟩
  nodup : (s.in_flight.map Submission.fence).Nodup
  unsignalled : ∀ sub ∈ s.in_flight, s.signalled sub.fence = false
  recording : ∀ state, s.phase = .recording state →
    (∃ i, i < driver.count ∧ endFrameSubmission state =
      ⟨driver.command i, driver.framebuffer i, driver.image_available i⟩) ∧
    s.signalled state._submit_fence = false ∧
    state._submit_fence ∉ s.in_flight.map Submission.fence

/-! ## Descriptor slots -/

/-- What a texture-map slot holding the name `slot` is to be bound to: for a set
slot, the view at the position of that name in `texture_names`, a view of the
image created for that texture; for an unset slot (the empty name), the last
view, which is the view of the 1x1 placeholder image. -/
def SlotBound (resources : Resources) (texture_names : List String)
    (texture_views : List ImageView2D) (view : ImageView2D) (slot : String) : Prop :=
  if slot = "" then
    texture_views.getLast? = some view ∧ view.image = { width := 1, height := 1 }
  else
    ∃ k : Nat, texture_names[k]? = some slot ∧ texture_views[k]? = some view ∧
      ImageOf resources view.image slot

/-- Every texture name a material of the batch gives to a slot, the empty name
apart, is stored in the scene. -/
def TexturesPresent (resources : Resources) (models : List Model) : Prop :=
  ∀ m ∈ models, ∀ t ∈ texturesOf resources m.material, t ≠ "" →
    ∃ texture, resources.textures t = some texture

/-- A scene with two models and two materials whose uniform records differ; no
material has a texture. -/
def paintedResources : Resources where
  models := fun name =>
    if name = "U" then some { material := "P", vertices := 3, indices := 3 }
    else if name = "V" then some { material := "Q", vertices := 4, indices := 6 }
    else none
  materials := fun name =>
    if name = "P" then
      some { textures := ["", "", "", "", "", ""], diffuse := (1, 0, 0), roughness := 3 }
    else if name = "Q" then
      some { textures := ["", "", "", "", "", ""], diffuse := (0, 1, 0), metalness := 7 }
    else none
  textures := fun _ => none

/-! ## Device objects created and destroyed by `build`

The definitions below follow `build` once more and list, in program order, the
successful calls that create or destroy a device object, the destructor calls
made while an exception unwinds the stack included. A moved-from `Buffer`,
`Image2D` or `ImageView2D` holds `VK_NULL_HANDLE` and its destructor makes no
call. As in `allocateMemory` above, binding memory succeeds, and so does the
creation of command pools, fences, image views, descriptor pools and
descriptor sets. -/

/-- A successful call that creates or destroys a device object. -/
inductive DeviceEvent where
  | vkCreateBuffer (buffer : Buffer)
  | vkDestroyBuffer (buffer : Buffer)
  | vkCreateImage (image : Image2D)
  | vkDestroyImage (image : Image2D)
  | vkCreateImageView (view : ImageView2D)
  | vkDestroyImageView (view : ImageView2D)
  | vkAllocateMemory (allocationSize memoryTypeIndex : Nat)
  | vkFreeMemory (allocationSize memoryTypeIndex : Nat)
  | vkCreateCommandPool
  | vkDestroyCommandPool
  | vkCreateFence
  | vkDestroyFence
  | vkCreateDescriptorPool (maxSets : Nat)
  | vkDestroyDescriptorPool (maxSets : Nat)
  deriving DecidableEq, Repr

/-- The function `ResourcePack::createBuffers` with its events: when a
constructor throws, the buffers constructed before it are destroyed in reverse
order; on return the three buffers have been moved into the result. -/
def createBuffersTrace (device : Device)
    (vertex_requirements index_requirements uniform_requirements : VkMemoryRequirements) :
    List DeviceEvent ×
      Except String (Buffers × VkMemoryRequirements × VkMemoryRequirements × VkMemoryRequirements) :=
  match Buffer.create device vertex_requirements.size
      (VK_BUFFER_USAGE_VERTEX_BUFFER_BIT ||| VK_BUFFER_USAGE_TRANSFER_DST_BIT) with
  | .error e => ([], .error e)
  | .ok vertex =>
    match Buffer.create device index_requirements.size
        (VK_BUFFER_USAGE_INDEX_BUFFER_BIT ||| VK_BUFFER_USAGE_TRANSFER_DST_BIT) with
    | .error e => ([.vkCreateBuffer vertex, .vkDestroyBuffer vertex], .error e)
    | .ok index =>
      match Buffer.create device uniform_requirements.size
          (VK_BUFFER_USAGE_UNIFORM_BUFFER_BIT ||| VK_BUFFER_USAGE_TRANSFER_DST_BIT) with
      | .error e =>
        ([.vkCreateBuffer vertex, .vkCreateBuffer index, .vkDestroyBuffer index,
          .vkDestroyBuffer vertex], .error e)
      | .ok uniform =>
        ([.vkCreateBuffer vertex, .vkCreateBuffer index, .vkCreateBuffer uniform],
          .ok ({ vertex := vertex, index := index, uniform := uniform },
            vertex.memoryRequirements device, index.memoryRequirements device,
            uniform.memoryRequirements device))

/-- The lines of `build` that call `createBuffers`, with their events. -/
def buildBuffersTrace (device : Device) (names : ResourceNames) :
    List DeviceEvent ×
      Except String (Buffers × VkMemoryRequirements × VkMemoryRequirements × VkMemoryRequirements) :=
  createBuffersTrace device
    { size := names.vertex_buffer_size, alignment := 0, memoryTypeBits := 0 }
    { size := names.index_buffer_size, alignment := 0, memoryTypeBits := 0 }
    { size := wrap64 (names.material_names.length * sizeofMaterialUniform),
      alignment := 0, memoryTypeBits := 0 }

/-- The destructor of `ResourcePack::Buffers`: the members are destroyed in
reverse order of declaration. -/
def Buffers.destroy (buffers : Buffers) : List DeviceEvent :=
  [.vkDestroyBuffer buffers.uniform, .vkDestroyBuffer buffers.index,
    .vkDestroyBuffer buffers.vertex]

/-- The images the loop of `createTextureImages` has put into `texture_images`
when it ends or throws. -/
def imagesCreated (device : Device) (resources : Resources) : List String → List Image2D
  | [] => []
  | name :: rest =>
    match mapAt resources.textures name with
    | .error _ => []
    | .ok texture =>
      match Image2D.create device texture.width texture.height with
      | .error _ => []
      | .ok image => image :: imagesCreated device resources rest

/-- The function `ResourcePack::createTextureImages` with its events: when it
throws, the destructor of the local vector `texture_images` destroys the images
created so far. -/
def createTextureImagesTrace (device : Device) (texture_names : List String)
    (resources : Resources) (staging_buffer_size : Nat) :
    List DeviceEvent × Except String TextureImages :=
  match createTextureImages device texture_names resources staging_buffer_size with
  | .ok textures => (textures.texture_images.map .vkCreateImage, .ok textures)
  | .error e =>
    ((imagesCreated device resources texture_names.dropLast).map .vkCreateImage ++
      (imagesCreated device resources texture_names.dropLast).map .vkDestroyImage, .error e)

/-- The function `ResourcePack::allocateMemory` with its events: the block is
allocated by its last fallible call. -/
def allocateMemoryTrace (device : Device)
    (vertex_requirements index_requirements uniform_requirements : VkMemoryRequirements)
    (texture_requirements : List TextureRequirements) :
    List DeviceEvent × Except String Allocation :=
  match allocateMemory device vertex_requirements index_requirements uniform_requirements
      texture_requirements with
  | .ok memory => ([.vkAllocateMemory memory.allocationSize memory.memoryTypeIndex], .ok memory)
  | .error e => ([], .error e)

/-- The function `ResourcePack::copyResources` with its events. When the
constructor of `StagingBuffer` throws after `vkCreateBuffer`, no destructor runs
for the object under construction; once it is constructed, its destructor runs
when `copyResources` returns or throws. -/
def copyResourcesTrace (device : Device) (staging_buffer_size : Nat)
    (model_names : List String) (model_offsets : List ModelOffset)
    (material_names texture_names : List String) (resources : Resources) (buffers : Buffers)
    (images : List Image2D) : List DeviceEvent × Except String (List Effect) :=
  if device.vkCreateBuffer VK_BUFFER_USAGE_TRANSFER_SRC_BIT staging_buffer_size then
    let requirements :=
      device.bufferRequirements VK_BUFFER_USAGE_TRANSFER_SRC_BIT staging_buffer_size
    match device.getMemoryIndex requirements.memoryTypeBits
        (VK_MEMORY_PROPERTY_HOST_VISIBLE_BIT ||| VK_MEMORY_PROPERTY_HOST_COHERENT_BIT) with
    | .error e =>
      ([.vkCreateBuffer ⟨staging_buffer_size, VK_BUFFER_USAGE_TRANSFER_SRC_BIT⟩], .error e)
    | .ok memoryTypeIndex =>
      if device.vkAllocateMemory requirements.size memoryTypeIndex then
        ([.vkCreateBuffer ⟨staging_buffer_size, VK_BUFFER_USAGE_TRANSFER_SRC_BIT⟩,
          .vkAllocateMemory requirements.size memoryTypeIndex,
          .vkCreateCommandPool, .vkCreateFence,
          .vkDestroyBuffer ⟨staging_buffer_size, VK_BUFFER_USAGE_TRANSFER_SRC_BIT⟩,
          .vkFreeMemory requirements.size memoryTypeIndex,
          .vkDestroyFence, .vkDestroyCommandPool],
         copyResources device staging_buffer_size model_names model_offsets material_names
           texture_names resources buffers images)
      else
        ([.vkCreateBuffer ⟨staging_buffer_size, VK_BUFFER_USAGE_TRANSFER_SRC_BIT⟩],
          .error "Failed to allocate staging buffer memory")
  else ([], .error "Failed to create staging buffer")

/-- The function `ResourcePack::createMaterialDescriptors` with its events: the
pool is a plain handle, which no destructor destroys when a lookup throws;
`maxSets` is a `uint32_t`. -/
def createMaterialDescriptorsTrace (material_names texture_names : List String)
    (resources : Resources) (buffers : Buffers) (texture_views : List ImageView2D) :
    List DeviceEvent × Except String (List DescriptorSet) :=
  ([.vkCreateDescriptorPool (material_names.length % 2 ^ 32)],
    createMaterialDescriptors material_names texture_names resources buffers texture_views)

/-- The function `ResourcePack::build` with its events. When a step throws, the
locals of `build` constructed so far are destroyed in reverse order:
`texture_views`, `texture_images`, `buffers`. The local `memory` is a plain
`VkDeviceMemory` handle; only the destructor of a returned `ResourcePack`
frees it. -/
def buildTrace (device : Device) (order : HashOrder) (model_names : List String)
    (resources : Resources) : List DeviceEvent × Except String ResourcePack :=
  match getResourceNames order model_names resources with
  | .error e => ([], .error e)
  | .ok names =>
    match buildBuffersTrace device names with
    | (buffer_events, .error e) => (buffer_events, .error e)
    | (buffer_events, .ok (buffers, vertex_requirements, index_requirements,
        uniform_requirements)) =>
      match createTextureImagesTrace device names.texture_names resources
          names.staging_buffer_size with
      | (image_events, .error e) =>
        (buffer_events ++ image_events ++ buffers.destroy, .error e)
      | (image_events, .ok textures) =>
        match allocateMemoryTrace device vertex_requirements index_requirements
            uniform_requirements textures.requirements with
        | (memory_events, .error e) =>
          (buffer_events ++ image_events ++ memory_events ++
            textures.texture_images.map .vkDestroyImage ++ buffers.destroy, .error e)
        | (memory_events, .ok memory) =>
          match copyResourcesTrace device textures.staging_buffer_size model_names
              names.model_offsets names.material_names names.texture_names resources buffers
              textures.texture_images with
          | (copy_events, .error e) =>
            (buffer_events ++ image_events ++ memory_events ++ copy_events ++
              textures.texture_images.map .vkDestroyImage ++ buffers.destroy, .error e)
          | (copy_events, .ok transfers) =>
            let texture_views := createTextureImageViews textures.texture_images
            match createMaterialDescriptorsTrace names.material_names names.texture_names
                resources buffers texture_views with
            | (descriptor_events, .error e) =>
              (buffer_events ++ image_events ++ memory_events ++ copy_events ++
                texture_views.map .vkCreateImageView ++ descriptor_events ++
                texture_views.map .vkDestroyImageView ++
                textures.texture_images.map .vkDestroyImage ++ buffers.destroy, .error e)
            | (descriptor_events, .ok materials) =>
              (buffer_events ++ image_events ++ memory_events ++ copy_events ++
                texture_views.map .vkCreateImageView ++ descriptor_events,
               .ok { buffers := buffers
                     materials := materials
                     model_indices := indexMap model_names
                     model_offsets := names.model_offsets
                     texture_images := textures.texture_images
                     texture_views := texture_views
                     memory := memory
                     transfers := transfers })

/-- Whether an event allocates device memory. -/
def DeviceEvent.isAllocation : DeviceEvent → Bool
  | .vkAllocateMemory _ _ => true
  | _ => false

/-- A model, a material or a non-empty texture name the batch refers to is
absent from the scene. -/
def MissingReference (resources : Resources) (batch : List String) : Prop :=
  (∃ n ∈ batch, resources.models n = none) ∨
  (∃ n ∈ batch, ∃ model, resources.models n = some model ∧
    resources.materials model.material = none) ∨
  (∃ n ∈ batch, ∃ model material t, resources.models n = some model ∧
    resources.materials model.material = some material ∧ t ∈ material.textures ∧ t ≠ "" ∧
    resources.textures t = none)

/-- The device `exampleDevice` when its host-visible memory, memory type 0, is
exhausted: an allocation of that type fails. -/
def noStagingMemoryDevice : Device :=
  { exampleDevice with vkAllocateMemory := fun _ memoryTypeIndex => memoryTypeIndex != 0 }

/-- The scene `exampleResources` without the texture `t2`. -/
def missingTextureResources : Resources :=
  { exampleResources with
    textures := fun name =>
      if name = "t1" then some { data := 16, width := 2, height := 2 } else none }

/-! ## `Device::isSuitable` (`device.cpp`)

The numeric values of the Vulkan enumerations and flags are those of
`vulkan_core.h`. -/

/-- The value `VK_PHYSICAL_DEVICE_TYPE_OTHER`. -/
def VK_PHYSICAL_DEVICE_TYPE_OTHER : Nat := 0

/-- The value `VK_PHYSICAL_DEVICE_TYPE_INTEGRATED_GPU`. -/
def VK_PHYSICAL_DEVICE_TYPE_INTEGRATED_GPU : Nat := 1

/-- The value `VK_PHYSICAL_DEVICE_TYPE_DISCRETE_GPU`. -/
def VK_PHYSICAL_DEVICE_TYPE_DISCRETE_GPU : Nat := 2

/-- The value `VK_PHYSICAL_DEVICE_TYPE_VIRTUAL_GPU`. -/
def VK_PHYSICAL_DEVICE_TYPE_VIRTUAL_GPU : Nat := 3

/-- The value `VK_PHYSICAL_DEVICE_TYPE_CPU`. -/
def VK_PHYSICAL_DEVICE_TYPE_CPU : Nat := 4

/-- The flag `VK_QUEUE_GRAPHICS_BIT`. -/
def VK_QUEUE_GRAPHICS_BIT : Nat := 1

/-- The flag `VK_QUEUE_COMPUTE_BIT`. -/
def VK_QUEUE_COMPUTE_BIT : Nat := 2

/-- The flag `VK_QUEUE_TRANSFER_BIT`. -/
def VK_QUEUE_TRANSFER_BIT : Nat := 4

/-- The value `VK_FORMAT_R8G8B8A8_UNORM`. -/
def VK_FORMAT_R8G8B8A8_UNORM : Nat := 37

/-- The value `VK_FORMAT_B8G8R8A8_UNORM`. -/
def VK_FORMAT_B8G8R8A8_UNORM : Nat := 44

/-- The value `VK_FORMAT_D32_SFLOAT`. -/
def VK_FORMAT_D32_SFLOAT : Nat := 126

/-- The value `VK_FORMAT_D24_UNORM_S8_UINT`. -/
def VK_FORMAT_D24_UNORM_S8_UINT : Nat := 129

/-- The value `VK_FORMAT_D32_SFLOAT_S8_UINT`. -/
def VK_FORMAT_D32_SFLOAT_S8_UINT : Nat := 130

/-- The flag `VK_FORMAT_FEATURE_DEPTH_STENCIL_ATTACHMENT_BIT`. -/
def VK_FORMAT_FEATURE_DEPTH_STENCIL_ATTACHMENT_BIT : Nat := 512

/-- The value `VK_PRESENT_MODE_MAILBOX_KHR`. -/
def VK_PRESENT_MODE_MAILBOX_KHR : Nat := 1

/-- The value `VK_PRESENT_MODE_FIFO_KHR`. -/
def VK_PRESENT_MODE_FIFO_KHR : Nat := 2

/-- The number of `VkBool32` members of `VkPhysicalDeviceFeatures`. -/
def featureCount : Nat := 55

/-- The position of the member `samplerAnisotropy` in `VkPhysicalDeviceFeatures`. -/
def samplerAnisotropy : Nat := 19

/-- The global `REQUIRED_DEVICE_EXTENSIONS`; the string is
`VK_KHR_SWAPCHAIN_EXTENSION_NAME`. -/
def REQUIRED_DEVICE_EXTENSIONS : List String := ["VK_KHR_swapchain"]

/-- The global `PREFERRED_SURFACE_FORMATS`. -/
def PREFERRED_SURFACE_FORMATS : List Nat := [VK_FORMAT_R8G8B8A8_UNORM, VK_FORMAT_B8G8R8A8_UNORM]

/-- What the driver reports about a `VkPhysicalDevice` and a surface:
`deviceType` of `vkGetPhysicalDeviceProperties`, the extension names of
`vkEnumerateDeviceExtensionProperties`, the members of
`VkPhysicalDeviceFeatures` by position, the `queueFlags` of each queue family,
the answer of `vkGetPhysicalDeviceSurfaceSupportKHR` for each family, the
formats of `vkGetPhysicalDeviceSurfaceFormatsKHR`, the present modes, and
`optimalTilingFeatures` and `linearTilingFeatures` of each format. -/
structure PhysicalDevice where
  deviceType : Nat
  extensions : List String
  features : Nat → Bool
  queueFlags : List Nat
  surfaceSupport : Nat → Bool
  surfaceFormats : List Nat
  presentModes : List Nat
  optimalTilingFeatures : Nat → Nat
  linearTilingFeatures : Nat → Nat

/-- The member `queue_families` of `PhysicalDeviceInfo`. -/
structure QueueFamilies where
  graphics : Nat
  compute : Nat
  transfer : Nat
  present : Nat
  deriving DecidableEq, Repr

/-- The structure `Device::PhysicalDeviceInfo`, without the memory properties
and surface capabilities, which `isSuitable` copies from the driver. -/
structure PhysicalDeviceInfo where
  deviceType : Nat
  surface_format : Nat
  present_mode : Nat
  depth_format : Nat
  queue_families : QueueFamilies
  deriving DecidableEq, Repr

/-- The function `Device::requiredDeviceFeatures`, by member position. -/
def requiredDeviceFeatures (i : Nat) : Bool := i == samplerAnisotropy

/-- The function `Device::deviceExtensionsSupported`. -/
def deviceExtensionsSupported (device : PhysicalDevice) : Bool :=
  REQUIRED_DEVICE_EXTENSIONS.all fun name => device.extensions.any fun e => e == name

/-- The function `Device::deviceFeaturesSupported`. -/
def deviceFeaturesSupported (supported : Nat → Bool) : Bool :=
  (List.range featureCount).all fun i => !(requiredDeviceFeatures i && !supported i)

/-- The four `std::optional<uint32_t>` of `getQueueFamilies`. -/
structure QueueSearch where
  graphics_queue : Option Nat
  compute_queue : Option Nat
  transfer_queue : Option Nat
  present_queue : Option Nat
  deriving DecidableEq, Repr

/-- The choice `getQueueFamilies` makes for the compute and for the transfer
queue at a family `i` that has the flag: a queue equal to the graphics queue is
replaced, an unset one is set. -/
def preferOther (current graphics_queue : Option Nat) (i : Nat) : Option Nat :=
  match current, graphics_queue with
  | some c, some g => if c = g then some i else some c
  | some c, none => some c
  | none, _ => some i

/-- The body of the loop of `getQueueFamilies` for family `i` with flags `flags`. -/
def queueStep (device : PhysicalDevice) (s : QueueSearch) (i flags : Nat) : QueueSearch :=
  let graphics_queue :=
    if s.graphics_queue.isNone && (flags &&& VK_QUEUE_GRAPHICS_BIT != 0) then some i
    else s.graphics_queue
  let compute_queue :=
    if flags &&& VK_QUEUE_COMPUTE_BIT != 0 then preferOther s.compute_queue graphics_queue i
    else s.compute_queue
  let transfer_queue :=
    if flags &&& VK_QUEUE_TRANSFER_BIT != 0 then preferOther s.transfer_queue graphics_queue i
    else s.transfer_queue
  let present_queue := if device.surfaceSupport i then some i else s.present_queue
  { graphics_queue := graphics_queue, compute_queue := compute_queue,
    transfer_queue := transfer_queue, present_queue := present_queue }

/-- The loop of `getQueueFamilies` continued at family `i`. -/
def queueLoop (device : PhysicalDevice) : Nat → List Nat → QueueSearch → QueueSearch
  | _, [], s => s
  | i, flags :: rest, s => queueLoop device (i + 1) rest (queueStep device s i flags)

/-- The function `Device::getQueueFamilies`: `none` is the return value
`false`, which leaves `info` as it was. -/
def getQueueFamilies (device : PhysicalDevice) : Option QueueFamilies :=
  let s := queueLoop device 0 device.queueFlags
    { graphics_queue := none, compute_queue := none, transfer_queue := none,
      present_queue := none }
  let transfer_queue := if s.transfer_queue.isNone then s.compute_queue else s.transfer_queue
  match s.graphics_queue, s.compute_queue, transfer_queue, s.present_queue with
  | some g, some c, some t, some p => some { graphics := g, compute := c, transfer := t, present := p }
  | _, _, _, _ => none

/-- The surface format chosen by `getSurfaceProperties`: the last preferred
format the surface offers, else `formats[0]` (`VK_FORMAT_UNDEFINED = 0` stands
for the read of an empty vector). -/
def chooseSurfaceFormat (formats : List Nat) : Nat :=
  (PREFERRED_SURFACE_FORMATS.foldl
    (fun (chosen : Option Nat) format => if format ∈ formats then some format else chosen)
    none).getD (formats.headD 0)

/-- The present mode chosen by `getSurfaceProperties`. -/
def choosePresentMode (modes : List Nat) : Nat :=
  if VK_PRESENT_MODE_MAILBOX_KHR ∈ modes then VK_PRESENT_MODE_MAILBOX_KHR
  else VK_PRESENT_MODE_FIFO_KHR

/-- The function `Device::getSupportedImageFormat` called with
`VK_IMAGE_TILING_OPTIMAL`. -/
def getSupportedImageFormat (device : PhysicalDevice) (features : Nat) :
    List Nat → Except String Nat
  | [] => .error "Failed to find suitable image format"
  | format :: rest =>
    if device.optimalTilingFeatures format &&& features = features then .ok format
    else getSupportedImageFormat device features rest

/-- The function `Device::isSuitable`: the value returned and `info` after the
call. -/
def Device.isSuitable (device : PhysicalDevice) (info : PhysicalDeviceInfo) :
    Except String (Bool × PhysicalDeviceInfo) :=
  let info := { info with deviceType := device.deviceType }
  if (info.deviceType &&&
      (VK_PHYSICAL_DEVICE_TYPE_DISCRETE_GPU ||| VK_PHYSICAL_DEVICE_TYPE_INTEGRATED_GPU)) = 0 then
    .ok (false, info)
  else if !deviceExtensionsSupported device then .ok (false, info)
  else if !deviceFeaturesSupported device.features then .ok (false, info)
  else
    match getQueueFamilies device with
    | none => .ok (false, info)
    | some families =>
      let info := { info with
        queue_families := families,
        surface_format := chooseSurfaceFormat device.surfaceFormats,
        present_mode := choosePresentMode device.presentModes }
      match getSupportedImageFormat device VK_FORMAT_FEATURE_DEPTH_STENCIL_ATTACHMENT_BIT
          [VK_FORMAT_D32_SFLOAT, VK_FORMAT_D32_SFLOAT_S8_UINT, VK_FORMAT_D24_UNORM_S8_UINT] with
      | .error e => .error e
      | .ok depth_format => .ok (true, { info with depth_format := depth_format })

/-- A physical device that supports everything `isSuitable` asks for: the
swapchain extension, every feature, one queue family with graphics, compute and
transfer that can present, and the depth format `VK_FORMAT_D32_SFLOAT`. -/
def capableDevice (deviceType : Nat) : PhysicalDevice :=
  { deviceType := deviceType
    extensions := ["VK_KHR_swapchain"]
    features := fun _ => true
    queueFlags := [7]
    surfaceSupport := fun _ => true
    surfaceFormats := [VK_FORMAT_B8G8R8A8_UNORM]
    presentModes := [VK_PRESENT_MODE_FIFO_KHR]
    optimalTilingFeatures := fun _ => 512
    linearTilingFeatures := fun _ => 0 }

/-- The value of an `info` that has not been written. -/
def blankInfo : PhysicalDeviceInfo :=
  { deviceType := 0, surface_format := 0, present_mode := 0, depth_format := 0,
    queue_families := { graphics := 0, compute := 0, transfer := 0, present := 0 } }

/-! ## The texture requirement list -/

/-- The pairs `(i, requirements of image i)` of a list of images, in image order. -/
def indexedRequirements (device : Device) (images : List Image2D) : List TextureRequirements :=
  images.enum.map fun p => (p.1, p.2.memoryRequirements device)

/-- The captured variables of `allocateMemory` when the loop over the texture
requirements starts: the three buffers have been placed. -/
def afterBuffers (vertex_requirements index_requirements uniform_requirements :
    VkMemoryRequirements) : AllocState :=
  (memoryOffset (memoryOffset (memoryOffset { alloc_size := 0, type_bits := UINT32_MAX }
    vertex_requirements).2 index_requirements).2 uniform_requirements).2

instance byAlignment.total : IsTotal TextureRequirements byAlignment :=
  ⟨fun a b => Nat.le_total b.2.alignment a.2.alignment⟩

instance byAlignment.trans : IsTrans TextureRequirements byAlignment :=
  ⟨fun _ _ _ hab hbc => Nat.le_trans hbc hab⟩

/-- The device `exampleDevice` when an image of `w * h` texels asks for the
alignment `4 * w * h`. -/
def alignedDevice : Device :=
  { exampleDevice with
    imageRequirements := fun w h =>
      { size := w * h * 4, alignment := w * h * 4, memoryTypeBits := 2 } }

/-! ## Graphics pipelines (`pipeline.cpp`) -/

/-- The enumeration `GraphicsPipeline::Stage`. -/
inductive Stage where
  | Vertex
  | Fragment
  | TessellationControl
  | TessellationEval
  | Geometry
  deriving DecidableEq, Repr

/-- An entry of the directory the constructor of `GraphicsPipeline` iterates:
whether it is a regular file, its path with `path.stem()` and
`path.extension()`, and what `loadShaderSource` does when called on it, the
bytes read or the exception thrown. -/
structure DirectoryEntry where
  is_regular_file : Bool
  path : String
  stem : String
  extension : String
  loadShaderSource : Except String (List Nat)

/-- The type `GraphicsPipeline::ProgramSource`, a map kept as the list of its
entries. -/
abbrev ProgramSource := List (Stage × List Nat)

/-- The call `source.count(stage)` as a truth value. -/
def hasStage (source : ProgramSource) (stage : Stage) : Bool :=
  source.any fun p => p.1 == stage

/-- The call `source.emplace(stage, bytes)`: an existing entry is kept. -/
def emplaceSource (source : ProgramSource) (stage : Stage) (bytes : List Nat) : ProgramSource :=
  if hasStage source stage then source else source ++ [(stage, bytes)]

/-- The lambda of the constructor that maps the stem of a file to its stage. -/
def stageOf (entry : DirectoryEntry) : Except String Stage :=
  if entry.stem = "vert" then .ok .Vertex
  else if entry.stem = "frag" then .ok .Fragment
  else if entry.stem = "tesc" then .ok .TessellationControl
  else if entry.stem = "tese" then .ok .TessellationEval
  else if entry.stem = "geom" then .ok .Geometry
  else .error ("Invalid shader source file name at: " ++ entry.path)

/-- The loop `for (auto entry : std::filesystem::directory_iterator(dir))` of
the constructor of `GraphicsPipeline`. -/
def sourceLoop : List DirectoryEntry → ProgramSource → Except String ProgramSource
  | [], source => .ok source
  | entry :: rest, source =>
    if entry.is_regular_file then
      if entry.extension ≠ ".spv" then
        .error ("Invalid shader source format at: " ++ entry.path)
      else
        match stageOf entry with
        | .error e => .error e
        | .ok stage =>
          match entry.loadShaderSource with
          | .error e => .error e
          | .ok bytes => sourceLoop rest (emplaceSource source stage bytes)
    else sourceLoop rest source

/-- The constructor of `GraphicsPipeline` up to the call of `buildPipeline`:
the program source handed to `buildPipeline`, or the exception thrown before. -/
def programSource (dir : String) (entries : List DirectoryEntry) : Except String ProgramSource :=
  match sourceLoop entries [] with
  | .error e => .error e
  | .ok source =>
    if hasStage source .Vertex && hasStage source .Fragment then .ok source
    else .error ("Source for vertex and fragment shaders not fount at: " ++ dir)

/-- The class `GraphicsPipeline`: the pipeline built from `source`. -/
structure GraphicsPipeline where
  source : ProgramSource
  deriving DecidableEq, Repr

/-- The constructor `GraphicsPipeline::GraphicsPipeline`; `buildPipeline` tells
whether the driver creates the shader modules and the pipeline. -/
def GraphicsPipeline.create (dir : String) (entries : List DirectoryEntry)
    (buildPipeline : ProgramSource → Except String Unit) : Except String GraphicsPipeline :=
  match programSource dir entries with
  | .error e => .error e
  | .ok source =>
    match buildPipeline source with
    | .error e => .error e
    | .ok _ => .ok { source := source }

/-- A file that satisfies the three conditions the constructor puts on a
regular file: extension `.spv`, a stem that names a stage, readable contents. -/
def DirectoryEntry.Accepted (entry : DirectoryEntry) : Prop :=
  entry.extension = ".spv" ∧
  entry.stem ∈ ["vert", "frag", "tesc", "tese", "geom"] ∧
  ∃ bytes, entry.loadShaderSource = .ok bytes

/-- A regular file `stem.spv` with the given result of `loadShaderSource`. -/
def shaderFile (stem : String) (contents : Except String (List Nat)) : DirectoryEntry :=
  { is_regular_file := true, path := "shaders/" ++ stem ++ ".spv", stem := stem,
    extension := ".spv", loadShaderSource := contents }

/-! ## `Context`: loading pipelines and resource packs (`context.h`) -/

/-- The class `PipelineHandle`. -/
structure PipelineHandle where
  index : Nat
  deriving DecidableEq, Repr

/-- The class `ModelHandle`. -/
structure ModelHandle where
  pack : Nat
  index : Nat
  deriving DecidableEq, Repr

/-- The class `Context`, reduced to the members the frame and load methods use. -/
structure Context where
  device : Device
  m_swapchain : Swapchain
  m_resource_packs : List ResourcePack
  m_pipelines : List GraphicsPipeline
  m_frame_state : FrameState

/-- The constructor `Context::Context`: no pack and no pipeline is loaded. The
member `m_frame_state` is not initialised by the source. -/
def Context.create (device : Device) (driver : SwapchainDriver) : Context :=
  { device := device, m_swapchain := Swapchain.create driver, m_resource_packs := [],
    m_pipelines := [],
    m_frame_state := { _index := 0, _framebuffer := 0, _draw_ready := 0, _draw_finished := 0,
                       _submit_fence := 0, _command := 0 } }

/-- The method `Context::loadPipeline`. The vector is not empty after
`emplace_back`, so `size() - 1` does not wrap. -/
def Context.loadPipeline (ctx : Context) (dir : String) (entries : List DirectoryEntry)
    (buildPipeline : ProgramSource → Except String Unit) :
    Except String (Context × PipelineHandle) :=
  match GraphicsPipeline.create dir entries buildPipeline with
  | .error e => .error e
  | .ok pipeline =>
    let pipelines := ctx.m_pipelines ++ [pipeline]
    .ok ({ ctx with m_pipelines := pipelines }, { index := pipelines.length - 1 })

/-- The method `ResourcePack::model_index`. -/
def ResourcePack.model_index (pack : ResourcePack) (name : String) : Except String Nat :=
  mapAt pack.model_indices name

/-- The call `handles.emplace(name, handle)`: an existing entry is kept. -/
def emplaceHandle (handles : String → Option ModelHandle) (name : String)
    (handle : ModelHandle) : String → Option ModelHandle :=
  fun k => if k = name then (match handles name with
    | some old => some old
    | none => some handle) else handles k

/-- The loop `for (const auto& name : model_names)` of `loadResources`. -/
def handlesLoop (pack : ResourcePack) (pack_index : Nat) :
    List String → (String → Option ModelHandle) → Except String (String → Option ModelHandle)
  | [], handles => .ok handles
  | name :: rest, handles =>
    match pack.model_index name with
    | .error e => .error e
    | .ok index =>
      handlesLoop pack pack_index rest
        (emplaceHandle handles name { pack := pack_index, index := index })

/-- The method `Context::loadResources`; `order` is the enumeration order of
the hash sets of the build. -/
def Context.loadResources (ctx : Context) (order : HashOrder) (model_names : List String)
    (resources : Resources) : Except String (Context × (String → Option ModelHandle)) :=
  match build ctx.device order model_names resources with
  | .error e => .error e
  | .ok pack =>
    let packs := ctx.m_resource_packs ++ [pack]
    match handlesLoop pack (packs.length - 1) model_names (fun _ => none) with
    | .error e => .error e
    | .ok handles => .ok ({ ctx with m_resource_packs := packs }, handles)

/-- A call of one of the two load methods of `Context`. -/
inductive LoadOp where
  | loadPipeline (dir : String) (entries : List DirectoryEntry)
      (buildPipeline : ProgramSource → Except String Unit)
  | loadResources (order : HashOrder) (model_names : List String) (resources : Resources)

/-- The context after a load call; a call that throws leaves it as it was. -/
def Context.load (ctx : Context) : LoadOp → Context
  | .loadPipeline dir entries buildPipeline =>
    match ctx.loadPipeline dir entries buildPipeline with
    | .ok (next, _) => next
    | .error _ => ctx
  | .loadResources order model_names resources =>
    match ctx.loadResources order model_names resources with
    | .ok (next, _) => next
    | .error _ => ctx

/-- Whether a load call returns in the context `ctx`. -/
def Context.loads (ctx : Context) : LoadOp → Bool
  | .loadPipeline dir entries buildPipeline =>
    (ctx.loadPipeline dir entries buildPipeline).toBool
  | .loadResources order model_names resources =>
    (ctx.loadResources order model_names resources).toBool

/-- The context after a sequence of load calls, with the number of
`loadResources` calls and of `loadPipeline` calls that returned. -/
def Context.loadAll : Context → List LoadOp → Context × Nat × Nat
  | ctx, [] => (ctx, 0, 0)
  | ctx, op :: rest =>
    let r := Context.loadAll (ctx.load op) rest
    match op with
    | .loadPipeline _ _ _ => (r.1, r.2.1, r.2.2 + (if ctx.loads op then 1 else 0))
    | .loadResources _ _ _ => (r.1, r.2.1 + (if ctx.loads op then 1 else 0), r.2.2)

/-- Three load calls: a pack, a pipeline, and a pack whose batch names a model
that is not in the scene (this call throws). -/
def exampleLoads : List LoadOp :=
  [.loadResources insertionOrder ["U", "V"] paintedResources,
   .loadPipeline "shaders" [shaderFile "vert" (.ok [1]), shaderFile "frag" (.ok [2])]
     (fun _ => .ok ()),
   .loadResources insertionOrder ["missing"] exampleResources]

/-! ## Frame recording (`context.cpp`, `resource_pack.h`) -/

/-- The value of `sizeof(glm::mat4)`: sixteen `float`. -/
def sizeofMat4 : Nat := 64

/-- The size of the push-constant range declared by `createPipelineLayout`,
which starts at offset 0. -/
def pushConstantRangeSize : Nat := 2 * sizeofMat4

/-- A call made while a frame is recorded, submitted and presented. A matrix
pushed as constants is named by a number. -/
inductive Command where
  | swapchain (call : SwapchainCall)
  | vkBeginCommandBuffer (command : Nat)
  | vkCmdBeginRenderPass (command framebuffer : Nat)
  | vkCmdPushConstants (command offset size matrix : Nat)
  | vkCmdBindPipeline (command : Nat) (pipeline : GraphicsPipeline)
  | vkCmdBindVertexBuffers (command : Nat) (buffer : Buffer) (offset : Nat)
  | vkCmdBindIndexBuffer (command : Nat) (buffer : Buffer) (offset : Nat)
  | vkCmdBindDescriptorSets (command : Nat) (set : DescriptorSet)
  | vkCmdDrawIndexed (command indexCount instanceCount firstIndex vertexOffset
      firstInstance : Nat)
  | vkCmdEndRenderPass (command : Nat)
  | vkEndCommandBuffer (command : Nat)
  | vkQueueSubmit (command waitSemaphore signalSemaphore fence : Nat)
  deriving DecidableEq, Repr

/-- The command buffer a call records into or ends, if it is such a call. -/
def Command.commandBuffer : Command → Option Nat
  | .swapchain _ => none
  | .vkBeginCommandBuffer command => some command
  | .vkCmdBeginRenderPass command _ => some command
  | .vkCmdPushConstants command _ _ _ => some command
  | .vkCmdBindPipeline command _ => some command
  | .vkCmdBindVertexBuffers command _ _ => some command
  | .vkCmdBindIndexBuffer command _ _ => some command
  | .vkCmdBindDescriptorSets command _ => some command
  | .vkCmdDrawIndexed command _ _ _ _ _ => some command
  | .vkCmdEndRenderPass command => some command
  | .vkEndCommandBuffer command => some command
  | .vkQueueSubmit _ _ _ _ => none

/-- The buffer offset of a bind command and the index count of a draw command
(zero for the other commands). -/
def Command.operand : Command → Nat
  | .vkCmdBindVertexBuffers _ _ offset => offset
  | .vkCmdBindIndexBuffer _ _ offset => offset
  | .vkCmdDrawIndexed _ indexCount _ _ _ _ => indexCount
  | _ => 0

/-- The method `ResourcePack::draw`. The parameter `indexCount` of
`vkCmdDrawIndexed` is a `uint32_t`, to which the `size_t` `index_count` is
converted. -/
def ResourcePack.draw (pack : ResourcePack) (cmd : Nat) (model_index : Nat) :
    Except String (List Command) :=
  match pack.model_offsets[model_index]? with
  | none => .error "m_model_offsets index out of range"
  | some offsets =>
    let vertex_offset := wrap64 (offsets.vertex_offset * sizeofVertex)
    let index_offset := wrap64 (offsets.index_offset * sizeofIndex)
    match pack.materials[offsets.material_index]? with
    | none => .error "descriptors index out of range"
    | some set =>
      .ok [.vkCmdBindVertexBuffers cmd pack.buffers.vertex vertex_offset,
           .vkCmdBindIndexBuffer cmd pack.buffers.index index_offset,
           .vkCmdBindDescriptorSets cmd set,
           .vkCmdDrawIndexed cmd (offsets.index_count % 2 ^ 32) 1 0 0 0]

/-- A scene whose only model has `2 ^ 32` indices, a count that does not fit
the `uint32_t` parameter `indexCount` of `vkCmdDrawIndexed`. -/
def largeIndexResources : Resources where
  models := fun name =>
    if name = "m" then some { material := "M", vertices := 3, indices := 2 ^ 32 } else none
  materials := fun name =>
    if name = "M" then some { textures := ["", "", "", "", "", ""] } else none
  textures := fun _ => none

/-- The method `Context::beginFrame`; `camera` names the matrix pushed. The
calls made are listed for a call that returns. -/
def Context.beginFrame (ctx : Context) (camera : Nat) (acquired : Option Nat) (waited : Bool) :
    Except String (Context × List Command) :=
  match ctx.m_swapchain.acquireImage acquired waited with
  | (_, .error e) => .error e
  | (calls, .ok state) =>
    .ok ({ ctx with m_frame_state := state },
      calls.map .swapchain ++
        [.vkBeginCommandBuffer state._command,
         .vkCmdBeginRenderPass state._command state._framebuffer,
         .vkCmdPushConstants state._command 0 sizeofMat4 camera])

/-- The method `Context::bindPipeline`. -/
def Context.bindPipeline (ctx : Context) (pipeline : PipelineHandle) :
    Except String (List Command) :=
  match ctx.m_pipelines[pipeline.index]? with
  | none => .error "m_pipelines index out of range"
  | some p => .ok [.vkCmdBindPipeline ctx.m_frame_state._command p]

/-- The method `Context::draw`; `transform` names the matrix pushed. -/
def Context.draw (ctx : Context) (model : ModelHandle) (transform : Nat) :
    Except String (List Command) :=
  match ctx.m_resource_packs[model.pack]? with
  | none => .error "m_resource_packs index out of range"
  | some pack =>
    match pack.draw ctx.m_frame_state._command model.index with
    | .error e => .error e
    | .ok commands =>
      .ok (.vkCmdPushConstants ctx.m_frame_state._command sizeofMat4 sizeofMat4 transform ::
        commands)

/-- The method `Context::endFrame`; `ended`, `submitted` and `presented` tell
whether `vkEndCommandBuffer`, `vkQueueSubmit` and `vkQueuePresentKHR` return
`VK_SUCCESS`. The calls made are listed for a call that returns. -/
def Context.endFrame (ctx : Context) (ended submitted presented : Bool) :
    Except String (Context × List Command) :=
  if !ended then .error "Failed to record frame graphics commands"
  else if !submitted then .error "Failed to submit draw command buffer"
  else
    match ctx.m_swapchain.presentImage ctx.m_frame_state presented with
    | (_, .error e) => .error e
    | (calls, .ok swapchain) =>
      .ok ({ ctx with m_swapchain := swapchain },
        [.vkCmdEndRenderPass ctx.m_frame_state._command,
         .vkEndCommandBuffer ctx.m_frame_state._command,
         .vkQueueSubmit ctx.m_frame_state._command ctx.m_frame_state._draw_ready
           ctx.m_frame_state._draw_finished ctx.m_frame_state._submit_fence] ++
          calls.map .swapchain)

/-- A call made between `beginFrame` and `endFrame`. -/
inductive FrameOp where
  | bindPipeline (pipeline : PipelineHandle)
  | draw (model : ModelHandle) (transform : Nat)
  deriving DecidableEq, Repr

/-- The calls of one `bindPipeline` or `draw`. -/
def Context.recordOp (ctx : Context) : FrameOp → Except String (List Command)
  | .bindPipeline pipeline => ctx.bindPipeline pipeline
  | .draw model transform => ctx.draw model transform

/-- The calls of a sequence of `bindPipeline` and `draw` calls. -/
def Context.record (ctx : Context) : List FrameOp → Except String (List Command)
  | [] => .ok []
  | op :: rest =>
    match ctx.recordOp op with
    | .error e => .error e
    | .ok commands =>
      match ctx.record rest with
      | .error e => .error e
      | .ok tail => .ok (commands ++ tail)

/-- One iteration of the loop of `Application::run`: `beginFrame`, the
`bindPipeline` and `draw` calls, `endFrame`. -/
def Context.frame (ctx : Context) (camera : Nat) (acquired : Option Nat) (waited : Bool)
    (ops : List FrameOp) (ended submitted presented : Bool) :
    Except String (Context × List Command) :=
  match ctx.beginFrame camera acquired waited with
  | .error e => .error e
  | .ok (recording, begun) =>
    match recording.record ops with
    | .error e => .error e
    | .ok body =>
      match recording.endFrame ended submitted presented with
      | .error e => .error e
      | .ok (next, finished) => .ok (next, begun ++ body ++ finished)

/-- The handles of a frame call refer to a loaded pipeline, or to a loaded
pack, one of its models and a descriptor set of that pack. -/
def Context.ValidOp (ctx : Context) : FrameOp → Prop
  | .bindPipeline pipeline => pipeline.index < ctx.m_pipelines.length
  | .draw model _ =>
    ∃ pack offsets, ctx.m_resource_packs[model.pack]? = some pack ∧
      pack.model_offsets[model.index]? = some offsets ∧
      offsets.material_index < pack.materials.length

/-- The file stem the constructor of `GraphicsPipeline` maps to a stage. -/
def Stage.fileStem : Stage → String
  | .Vertex => "vert"
  | .Fragment => "frag"
  | .TessellationControl => "tesc"
  | .TessellationEval => "tese"
  | .Geometry => "geom"

/-- The context after `exampleLoads`: one pack of two models and one pipeline. -/
def exampleContext : Context := ((Context.create exampleDevice threeImages).loadAll exampleLoads).1

/-- A frame body: bind the pipeline, then draw the two models of the pack. -/
def exampleOps : List FrameOp :=
  [.bindPipeline { index := 0 }, .draw { pack := 0, index := 1 } 5,
   .draw { pack := 0, index := 0 } 6]

/-! ## `Model::load` (`resources.cpp`) -/

/-- The structure `tinyobj::index_t`: three `int` indices, `-1` for an absent
normal or texture coordinate. -/
structure index_t where
  vertex_index : Int
  normal_index : Int
  texcoord_index : Int
  deriving DecidableEq, Repr

/-- The structure `tinyobj::mesh_t`, the three vectors `load` reads;
`material_ids` is a `std::vector<int>`. -/
structure mesh_t where
  indices : List index_t
  num_face_vertices : List Nat
  material_ids : List Int
  deriving DecidableEq, Repr

/-- The structure `tinyobj::shape_t`. -/
structure shape_t where
  name : String
  mesh : mesh_t
  deriving DecidableEq, Repr

/-- The structure `tinyobj::attrib_t`: the `float` arrays, each value kept as
its bit pattern. -/
structure attrib_t where
  vertices : List Nat
  normals : List Nat
  texcoords : List Nat
  deriving DecidableEq, Repr

/-- The fields of `tinyobj::material_t` the constructor of `Material` reads;
`float` values are kept as bit patterns. -/
structure material_t where
  name : String
  diffuse : Nat × Nat × Nat := (0, 0, 0)
  ambient : Nat × Nat × Nat := (0, 0, 0)
  emission : Nat × Nat × Nat := (0, 0, 0)
  roughness : Nat := 0
  metallic : Nat := 0
  diffuse_texname : String := ""
  normal_texname : String := ""
  metallic_texname : String := ""
  roughness_texname : String := ""
  ambient_texname : String := ""
  emissive_texname : String := ""
  deriving DecidableEq, Repr

/-- What `tinyobj::ObjReader` holds after `ParseFromFile` returned true. -/
structure ObjReader where
  attrib : attrib_t
  materials : List material_t
  shapes : List shape_t
  deriving DecidableEq, Repr

/-- The library calls `load` depends on: `join root name` is the string of
`root / name` of `std::filesystem::path`, and `stbi_load path` is the width
and height of the decoded image, or none when `stbi_load` returns null. -/
structure FileSystem where
  join : String → String → String
  stbi_load : String → Option (Nat × Nat)

/-- The order in which the `std::unordered_map` keyed by `size_t` is
enumerated: `iterate l` is the enumeration of the map whose keys were inserted
in the order `l`, some rearrangement of `l`. -/
structure KeyOrder where
  iterate : List Nat → List Nat
  perm : ∀ l, (iterate l).Perm l

/-- The enumeration of the keys in insertion order. -/
def insertionKeys : KeyOrder where
  iterate := fun l => l
  perm := fun l => List.Perm.refl l

/-- The enumeration of the keys in reverse insertion order. -/
def reverseKeys : KeyOrder where
  iterate := List.reverse
  perm := fun l => List.reverse_perm l

/-- The structure `Model::Vertex`; every `float` is kept as its bit pattern. -/
structure Model.Vertex where
  pos : Nat × Nat × Nat := (0, 0, 0)
  norm : Nat × Nat × Nat := (0, 0, 0)
  tex : Nat × Nat := (0, 0)
  deriving DecidableEq, Repr

/-- The class `Model` with the contents of its two vectors; an element of
`m_indices` is a `uint32_t`. -/
structure ModelData where
  m_material : String
  m_vertices : List Model.Vertex
  m_indices : List Nat
  deriving DecidableEq, Repr

/-- The structure `Resources` as `load` fills it, the models with the contents
of their vectors. -/
structure Scene where
  models : String → Option ModelData
  textures : String → Option Texture
  materials : String → Option Material

/-- The sizes of the vectors of a loaded model. -/
def ModelData.toModel (m : ModelData) : Model :=
  { material := m.m_material, vertices := m.m_vertices.length, indices := m.m_indices.length }

/-- The scene with every model reduced to the sizes of its vectors. -/
def Scene.toResources (s : Scene) : Resources :=
  { models := fun name => (s.models name).map ModelData.toModel,
    textures := s.textures, materials := s.materials }

/-- The scene with no entry. -/
def Scene.empty : Scene :=
  { models := fun _ => none, textures := fun _ => none, materials := fun _ => none }

/-- The conversion of an `int` to `size_t` on a 64-bit target. -/
def toSizeT (i : Int) : Nat := (i % 2 ^ 64).toNat

/-- The call `map.try_emplace(key, args...)`: an existing entry is kept. -/
def tryEmplace {α : Type} (map : String → Option α) (key : String) (value : α) :
    String → Option α :=
  fun k => if k = key then (match map key with
    | some old => some old
    | none => some value) else map k

/-- The constructor `Texture::Texture`: `m_width * m_height * 4` is computed in
`uint32_t`. -/
def Texture.create (fs : FileSystem) (filepath : String) : Except String Texture :=
  match fs.stbi_load filepath with
  | some (width, height) =>
    let m_width := width % 2 ^ 32
    let m_height := height % 2 ^ 32
    .ok { data := m_width * m_height * 4 % 2 ^ 32, width := m_width, height := m_height }
  | none => .error ("failed to load texture at: " ++ filepath)

/-- One assignment of the constructor of `Material`: the joined path for a
texture name that is not empty. -/
def texturePath (fs : FileSystem) (texture_root texname : String) : String :=
  if texname = "" then "" else fs.join texture_root texname

/-- The constructor `Material::Material`. -/
def Material.create (fs : FileSystem) (texture_root : String) (material : material_t) :
    Material :=
  { textures :=
      [texturePath fs texture_root material.diffuse_texname,
       texturePath fs texture_root material.normal_texname,
       texturePath fs texture_root material.metallic_texname,
       texturePath fs texture_root material.roughness_texname,
       texturePath fs texture_root material.ambient_texname,
       texturePath fs texture_root material.emissive_texname],
    diffuse := material.diffuse, ambient := material.ambient, emission := material.emission,
    roughness := material.roughness, metalness := material.metallic }

/-- The loop `for (auto& texture_name : item->second.m_textures)`, with the
textures so far; a texture that fails to load throws. -/
def loadTextures (fs : FileSystem) :
    List String → (String → Option Texture) → (String → Option Texture) × Except String Unit
  | [], textures => (textures, .ok ())
  | texture_name :: rest, textures =>
    if texture_name = "" then loadTextures fs rest textures
    else
      match textures texture_name with
      | some _ => loadTextures fs rest textures
      | none =>
        match Texture.create fs texture_name with
        | .error e => (textures, .error e)
        | .ok texture =>
          loadTextures fs rest (fun k => if k = texture_name then some texture else textures k)

/-- The name `load` gives material `i` of the file. -/
def materialName (stem : String) (i : Nat) (material : material_t) : String :=
  if material.name = "" then stem ++ "." ++ material.name
  else stem ++ "." ++ ("mat" ++ toString i)

/-- The loop `for (size_t i{0}; i < obj_materials.size(); i++)` continued at
index `i`: the scene, and `material_names` unless a texture failed to load. -/
def materialsFrom (fs : FileSystem) (stem root_path : String) :
    List material_t → Nat → Scene → List String → Scene × Except String (List String)
  | [], _, resources, material_names => (resources, .ok material_names)
  | material :: rest, i, resources, material_names =>
    let name := materialName stem i material
    match resources.materials name with
    | some _ => materialsFrom fs stem root_path rest (i + 1) resources (material_names ++ [name])
    | none =>
      let item := Material.create fs root_path material
      let materials := fun k => if k = name then some item else resources.materials k
      match loadTextures fs item.textures resources.textures with
      | (textures, .error e) =>
        ({ resources with materials := materials, textures := textures }, .error e)
      | (textures, .ok _) =>
        materialsFrom fs stem root_path rest (i + 1)
          { resources with materials := materials, textures := textures }
          (material_names ++ [name])

/-- The pair of vectors kept per material id. -/
structure MeshData where
  vertices : List Model.Vertex
  indices : List Nat
  deriving DecidableEq, Repr

/-- The two `push_back` calls: `vertices.size()` is converted to `uint32_t`. -/
def MeshData.push (d : MeshData) (vert : Model.Vertex) : MeshData :=
  { vertices := d.vertices ++ [vert], indices := d.indices ++ [d.vertices.length % 2 ^ 32] }

/-- The local `data` of `load`, a `std::unordered_map` from `size_t` to a pair
of vectors: the keys in insertion order, and the pair stored under a key (the
empty pair when the key is absent, as `operator[]` creates it). -/
structure MeshMap where
  keys : List Nat
  get : Nat → MeshData

/-- The empty map. -/
def MeshMap.empty : MeshMap := { keys := [], get := fun _ => { vertices := [], indices := [] } }

/-- The map after `data[key]` was created if absent and its pair replaced. -/
def MeshMap.set (data : MeshMap) (key : Nat) (d : MeshData) : MeshMap :=
  { keys := if key ∈ data.keys then data.keys else data.keys ++ [key],
    get := fun k => if k = key then d else data.get k }

/-- The three elements of a `float` array from position `start`, as `memcpy`
reads them. -/
def read3 (floats : List Nat) (start : Nat) : Except String (Nat × Nat × Nat) :=
  match floats[start]?, floats[start + 1]?, floats[start + 2]? with
  | some x, some y, some z => .ok (x, y, z)
  | _, _, _ => .error "attribute index out of range"

/-- The two elements of a `float` array from position `start`. -/
def read2 (floats : List Nat) (start : Nat) : Except String (Nat × Nat) :=
  match floats[start]?, floats[start + 1]? with
  | some x, some y => .ok (x, y)
  | _, _ => .error "attribute index out of range"

/-- The body of the loop over the three corners of a face up to the two
`push_back` calls: the vertex built for `index`. -/
def makeVertex (attrib : attrib_t) (index : index_t) : Except String Model.Vertex :=
  match read3 attrib.vertices (wrap64 (3 * toSizeT index.vertex_index)) with
  | .error e => .error e
  | .ok pos =>
    match (if 0 ≤ index.normal_index
        then read3 attrib.normals (wrap64 (3 * toSizeT index.normal_index))
        else .ok (0, 0, 0)) with
    | .error e => .error e
    | .ok norm =>
      match (if 0 ≤ index.texcoord_index
          then read2 attrib.texcoords (wrap64 (2 * toSizeT index.texcoord_index))
          else .ok (0, 0)) with
      | .error e => .error e
      | .ok tex => .ok { pos := pos, norm := norm, tex := tex }

/-- The loop `for (size_t v{0}; v < 3; v++)` with `count` corners left. -/
def cornersFrom (attrib : attrib_t) (mesh : mesh_t) (index_offset : Nat) :
    Nat → Nat → MeshData → Except String MeshData
  | 0, _, d => .ok d
  | count + 1, v, d =>
    match mesh.indices[wrap64 (index_offset + v)]? with
    | none => .error "mesh.indices index out of range"
    | some index =>
      match makeVertex attrib index with
      | .error e => .error e
      | .ok vert => cornersFrom attrib mesh index_offset count (v + 1) (d.push vert)

/-- The loop `for (size_t f{0}; f < mesh.num_face_vertices.size(); f++)` with
`count` faces left. -/
def facesFrom (attrib : attrib_t) (mesh : mesh_t) :
    Nat → Nat → Nat → MeshMap → Except String MeshMap
  | 0, _, _, data => .ok data
  | count + 1, f, index_offset, data =>
    match mesh.material_ids[f]? with
    | none => .error "material_ids index out of range"
    | some id =>
      let key := toSizeT id
      match cornersFrom attrib mesh index_offset 3 0 (data.get key) with
      | .error e => .error e
      | .ok d => facesFrom attrib mesh count (f + 1) (wrap64 (index_offset + 3)) (data.set key d)

/-- The value of `std::string(name.begin() + name.find('.') + 1, name.end())`:
the characters after the first dot, and the whole string when there is no dot
(`npos + 1` is zero). -/
def afterFirstDot (name : String) : String :=
  match name.toList.dropWhile (fun c => c != '.') with
  | [] => name
  | _ :: rest => String.mk rest

/-- The loop `for (auto& [material_id, mesh_data] : data)` over the keys in
enumeration order, with the models so far. -/
def insertModels (stem shape_name : String) (material_names : List String) (data : MeshMap) :
    List Nat → (String → Option ModelData) → (String → Option ModelData) × Except String Unit
  | [], models => (models, .ok ())
  | material_id :: rest, models =>
    match material_names[material_id]? with
    | none => (models, .error "material_names index out of range")
    | some material_name =>
      let model_name := stem ++ "." ++ shape_name ++ "." ++ afterFirstDot material_name
      insertModels stem shape_name material_names data rest
        (tryEmplace models model_name
          { m_material := material_name, m_vertices := (data.get material_id).vertices,
            m_indices := (data.get material_id).indices })

/-- The loop `for (size_t i{0}; i < obj_shapes.size(); i++)`. -/
def shapesLoop (order : KeyOrder) (stem : String) (attrib : attrib_t)
    (material_names : List String) :
    List shape_t → (String → Option ModelData) → (String → Option ModelData) × Except String Unit
  | [], models => (models, .ok ())
  | shape :: rest, models =>
    match facesFrom attrib shape.mesh shape.mesh.num_face_vertices.length 0 0 MeshMap.empty with
    | .error e => (models, .error e)
    | .ok data =>
      match insertModels stem shape.name material_names data (order.iterate data.keys) models with
      | (inserted, .error e) => (inserted, .error e)
      | (inserted, .ok _) => shapesLoop order stem attrib material_names rest inserted

/-- The function `Model::load`: the scene when the call returns or throws, and
whether it threw. `filepath` is the path of the file, `stem` and `root_path`
its stem and parent path, and `parsed` is the reader after `ParseFromFile`, or
the text of `reader.Error()` when that call returns false. -/
def Model.load (fs : FileSystem) (order : KeyOrder) (filepath stem root_path : String)
    (parsed : Except String ObjReader) (resources : Scene) : Scene × Except String Unit :=
  match parsed with
  | .error message =>
    (resources, .error ("failed to load model at path: " ++ filepath ++
      (if message = "" then "" else "\n" ++ message)))
  | .ok reader =>
    match materialsFrom fs stem root_path reader.materials 0 resources [] with
    | (loaded, .error e) => (loaded, .error e)
    | (loaded, .ok material_names) =>
      match shapesLoop order stem reader.attrib material_names reader.shapes loaded.models with
      | (models, result) => ({ loaded with models := models }, result)

/-- The faces of `mesh` whose material id converts to `key`. -/
def facesOf (mesh : mesh_t) (key : Nat) : Nat :=
  ((mesh.material_ids.take mesh.num_face_vertices.length).map toSizeT).count key

/-- A file system whose `join` puts a slash between the two strings and on
which every image is 2 by 2. -/
def exampleFiles : FileSystem :=
  { join := fun root name => root ++ "/" ++ name, stbi_load := fun _ => some (2, 2) }

/-- A parsed file with two materials, the second without a name, and one
shape of three triangles: the first and the third carry material 0, the
second material 1. -/
def exampleObj : ObjReader :=
  { attrib := { vertices := [10, 11, 12, 20, 21, 22, 30, 31, 32], normals := [1, 2, 3],
                texcoords := [5, 6] },
    materials := [{ name := "red", diffuse_texname := "red.png" }, { name := "" }],
    shapes := [{ name := "cube",
                 mesh := { indices := [⟨0, 0, 0⟩, ⟨1, -1, -1⟩, ⟨2, -1, -1⟩, ⟨2, -1, -1⟩,
                                       ⟨1, -1, -1⟩, ⟨0, -1, -1⟩, ⟨1, -1, -1⟩, ⟨2, -1, -1⟩,
                                       ⟨0, -1, -1⟩],
                           num_face_vertices := [3, 3, 3],
                           material_ids := [0, 1, 0] } }] }

/-- A parsed file without materials: the only face of its only shape has the
material id `-1` that `tinyobj` gives a face without material. -/
def unassignedObj : ObjReader :=
  { attrib := { vertices := [10, 11, 12, 20, 21, 22, 30, 31, 32], normals := [],
                texcoords := [] },
    materials := [],
    shapes := [{ name := "tri",
                 mesh := { indices := [⟨0, -1, -1⟩, ⟨1, -1, -1⟩, ⟨2, -1, -1⟩],
                           num_face_vertices := [3],
                           material_ids := [-1] } }] }

/-- The number of triangles of `largeObj`: three times it is `2 ^ 32 + 2`. -/
def largeFaceCount : Nat := 1431655766

/-- A mesh of `largeFaceCount` triangles, all on vertex 0 and all carrying
material 0. -/
def largeMesh : mesh_t :=
  { indices := List.replicate (3 * largeFaceCount) ⟨0, -1, -1⟩,
    num_face_vertices := List.replicate largeFaceCount 3,
    material_ids := List.replicate largeFaceCount 0 }

/-- A parsed file with one material and the one shape `largeMesh`. -/
def largeObj : ObjReader :=
  { attrib := { vertices := [10, 11, 12], normals := [], texcoords := [] },
    materials := [{ name := "red" }],
    shapes := [{ name := "s", mesh := largeMesh }] }

/-- The indices of a pair count the vertices from zero, each converted to
`uint32_t`. -/
def MeshData.Counted (d : MeshData) : Prop :=
  d.indices = (List.range d.vertices.length).map (fun k => k % 2 ^ 32)

/-- The name `load` gives the model of a shape and a material name. -/
def modelName (stem shape_name material_name : String) : String :=
  stem ++ "." ++ shape_name ++ "." ++ afterFirstDot material_name

/-- The reads `load` makes in a mesh are in range: the face count times three
fits `size_t`, every face has a material id that is a position of
`material_names`, and every corner has an index whose attributes exist. -/
def mesh_t.WellFormed (attrib : attrib_t) (materials : Nat) (mesh : mesh_t) : Prop :=
  3 * mesh.num_face_vertices.length < 2 ^ 64 ∧
  (∀ f, f < mesh.num_face_vertices.length →
    ∃ id, mesh.material_ids[f]? = some id ∧ toSizeT id < materials) ∧
  ∀ j, j < 3 * mesh.num_face_vertices.length →
    ∃ index vert, mesh.indices[j]? = some index ∧ makeVertex attrib index = .ok vert

/-! ## Arithmetic of the aligned offset -/

theorem alignUp_eq (run a : Nat) (ha : 1 ≤ a) :
    (run + (a - 1)) / a * a = alignUp run a := by
  unfold alignUp ceilDiv
  congr 1
  have hdm := Nat.div_add_mod run a
  have hlt := Nat.mod_lt run ha
  have hc := Nat.mul_comm a (run / a)
  split
  · apply Nat.div_eq_of_lt_le
    · omega
    · rw [Nat.succ_mul]; omega
  · apply Nat.div_eq_of_lt_le
    · rw [Nat.succ_mul]; omega
    · rw [Nat.succ_mul, Nat.succ_mul]; omega

theorem alignUp_ge (run a : Nat) (ha : 1 ≤ a) : run ≤ alignUp run a := by
  unfold alignUp ceilDiv
  have hdm := Nat.div_add_mod run a
  have hlt := Nat.mod_lt run ha
  have hc := Nat.mul_comm a (run / a)
  split
  · omega
  · rw [Nat.succ_mul]; omega

theorem alignUp_lt (run a : Nat) (ha : 1 ≤ a) : alignUp run a < run + a := by
  unfold alignUp ceilDiv
  have hdm := Nat.div_add_mod run a
  have hlt := Nat.mod_lt run ha
  have hc := Nat.mul_comm a (run / a)
  split
  · omega
  · rw [Nat.succ_mul]; omega

theorem alignUp_dvd (run a : Nat) : a ∣ alignUp run a := Dvd.intro_left _ rfl

theorem alignUp_least (run a m : Nat) (ha : 1 ≤ a) (hm : a ∣ m) (hr : run ≤ m) :
    alignUp run a ≤ m := by
  obtain ⟨k, rfl⟩ := hm
  have h1 := alignUp_lt run a ha
  obtain ⟨j, hj⟩ := alignUp_dvd run a
  rw [hj] at h1 ⊢
  have h2 : a * j < a * (k + 1) := by rw [Nat.mul_succ]; omega
  have h3 := Nat.lt_of_mul_lt_mul_left h2
  exact Nat.mul_le_mul_left a (by omega)

/-! ## The lambda `memoryOffset` -/

theorem memoryOffset_fst_mod (s : AllocState) (req : VkMemoryRequirements) :
    (memoryOffset s req).1 % req.alignment = 0 := by
  simp only [memoryOffset, wrap64]
  have hy : (s.alloc_size + (req.alignment + (2 ^ 64 - 1)) % 2 ^ 64) % 2 ^ 64 < 2 ^ 64 :=
    Nat.mod_lt _ (by norm_num)
  have hle := Nat.div_mul_le_self
    ((s.alloc_size + (req.alignment + (2 ^ 64 - 1)) % 2 ^ 64) % 2 ^ 64) req.alignment
  rw [Nat.mod_eq_of_lt (lt_of_le_of_lt hle hy)]
  exact Nat.mul_mod_left _ _

theorem memoryOffset_type_bits (s : AllocState) (req : VkMemoryRequirements) :
    (memoryOffset s req).2.type_bits = s.type_bits &&& req.memoryTypeBits := rfl

theorem memoryOffset_fit (s : AllocState) (req : VkMemoryRequirements)
    (ha : 1 ≤ req.alignment) (h1 : s.alloc_size + (req.alignment - 1) < 2 ^ 64)
    (h2 : alignUp s.alloc_size req.alignment + req.size < 2 ^ 64) :
    (memoryOffset s req).1 = alignUp s.alloc_size req.alignment ∧
    (memoryOffset s req).2.alloc_size = alignUp s.alloc_size req.alignment + req.size := by
  have e1 : (req.alignment + (2 ^ 64 - 1)) % 2 ^ 64 = req.alignment - 1 := by omega
  have e2 : (s.alloc_size + (req.alignment - 1)) % 2 ^ 64
      = s.alloc_size + (req.alignment - 1) := Nat.mod_eq_of_lt h1
  have e3 : alignUp s.alloc_size req.alignment % 2 ^ 64 = alignUp s.alloc_size req.alignment :=
    Nat.mod_eq_of_lt (by omega)
  simp only [memoryOffset, wrap64, e1, e2, alignUp_eq _ _ ha, e3, Nat.mod_eq_of_lt h2, and_self]

/-! ## The walk over a list of requirements -/

theorem memoryOffsets_length (s : AllocState) (l : List VkMemoryRequirements) :
    (memoryOffsets s l).1.length = l.length := by
  induction l generalizing s with
  | nil => rfl
  | cons r rs ih => simp [memoryOffsets, ih]

theorem memoryOffsets_type_bits (s : AllocState) (l : List VkMemoryRequirements) :
    (memoryOffsets s l).2.type_bits
      = l.foldl (fun acc req => acc &&& req.memoryTypeBits) s.type_bits := by
  induction l generalizing s with
  | nil => rfl
  | cons r rs ih => simp [memoryOffsets, ih, memoryOffset_type_bits]

theorem memoryOffsets_fit (s : AllocState) (l : List VkMemoryRequirements)
    (hal : ∀ r ∈ l, 1 ≤ r.alignment) (hf : fits64 s.alloc_size l = true) :
    (memoryOffsets s l).1 = (specOffsets s.alloc_size l).1 ∧
    (memoryOffsets s l).2.alloc_size = (specOffsets s.alloc_size l).2 := by
  induction l generalizing s with
  | nil => exact ⟨rfl, rfl⟩
  | cons r rs ih =>
    simp only [fits64, Bool.and_eq_true, decide_eq_true_eq] at hf
    obtain ⟨h1, h2, h3⟩ := hf
    obtain ⟨e1, e2⟩ := memoryOffset_fit s r (hal r (List.mem_cons_self _ _)) h1 h2
    have ih2 := ih (memoryOffset s r).2 (fun x hx => hal x (List.mem_cons_of_mem _ hx))
      (by rw [e2]; exact h3)
    rw [e2] at ih2
    simp only [memoryOffsets, specOffsets, e1, ih2, and_self]

theorem memoryOffsets_mod (s : AllocState) (l : List VkMemoryRequirements) :
    List.Forall₂ (fun off req => off % req.alignment = 0) (memoryOffsets s l).1 l := by
  induction l generalizing s with
  | nil => exact List.Forall₂.nil
  | cons r rs ih =>
    exact List.Forall₂.cons (memoryOffset_fst_mod s r) (ih _)

/-! ## The exact walk of the specification -/

theorem specOffsets_length (run : Nat) (l : List VkMemoryRequirements) :
    (specOffsets run l).1.length = l.length := by
  induction l generalizing run with
  | nil => rfl
  | cons r rs ih => simp [specOffsets, ih]

theorem specOffsets_mono (run : Nat) (l : List VkMemoryRequirements)
    (hal : ∀ r ∈ l, 1 ≤ r.alignment) : run ≤ (specOffsets run l).2 := by
  induction l generalizing run with
  | nil => exact le_refl _
  | cons r rs ih =>
    have h1 := alignUp_ge run r.alignment (hal r (List.mem_cons_self _ _))
    have h2 := ih (alignUp run r.alignment + r.size)
      (fun x hx => hal x (List.mem_cons_of_mem _ hx))
    simp only [specOffsets]
    omega

theorem specOffsets_bounds (run : Nat) (l : List VkMemoryRequirements)
    (hal : ∀ r ∈ l, 1 ≤ r.alignment) :
    ∀ p ∈ List.zip (specOffsets run l).1 (l.map VkMemoryRequirements.size),
      run ≤ p.1 ∧ p.1 + p.2 ≤ (specOffsets run l).2 := by
  induction l generalizing run with
  | nil => intro p hp; simp [specOffsets] at hp
  | cons r rs ih =>
    intro p hp
    have h1 := alignUp_ge run r.alignment (hal r (List.mem_cons_self _ _))
    have hal2 : ∀ x ∈ rs, 1 ≤ x.alignment := fun x hx => hal x (List.mem_cons_of_mem _ hx)
    have h2 := specOffsets_mono (alignUp run r.alignment + r.size) rs hal2
    simp only [specOffsets, List.map_cons, List.zip_cons_cons, List.mem_cons] at hp ⊢
    rcases hp with rfl | hp
    · exact ⟨h1, h2⟩
    · have := ih _ hal2 p hp
      omega

theorem specOffsets_pairwise (run : Nat) (l : List VkMemoryRequirements)
    (hal : ∀ r ∈ l, 1 ≤ r.alignment) :
    List.Pairwise (fun p q : Nat × Nat => p.1 + p.2 ≤ q.1)
      (List.zip (specOffsets run l).1 (l.map VkMemoryRequirements.size)) := by
  induction l generalizing run with
  | nil => simp [specOffsets]
  | cons r rs ih =>
    have hal2 : ∀ x ∈ rs, 1 ≤ x.alignment := fun x hx => hal x (List.mem_cons_of_mem _ hx)
    simp only [specOffsets, List.map_cons, List.zip_cons_cons, List.pairwise_cons]
    refine ⟨fun q hq => ?_, ih _ hal2⟩
    exact (specOffsets_bounds _ rs hal2 q hq).1

/-! ## What `allocateMemory` returns -/

theorem allocateMemory_ok (device : Device) (v i u : VkMemoryRequirements)
    (tex : List TextureRequirements) (a : Allocation)
    (h : allocateMemory device v i u tex = .ok a) :
    a.offsets = (memoryOffsets ⟨0, UINT32_MAX⟩ (walkOrder v i u tex)).1 ∧
    a.allocationSize = (memoryOffsets ⟨0, UINT32_MAX⟩ (walkOrder v i u tex)).2.alloc_size ∧
    device.getMemoryIndex (memoryOffsets ⟨0, UINT32_MAX⟩ (walkOrder v i u tex)).2.type_bits
      VK_MEMORY_PROPERTY_DEVICE_LOCAL_BIT = .ok a.memoryTypeIndex ∧
    a.image_bindings = List.zip (tex.map Prod.fst) a.texture_offsets := by
  unfold allocateMemory at h
  simp only at h
  split at h
  · exact absurd h (by simp)
  · next idx hidx =>
    split at h
    · cases h
      exact ⟨rfl, rfl, hidx, rfl⟩
    · exact absurd h (by simp)


/-! ## Claims on `allocateMemory` -/

theorem image_bindings_aligned (s : AllocState) (tex : List TextureRequirements) :
    List.Forall₂ (fun (b : Nat × Nat) (t : TextureRequirements) =>
        b.1 = t.1 ∧ b.2 % t.2.alignment = 0)
      (List.zip (tex.map Prod.fst) (memoryOffsets s (tex.map Prod.snd)).1) tex := by
  induction tex generalizing s with
  | nil => exact List.Forall₂.nil
  | cons t ts ih =>
    simp only [List.map_cons, memoryOffsets, List.zip_cons_cons]
    exact List.Forall₂.cons ⟨rfl, memoryOffset_fst_mod s t.2⟩ (ih _)

theorem allocateMemory_spec_eq (device : Device) (v i u : VkMemoryRequirements)
    (tex : List TextureRequirements) (a : Allocation)
    (hal : ∀ r ∈ walkOrder v i u tex, 1 ≤ r.alignment)
    (hfit : fits64 0 (walkOrder v i u tex) = true)
    (h : allocateMemory device v i u tex = .ok a) :
    a.offsets = (specOffsets 0 (walkOrder v i u tex)).1 ∧
    a.allocationSize = (specOffsets 0 (walkOrder v i u tex)).2 := by
  obtain ⟨h1, h2, _, _⟩ := allocateMemory_ok device v i u tex a h
  obtain ⟨e1, e2⟩ := memoryOffsets_fit ⟨0, UINT32_MAX⟩ (walkOrder v i u tex) hal hfit
  exact ⟨h1.trans e1, h2.trans e2⟩

/-- C1 (amended): when every alignment is at least one and no 64-bit addition
of the walk wraps (`fits64`), the byte ranges `[offset, offset + size)` at which
`allocateMemory` binds any two distinct resources are disjoint. -/
theorem allocateMemory_ranges_disjoint (device : Device) (v i u : VkMemoryRequirements)
    (tex : List TextureRequirements) (a : Allocation)
    (hal : ∀ r ∈ walkOrder v i u tex, 1 ≤ r.alignment)
    (hfit : fits64 0 (walkOrder v i u tex) = true)
    (h : allocateMemory device v i u tex = .ok a) :
    List.Pairwise (fun p q => Disjoint (byteRange p) (byteRange q))
      (boundRanges a v i u tex) := by
  obtain ⟨e1, _⟩ := allocateMemory_spec_eq device v i u tex a hal hfit h
  unfold boundRanges
  rw [e1]
  refine List.Pairwise.imp ?_ (specOffsets_pairwise 0 (walkOrder v i u tex) hal)
  intro p q hpq
  rw [Set.disjoint_left]
  intro x hx hy
  simp only [byteRange, Set.mem_Ico] at hx hy
  omega

/-- Witness of C1 on the example requirements. -/
theorem allocateMemory_ranges_disjoint_witness :
    (∀ r ∈ walkOrder exampleVertexReq exampleIndexReq exampleUniformReq exampleTextureReqs,
      1 ≤ r.alignment) ∧
    fits64 0 (walkOrder exampleVertexReq exampleIndexReq exampleUniformReq
      exampleTextureReqs) = true ∧
    allocateMemory exampleDevice exampleVertexReq exampleIndexReq exampleUniformReq
      exampleTextureReqs = .ok exampleAllocation ∧
    List.Pairwise (fun p q => Disjoint (byteRange p) (byteRange q))
      (boundRanges exampleAllocation exampleVertexReq exampleIndexReq exampleUniformReq
        exampleTextureReqs) :=
  ⟨by decide, by decide, rfl,
    allocateMemory_ranges_disjoint exampleDevice exampleVertexReq exampleIndexReq
      exampleUniformReq exampleTextureReqs exampleAllocation (by decide) (by decide) rfl⟩

/-- Counterexample to C1 as stated: with two buffers of `2 ^ 63` bytes the
running size wraps to zero, the uniform buffer is bound at offset 0 and byte 0
lies both in the vertex buffer's range and in the uniform buffer's range,
although every alignment is at least one. -/
theorem allocateMemory_overlap_counterexample :
    (∀ r ∈ walkOrder hugeReq hugeReq exampleUniformReq placeholderReqs, 1 ≤ r.alignment) ∧
    ∃ a, allocateMemory exampleDevice hugeReq hugeReq exampleUniformReq placeholderReqs
        = .ok a ∧
      ¬ List.Pairwise (fun p q => Disjoint (byteRange p) (byteRange q))
        (boundRanges a hugeReq hugeReq exampleUniformReq placeholderReqs) := by
  refine ⟨by decide, ⟨68, 1, 0, 2 ^ 63, 0, [64], [(0, 64)]⟩, by rfl, ?_⟩
  intro hp
  have hb : boundRanges ⟨68, 1, 0, 2 ^ 63, 0, [64], [(0, 64)]⟩
      hugeReq hugeReq exampleUniformReq placeholderReqs
      = [(0, 2 ^ 63), (2 ^ 63, 2 ^ 63), (0, 64), (64, 4)] := rfl
  rw [hb, List.pairwise_cons] at hp
  have hd := hp.1 (0, 64) (by simp)
  rw [Set.disjoint_left] at hd
  exact hd (show (0 : Nat) ∈ byteRange (0, 2 ^ 63) by simp [byteRange])
    (show (0 : Nat) ∈ byteRange (0, 64) by simp [byteRange])

/-- C2: when every alignment is at least one, every offset at which
`allocateMemory` binds a buffer or an image is a multiple of that resource's own
required alignment; image `index` is bound at the offset computed from the
requirements paired with `index`. This holds also when the running size wraps. -/
theorem allocateMemory_offsets_aligned (device : Device) (v i u : VkMemoryRequirements)
    (tex : List TextureRequirements) (a : Allocation)
    (_hal : ∀ r ∈ walkOrder v i u tex, 1 ≤ r.alignment)
    (h : allocateMemory device v i u tex = .ok a) :
    a.vertex_offset % v.alignment = 0 ∧ a.index_offset % i.alignment = 0 ∧
    a.uniform_offset % u.alignment = 0 ∧
    List.Forall₂ (fun (b : Nat × Nat) (t : TextureRequirements) =>
        b.1 = t.1 ∧ b.2 % t.2.alignment = 0) a.image_bindings tex := by
  obtain ⟨h1, _, _, h4⟩ := allocateMemory_ok device v i u tex a h
  simp only [Allocation.offsets, walkOrder, memoryOffsets, List.cons.injEq] at h1
  obtain ⟨hv, hi, hu, ht⟩ := h1
  refine ⟨?_, ?_, ?_, ?_⟩
  · rw [hv]; exact memoryOffset_fst_mod _ _
  · rw [hi]; exact memoryOffset_fst_mod _ _
  · rw [hu]; exact memoryOffset_fst_mod _ _
  · rw [h4, ht]; exact image_bindings_aligned _ tex

/-- Witness of C2 on the example requirements. -/
theorem allocateMemory_offsets_aligned_witness :
    (∀ r ∈ walkOrder exampleVertexReq exampleIndexReq exampleUniformReq exampleTextureReqs,
      1 ≤ r.alignment) ∧
    allocateMemory exampleDevice exampleVertexReq exampleIndexReq exampleUniformReq
      exampleTextureReqs = .ok exampleAllocation ∧
    (exampleAllocation.vertex_offset % exampleVertexReq.alignment = 0 ∧
      exampleAllocation.index_offset % exampleIndexReq.alignment = 0 ∧
      exampleAllocation.uniform_offset % exampleUniformReq.alignment = 0 ∧
      List.Forall₂ (fun (b : Nat × Nat) (t : TextureRequirements) =>
          b.1 = t.1 ∧ b.2 % t.2.alignment = 0)
        exampleAllocation.image_bindings exampleTextureReqs) :=
  ⟨by decide, rfl,
    allocateMemory_offsets_aligned exampleDevice exampleVertexReq exampleIndexReq
      exampleUniformReq exampleTextureReqs exampleAllocation (by decide) rfl⟩

/-- C3 (amended): when every alignment is at least one and no 64-bit addition
of the walk wraps (`fits64`), the offsets of `allocateMemory`, taken in the
order vertex, index, uniform, textures in their given order, and its
`allocationSize` are those of the walk of the specification started at running
size 0 (`specOffsets`), whose offset `alignUp` is the smallest multiple of the
alignment that is at least the running size; every bound range ends at or
before `allocationSize`. -/
theorem allocateMemory_layout_spec (device : Device) (v i u : VkMemoryRequirements)
    (tex : List TextureRequirements) (a : Allocation)
    (hal : ∀ r ∈ walkOrder v i u tex, 1 ≤ r.alignment)
    (hfit : fits64 0 (walkOrder v i u tex) = true)
    (h : allocateMemory device v i u tex = .ok a) :
    (a.offsets, a.allocationSize) = specOffsets 0 (walkOrder v i u tex) ∧
    (∀ run al, 1 ≤ al →
      al ∣ alignUp run al ∧ run ≤ alignUp run al ∧
        ∀ m, al ∣ m → run ≤ m → alignUp run al ≤ m) ∧
    ∀ p ∈ boundRanges a v i u tex, p.1 + p.2 ≤ a.allocationSize := by
  obtain ⟨e1, e2⟩ := allocateMemory_spec_eq device v i u tex a hal hfit h
  refine ⟨by rw [e1, e2], ?_, ?_⟩
  · intro run al hal1
    exact ⟨alignUp_dvd run al, alignUp_ge run al hal1,
      fun m hm hr => alignUp_least run al m hal1 hm hr⟩
  · intro p hp
    unfold boundRanges at hp
    rw [e1] at hp
    rw [e2]
    exact (specOffsets_bounds 0 (walkOrder v i u tex) hal p hp).2

/-- Witness of C3 on the example requirements. -/
theorem allocateMemory_layout_spec_witness :
    (∀ r ∈ walkOrder exampleVertexReq exampleIndexReq exampleUniformReq exampleTextureReqs,
      1 ≤ r.alignment) ∧
    fits64 0 (walkOrder exampleVertexReq exampleIndexReq exampleUniformReq
      exampleTextureReqs) = true ∧
    allocateMemory exampleDevice exampleVertexReq exampleIndexReq exampleUniformReq
      exampleTextureReqs = .ok exampleAllocation ∧
    (exampleAllocation.offsets, exampleAllocation.allocationSize)
      = specOffsets 0 (walkOrder exampleVertexReq exampleIndexReq exampleUniformReq
          exampleTextureReqs) ∧
    ∀ p ∈ boundRanges exampleAllocation exampleVertexReq exampleIndexReq exampleUniformReq
        exampleTextureReqs, p.1 + p.2 ≤ exampleAllocation.allocationSize :=
  have w := allocateMemory_layout_spec exampleDevice exampleVertexReq exampleIndexReq
      exampleUniformReq exampleTextureReqs exampleAllocation (by decide) (by decide) rfl
  ⟨by decide, by decide, rfl, w.1, w.2.2⟩

/-- Counterexample to C3 as stated: after a vertex buffer of `2 ^ 64 - 16`
bytes and an index buffer of 32 bytes the running size wraps to 16 instead of
`2 ^ 64 + 16`; the uniform buffer is bound at 256, which is not the offset of
the specification's walk, and the block is allocated with 324 bytes, less than
the end of the vertex buffer's range. -/
theorem allocateMemory_layout_counterexample :
    (∀ r ∈ walkOrder almostFullReq smallIndexReq exampleUniformReq placeholderReqs,
      1 ≤ r.alignment) ∧
    ∃ a, allocateMemory exampleDevice almostFullReq smallIndexReq exampleUniformReq
        placeholderReqs = .ok a ∧
      (a.offsets, a.allocationSize)
        ≠ specOffsets 0 (walkOrder almostFullReq smallIndexReq exampleUniformReq
            placeholderReqs) ∧
      ¬ ∀ p ∈ boundRanges a almostFullReq smallIndexReq exampleUniformReq placeholderReqs,
        p.1 + p.2 ≤ a.allocationSize := by
  refine ⟨by decide, ⟨324, 1, 0, 2 ^ 64 - 16, 256, [320], [(0, 320)]⟩, by rfl, by decide, ?_⟩
  intro hp
  have := hp (0, 2 ^ 64 - 16) (by decide)
  exact absurd this (by decide)

/-! ## Claims on `Device::getMemoryIndex` -/

theorem two_pow_and_ne_zero (i n : Nat) : (2 ^ i &&& n ≠ 0) ↔ n.testBit i = true := by
  constructor
  · intro h
    obtain ⟨j, hj⟩ := Nat.ne_zero_implies_bit_true h
    rw [Nat.testBit_and, Nat.testBit_two_pow] at hj
    simp only [Bool.and_eq_true, decide_eq_true_eq] at hj
    rw [hj.1]; exact hj.2
  · intro h h0
    have : (2 ^ i &&& n).testBit i = true := by
      rw [Nat.testBit_and, Nat.testBit_two_pow_self, h]; rfl
    rw [h0] at this
    simp at this

theorem memoryTypeMatches_iff (mp : VkPhysicalDeviceMemoryProperties)
    (type_bits properties i : Nat) (hi : i < 32) :
    memoryTypeMatches mp type_bits properties i = true ↔ Suitable mp type_bits properties i := by
  have hlt : 2 ^ i < 2 ^ 32 := Nat.pow_lt_pow_right (by norm_num) hi
  unfold memoryTypeMatches Suitable
  rw [Nat.one_shiftLeft, Nat.mod_eq_of_lt hlt]
  simp only [Bool.and_eq_true, bne_iff_ne, beq_iff_eq]
  rw [two_pow_and_ne_zero]

theorem getMemoryIndexLoop_ok (mp : VkPhysicalDeviceMemoryProperties)
    (type_bits properties : Nat) (n i k : Nat) (hn : i + n ≤ 32) :
    getMemoryIndexLoop mp type_bits properties i n = .ok k ↔
      (i ≤ k ∧ k < i + n ∧ Suitable mp type_bits properties k ∧
        ∀ j, i ≤ j → j < k → ¬ Suitable mp type_bits properties j) := by
  induction n generalizing i with
  | zero =>
    simp only [getMemoryIndexLoop, Nat.add_zero]
    constructor
    · intro h; cases h
    · rintro ⟨h1, h2, _⟩; omega
  | succ n ih =>
    have hm := memoryTypeMatches_iff mp type_bits properties i (by omega)
    simp only [getMemoryIndexLoop]
    split
    · next hmatch =>
      have hs := hm.1 hmatch
      constructor
      · intro h
        cases h
        exact ⟨le_refl _, by omega, hs, fun j h1 h2 => by omega⟩
      · rintro ⟨h1, _, _, h4⟩
        rcases Nat.eq_or_lt_of_le h1 with h | h
        · rw [h]
        · exact absurd hs (h4 i (le_refl _) h)
    · next hmatch =>
      have hs : ¬ Suitable mp type_bits properties i := fun h => hmatch (hm.2 h)
      rw [ih (i + 1) (by omega)]
      constructor
      · rintro ⟨h1, h2, h3, h4⟩
        refine ⟨by omega, by omega, h3, fun j hj1 hj2 => ?_⟩
        rcases Nat.eq_or_lt_of_le hj1 with h | h
        · rw [← h]; exact hs
        · exact h4 j h hj2
      · rintro ⟨h1, h2, h3, h4⟩
        have hne : i ≠ k := fun h => hs (h ▸ h3)
        exact ⟨by omega, by omega, h3, fun j hj1 hj2 => h4 j (by omega) hj2⟩

theorem getMemoryIndexLoop_error (mp : VkPhysicalDeviceMemoryProperties)
    (type_bits properties : Nat) (n i : Nat) (hn : i + n ≤ 32) :
    (∃ e, getMemoryIndexLoop mp type_bits properties i n = .error e) ↔
      ¬ ∃ k, i ≤ k ∧ k < i + n ∧ Suitable mp type_bits properties k := by
  induction n generalizing i with
  | zero =>
    simp only [getMemoryIndexLoop, Nat.add_zero]
    constructor
    · rintro _ ⟨k, h1, h2, _⟩; omega
    · intro _; exact ⟨_, rfl⟩
  | succ n ih =>
    have hm := memoryTypeMatches_iff mp type_bits properties i (by omega)
    simp only [getMemoryIndexLoop]
    split
    · next hmatch =>
      constructor
      · rintro ⟨e, he⟩; cases he
      · intro h; exact absurd ⟨i, le_refl _, by omega, hm.1 hmatch⟩ h
    · next hmatch =>
      have hs : ¬ Suitable mp type_bits properties i := fun h => hmatch (hm.2 h)
      rw [ih (i + 1) (by omega)]
      constructor
      · rintro h ⟨k, h1, h2, h3⟩
        rcases Nat.eq_or_lt_of_le h1 with e | e
        · exact hs (e ▸ h3)
        · exact h ⟨k, e, by omega, h3⟩
      · rintro h ⟨k, h1, h2, h3⟩
        exact h ⟨k, by omega, by omega, h3⟩

theorem combinedTypeBits_foldl_testBit (l : List VkMemoryRequirements) (init b : Nat) :
    (l.foldl (fun acc req => acc &&& req.memoryTypeBits) init).testBit b
      = (init.testBit b && l.all (fun req => req.memoryTypeBits.testBit b)) := by
  induction l generalizing init with
  | nil => simp
  | cons r rs ih => simp [ih, Nat.testBit_and, Bool.and_assoc]

/-- C4: the memory type of the pack's block is
`getMemoryIndex m DEVICE_LOCAL`, where bit `b` of `m` is set exactly when
`b < 32` and bit `b` is set in the `memoryTypeBits` of the three buffers and
of every image; for a device with at most `VK_MAX_MEMORY_TYPES` memory types,
`getMemoryIndex` returns `i` exactly when `i` is the smallest index below
`memoryTypeCount` that is suitable, and throws exactly when no index below
`memoryTypeCount` is suitable. -/
theorem getMemoryIndex_spec (device : Device) (type_bits properties : Nat)
    (hcount : device.memory_properties.memoryTypeCount ≤ VK_MAX_MEMORY_TYPES) :
    (∀ i, device.getMemoryIndex type_bits properties = .ok i ↔
      (i < device.memory_properties.memoryTypeCount ∧
        Suitable device.memory_properties type_bits properties i ∧
        ∀ j, j < i → ¬ Suitable device.memory_properties type_bits properties j)) ∧
    ((∃ e, device.getMemoryIndex type_bits properties = .error e) ↔
      ¬ ∃ i, i < device.memory_properties.memoryTypeCount ∧
        Suitable device.memory_properties type_bits properties i) ∧
    (∀ v i u tex a, allocateMemory device v i u tex = .ok a →
      device.getMemoryIndex (combinedTypeBits (walkOrder v i u tex))
        VK_MEMORY_PROPERTY_DEVICE_LOCAL_BIT = .ok a.memoryTypeIndex) ∧
    (∀ (l : List VkMemoryRequirements) (b : Nat), (combinedTypeBits l).testBit b
      = (decide (b < 32) && l.all (fun req => req.memoryTypeBits.testBit b))) := by
  have h32 : 0 + device.memory_properties.memoryTypeCount ≤ 32 := by
    simpa [VK_MAX_MEMORY_TYPES] using hcount
  refine ⟨fun i => ?_, ?_, ?_, ?_⟩
  · unfold Device.getMemoryIndex
    rw [getMemoryIndexLoop_ok _ _ _ _ 0 i h32]
    simp
  · unfold Device.getMemoryIndex
    rw [getMemoryIndexLoop_error _ _ _ _ 0 h32]
    simp
  · intro v i u tex a h
    obtain ⟨_, _, h3, _⟩ := allocateMemory_ok device v i u tex a h
    rw [memoryOffsets_type_bits] at h3
    exact h3
  · intro l b
    unfold combinedTypeBits
    rw [combinedTypeBits_foldl_testBit]
    have hmax : UINT32_MAX.testBit b = decide (b < 32) := Nat.testBit_two_pow_sub_one 32 b
    rw [hmax]

/-- Witness of C4 on the example device: memory type 1 is the first
device-local type allowed by the mask 3. -/
theorem getMemoryIndex_spec_witness :
    exampleDevice.memory_properties.memoryTypeCount ≤ VK_MAX_MEMORY_TYPES ∧
    exampleDevice.getMemoryIndex 3 VK_MEMORY_PROPERTY_DEVICE_LOCAL_BIT = .ok 1 ∧
    (1 < exampleDevice.memory_properties.memoryTypeCount ∧
      Suitable exampleDevice.memory_properties 3 VK_MEMORY_PROPERTY_DEVICE_LOCAL_BIT 1 ∧
      ∀ j, j < 1 →
        ¬ Suitable exampleDevice.memory_properties 3 VK_MEMORY_PROPERTY_DEVICE_LOCAL_BIT j) :=
  ⟨by decide, rfl,
    ((getMemoryIndex_spec exampleDevice 3 VK_MEMORY_PROPERTY_DEVICE_LOCAL_BIT
      (by decide)).1 1).1 rfl⟩

/-! ## Hash containers -/

theorem mem_setInsert (s : List String) (x y : String) :
    y ∈ setInsert s x ↔ y ∈ s ∨ y = x := by
  unfold setInsert
  split
  · next h =>
    constructor
    · exact Or.inl
    · rintro (h1 | rfl)
      · exact h1
      · exact h
  · simp

theorem nodup_setInsert (s : List String) (x : String) (h : s.Nodup) :
    (setInsert s x).Nodup := by
  unfold setInsert
  split
  · exact h
  · next hx =>
    rw [List.nodup_append]
    refine ⟨h, List.nodup_singleton x, ?_⟩
    intro a ha hb
    simp only [List.mem_singleton] at hb
    exact hx (hb ▸ ha)

theorem emplaceIndices_some (names : List String) (i : Nat) (map : String → Option Nat)
    (x : String) (k : Nat) (h : emplaceIndices i names map x = some k) :
    map x = some k ∨ (i ≤ k ∧ names[k - i]? = some x) := by
  induction names generalizing i map with
  | nil => exact Or.inl h
  | cons n ns ih =>
    simp only [emplaceIndices] at h
    rcases ih (i + 1) _ h with h1 | ⟨h1, h2⟩
    · unfold mapEmplace at h1
      split at h1
      · next hx =>
        split at h1
        · next old hold => left; rw [hx, hold]; exact h1
        · next hnone =>
          right
          simp only [Option.some.injEq] at h1
          subst h1
          simp [hx]
      · exact Or.inl h1
    · right
      refine ⟨by omega, ?_⟩
      have : k - i = (k - (i + 1)) + 1 := by omega
      rw [this, List.getElem?_cons_succ]
      exact h2

theorem emplaceIndices_isSome (names : List String) (i : Nat) (map : String → Option Nat)
    (x : String) (h : x ∈ names ∨ (map x).isSome = true) :
    (emplaceIndices i names map x).isSome = true := by
  induction names generalizing i map with
  | nil =>
    rcases h with h | h
    · simp at h
    · exact h
  | cons n ns ih =>
    simp only [emplaceIndices]
    apply ih
    rcases h with h | h
    · rcases List.mem_cons.1 h with rfl | h
      · right
        unfold mapEmplace
        simp only [if_true]
        split <;> rfl
      · exact Or.inl h
    · right
      unfold mapEmplace
      split
      · next hx =>
        split <;> rfl
      · exact h

theorem indexMap_spec (names : List String) (x : String) (hx : x ∈ names) :
    ∃ k, indexMap names x = some k ∧ names[k]? = some x := by
  have h1 := emplaceIndices_isSome names 0 (fun _ => none) x (Or.inl hx)
  obtain ⟨k, hk⟩ := Option.isSome_iff_exists.1 h1
  refine ⟨k, hk, ?_⟩
  rcases emplaceIndices_some names 0 _ x k hk with h | ⟨_, h⟩
  · simp at h
  · simpa using h

/-! ## The first loop of `getResourceNames` -/

theorem sizingLoop_eq (resources : Resources) (names : List String) (ms : List Model)
    (st : SizingState) (h : Resolves resources names ms) :
    sizingLoop resources names st = .ok (ms.foldl sizingStep st) := by
  unfold Resolves at h
  induction h generalizing st with
  | nil => rfl
  | cons hnm _ ih =>
    simp only [sizingLoop, mapAt, hnm, List.foldl_cons]
    exact ih _

theorem foldl_sizingStep_model_offsets (ms : List Model) (st : SizingState) :
    (ms.foldl sizingStep st).model_offsets
      = st.model_offsets ++ entriesFrom st.vertex_offset st.index_offset ms := by
  induction ms generalizing st with
  | nil => simp [entriesFrom]
  | cons m ms ih =>
    rw [List.foldl_cons, ih]
    simp [sizingStep, entriesFrom]

theorem foldl_sizingStep_unique_materials (ms : List Model) (st : SizingState) :
    (ms.foldl sizingStep st).unique_materials
      = (ms.map Model.material).foldl setInsert st.unique_materials := by
  induction ms generalizing st with
  | nil => rfl
  | cons m ms ih =>
    rw [List.foldl_cons, ih]
    simp [sizingStep]

theorem foldl_sizingStep_vertex_buffer_size (ms : List Model) (st : SizingState)
    (h : st.vertex_buffer_size < 2 ^ 64) :
    (ms.foldl sizingStep st).vertex_buffer_size
      = (st.vertex_buffer_size + (ms.map Model.vertices).sum * sizeofVertex) % 2 ^ 64 := by
  induction ms generalizing st with
  | nil =>
    simp only [List.foldl_nil, List.map_nil, List.sum_nil, Nat.zero_mul, Nat.add_zero]
    exact (Nat.mod_eq_of_lt h).symm
  | cons m ms ih =>
    rw [List.foldl_cons, ih _ (by simp only [sizingStep, wrap64]; exact Nat.mod_lt _ (by norm_num))]
    simp only [sizingStep, wrap64, List.map_cons, List.sum_cons, Nat.add_mul]
    omega

theorem foldl_sizingStep_index_buffer_size (ms : List Model) (st : SizingState)
    (h : st.index_buffer_size < 2 ^ 64) :
    (ms.foldl sizingStep st).index_buffer_size
      = (st.index_buffer_size + (ms.map Model.indices).sum * sizeofIndex) % 2 ^ 64 := by
  induction ms generalizing st with
  | nil =>
    simp only [List.foldl_nil, List.map_nil, List.sum_nil, Nat.zero_mul, Nat.add_zero]
    exact (Nat.mod_eq_of_lt h).symm
  | cons m ms ih =>
    rw [List.foldl_cons, ih _ (by simp only [sizingStep, wrap64]; exact Nat.mod_lt _ (by norm_num))]
    simp only [sizingStep, wrap64, List.map_cons, List.sum_cons, Nat.add_mul]
    omega

theorem foldl_sizingStep_staging (ms : List Model) (st : SizingState) :
    (ms.foldl sizingStep st).staging_buffer_size
      = max st.staging_buffer_size
          (max (listMax (ms.map Model.vertexBytes)) (listMax (ms.map Model.indexBytes))) := by
  induction ms generalizing st with
  | nil => simp [listMax]
  | cons m ms ih =>
    rw [List.foldl_cons, ih]
    simp only [sizingStep, listMax, List.map_cons, List.foldr_cons, Model.vertexBytes,
      Model.indexBytes]
    omega

/-! ## Deduplication of materials and textures -/

theorem mem_foldl_setInsert (l s : List String) (x : String) :
    x ∈ l.foldl setInsert s ↔ x ∈ s ∨ x ∈ l := by
  induction l generalizing s with
  | nil => simp
  | cons a l ih =>
    rw [List.foldl_cons, ih, mem_setInsert, List.mem_cons]
    tauto

theorem nodup_foldl_setInsert (l s : List String) (h : s.Nodup) :
    (l.foldl setInsert s).Nodup := by
  induction l generalizing s with
  | nil => exact h
  | cons a l ih => exact ih _ (nodup_setInsert s a h)

theorem mem_uniqueMaterials (ms : List Model) (x : String) :
    x ∈ uniqueMaterials ms ↔ ∃ m ∈ ms, m.material = x := by
  unfold uniqueMaterials
  rw [mem_foldl_setInsert]
  simp

theorem nodup_uniqueMaterials (ms : List Model) : (uniqueMaterials ms).Nodup :=
  nodup_foldl_setInsert _ _ List.nodup_nil

theorem mem_insertTextures (names ut : List String) (t : String) :
    t ∈ insertTextures ut names ↔ t ∈ ut ∨ (t ∈ names ∧ t ≠ "") := by
  induction names generalizing ut with
  | nil => simp [insertTextures]
  | cons n ns ih =>
    simp only [insertTextures]
    rw [ih]
    split
    · next hn =>
      subst hn
      simp only [List.mem_cons]
      constructor
      · rintro (h | ⟨h1, h2⟩)
        · exact Or.inl h
        · exact Or.inr ⟨Or.inr h1, h2⟩
      · rintro (h | ⟨h1 | h1, h2⟩)
        · exact Or.inl h
        · exact absurd h1 h2
        · exact Or.inr ⟨h1, h2⟩
    · next hn =>
      rw [mem_setInsert]
      simp only [List.mem_cons]
      constructor
      · rintro ((h | h) | ⟨h1, h2⟩)
        · exact Or.inl h
        · exact Or.inr ⟨Or.inl h, h ▸ hn⟩
        · exact Or.inr ⟨Or.inr h1, h2⟩
      · rintro (h | ⟨h1 | h1, h2⟩)
        · exact Or.inl (Or.inl h)
        · exact Or.inl (Or.inr h1)
        · exact Or.inr ⟨h1, h2⟩

theorem nodup_insertTextures (names ut : List String) (h : ut.Nodup) :
    (insertTextures ut names).Nodup := by
  induction names generalizing ut with
  | nil => exact h
  | cons n ns ih =>
    simp only [insertTextures]
    split
    · exact ih _ h
    · exact ih _ (nodup_setInsert ut n h)

theorem mem_foldl_insertTextures (resources : Resources) (mats ut : List String) (t : String) :
    t ∈ mats.foldl (fun acc name => insertTextures acc (texturesOf resources name)) ut ↔
      t ∈ ut ∨ (t ≠ "" ∧ ∃ name ∈ mats, t ∈ texturesOf resources name) := by
  induction mats generalizing ut with
  | nil => simp
  | cons a mats ih =>
    rw [List.foldl_cons, ih, mem_insertTextures]
    simp only [List.mem_cons, exists_eq_or_imp]
    tauto

theorem nodup_foldl_insertTextures (resources : Resources) (mats ut : List String)
    (h : ut.Nodup) :
    (mats.foldl (fun acc name => insertTextures acc (texturesOf resources name)) ut).Nodup := by
  induction mats generalizing ut with
  | nil => exact h
  | cons a mats ih => exact ih _ (nodup_insertTextures _ ut h)

theorem mem_uniqueTextures (resources : Resources) (mats : List String) (t : String) :
    t ∈ uniqueTextures resources mats ↔
      t ≠ "" ∧ ∃ name ∈ mats, t ∈ texturesOf resources name := by
  unfold uniqueTextures
  rw [mem_foldl_insertTextures]
  simp

theorem nodup_uniqueTextures (resources : Resources) (mats : List String) :
    (uniqueTextures resources mats).Nodup :=
  nodup_foldl_insertTextures resources mats [] List.nodup_nil

theorem texturesLoop_eq (resources : Resources) (mats ut : List String)
    (h : ∀ name ∈ mats, ∃ material, resources.materials name = some material) :
    texturesLoop resources mats ut
      = .ok (mats.foldl (fun acc name => insertTextures acc (texturesOf resources name)) ut) := by
  induction mats generalizing ut with
  | nil => rfl
  | cons a mats ih =>
    obtain ⟨material, hm⟩ := h a (List.mem_cons_self _ _)
    simp only [texturesLoop, mapAt, hm, List.foldl_cons, texturesOf]
    exact ih _ (fun name hn => h name (List.mem_cons_of_mem _ hn))

/-! ## The last loop of `getResourceNames` -/

theorem assignMaterialIndices_eq (resources : Resources) (idx : String → Option Nat)
    (names : List String) (ms : List Model) (offs : List ModelOffset)
    (h : Resolves resources names ms) (hlen : offs.length = ms.length)
    (hidx : ∀ m ∈ ms, ∃ k, idx m.material = some k) :
    assignMaterialIndices resources idx names offs
      = .ok (List.zipWith (withMaterialIndex idx) offs ms) := by
  unfold Resolves at h
  induction h generalizing offs with
  | nil =>
    cases offs with
    | nil => rfl
    | cons e es => simp at hlen
  | @cons n m ns ms hnm _ ih =>
    cases offs with
    | nil => simp at hlen
    | cons e es =>
      obtain ⟨k, hk⟩ := hidx m (List.mem_cons_self _ _)
      have hrec := ih es (by simpa using hlen)
        (fun x hx => hidx x (List.mem_cons_of_mem _ hx))
      simp only [assignMaterialIndices, mapAt, hnm, hk, hrec, List.zipWith_cons_cons,
        withMaterialIndex, Option.getD_some]

theorem entriesFrom_length (vo io : Nat) (ms : List Model) :
    (entriesFrom vo io ms).length = ms.length := by
  induction ms generalizing vo io with
  | nil => rfl
  | cons m ms ih => simp [entriesFrom, ih]

/-- The value `getResourceNames` returns for a batch whose models and their
materials are in the scene. -/
theorem getResourceNames_eq (order : HashOrder) (resources : Resources)
    (batch : List String) (ms : List Model) (h : Resolves resources batch ms)
    (hmat : ∀ m ∈ ms, ∃ material, resources.materials m.material = some material) :
    getResourceNames order batch resources = .ok
      { model_offsets :=
          List.zipWith (withMaterialIndex (indexMap (order.iterate (uniqueMaterials ms))))
            (entriesFrom 0 0 ms) ms
        material_names := order.iterate (uniqueMaterials ms)
        texture_names :=
          order.iterate (uniqueTextures resources (order.iterate (uniqueMaterials ms))) ++ [""]
        vertex_buffer_size := ((ms.map Model.vertices).sum * sizeofVertex) % 2 ^ 64
        index_buffer_size := ((ms.map Model.indices).sum * sizeofIndex) % 2 ^ 64
        staging_buffer_size :=
          max (max (listMax (ms.map Model.vertexBytes)) (listMax (ms.map Model.indexBytes)))
            (wrap64 ((order.iterate (uniqueMaterials ms)).length * sizeofMaterialUniform)) } := by
  have hmem : ∀ x, x ∈ order.iterate (uniqueMaterials ms) ↔ ∃ m ∈ ms, m.material = x := by
    intro x
    rw [(order.perm _).mem_iff, mem_uniqueMaterials]
  unfold getResourceNames
  simp only [sizingLoop_eq resources batch ms _ h]
  have hum : (ms.foldl sizingStep
      { vertex_offset := 0, index_offset := 0, staging_buffer_size := 0,
        vertex_buffer_size := 0, index_buffer_size := 0, model_offsets := [],
        unique_materials := [] }).unique_materials = uniqueMaterials ms := by
    rw [foldl_sizingStep_unique_materials]; rfl
  rw [hum, texturesLoop_eq resources _ []
    (fun name hn => by
      obtain ⟨m, hm, rfl⟩ := (hmem name).1 hn
      exact hmat m hm)]
  simp only
  rw [foldl_sizingStep_model_offsets]
  simp only [List.nil_append]
  rw [assignMaterialIndices_eq resources _ batch ms _ h (entriesFrom_length 0 0 ms)
    (fun m hm => by
      obtain ⟨k, hk, _⟩ := indexMap_spec (order.iterate (uniqueMaterials ms)) m.material
        ((hmem _).2 ⟨m, hm, rfl⟩)
      exact ⟨k, hk⟩)]
  simp only
  rw [foldl_sizingStep_vertex_buffer_size _ _ (by norm_num),
    foldl_sizingStep_index_buffer_size _ _ (by norm_num), foldl_sizingStep_staging]
  simp [uniqueTextures]

/-! ## When `getResourceNames` returns -/

theorem sizingLoop_ok (resources : Resources) (names : List String) (st st' : SizingState)
    (h : sizingLoop resources names st = .ok st') :
    ∃ ms, Resolves resources names ms := by
  induction names generalizing st with
  | nil => exact ⟨[], List.Forall₂.nil⟩
  | cons n ns ih =>
    simp only [sizingLoop, mapAt] at h
    cases hn : resources.models n with
    | none => simp [hn] at h
    | some model =>
      simp only [hn] at h
      obtain ⟨ms, hms⟩ := ih _ h
      exact ⟨model :: ms, List.Forall₂.cons hn hms⟩

theorem texturesLoop_ok (resources : Resources) (mats ut ut' : List String)
    (h : texturesLoop resources mats ut = .ok ut') :
    ∀ name ∈ mats, ∃ material, resources.materials name = some material := by
  induction mats generalizing ut with
  | nil => intro name hn; simp at hn
  | cons a mats ih =>
    simp only [texturesLoop, mapAt] at h
    cases ha : resources.materials a with
    | none => simp [ha] at h
    | some material =>
      simp only [ha] at h
      intro name hn
      rcases List.mem_cons.1 hn with rfl | hn
      · exact ⟨material, ha⟩
      · exact ih _ h name hn

/-- The function `getResourceNames` returns exactly for the batches whose
models are in the scene together with their materials. -/
theorem getResourceNames_returns_iff (order : HashOrder) (resources : Resources)
    (batch : List String) :
    (∃ r, getResourceNames order batch resources = .ok r) ↔
      ∃ ms, Resolves resources batch ms ∧
        ∀ m ∈ ms, ∃ material, resources.materials m.material = some material := by
  constructor
  · rintro ⟨r, hr⟩
    unfold getResourceNames at hr
    simp only at hr
    split at hr
    · simp at hr
    · next st hst =>
      obtain ⟨ms, hms⟩ := sizingLoop_ok resources batch _ st hst
      refine ⟨ms, hms, ?_⟩
      rw [sizingLoop_eq resources batch ms _ hms] at hst
      simp only [Except.ok.injEq] at hst
      subst hst
      rw [foldl_sizingStep_unique_materials] at hr
      split at hr
      · simp at hr
      · next ut hut =>
        intro m hm
        apply texturesLoop_ok resources _ _ _ hut
        rw [(order.perm _).mem_iff]
        exact (mem_uniqueMaterials ms m.material).2 ⟨m, hm, rfl⟩
  · rintro ⟨ms, hms, hmat⟩
    exact ⟨_, getResourceNames_eq order resources batch ms hms hmat⟩

/-! ## Claims on the offset table -/

theorem zipWith_withMaterialIndex_map {α : Type} (idx : String → Option Nat)
    (f : ModelOffset → α)
    (hf : ∀ e m, f (withMaterialIndex idx e m) = f e)
    (es : List ModelOffset) (ms : List Model) (hlen : es.length = ms.length) :
    (List.zipWith (withMaterialIndex idx) es ms).map f = es.map f := by
  induction es generalizing ms with
  | nil => simp
  | cons e es ih =>
    cases ms with
    | nil => simp at hlen
    | cons m ms =>
      simp only [List.zipWith_cons_cons, List.map_cons, hf]
      rw [ih ms (by simpa using hlen)]

theorem entriesFrom_map_vertex_offset (vo io : Nat) (ms : List Model) :
    (entriesFrom vo io ms).map ModelOffset.vertex_offset
      = runningSums vo (ms.map Model.vertices) := by
  induction ms generalizing vo io with
  | nil => rfl
  | cons m ms ih => simp [entriesFrom, runningSums, ih]

theorem entriesFrom_map_index_offset (vo io : Nat) (ms : List Model) :
    (entriesFrom vo io ms).map ModelOffset.index_offset
      = runningSums io (ms.map Model.indices) := by
  induction ms generalizing vo io with
  | nil => rfl
  | cons m ms ih => simp [entriesFrom, runningSums, ih]

theorem entriesFrom_map_index_count (vo io : Nat) (ms : List Model) :
    (entriesFrom vo io ms).map ModelOffset.index_count = ms.map Model.indices := by
  induction ms generalizing vo io with
  | nil => rfl
  | cons m ms ih => simp [entriesFrom, ih]

theorem runningSums_eq (s : Nat) (cs : List Nat) (h : s + cs.sum < 2 ^ 64) :
    runningSums s cs = (List.range cs.length).map (fun i => s + (cs.take i).sum) := by
  induction cs generalizing s with
  | nil => rfl
  | cons c cs ih =>
    simp only [List.sum_cons] at h
    have hw : wrap64 (s + c) = s + c := Nat.mod_eq_of_lt (by omega)
    simp only [runningSums, hw, List.length_cons, List.range_succ_eq_map, List.map_cons,
      List.take_zero, List.sum_nil, Nat.add_zero, List.map_map]
    rw [ih (s + c) (by omega)]
    congr 1
    apply List.map_congr_left
    intro i _
    simp only [Function.comp, Nat.succ_eq_add_one, List.take_succ_cons, List.sum_cons]
    omega

theorem runningSums_zero (cs : List Nat) (h : cs.sum < 2 ^ 64) :
    runningSums 0 cs = offsetTable cs := by
  rw [runningSums_eq 0 cs (by omega)]
  unfold offsetTable
  simp

theorem runningSums_sorted (s : Nat) (cs : List Nat) (h : s + cs.sum < 2 ^ 64) :
    (∀ x ∈ runningSums s cs, s ≤ x) ∧ List.Sorted (· ≤ ·) (runningSums s cs) := by
  induction cs generalizing s with
  | nil => simp [runningSums]
  | cons c cs ih =>
    simp only [List.sum_cons] at h
    have hw : wrap64 (s + c) = s + c := Nat.mod_eq_of_lt (by omega)
    obtain ⟨h1, h2⟩ := ih (s + c) (by omega)
    simp only [runningSums, hw, List.mem_cons, List.sorted_cons]
    refine ⟨?_, ?_, h2⟩
    · rintro x (rfl | hx)
      · exact le_refl _
      · have := h1 x hx; omega
    · intro x hx
      have := h1 x hx; omega

theorem offsetTable_getElem? (cs : List Nat) (i : Nat) (hi : i < cs.length) :
    (offsetTable cs)[i]? = some ((cs.take i).sum) := by
  unfold offsetTable
  rw [List.getElem?_map, List.getElem?_range hi]
  rfl

/-- C5 (amended): for a batch whose models and their materials are in the
scene and whose total vertex count and total index count are below `2 ^ 64`,
`getResourceNames` returns one offset entry per batch position, in batch
order; entry `i` holds the sum of the vertex counts and the sum of the index
counts (counts, not bytes) of the models at positions `0 .. i - 1` and the
index count of model `i`; the first entry has offsets `(0, 0)`, both offset
columns are non-decreasing, and a model with no vertices leaves the vertex
offset of the next entry equal to its own. -/
theorem getResourceNames_offset_table (order : HashOrder) (resources : Resources)
    (batch : List String) (ms : List Model) (h : Resolves resources batch ms)
    (hmat : ∀ m ∈ ms, ∃ material, resources.materials m.material = some material)
    (hv : (ms.map Model.vertices).sum < 2 ^ 64) (hi : (ms.map Model.indices).sum < 2 ^ 64) :
    ∃ r, getResourceNames order batch resources = .ok r ∧
      r.model_offsets.length = batch.length ∧
      r.model_offsets.map ModelOffset.vertex_offset = offsetTable (ms.map Model.vertices) ∧
      r.model_offsets.map ModelOffset.index_offset = offsetTable (ms.map Model.indices) ∧
      r.model_offsets.map ModelOffset.index_count = ms.map Model.indices ∧
      (∀ e, r.model_offsets.head? = some e → e.vertex_offset = 0 ∧ e.index_offset = 0) ∧
      List.Sorted (· ≤ ·) (r.model_offsets.map ModelOffset.vertex_offset) ∧
      List.Sorted (· ≤ ·) (r.model_offsets.map ModelOffset.index_offset) ∧
      (∀ i m e e', ms[i]? = some m → m.vertices = 0 → r.model_offsets[i]? = some e →
        r.model_offsets[i + 1]? = some e' → e'.vertex_offset = e.vertex_offset) := by
  have hlen := entriesFrom_length 0 0 ms
  have hbl : batch.length = ms.length := List.Forall₂.length_eq h
  have ev : (List.zipWith (withMaterialIndex (indexMap (order.iterate (uniqueMaterials ms))))
      (entriesFrom 0 0 ms) ms).map ModelOffset.vertex_offset
      = offsetTable (ms.map Model.vertices) := by
    rw [zipWith_withMaterialIndex_map _ ModelOffset.vertex_offset (fun _ _ => rfl) _ _ hlen,
      entriesFrom_map_vertex_offset, runningSums_zero _ hv]
  have ei : (List.zipWith (withMaterialIndex (indexMap (order.iterate (uniqueMaterials ms))))
      (entriesFrom 0 0 ms) ms).map ModelOffset.index_offset
      = offsetTable (ms.map Model.indices) := by
    rw [zipWith_withMaterialIndex_map _ ModelOffset.index_offset (fun _ _ => rfl) _ _ hlen,
      entriesFrom_map_index_offset, runningSums_zero _ hi]
  refine ⟨_, getResourceNames_eq order resources batch ms h hmat, ?_, ev, ei, ?_, ?_, ?_, ?_, ?_⟩
  · simp [hlen, hbl]
  · rw [zipWith_withMaterialIndex_map _ ModelOffset.index_count (fun _ _ => rfl) _ _ hlen,
      entriesFrom_map_index_count]
  · intro e he
    cases ms with
    | nil => simp [entriesFrom] at he
    | cons m ms =>
      simp only [entriesFrom, List.zipWith_cons_cons, List.head?_cons, Option.some.injEq] at he
      subst he
      exact ⟨rfl, rfl⟩
  · rw [ev, ← runningSums_zero _ hv]
    exact (runningSums_sorted 0 _ (by omega)).2
  · rw [ei, ← runningSums_zero _ hi]
    exact (runningSums_sorted 0 _ (by omega)).2
  · intro i m e e' hm hz he he'
    simp only at he he'
    have h1 := congrArg (fun l => l[i]?) ev
    have h2 := congrArg (fun l => l[i + 1]?) ev
    simp only [List.getElem?_map, he, he', Option.map_some'] at h1 h2
    have hi1 : i + 1 < (ms.map Model.vertices).length := by
      by_contra hcon
      rw [List.getElem?_eq_none (by unfold offsetTable; simpa using hcon)] at h2
      cases h2
    rw [offsetTable_getElem? _ i (by omega)] at h1
    rw [offsetTable_getElem? _ (i + 1) hi1] at h2
    simp only [Option.some.injEq] at h1 h2
    rw [h1, h2, List.sum_take_succ _ i (by omega)]
    have hmi : (ms.map Model.vertices)[i]? = some 0 := by
      rw [List.getElem?_map, hm]; simp [hz]
    have := List.getElem?_eq_some.1 hmi
    obtain ⟨_, hget⟩ := this
    rw [hget]
    rfl

theorem exampleBatch_resolves : Resolves exampleResources exampleBatch exampleModels :=
  List.Forall₂.cons rfl (List.Forall₂.cons rfl (List.Forall₂.cons rfl List.Forall₂.nil))

theorem exampleModels_materials :
    ∀ m ∈ exampleModels, ∃ material, exampleResources.materials m.material = some material := by
  intro m hm
  simp only [exampleModels, List.mem_cons, List.mem_singleton, List.not_mem_nil, or_false] at hm
  rcases hm with rfl | rfl | rfl <;> exact ⟨_, rfl⟩

/-- Witness of C5 on the example scene: the batch `A, C, B`, where `C` has no
vertices, gets the vertex offsets 0, 3, 3. -/
theorem getResourceNames_offset_table_witness :
    Resolves exampleResources exampleBatch exampleModels ∧
    (exampleModels.map Model.vertices).sum < 2 ^ 64 ∧
    (exampleModels.map Model.indices).sum < 2 ^ 64 ∧
    getResourceNames insertionOrder exampleBatch exampleResources = .ok exampleNames ∧
    exampleNames.model_offsets.map ModelOffset.vertex_offset = [0, 3, 3] ∧
    ∃ r, getResourceNames insertionOrder exampleBatch exampleResources = .ok r ∧
      r.model_offsets.length = exampleBatch.length ∧
      r.model_offsets.map ModelOffset.vertex_offset
        = offsetTable (exampleModels.map Model.vertices) ∧
      r.model_offsets.map ModelOffset.index_offset
        = offsetTable (exampleModels.map Model.indices) ∧
      r.model_offsets.map ModelOffset.index_count = exampleModels.map Model.indices ∧
      (∀ e, r.model_offsets.head? = some e → e.vertex_offset = 0 ∧ e.index_offset = 0) ∧
      List.Sorted (· ≤ ·) (r.model_offsets.map ModelOffset.vertex_offset) ∧
      List.Sorted (· ≤ ·) (r.model_offsets.map ModelOffset.index_offset) ∧
      (∀ i m e e', exampleModels[i]? = some m → m.vertices = 0 →
        r.model_offsets[i]? = some e → r.model_offsets[i + 1]? = some e' →
        e'.vertex_offset = e.vertex_offset) :=
  ⟨exampleBatch_resolves, by decide, by decide, rfl, rfl,
    getResourceNames_offset_table insertionOrder exampleResources exampleBatch exampleModels
      exampleBatch_resolves exampleModels_materials (by decide) (by decide)⟩

/-- Counterexample to C5 as stated: ten copies of a model with `2 ^ 61 - 1`
indices. The running index offset wraps at the tenth entry, which holds
`2 ^ 61 - 9` instead of the sum `9 * (2 ^ 61 - 1)` and is smaller than the
ninth entry `2 ^ 64 - 8`. -/
theorem getResourceNames_offset_counterexample :
    Resolves hugeIndexResources hugeIndexBatch (List.replicate 10 hugeIndexModel) ∧
    ∃ r, getResourceNames insertionOrder hugeIndexBatch hugeIndexResources = .ok r ∧
      r.model_offsets.map ModelOffset.index_offset
        = [0, 2 ^ 61 - 1, 2 ^ 62 - 2, 3 * 2 ^ 61 - 3, 2 ^ 63 - 4, 5 * 2 ^ 61 - 5,
           6 * 2 ^ 61 - 6, 7 * 2 ^ 61 - 7, 2 ^ 64 - 8, 2 ^ 61 - 9] ∧
      r.model_offsets.map ModelOffset.index_offset
        ≠ offsetTable ((List.replicate 10 hugeIndexModel).map Model.indices) ∧
      ¬ List.Sorted (· ≤ ·) (r.model_offsets.map ModelOffset.index_offset) := by
  have hres : Resolves hugeIndexResources hugeIndexBatch (List.replicate 10 hugeIndexModel) := by
    unfold Resolves hugeIndexBatch
    simp only [List.replicate]
    repeat first | exact List.Forall₂.nil | refine List.Forall₂.cons (by rfl) ?_
  have hmat : ∀ m ∈ List.replicate 10 hugeIndexModel,
      ∃ material, hugeIndexResources.materials m.material = some material := by
    intro m hm
    rw [List.eq_of_mem_replicate hm]
    exact ⟨_, rfl⟩
  refine ⟨hres, _, getResourceNames_eq insertionOrder hugeIndexResources hugeIndexBatch _
    hres hmat, ?_, ?_, ?_⟩
  · rfl
  · decide
  · decide

/-! ## Claims on the material list -/

theorem zipWith_withMaterialIndex_forall₂ (idx : String → Option Nat)
    (P : ModelOffset → Model → Prop) (es : List ModelOffset) (ms : List Model)
    (hlen : es.length = ms.length) (hP : ∀ e, ∀ m ∈ ms, P (withMaterialIndex idx e m) m) :
    List.Forall₂ P (List.zipWith (withMaterialIndex idx) es ms) ms := by
  induction es generalizing ms with
  | nil =>
    cases ms with
    | nil => exact List.Forall₂.nil
    | cons m ms => simp at hlen
  | cons e es ih =>
    cases ms with
    | nil => simp at hlen
    | cons m ms =>
      simp only [List.zipWith_cons_cons]
      exact List.Forall₂.cons (hP e m (List.mem_cons_self _ _))
        (ih ms (by simpa using hlen) (fun e' m' hm' => hP e' m' (List.mem_cons_of_mem _ hm')))

theorem zip_withMaterialIndex (idx : String → Option Nat) (es : List ModelOffset)
    (ms : List Model) :
    ∀ p ∈ List.zip (List.zipWith (withMaterialIndex idx) es ms) ms,
      p.1.material_index = (idx p.2.material).getD 0 := by
  induction es generalizing ms with
  | nil => intro p hp; simp at hp
  | cons e es ih =>
    cases ms with
    | nil => intro p hp; simp at hp
    | cons m ms =>
      intro p hp
      simp only [List.zipWith_cons_cons, List.zip_cons_cons, List.mem_cons] at hp
      rcases hp with rfl | hp
      · rfl
      · exact ih ms p hp

theorem materialUniforms_length (resources : Resources) (names : List String)
    (h : ∀ name ∈ names, ∃ material, resources.materials name = some material) :
    ∃ records, materialUniforms resources names = .ok records ∧
      records.length = names.length := by
  induction names with
  | nil => exact ⟨[], rfl, rfl⟩
  | cons n ns ih =>
    obtain ⟨material, hm⟩ := h n (List.mem_cons_self _ _)
    obtain ⟨records, hr, hl⟩ := ih (fun name hn => h name (List.mem_cons_of_mem _ hn))
    have e : materialUniforms resources (n :: ns) = .ok
        (⟨material.diffuse, material.ambient, material.emission, material.roughness,
          material.metalness⟩ :: records) := by
      simp only [materialUniforms, mapAt, hm, hr]
    exact ⟨_, e, by simp [hl]⟩

theorem mem_iterate_uniqueMaterials (order : HashOrder) (ms : List Model) (x : String) :
    x ∈ order.iterate (uniqueMaterials ms) ↔ ∃ m ∈ ms, m.material = x := by
  rw [(order.perm _).mem_iff, mem_uniqueMaterials]

theorem materials_present (order : HashOrder) (resources : Resources) (ms : List Model)
    (hmat : ∀ m ∈ ms, ∃ material, resources.materials m.material = some material) :
    ∀ name ∈ order.iterate (uniqueMaterials ms),
      ∃ material, resources.materials name = some material := by
  intro name hn
  obtain ⟨m, hm, rfl⟩ := (mem_iterate_uniqueMaterials order ms name).1 hn
  exact hmat m hm

theorem nodup_iterate_uniqueMaterials (order : HashOrder) (ms : List Model) :
    (order.iterate (uniqueMaterials ms)).Nodup :=
  (order.perm _).nodup_iff.2 (nodup_uniqueMaterials ms)

theorem iterate_uniqueMaterials_length (order : HashOrder) (ms : List Model) :
    (order.iterate (uniqueMaterials ms)).length = (ms.map Model.material).toFinset.card := by
  rw [← List.toFinset_card_of_nodup (nodup_iterate_uniqueMaterials order ms)]
  congr 1
  ext x
  simp only [List.mem_toFinset, mem_iterate_uniqueMaterials, List.mem_map]

/-- C7: for a batch whose models and their materials are in the scene, the
material list produced by `getResourceNames` has no repetition and contains
exactly the material names of the batch models; the material index of every
model is a position of that list holding the model's material name; two
models with the same material have the same index; the list has one entry,
and the uniform array one record, per distinct material. -/
theorem getResourceNames_materials (order : HashOrder) (resources : Resources)
    (batch : List String) (ms : List Model) (h : Resolves resources batch ms)
    (hmat : ∀ m ∈ ms, ∃ material, resources.materials m.material = some material) :
    ∃ r, getResourceNames order batch resources = .ok r ∧
      r.material_names.Nodup ∧
      (∀ x, x ∈ r.material_names ↔ ∃ m ∈ ms, m.material = x) ∧
      List.Forall₂ (fun (e : ModelOffset) (m : Model) =>
        r.material_names[e.material_index]? = some m.material) r.model_offsets ms ∧
      (∀ p ∈ List.zip r.model_offsets ms, ∀ q ∈ List.zip r.model_offsets ms,
        p.2.material = q.2.material → p.1.material_index = q.1.material_index) ∧
      r.material_names.length = (ms.map Model.material).toFinset.card ∧
      ∃ records, materialUniforms resources r.material_names = .ok records ∧
        records.length = (ms.map Model.material).toFinset.card := by
  have hnd := nodup_iterate_uniqueMaterials order ms
  have hcard := iterate_uniqueMaterials_length order ms
  refine ⟨_, getResourceNames_eq order resources batch ms h hmat, hnd,
    mem_iterate_uniqueMaterials order ms, ?_, ?_, hcard, ?_⟩
  · apply zipWith_withMaterialIndex_forall₂ _ _ _ _ (entriesFrom_length 0 0 ms)
    intro e m hm
    obtain ⟨k, hk, hget⟩ := indexMap_spec (order.iterate (uniqueMaterials ms)) m.material
      ((mem_iterate_uniqueMaterials order ms _).2 ⟨m, hm, rfl⟩)
    simp only [withMaterialIndex, hk, Option.getD_some]
    exact hget
  · intro p hp q hq hpq
    rw [zip_withMaterialIndex _ _ _ p hp, zip_withMaterialIndex _ _ _ q hq, hpq]
  · obtain ⟨records, hr, hl⟩ := materialUniforms_length resources _
      (materials_present order resources ms hmat)
    exact ⟨records, hr, hl.trans hcard⟩

/-- Witness of C7 on the example scene: `A` and `B` share material `M1` and
get the same material index. -/
theorem getResourceNames_materials_witness :
    Resolves exampleResources exampleBatch exampleModels ∧
    getResourceNames insertionOrder exampleBatch exampleResources = .ok exampleNames ∧
    exampleNames.material_names = ["M1", "M2"] ∧
    exampleNames.model_offsets.map ModelOffset.material_index = [0, 1, 0] ∧
    ∃ r, getResourceNames insertionOrder exampleBatch exampleResources = .ok r ∧
      r.material_names.Nodup ∧
      (∀ x, x ∈ r.material_names ↔ ∃ m ∈ exampleModels, m.material = x) ∧
      List.Forall₂ (fun (e : ModelOffset) (m : Model) =>
        r.material_names[e.material_index]? = some m.material) r.model_offsets exampleModels ∧
      (∀ p ∈ List.zip r.model_offsets exampleModels,
        ∀ q ∈ List.zip r.model_offsets exampleModels,
        p.2.material = q.2.material → p.1.material_index = q.1.material_index) ∧
      r.material_names.length = (exampleModels.map Model.material).toFinset.card ∧
      ∃ records, materialUniforms exampleResources r.material_names = .ok records ∧
        records.length = (exampleModels.map Model.material).toFinset.card :=
  ⟨exampleBatch_resolves, rfl, rfl, rfl,
    getResourceNames_materials insertionOrder exampleResources exampleBatch exampleModels
      exampleBatch_resolves exampleModels_materials⟩

/-! ## Claims on the texture list and the images -/

theorem textureImagesLoop_ok (device : Device) (resources : Resources) (names : List String)
    (i : Nat) (st st' : TextureImages)
    (h : textureImagesLoop device resources i names st = .ok st') :
    ∃ imgs, st'.texture_images = st.texture_images ++ imgs ∧
      List.Forall₂ (ImageOf resources) imgs names ∧
      st'.staging_buffer_size
        = max st.staging_buffer_size (listMax (names.map (textureBytes resources))) := by
  induction names generalizing i st with
  | nil =>
    simp only [textureImagesLoop, Except.ok.injEq] at h
    subst h
    exact ⟨[], by simp, List.Forall₂.nil, by simp [listMax]⟩
  | cons n ns ih =>
    simp only [textureImagesLoop, mapAt] at h
    cases hn : resources.textures n with
    | none => simp [hn] at h
    | some texture =>
      simp only [hn, Image2D.create] at h
      split at h
      · simp at h
      · next image himg =>
        split at himg
        · simp only [Except.ok.injEq] at himg
          obtain ⟨imgs, h1, h2, h3⟩ := ih _ _ h
          refine ⟨image :: imgs, by simp [h1], List.Forall₂.cons ⟨texture, hn, himg.symm⟩ h2, ?_⟩
          rw [h3]
          simp only [listMax, List.map_cons, List.foldr_cons, textureBytes, hn]
          omega
        · simp at himg

theorem createTextureImages_ok (device : Device) (resources : Resources)
    (names : List String) (staging : Nat) (ti : TextureImages)
    (h : createTextureImages device names resources staging = .ok ti) :
    ∃ imgs, ti.texture_images = imgs ++ [{ width := 1, height := 1 }] ∧
      List.Forall₂ (ImageOf resources) imgs names.dropLast ∧
      ti.staging_buffer_size
        = max (max staging (listMax (names.dropLast.map (textureBytes resources)))) 4 := by
  unfold createTextureImages at h
  split at h
  · simp at h
  · next st hst =>
    obtain ⟨imgs, h1, h2, h3⟩ := textureImagesLoop_ok device resources _ _ _ _ hst
    simp only [Image2D.create] at h
    split at h
    · simp at h
    · next image himg =>
      split at himg
      · simp only [Except.ok.injEq] at himg h
        subst h
        subst himg
        exact ⟨imgs, by simp [h1], h2, by simp [h3]⟩
      · simp at himg

theorem textureImagesLoop_total (device : Device) (resources : Resources)
    (names : List String) (i : Nat) (st : TextureImages)
    (hdev : ∀ w h, device.vkCreateImage w h = true)
    (hpre : ∀ name ∈ names, ∃ texture, resources.textures name = some texture) :
    ∃ st', textureImagesLoop device resources i names st = .ok st' := by
  induction names generalizing i st with
  | nil => exact ⟨st, rfl⟩
  | cons n ns ih =>
    obtain ⟨texture, ht⟩ := hpre n (List.mem_cons_self _ _)
    simp only [textureImagesLoop, mapAt, ht, Image2D.create, hdev, if_true]
    exact ih _ _ (fun name hn => hpre name (List.mem_cons_of_mem _ hn))

theorem createTextureImages_total (device : Device) (resources : Resources)
    (names : List String) (staging : Nat)
    (hdev : ∀ w h, device.vkCreateImage w h = true)
    (hpre : ∀ name ∈ names.dropLast, ∃ texture, resources.textures name = some texture) :
    ∃ ti, createTextureImages device names resources staging = .ok ti := by
  obtain ⟨st', hst⟩ := textureImagesLoop_total device resources names.dropLast 0
    { texture_images := [], requirements := [], staging_buffer_size := staging } hdev hpre
  simp only [createTextureImages, hst, Image2D.create, hdev, if_true]
  exact ⟨_, rfl⟩

theorem mem_texture_names (order : HashOrder) (resources : Resources) (ms : List Model)
    (t : String) :
    t ∈ order.iterate (uniqueTextures resources (order.iterate (uniqueMaterials ms))) ↔
      t ≠ "" ∧ ∃ m ∈ ms, t ∈ texturesOf resources m.material := by
  rw [(order.perm _).mem_iff, mem_uniqueTextures]
  constructor
  · rintro ⟨h1, name, hn, ht⟩
    obtain ⟨m, hm, rfl⟩ := (mem_iterate_uniqueMaterials order ms name).1 hn
    exact ⟨h1, m, hm, ht⟩
  · rintro ⟨h1, m, hm, ht⟩
    exact ⟨h1, m.material, (mem_iterate_uniqueMaterials order ms _).2 ⟨m, hm, rfl⟩, ht⟩

/-- C8: for a batch whose models and their materials are in the scene, the
texture name list produced by `getResourceNames` is a list `real` without
repetition of exactly the non-empty texture names of the materials of the
batch models, followed by one empty name in last position; it is not empty
and has one entry more than there are distinct non-empty texture names;
whenever `createTextureImages` returns, the image list has the same length,
image `i` has the extent of the texture named at position `i`, and the last
image is the 1x1 placeholder; it does return when the named textures are in
the scene and the device creates every image. -/
theorem texture_names_placeholder (order : HashOrder) (resources : Resources)
    (batch : List String) (ms : List Model) (h : Resolves resources batch ms)
    (hmat : ∀ m ∈ ms, ∃ material, resources.materials m.material = some material) :
    ∃ r, getResourceNames order batch resources = .ok r ∧
      ∃ real, r.texture_names = real ++ [""] ∧ real.Nodup ∧
        (∀ t, t ∈ real ↔ t ≠ "" ∧ ∃ m ∈ ms, t ∈ texturesOf resources m.material) ∧
        r.texture_names ≠ [] ∧
        r.texture_names.getLast? = some "" ∧
        r.texture_names.count "" = 1 ∧
        r.texture_names.length
          = ((ms.flatMap (fun m => texturesOf resources m.material)).filter
              (fun t => t ≠ "")).toFinset.card + 1 ∧
        (∀ device staging ti,
          createTextureImages device r.texture_names resources staging = .ok ti →
            ti.texture_images.length = r.texture_names.length ∧
            ti.texture_images.getLast? = some { width := 1, height := 1 } ∧
            List.Forall₂ (ImageOf resources) ti.texture_images.dropLast real) ∧
        ∀ device staging, (∀ w h, device.vkCreateImage w h = true) →
          (∀ t ∈ real, ∃ texture, resources.textures t = some texture) →
          ∃ ti, createTextureImages device r.texture_names resources staging = .ok ti := by
  have hnd : (order.iterate
      (uniqueTextures resources (order.iterate (uniqueMaterials ms)))).Nodup :=
    (order.perm _).nodup_iff.2 (nodup_uniqueTextures resources _)
  have hmem := mem_texture_names order resources ms
  refine ⟨_, getResourceNames_eq order resources batch ms h hmat, _, rfl, hnd, hmem,
    by simp, by simp, ?_, ?_, ?_, ?_⟩
  · have hne : "" ∉ order.iterate
        (uniqueTextures resources (order.iterate (uniqueMaterials ms))) :=
      fun hin => ((hmem "").1 hin).1 rfl
    simp [List.count_append, List.count_eq_zero_of_not_mem hne]
  · simp only [List.length_append, List.length_singleton, Nat.add_right_cancel_iff]
    rw [← List.toFinset_card_of_nodup hnd]
    congr 1
    ext t
    simp only [List.mem_toFinset, hmem, List.mem_filter, List.mem_flatMap, decide_eq_true_eq]
    tauto
  · intro device staging ti hti
    obtain ⟨imgs, h1, h2, _⟩ := createTextureImages_ok device resources _ staging ti hti
    simp only [List.dropLast_concat] at h2
    have hl := List.Forall₂.length_eq h2
    refine ⟨by simp [h1, hl], by simp [h1], ?_⟩
    rw [h1, List.dropLast_concat]
    exact h2
  · intro device staging hdev hpre
    apply createTextureImages_total device resources _ staging hdev
    simpa only [List.dropLast_concat] using hpre

theorem exampleImages :
    createTextureImages exampleDevice exampleNames.texture_names exampleResources
      exampleNames.staging_buffer_size = .ok
        { texture_images := [⟨2, 2⟩, ⟨4, 4⟩, ⟨1, 1⟩]
          requirements := [(0, ⟨16, 4, 2⟩), (1, ⟨64, 4, 2⟩), (2, ⟨4, 4, 2⟩)]
          staging_buffer_size := 128 } := by rfl

/-- Witness of C8 on the example scene: two textures and the placeholder. -/
theorem texture_names_placeholder_witness :
    Resolves exampleResources exampleBatch exampleModels ∧
    getResourceNames insertionOrder exampleBatch exampleResources = .ok exampleNames ∧
    exampleNames.texture_names = ["t1", "t2", ""] ∧
    (∃ ti, createTextureImages exampleDevice exampleNames.texture_names exampleResources
      exampleNames.staging_buffer_size = .ok ti ∧
      ti.texture_images = [⟨2, 2⟩, ⟨4, 4⟩, ⟨1, 1⟩]) ∧
    ∃ r, getResourceNames insertionOrder exampleBatch exampleResources = .ok r ∧
      ∃ real, r.texture_names = real ++ [""] ∧ real.Nodup ∧
        (∀ t, t ∈ real ↔ t ≠ "" ∧ ∃ m ∈ exampleModels, t ∈ texturesOf exampleResources m.material) ∧
        r.texture_names ≠ [] ∧
        r.texture_names.getLast? = some "" ∧
        r.texture_names.count "" = 1 ∧
        r.texture_names.length
          = ((exampleModels.flatMap (fun m => texturesOf exampleResources m.material)).filter
              (fun t => t ≠ "")).toFinset.card + 1 ∧
        (∀ device staging ti,
          createTextureImages device r.texture_names exampleResources staging = .ok ti →
            ti.texture_images.length = r.texture_names.length ∧
            ti.texture_images.getLast? = some { width := 1, height := 1 } ∧
            List.Forall₂ (ImageOf exampleResources) ti.texture_images.dropLast real) ∧
        ∀ device staging, (∀ w h, device.vkCreateImage w h = true) →
          (∀ t ∈ real, ∃ texture, exampleResources.textures t = some texture) →
          ∃ ti, createTextureImages device r.texture_names exampleResources staging = .ok ti :=
  ⟨exampleBatch_resolves, rfl, rfl, ⟨_, exampleImages, rfl⟩,
    texture_names_placeholder insertionOrder exampleResources exampleBatch exampleModels
      exampleBatch_resolves exampleModels_materials⟩

/-! ## Claims on the buffer sizes -/

theorem createBuffers_ok (device : Device) (v i u vr ir ur : VkMemoryRequirements)
    (buffers : Buffers) (h : createBuffers device v i u = .ok (buffers, vr, ir, ur)) :
    buffers.vertex.size = v.size ∧ buffers.index.size = i.size ∧
    buffers.uniform.size = u.size := by
  unfold createBuffers Buffer.create at h
  split at h
  · simp at h
  · next vertex hv =>
    split at h
    · simp at h
    · next index hi =>
      split at h
      · simp at h
      · next uniform hu =>
        simp only [Except.ok.injEq, Prod.mk.injEq] at h
        obtain ⟨hb, _⟩ := h
        subst hb
        split at hv
        · split at hi
          · split at hu
            · simp only [Except.ok.injEq] at hv hi hu
              subst hv hi hu
              exact ⟨rfl, rfl, rfl⟩
            · simp at hu
          · simp at hi
        · simp at hv

theorem createBuffers_total (device : Device) (v i u : VkMemoryRequirements)
    (hdev : ∀ usage size, device.vkCreateBuffer usage size = true) :
    ∃ r, createBuffers device v i u = .ok r := by
  simp only [createBuffers, Buffer.create, hdev, if_true]
  exact ⟨_, rfl⟩

theorem build_ok (device : Device) (order : HashOrder) (batch : List String)
    (resources : Resources) (pack : ResourcePack)
    (h : build device order batch resources = .ok pack) :
    ∃ names vr ir ur textures,
      getResourceNames order batch resources = .ok names ∧
      buildBuffers device names = .ok (pack.buffers, vr, ir, ur) ∧
      createTextureImages device names.texture_names resources names.staging_buffer_size
        = .ok textures ∧
      allocateMemory device vr ir ur textures.requirements = .ok pack.memory ∧
      copyResources device textures.staging_buffer_size batch names.model_offsets
        names.material_names names.texture_names resources pack.buffers
        textures.texture_images = .ok pack.transfers ∧
      pack.model_offsets = names.model_offsets ∧
      pack.texture_images = textures.texture_images := by
  unfold build at h
  split at h
  · simp at h
  · next names hn =>
    split at h
    · simp at h
    · next buffers vr ir ur hb =>
      split at h
      · simp at h
      · next textures ht =>
        split at h
        · simp at h
        · next memory hm =>
          split at h
          · simp at h
          · next transfers hc =>
            simp only at h
            split at h
            · simp at h
            · next materials hd =>
              simp only [Except.ok.injEq] at h
              subst h
              exact ⟨names, vr, ir, ur, textures, hn, hb, ht, hm, hc, rfl, rfl⟩

/-- C6 (amended): for a batch whose models and their materials are in the
scene, the sizes with which `build` creates the three buffers are the total
vertex count times `sizeof(Model::Vertex)`, the total index count times
`sizeof(uint32_t)` and the number of distinct materials times
`sizeof(MaterialUniform)`, each reduced modulo `2 ^ 64`; they are these
products themselves whenever the products are below `2 ^ 64`. The buffers of
a pack returned by `build` are these buffers, and they are created whenever
the device creates every buffer. -/
theorem build_buffer_sizes (device : Device) (order : HashOrder) (resources : Resources)
    (batch : List String) (ms : List Model) (h : Resolves resources batch ms)
    (hmat : ∀ m ∈ ms, ∃ material, resources.materials m.material = some material) :
    ∃ names, getResourceNames order batch resources = .ok names ∧
      (∀ buffers vr ir ur, buildBuffers device names = .ok (buffers, vr, ir, ur) →
        buffers.vertex.size = ((ms.map Model.vertices).sum * sizeofVertex) % 2 ^ 64 ∧
        buffers.index.size = ((ms.map Model.indices).sum * sizeofIndex) % 2 ^ 64 ∧
        buffers.uniform.size
          = ((ms.map Model.material).toFinset.card * sizeofMaterialUniform) % 2 ^ 64 ∧
        ((ms.map Model.vertices).sum * sizeofVertex < 2 ^ 64 →
          buffers.vertex.size = (ms.map Model.vertices).sum * sizeofVertex) ∧
        ((ms.map Model.indices).sum * sizeofIndex < 2 ^ 64 →
          buffers.index.size = (ms.map Model.indices).sum * sizeofIndex) ∧
        ((ms.map Model.material).toFinset.card * sizeofMaterialUniform < 2 ^ 64 →
          buffers.uniform.size
            = (ms.map Model.material).toFinset.card * sizeofMaterialUniform)) ∧
      (∀ pack, build device order batch resources = .ok pack →
        ∃ vr ir ur, buildBuffers device names = .ok (pack.buffers, vr, ir, ur)) ∧
      ((∀ usage size, device.vkCreateBuffer usage size = true) →
        ∃ r, buildBuffers device names = .ok r) := by
  have hcard := iterate_uniqueMaterials_length order ms
  have heq := getResourceNames_eq order resources batch ms h hmat
  refine ⟨_, heq, ?_, ?_, ?_⟩
  · intro buffers vr ir ur hb
    obtain ⟨h1, h2, h3⟩ := createBuffers_ok device _ _ _ vr ir ur buffers hb
    simp only [wrap64] at h1 h2 h3
    rw [hcard] at h3
    refine ⟨h1, h2, h3, ?_, ?_, ?_⟩
    · intro hlt; rw [h1, Nat.mod_eq_of_lt hlt]
    · intro hlt; rw [h2, Nat.mod_eq_of_lt hlt]
    · intro hlt; rw [h3, Nat.mod_eq_of_lt hlt]
  · intro pack hp
    obtain ⟨names, vr, ir, ur, _, hn, hb, _⟩ := build_ok device order batch resources pack hp
    rw [heq] at hn
    simp only [Except.ok.injEq] at hn
    subst hn
    exact ⟨vr, ir, ur, hb⟩
  · intro hdev
    exact createBuffers_total device _ _ _ hdev

/-- Witness of C6 on the example scene: 7 vertices, 9 indices and 2 materials
give buffers of 224, 36 and 128 bytes. -/
theorem build_buffer_sizes_witness :
    Resolves exampleResources exampleBatch exampleModels ∧
    ((build exampleDevice insertionOrder exampleBatch exampleResources).toOption.map
      (fun pack => (pack.buffers.vertex.size, pack.buffers.index.size,
        pack.buffers.uniform.size))) = some (224, 36, 128) ∧
    ∃ names, getResourceNames insertionOrder exampleBatch exampleResources = .ok names ∧
      (∀ buffers vr ir ur, buildBuffers exampleDevice names = .ok (buffers, vr, ir, ur) →
        buffers.vertex.size = ((exampleModels.map Model.vertices).sum * sizeofVertex) % 2 ^ 64 ∧
        buffers.index.size = ((exampleModels.map Model.indices).sum * sizeofIndex) % 2 ^ 64 ∧
        buffers.uniform.size
          = ((exampleModels.map Model.material).toFinset.card * sizeofMaterialUniform)
              % 2 ^ 64 ∧
        ((exampleModels.map Model.vertices).sum * sizeofVertex < 2 ^ 64 →
          buffers.vertex.size = (exampleModels.map Model.vertices).sum * sizeofVertex) ∧
        ((exampleModels.map Model.indices).sum * sizeofIndex < 2 ^ 64 →
          buffers.index.size = (exampleModels.map Model.indices).sum * sizeofIndex) ∧
        ((exampleModels.map Model.material).toFinset.card * sizeofMaterialUniform < 2 ^ 64 →
          buffers.uniform.size
            = (exampleModels.map Model.material).toFinset.card * sizeofMaterialUniform)) ∧
      (∀ pack, build exampleDevice insertionOrder exampleBatch exampleResources = .ok pack →
        ∃ vr ir ur, buildBuffers exampleDevice names = .ok (pack.buffers, vr, ir, ur)) ∧
      ((∀ usage size, exampleDevice.vkCreateBuffer usage size = true) →
        ∃ r, buildBuffers exampleDevice names = .ok r) :=
  ⟨exampleBatch_resolves, rfl,
    build_buffer_sizes exampleDevice insertionOrder exampleResources exampleBatch exampleModels
      exampleBatch_resolves exampleModels_materials⟩

/-- Counterexample to C6 as stated: for the batch `X, X, Y, X, X` the build
succeeds and creates the vertex buffer with `2 ^ 64 - 64` bytes, while the
total vertex count times `sizeof(Model::Vertex)` is `2 ^ 65 - 64`. -/
theorem build_buffer_sizes_counterexample :
    Resolves hugeVertexResources ["X", "X", "Y", "X", "X"]
      [hugeVertexModel, hugeVertexModel, smallVertexModel, hugeVertexModel, hugeVertexModel] ∧
    ((build exampleDevice insertionOrder ["X", "X", "Y", "X", "X"]
      hugeVertexResources).toOption.map (fun pack => pack.buffers.vertex.size))
        = some (2 ^ 64 - 64) ∧
    (([hugeVertexModel, hugeVertexModel, smallVertexModel, hugeVertexModel,
      hugeVertexModel].map Model.vertices).sum * sizeofVertex) = 2 ^ 65 - 64 ∧
    (2 ^ 64 - 64 : Nat) ≠ 2 ^ 65 - 64 := by
  refine ⟨?_, by rfl, by decide, by decide⟩
  unfold Resolves
  repeat first | exact List.Forall₂.nil | refine List.Forall₂.cons (by rfl) ?_

/-! ## Which errors `copyResources` can raise -/

theorem getMemoryIndexLoop_error_message (mp : VkPhysicalDeviceMemoryProperties)
    (type_bits properties : Nat) (n i : Nat) (e : String)
    (h : getMemoryIndexLoop mp type_bits properties i n = .error e) :
    e = "Failed to find suitable memory index" := by
  induction n generalizing i with
  | zero =>
    simp only [getMemoryIndexLoop, Except.error.injEq] at h
    exact h.symm
  | succ n ih =>
    simp only [getMemoryIndexLoop] at h
    split at h
    · simp at h
    · exact ih _ h

theorem StagingBuffer.create_ok (device : Device) (size : Nat) (staging : StagingBuffer)
    (h : StagingBuffer.create device size = .ok staging) : staging.size = size := by
  unfold StagingBuffer.create at h
  split at h
  · simp only at h
    split at h
    · simp at h
    · split at h
      · simp only [Except.ok.injEq] at h
        rw [← h]
      · simp at h
  · simp at h

theorem StagingBuffer.create_error (device : Device) (size : Nat) (e : String)
    (h : StagingBuffer.create device size = .error e) :
    e = "Failed to create staging buffer" ∨ e = "Failed to find suitable memory index" ∨
      e = "Failed to allocate staging buffer memory" := by
  unfold StagingBuffer.create at h
  split at h
  · simp only at h
    split at h
    · next e' he =>
      simp only [Except.error.injEq] at h
      subst h
      exact Or.inr (Or.inl (getMemoryIndexLoop_error_message _ _ _ _ _ _ he))
    · split at h
      · simp at h
      · simp only [Except.error.injEq] at h
        exact Or.inr (Or.inr h.symm)
  · simp only [Except.error.injEq] at h
    exact Or.inl h.symm

theorem copyBuffer_error (staging : StagingBuffer) (dst : Buffer) (offset : Nat)
    (src : Payload) (size : Nat) (e : String)
    (h : staging.copyBuffer dst offset src size = .error e) :
    (e = "Not enough memory allocated for staging buffer" ∧ staging.size < size) ∨
    (e = "Invalid destination buffer offset" ∧ dst.size < wrap64 (offset + size)) := by
  unfold StagingBuffer.copyBuffer at h
  split at h
  · next hs =>
    simp only [Except.error.injEq] at h
    exact Or.inl ⟨h.symm, hs⟩
  · split at h
    · next hd =>
      simp only [Except.error.injEq] at h
      exact Or.inr ⟨h.symm, hd⟩
    · simp at h

theorem copyImage_error (staging : StagingBuffer) (dst : Image2D) (src : Payload)
    (size : Nat) (e : String) (h : staging.copyImage dst src size = .error e) :
    e = "Not enough memory allocated for staging buffer" ∧ staging.size < size := by
  unfold StagingBuffer.copyImage at h
  split at h
  · next hs =>
    simp only [Except.error.injEq] at h
    exact ⟨h.symm, hs⟩
  · simp at h

theorem copyModels_ne (staging : StagingBuffer) (resources : Resources) (buffers : Buffers)
    (bad : String) (names : List String) (ms : List Model) (offs : List ModelOffset)
    (hb1 : bad ≠ "unordered_map::at")
    (hres : Resolves resources names ms)
    (hP : List.Forall₂ (ModelTransfersPass staging buffers bad) offs ms) :
    copyModels staging resources buffers names offs ≠ .error bad := by
  unfold Resolves at hres
  induction hres generalizing offs with
  | nil => simp [copyModels]
  | @cons n m ns ms hnm _ ih =>
    cases hP with
    | @cons e _ es _ hP1 hP2 =>
      simp only [copyModels, mapAt, hnm]
      intro h
      split at h
      · next e1 he1 =>
        simp only [Except.error.injEq] at h
        subst h
        exact hP1.1 _ he1
      · split at h
        · next e2 he2 =>
          simp only [Except.error.injEq] at h
          subst h
          exact hP1.2 _ he2
        · split at h
          · next e3 he3 =>
            simp only [Except.error.injEq] at h
            subst h
            exact ih es hP2 he3
          · simp at h

theorem copyTextures_ne (staging : StagingBuffer) (resources : Resources)
    (images : List Image2D) (bad : String) (names : List String) (i : Nat)
    (hb1 : bad ≠ "unordered_map::at") (hb2 : bad ≠ "images index out of range")
    (hP : ∀ name ∈ names, ∀ texture, resources.textures name = some texture →
      ∀ image src, staging.copyImage image src texture.data ≠ .error bad) :
    copyTextures staging resources images i names ≠ .error bad := by
  induction names generalizing i with
  | nil => simp [copyTextures]
  | cons n ns ih =>
    simp only [copyTextures, mapAt]
    intro h
    split at h
    · next e1 he1 =>
      split at he1
      · simp at he1
      · simp only [Except.error.injEq] at he1 h
        exact hb1 (h ▸ he1.symm)
    · next texture ht =>
      split at ht
      · next tex htex =>
        simp only [Except.ok.injEq] at ht
        subst ht
        split at h
        · simp only [Except.error.injEq] at h
          exact hb2 h.symm
        · next image _ =>
          split at h
          · next e2 he2 =>
            simp only [Except.error.injEq] at h
            subst h
            exact hP n (List.mem_cons_self _ _) tex htex image _ he2
          · split at h
            · next e3 he3 =>
              simp only [Except.error.injEq] at h
              subst h
              exact ih (i + 1) (fun name hn => hP name (List.mem_cons_of_mem _ hn)) he3
            · simp at h
      · simp at ht

theorem materialUniforms_error (resources : Resources) (names : List String) (e : String)
    (h : materialUniforms resources names = .error e) : e = "unordered_map::at" := by
  induction names with
  | nil => simp [materialUniforms] at h
  | cons n ns ih =>
    simp only [materialUniforms, mapAt] at h
    split at h
    · next e1 he1 =>
      split at he1
      · simp at he1
      · simp only [Except.error.injEq] at he1 h
        rw [← h, ← he1]
    · split at h
      · next e2 he2 =>
        simp only [Except.error.injEq] at h
        subst h
        exact ih he2
      · simp at h

theorem materialUniforms_ok_length (resources : Resources) (names : List String)
    (records : List MaterialUniform) (h : materialUniforms resources names = .ok records) :
    records.length = names.length := by
  induction names generalizing records with
  | nil =>
    simp only [materialUniforms, Except.ok.injEq] at h
    subst h; rfl
  | cons n ns ih =>
    simp only [materialUniforms] at h
    split at h
    · simp at h
    · split at h
      · simp at h
      · next tail ht =>
        simp only [Except.ok.injEq] at h
        subst h
        simp [ih tail ht]

/-- The error `bad` is not raised by `copyResources` when it is none of the
fixed messages of the other failure points and none of the transfers raises
it. -/
theorem copyResources_ne (device : Device) (capacity : Nat) (resources : Resources)
    (buffers : Buffers) (images : List Image2D) (bad : String)
    (batch : List String) (ms : List Model) (offs : List ModelOffset)
    (material_names texture_names : List String)
    (hb1 : bad ≠ "unordered_map::at") (hb2 : bad ≠ "images index out of range")
    (hb3 : bad ≠ "Failed to create staging buffer")
    (hb4 : bad ≠ "Failed to find suitable memory index")
    (hb5 : bad ≠ "Failed to allocate staging buffer memory")
    (hb6 : bad ≠ "images.back() on an empty vector")
    (hres : Resolves resources batch ms)
    (hmodels : List.Forall₂ (ModelTransfersPass ⟨capacity⟩ buffers bad) offs ms)
    (huniform : ∀ src, (StagingBuffer.mk capacity).copyBuffer buffers.uniform 0 src
      (wrap64 (material_names.length * sizeofMaterialUniform)) ≠ .error bad)
    (htextures : ∀ name ∈ texture_names.dropLast, ∀ texture,
      resources.textures name = some texture →
      ∀ image src, (StagingBuffer.mk capacity).copyImage image src texture.data ≠ .error bad)
    (hplaceholder : ∀ image src, (StagingBuffer.mk capacity).copyImage image src 4 ≠ .error bad) :
    copyResources device capacity batch offs material_names texture_names resources buffers
      images ≠ .error bad := by
  unfold copyResources
  intro h
  split at h
  · next e he =>
    simp only [Except.error.injEq] at h
    subst h
    rcases StagingBuffer.create_error device capacity _ he with h1 | h1 | h1
    · exact hb3 h1
    · exact hb4 h1
    · exact hb5 h1
  · next staging hst =>
    have hsz : staging = ⟨capacity⟩ := by
      have := StagingBuffer.create_ok device capacity staging hst
      cases staging
      simp only at this
      rw [this]
    subst hsz
    split at h
    · next e he =>
      simp only [Except.error.injEq] at h
      subst h
      exact copyModels_ne _ resources buffers _ batch ms offs hb1 hres hmodels he
    · split at h
      · next e he =>
        simp only [Except.error.injEq] at h
        subst h
        exact hb1 (materialUniforms_error resources _ _ he)
      · next records hrec =>
        rw [materialUniforms_ok_length resources _ records hrec] at h
        split at h
        · next e he =>
          simp only [Except.error.injEq] at h
          subst h
          exact huniform _ he
        · split at h
          · next e he =>
            simp only [Except.error.injEq] at h
            subst h
            exact copyTextures_ne _ resources images _ _ 0 hb1 hb2 htextures he
          · split at h
            · simp only [Except.error.injEq] at h
              exact hb6 h.symm
            · split at h
              · next e he =>
                simp only [Except.error.injEq] at h
                subst h
                exact hplaceholder _ _ he
              · simp at h

/-! ## Which errors the other steps of `build` can raise -/

theorem createBuffers_error (device : Device) (v i u : VkMemoryRequirements) (e : String)
    (h : createBuffers device v i u = .error e) : e = "Failed to create buffer" := by
  unfold createBuffers Buffer.create at h
  split at h
  · next e1 he1 =>
    split at he1
    · simp at he1
    · simp only [Except.error.injEq] at he1 h
      rw [← h, ← he1]
  · split at h
    · next e1 he1 =>
      split at he1
      · simp at he1
      · simp only [Except.error.injEq] at he1 h
        rw [← h, ← he1]
    · split at h
      · next e1 he1 =>
        split at he1
        · simp at he1
        · simp only [Except.error.injEq] at he1 h
          rw [← h, ← he1]
      · simp at h

theorem textureImagesLoop_error (device : Device) (resources : Resources)
    (names : List String) (i : Nat) (st : TextureImages) (e : String)
    (h : textureImagesLoop device resources i names st = .error e) :
    e = "unordered_map::at" ∨ e = "Failed to create image" := by
  induction names generalizing i st with
  | nil => simp [textureImagesLoop] at h
  | cons n ns ih =>
    simp only [textureImagesLoop, mapAt, Image2D.create] at h
    split at h
    · next e1 he1 =>
      split at he1
      · simp at he1
      · simp only [Except.error.injEq] at he1 h
        exact Or.inl (by rw [← h, ← he1])
    · split at h
      · next e1 he1 =>
        split at he1
        · simp at he1
        · simp only [Except.error.injEq] at he1 h
          exact Or.inr (by rw [← h, ← he1])
      · exact ih _ _ h

theorem createTextureImages_error (device : Device) (resources : Resources)
    (names : List String) (staging : Nat) (e : String)
    (h : createTextureImages device names resources staging = .error e) :
    e = "unordered_map::at" ∨ e = "Failed to create image" := by
  unfold createTextureImages at h
  split at h
  · next e1 he1 =>
    simp only [Except.error.injEq] at h
    subst h
    exact textureImagesLoop_error device resources _ _ _ _ he1
  · simp only [Image2D.create] at h
    split at h
    · next e1 he1 =>
      split at he1
      · simp at he1
      · simp only [Except.error.injEq] at he1 h
        exact Or.inr (by rw [← h, ← he1])
    · simp at h

theorem allocateMemory_error (device : Device) (v i u : VkMemoryRequirements)
    (tex : List TextureRequirements) (e : String)
    (h : allocateMemory device v i u tex = .error e) :
    e = "Failed to find suitable memory index" ∨
      e = "Failed to allocate resource pack device memory" := by
  unfold allocateMemory at h
  simp only at h
  split at h
  · next e1 he1 =>
    simp only [Except.error.injEq] at h
    subst h
    exact Or.inl (getMemoryIndexLoop_error_message _ _ _ _ _ _ he1)
  · split at h
    · simp at h
    · simp only [Except.error.injEq] at h
      exact Or.inr h.symm

theorem slotViews_error (idx : String → Option Nat) (views : List ImageView2D)
    (names : List String) (e : String) (h : slotViews idx views names = .error e) :
    e = "unordered_map::at" ∨ e = "texture_views index out of range" := by
  induction names with
  | nil => simp [slotViews] at h
  | cons n ns ih =>
    simp only [slotViews, mapAt] at h
    split at h
    · next e1 he1 =>
      split at he1
      · simp at he1
      · simp only [Except.error.injEq] at he1 h
        exact Or.inl (by rw [← h, ← he1])
    · split at h
      · simp only [Except.error.injEq] at h
        exact Or.inr h.symm
      · split at h
        · next e2 he2 =>
          simp only [Except.error.injEq] at h
          subst h
          exact ih he2
        · simp at h

theorem descriptorLoop_error (resources : Resources) (idx : String → Option Nat)
    (views : List ImageView2D) (buffers : Buffers) (names : List String) (i : Nat)
    (e : String) (h : descriptorLoop resources idx views buffers i names = .error e) :
    e = "unordered_map::at" ∨ e = "texture_views index out of range" := by
  induction names generalizing i with
  | nil => simp [descriptorLoop] at h
  | cons n ns ih =>
    simp only [descriptorLoop, mapAt] at h
    split at h
    · next e1 he1 =>
      split at he1
      · simp at he1
      · simp only [Except.error.injEq] at he1 h
        exact Or.inl (by rw [← h, ← he1])
    · split at h
      · next e2 he2 =>
        simp only [Except.error.injEq] at h
        subst h
        exact slotViews_error _ _ _ _ he2
      · split at h
        · next e3 he3 =>
          simp only [Except.error.injEq] at h
          subst h
          exact ih _ he3
        · simp at h

/-- The error `bad` is not raised by `build` when it is none of the fixed
messages of the other failure points and `copyResources`, called as `build`
calls it, does not raise it. -/
theorem build_ne (device : Device) (order : HashOrder) (batch : List String)
    (resources : Resources) (bad : String) (names : ResourceNames)
    (hnames : getResourceNames order batch resources = .ok names)
    (hb1 : bad ≠ "unordered_map::at") (hb2 : bad ≠ "Failed to create buffer")
    (hb3 : bad ≠ "Failed to create image")
    (hb4 : bad ≠ "Failed to find suitable memory index")
    (hb5 : bad ≠ "Failed to allocate resource pack device memory")
    (hb6 : bad ≠ "texture_views index out of range")
    (hcopy : ∀ buffers vr ir ur textures,
      buildBuffers device names = .ok (buffers, vr, ir, ur) →
      createTextureImages device names.texture_names resources names.staging_buffer_size
        = .ok textures →
      copyResources device textures.staging_buffer_size batch names.model_offsets
        names.material_names names.texture_names resources buffers textures.texture_images
        ≠ .error bad) :
    build device order batch resources ≠ .error bad := by
  unfold build
  rw [hnames]
  simp only
  intro h
  split at h
  · next e he =>
    simp only [Except.error.injEq] at h
    subst h
    exact hb2 (createBuffers_error device _ _ _ _ he)
  · next buffers vr ir ur hb =>
    split at h
    · next e he =>
      simp only [Except.error.injEq] at h
      subst h
      rcases createTextureImages_error device resources _ _ _ he with h1 | h1
      · exact hb1 h1
      · exact hb3 h1
    · next textures ht =>
      split at h
      · next e he =>
        simp only [Except.error.injEq] at h
        subst h
        rcases allocateMemory_error device _ _ _ _ _ he with h1 | h1
        · exact hb4 h1
        · exact hb5 h1
      · split at h
        · next e he =>
          simp only [Except.error.injEq] at h
          subst h
          exact hcopy buffers vr ir ur textures hb ht he
        · split at h
          · next e he =>
            simp only [Except.error.injEq] at h
            subst h
            rcases descriptorLoop_error _ _ _ _ _ _ _ he with h1 | h1
            · exact hb1 h1
            · exact hb6 h1
          · simp at h

/-! ## Claims on the transfers of `copyResources` -/

theorem entries_bounds (idx : String → Option Nat) (ms : List Model) (vo io : Nat)
    (hv : vo + (ms.map Model.vertices).sum < 2 ^ 64)
    (hi : io + (ms.map Model.indices).sum < 2 ^ 64) :
    List.Forall₂ (fun (e : ModelOffset) (m : Model) =>
        e.vertex_offset + m.vertices ≤ vo + (ms.map Model.vertices).sum ∧
        e.index_offset + m.indices ≤ io + (ms.map Model.indices).sum ∧
        e.index_count = m.indices)
      (List.zipWith (withMaterialIndex idx) (entriesFrom vo io ms) ms) ms := by
  induction ms generalizing vo io with
  | nil => exact List.Forall₂.nil
  | cons m ms ih =>
    simp only [List.map_cons, List.sum_cons] at hv hi ⊢
    have hw1 : wrap64 (vo + m.vertices) = vo + m.vertices := Nat.mod_eq_of_lt (by omega)
    have hw2 : wrap64 (io + m.indices) = io + m.indices := Nat.mod_eq_of_lt (by omega)
    simp only [entriesFrom, List.zipWith_cons_cons, hw1, hw2]
    refine List.Forall₂.cons ⟨?_, ?_, rfl⟩ ?_
    · simp only [withMaterialIndex]; omega
    · simp only [withMaterialIndex]; omega
    · refine List.Forall₂.imp ?_ (ih (vo + m.vertices) (io + m.indices) (by omega) (by omega))
      rintro e m' ⟨h1, h2, h3⟩
      exact ⟨by omega, by omega, h3⟩

theorem entries_index_count (idx : String → Option Nat) (ms : List Model) (vo io : Nat) :
    List.Forall₂ (fun (e : ModelOffset) (m : Model) => e.index_count = m.indices)
      (List.zipWith (withMaterialIndex idx) (entriesFrom vo io ms) ms) ms := by
  induction ms generalizing vo io with
  | nil => exact List.Forall₂.nil
  | cons m ms ih =>
    simp only [entriesFrom, List.zipWith_cons_cons]
    exact List.Forall₂.cons rfl (ih _ _)

theorem le_listMax (l : List Nat) (x : Nat) (h : x ∈ l) : x ≤ listMax l := by
  induction l with
  | nil => simp at h
  | cons a l ih =>
    simp only [listMax, List.foldr_cons]
    rcases List.mem_cons.1 h with rfl | h
    · exact le_max_left _ _
    · exact le_trans (ih h) (le_max_right _ _)

theorem getResourceNames_fields (order : HashOrder) (resources : Resources)
    (batch : List String) (ms : List Model) (h : Resolves resources batch ms)
    (hmat : ∀ m ∈ ms, ∃ material, resources.materials m.material = some material) :
    ∃ names, getResourceNames order batch resources = .ok names ∧
      names.model_offsets
        = List.zipWith (withMaterialIndex (indexMap (order.iterate (uniqueMaterials ms))))
            (entriesFrom 0 0 ms) ms ∧
      names.material_names = order.iterate (uniqueMaterials ms) ∧
      names.texture_names
        = order.iterate (uniqueTextures resources (order.iterate (uniqueMaterials ms)))
            ++ [""] ∧
      names.vertex_buffer_size = ((ms.map Model.vertices).sum * sizeofVertex) % 2 ^ 64 ∧
      names.index_buffer_size = ((ms.map Model.indices).sum * sizeofIndex) % 2 ^ 64 ∧
      names.staging_buffer_size
        = max (max (listMax (ms.map Model.vertexBytes)) (listMax (ms.map Model.indexBytes)))
            (wrap64 ((order.iterate (uniqueMaterials ms)).length * sizeofMaterialUniform)) :=
  ⟨_, getResourceNames_eq order resources batch ms h hmat, rfl, rfl, rfl, rfl, rfl, rfl⟩

/-- C9 (amended): for a batch whose models and their materials are in the
scene and whose three exact buffer sizes (total vertex bytes, total index
bytes, materials times `sizeof(MaterialUniform)`) are below `2 ^ 64`, every
model `i` satisfies
`(vertex_offset_i + vertex_count_i) * sizeof(Model::Vertex) <= vertex buffer size`
and `(index_offset_i + index_count_i) * sizeof(uint32_t) <= index buffer size`,
the uniform upload fits the uniform buffer, and neither `copyResources` nor
`build` fails with `Invalid destination buffer offset`. -/
theorem build_destination_in_range (device : Device) (order : HashOrder)
    (resources : Resources) (batch : List String) (ms : List Model)
    (h : Resolves resources batch ms)
    (hmat : ∀ m ∈ ms, ∃ material, resources.materials m.material = some material)
    (hv : (ms.map Model.vertices).sum * sizeofVertex < 2 ^ 64)
    (hi : (ms.map Model.indices).sum * sizeofIndex < 2 ^ 64)
    (hu : (ms.map Model.material).toFinset.card * sizeofMaterialUniform < 2 ^ 64) :
    ∃ names, getResourceNames order batch resources = .ok names ∧
      (∀ p ∈ List.zip names.model_offsets ms,
        (p.1.vertex_offset + p.2.vertices) * sizeofVertex ≤ names.vertex_buffer_size ∧
        (p.1.index_offset + p.1.index_count) * sizeofIndex ≤ names.index_buffer_size ∧
        p.1.index_count = p.2.indices) ∧
      (∀ buffers vr ir ur, buildBuffers device names = .ok (buffers, vr, ir, ur) →
        buffers.vertex.size = names.vertex_buffer_size ∧
        buffers.index.size = names.index_buffer_size ∧
        names.material_names.length * sizeofMaterialUniform ≤ buffers.uniform.size ∧
        ∀ capacity images,
          copyResources device capacity batch names.model_offsets names.material_names
            names.texture_names resources buffers images
            ≠ .error "Invalid destination buffer offset") ∧
      build device order batch resources ≠ .error "Invalid destination buffer offset" := by
  obtain ⟨names, heq, fo, fm, _, fv, fi, _⟩ :=
    getResourceNames_fields order resources batch ms h hmat
  have hcard := iterate_uniqueMaterials_length order ms
  simp only [sizeofVertex, sizeofIndex, sizeofMaterialUniform] at hv hi hu
  have hb := entries_bounds (indexMap (order.iterate (uniqueMaterials ms))) ms 0 0
    (by omega) (by omega)
  rw [← fo] at hb
  simp only [sizeofVertex, sizeofIndex] at fv fi
  have hstage : ∀ buffers vr ir ur,
      buildBuffers device names = .ok (buffers, vr, ir, ur) →
      buffers.vertex.size = names.vertex_buffer_size ∧
      buffers.index.size = names.index_buffer_size ∧
      names.material_names.length * sizeofMaterialUniform ≤ buffers.uniform.size ∧
      ∀ capacity images,
        copyResources device capacity batch names.model_offsets names.material_names
          names.texture_names resources buffers images
          ≠ .error "Invalid destination buffer offset" := by
    intro buffers vr ir ur hbuf
    obtain ⟨h1, h2, h3⟩ := createBuffers_ok device _ _ _ vr ir ur buffers hbuf
    simp only at h1 h2 h3
    have hlen : names.material_names.length * 64 < 2 ^ 64 := by rw [fm, hcard]; exact hu
    refine ⟨h1, h2, ?_, ?_⟩
    · rw [h3]
      simp only [wrap64, sizeofMaterialUniform]
      omega
    · intro capacity images
      apply copyResources_ne device capacity resources buffers images _ batch ms _ _ _
        (by decide) (by decide) (by decide) (by decide) (by decide) (by decide) h
      · refine List.Forall₂.imp ?_ hb
        rintro e m ⟨q1, q2, q3⟩
        constructor
        · intro src hbad
          rcases copyBuffer_error _ _ _ _ _ _ hbad with ⟨hs, _⟩ | ⟨_, hd⟩
          · exact absurd hs (by decide)
          · rw [h2, q3, fi] at hd
            simp only [wrap64, sizeofIndex] at hd
            omega
        · intro src hbad
          rcases copyBuffer_error _ _ _ _ _ _ hbad with ⟨hs, _⟩ | ⟨_, hd⟩
          · exact absurd hs (by decide)
          · rw [h1, fv] at hd
            simp only [wrap64, sizeofVertex] at hd
            omega
      · intro src hbad
        rcases copyBuffer_error _ _ _ _ _ _ hbad with ⟨hs, _⟩ | ⟨_, hd⟩
        · exact absurd hs (by decide)
        · rw [h3] at hd
          simp only [wrap64] at hd
          omega
      · intro name _ texture _ image src hbad
        exact absurd (copyImage_error _ _ _ _ _ hbad).1 (by decide)
      · intro image src hbad
        exact absurd (copyImage_error _ _ _ _ _ hbad).1 (by decide)
  refine ⟨names, heq, ?_, hstage, ?_⟩
  · intro p hp
    have hq := List.forall₂_zip hb (a := p.1) (b := p.2) hp
    obtain ⟨q1, q2, q3⟩ := hq
    rw [fv, fi]
    simp only [sizeofVertex, sizeofIndex]
    refine ⟨?_, ?_, q3⟩
    · omega
    · rw [q3]; omega
  · apply build_ne device order batch resources _ names heq
      (by decide) (by decide) (by decide) (by decide) (by decide) (by decide)
    intro buffers vr ir ur textures hbuf _
    exact (hstage buffers vr ir ur hbuf).2.2.2 _ _

/-- Witness of C9 on the example scene, where the build succeeds. -/
theorem build_destination_in_range_witness :
    Resolves exampleResources exampleBatch exampleModels ∧
    (exampleModels.map Model.vertices).sum * sizeofVertex < 2 ^ 64 ∧
    (exampleModels.map Model.indices).sum * sizeofIndex < 2 ^ 64 ∧
    (exampleModels.map Model.material).toFinset.card * sizeofMaterialUniform < 2 ^ 64 ∧
    (build exampleDevice insertionOrder exampleBatch exampleResources).toOption.isSome = true ∧
    ∃ names, getResourceNames insertionOrder exampleBatch exampleResources = .ok names ∧
      (∀ p ∈ List.zip names.model_offsets exampleModels,
        (p.1.vertex_offset + p.2.vertices) * sizeofVertex ≤ names.vertex_buffer_size ∧
        (p.1.index_offset + p.1.index_count) * sizeofIndex ≤ names.index_buffer_size ∧
        p.1.index_count = p.2.indices) ∧
      (∀ buffers vr ir ur, buildBuffers exampleDevice names = .ok (buffers, vr, ir, ur) →
        buffers.vertex.size = names.vertex_buffer_size ∧
        buffers.index.size = names.index_buffer_size ∧
        names.material_names.length * sizeofMaterialUniform ≤ buffers.uniform.size ∧
        ∀ capacity images,
          copyResources exampleDevice capacity exampleBatch names.model_offsets
            names.material_names names.texture_names exampleResources buffers images
            ≠ .error "Invalid destination buffer offset") ∧
      build exampleDevice insertionOrder exampleBatch exampleResources
        ≠ .error "Invalid destination buffer offset" :=
  ⟨exampleBatch_resolves, by decide, by decide, by decide, rfl,
    build_destination_in_range exampleDevice insertionOrder exampleResources exampleBatch
      exampleModels exampleBatch_resolves exampleModels_materials (by decide) (by decide)
      (by decide)⟩

/-- Counterexample to C9 as stated: for the batch `X, X, X` the vertex buffer
size wraps to `2 ^ 63 - 96`, the vertices of the first model take
`2 ^ 63 - 32` bytes, and `build` fails in `copyResources` with
`Invalid destination buffer offset`. -/
theorem build_destination_counterexample :
    Resolves hugeVertexResources ["X", "X", "X"]
      [hugeVertexModel, hugeVertexModel, hugeVertexModel] ∧
    build exampleDevice insertionOrder ["X", "X", "X"] hugeVertexResources
      = .error "Invalid destination buffer offset" ∧
    ∃ names, getResourceNames insertionOrder ["X", "X", "X"] hugeVertexResources = .ok names ∧
      names.vertex_buffer_size = 2 ^ 63 - 96 ∧
      ¬ ∀ p ∈ List.zip names.model_offsets [hugeVertexModel, hugeVertexModel, hugeVertexModel],
        (p.1.vertex_offset + p.2.vertices) * sizeofVertex ≤ names.vertex_buffer_size := by
  refine ⟨?_, by rfl, ⟨[⟨0, 0, 3, 0⟩, ⟨2 ^ 58 - 1, 3, 3, 0⟩, ⟨2 ^ 59 - 2, 6, 3, 0⟩], ["M"],
    [""], 2 ^ 63 - 96, 36, 2 ^ 63 - 32⟩, by rfl, by rfl, by decide⟩
  unfold Resolves
  repeat first | exact List.Forall₂.nil | refine List.Forall₂.cons (by rfl) ?_

/-! ## Claims on the staging capacity -/

/-- C10: for a batch whose models and their materials are in the scene, the
staging capacity computed by `build` (by `getResourceNames`, then
`createTextureImages`) is the maximum of the largest per-model vertex byte
size, the largest per-model index byte size, the number of distinct materials
times `sizeof(MaterialUniform)`, the largest data size of a real texture, and
4, the byte sizes being the 64-bit values the build computes; with the exact
products in their place the same equation holds whenever each product is
below `2 ^ 64`, as it is for vectors that fit in memory; every transfer size
is at most the capacity, and neither `copyResources` nor `build` fails with
`Not enough memory allocated for staging buffer`. -/
theorem build_staging_capacity (device : Device) (order : HashOrder)
    (resources : Resources) (batch : List String) (ms : List Model)
    (h : Resolves resources batch ms)
    (hmat : ∀ m ∈ ms, ∃ material, resources.materials m.material = some material) :
    ∃ names, getResourceNames order batch resources = .ok names ∧
      names.material_names.length = (ms.map Model.material).toFinset.card ∧
      (∀ textures,
        createTextureImages device names.texture_names resources names.staging_buffer_size
          = .ok textures →
        textures.staging_buffer_size
          = max (listMax (ms.map Model.vertexBytes))
              (max (listMax (ms.map Model.indexBytes))
                (max (wrap64 (names.material_names.length * sizeofMaterialUniform))
                  (max (listMax (names.texture_names.dropLast.map (textureBytes resources)))
                    4))) ∧
        (∀ m ∈ ms, wrap64 (m.vertices * sizeofVertex) ≤ textures.staging_buffer_size ∧
          wrap64 (m.indices * sizeofIndex) ≤ textures.staging_buffer_size) ∧
        wrap64 (names.material_names.length * sizeofMaterialUniform)
          ≤ textures.staging_buffer_size ∧
        (∀ t ∈ names.texture_names.dropLast,
          textureBytes resources t ≤ textures.staging_buffer_size) ∧
        4 ≤ textures.staging_buffer_size ∧
        ∀ buffers,
          copyResources device textures.staging_buffer_size batch names.model_offsets
            names.material_names names.texture_names resources buffers
            textures.texture_images
            ≠ .error "Not enough memory allocated for staging buffer") ∧
      build device order batch resources
        ≠ .error "Not enough memory allocated for staging buffer" ∧
      ((∀ m ∈ ms, m.vertices * sizeofVertex < 2 ^ 64 ∧ m.indices * sizeofIndex < 2 ^ 64) →
        (ms.map Model.material).toFinset.card * sizeofMaterialUniform < 2 ^ 64 →
        ∀ textures,
          createTextureImages device names.texture_names resources names.staging_buffer_size
            = .ok textures →
          textures.staging_buffer_size
            = max (listMax (ms.map (fun m => m.vertices * sizeofVertex)))
                (max (listMax (ms.map (fun m => m.indices * sizeofIndex)))
                  (max ((ms.map Model.material).toFinset.card * sizeofMaterialUniform)
                    (max (listMax (names.texture_names.dropLast.map (textureBytes resources)))
                      4)))) := by
  obtain ⟨names, heq, fo, fm, _, _, _, fs⟩ :=
    getResourceNames_fields order resources batch ms h hmat
  have hcard := iterate_uniqueMaterials_length order ms
  have hcount := entries_index_count (indexMap (order.iterate (uniqueMaterials ms))) ms 0 0
  rw [← fo] at hcount
  rw [← fm] at fs
  have hstage : ∀ textures,
      createTextureImages device names.texture_names resources names.staging_buffer_size
        = .ok textures →
      textures.staging_buffer_size
        = max (listMax (ms.map Model.vertexBytes))
            (max (listMax (ms.map Model.indexBytes))
              (max (wrap64 (names.material_names.length * sizeofMaterialUniform))
                (max (listMax (names.texture_names.dropLast.map (textureBytes resources)))
                  4))) ∧
      (∀ m ∈ ms, wrap64 (m.vertices * sizeofVertex) ≤ textures.staging_buffer_size ∧
        wrap64 (m.indices * sizeofIndex) ≤ textures.staging_buffer_size) ∧
      wrap64 (names.material_names.length * sizeofMaterialUniform)
        ≤ textures.staging_buffer_size ∧
      (∀ t ∈ names.texture_names.dropLast,
        textureBytes resources t ≤ textures.staging_buffer_size) ∧
      4 ≤ textures.staging_buffer_size ∧
      ∀ buffers,
        copyResources device textures.staging_buffer_size batch names.model_offsets
          names.material_names names.texture_names resources buffers textures.texture_images
          ≠ .error "Not enough memory allocated for staging buffer" := by
    intro textures ht
    obtain ⟨_, _, _, hcap⟩ := createTextureImages_ok device resources _ _ textures ht
    rw [fs] at hcap
    have hmodels : ∀ m ∈ ms, wrap64 (m.vertices * sizeofVertex) ≤ textures.staging_buffer_size ∧
        wrap64 (m.indices * sizeofIndex) ≤ textures.staging_buffer_size := by
      intro m hm
      have h1 := le_listMax (ms.map Model.vertexBytes) m.vertexBytes (List.mem_map_of_mem _ hm)
      have h2 := le_listMax (ms.map Model.indexBytes) m.indexBytes (List.mem_map_of_mem _ hm)
      simp only [Model.vertexBytes, Model.indexBytes] at h1 h2
      omega
    have htex : ∀ t ∈ names.texture_names.dropLast,
        textureBytes resources t ≤ textures.staging_buffer_size := by
      intro t ht'
      have h1 := le_listMax (names.texture_names.dropLast.map (textureBytes resources)) _
        (List.mem_map_of_mem _ ht')
      omega
    refine ⟨by omega, hmodels, by omega, htex, by omega, ?_⟩
    intro buffers
    apply copyResources_ne device _ resources buffers _ _ batch ms _ _ _
      (by decide) (by decide) (by decide) (by decide) (by decide) (by decide) h
    · rw [List.forall₂_iff_zip]
      refine ⟨(List.Forall₂.length_eq hcount), ?_⟩
      intro e m hem
      have hq := List.forall₂_zip hcount hem
      have hm := (List.of_mem_zip hem).2
      obtain ⟨hv1, hi1⟩ := hmodels m hm
      constructor
      · intro src hbad
        rcases copyBuffer_error _ _ _ _ _ _ hbad with ⟨_, hs⟩ | ⟨hd, _⟩
        · rw [hq] at hs
          simp only at hs
          omega
        · exact absurd hd (by decide)
      · intro src hbad
        rcases copyBuffer_error _ _ _ _ _ _ hbad with ⟨_, hs⟩ | ⟨hd, _⟩
        · simp only at hs
          omega
        · exact absurd hd (by decide)
    · intro src hbad
      rcases copyBuffer_error _ _ _ _ _ _ hbad with ⟨_, hs⟩ | ⟨hd, _⟩
      · simp only at hs
        omega
      · exact absurd hd (by decide)
    · intro name hn texture htx image src hbad
      have hs := (copyImage_error _ _ _ _ _ hbad).2
      have h1 := htex name hn
      simp only [textureBytes, htx] at h1
      simp only at hs
      omega
    · intro image src hbad
      have hs := (copyImage_error _ _ _ _ _ hbad).2
      simp only at hs
      omega
  refine ⟨names, heq, by rw [fm, hcard], hstage, ?_, ?_⟩
  · apply build_ne device order batch resources _ names heq
      (by decide) (by decide) (by decide) (by decide) (by decide) (by decide)
    intro buffers vr ir ur textures _ ht
    exact (hstage textures ht).2.2.2.2.2 buffers
  · intro hfit hmats textures ht
    have e1 : ms.map Model.vertexBytes = ms.map (fun m => m.vertices * sizeofVertex) :=
      List.map_congr_left (fun m hm => Nat.mod_eq_of_lt (hfit m hm).1)
    have e2 : ms.map Model.indexBytes = ms.map (fun m => m.indices * sizeofIndex) :=
      List.map_congr_left (fun m hm => Nat.mod_eq_of_lt (hfit m hm).2)
    have e3 : wrap64 (names.material_names.length * sizeofMaterialUniform)
        = (ms.map Model.material).toFinset.card * sizeofMaterialUniform := by
      rw [fm, hcard]
      exact Nat.mod_eq_of_lt hmats
    rw [(hstage textures ht).1, e1, e2, e3]

/-- Witness of C10 on the example scene: the capacity is 128 bytes, the size
of the largest vertex upload and of the uniform array. -/
theorem build_staging_capacity_witness :
    Resolves exampleResources exampleBatch exampleModels ∧
    getResourceNames insertionOrder exampleBatch exampleResources = .ok exampleNames ∧
    (∃ textures, createTextureImages exampleDevice exampleNames.texture_names exampleResources
      exampleNames.staging_buffer_size = .ok textures ∧ textures.staging_buffer_size = 128) ∧
    (build exampleDevice insertionOrder exampleBatch exampleResources).toOption.isSome = true ∧
    build exampleDevice insertionOrder exampleBatch exampleResources
      ≠ .error "Not enough memory allocated for staging buffer" :=
  have w := build_staging_capacity exampleDevice insertionOrder exampleResources exampleBatch
    exampleModels exampleBatch_resolves exampleModels_materials
  ⟨exampleBatch_resolves, rfl, ⟨_, exampleImages, rfl⟩, rfl, by
    obtain ⟨_, _, _, _, hb, _⟩ := w
    exact hb⟩

/-! ## Staging transfers: bounds check, early failure, image copy -/

theorem transfer_reliable (driver : TransferDriver) (h : driver.Succeeds) (src : Payload)
    (size : Nat) (commands : List DeviceCall) :
    StagingBuffer.transfer driver src size commands =
      ([.vkMapMemory size, .memcpy src size, .vkUnmapMemory, .vkAllocateCommandBuffers,
        .vkBeginCommandBuffer] ++ commands ++
        [.vkEndCommandBuffer, .vkQueueSubmit, .vkWaitForFences, .vkResetFences,
          .vkFreeCommandBuffers], .ok ()) := by
  obtain ⟨h1, h2, h3, h4, h5⟩ := h
  simp [StagingBuffer.transfer, StagingBuffer.beginTransferCommand,
    StagingBuffer.endTransferCommand, StagingBuffer.waitFence, h1, h2, h3, h4, h5]

theorem transfer_ok_iff (driver : TransferDriver) (src : Payload) (size : Nat)
    (commands : List DeviceCall) :
    (StagingBuffer.transfer driver src size commands).2 = .ok () ↔ driver.Succeeds := by
  rcases driver with ⟨a, b, c, d, e⟩
  cases a <;> cases b <;> cases c <;> cases d <;> cases e <;>
    simp [StagingBuffer.transfer, StagingBuffer.beginTransferCommand,
      StagingBuffer.endTransferCommand, StagingBuffer.waitFence, TransferDriver.Succeeds]

theorem except_unit_cases (r : Except String Unit) : r = .ok () ∨ ∃ e, r = .error e := by
  cases r with
  | ok u => exact Or.inl rfl
  | error e => exact Or.inr ⟨e, rfl⟩

/-- With a driver that succeeds, the call-by-call `copyBuffer` returns exactly
when `StagingBuffer.copyBuffer` does. -/
theorem copyBufferCalls_reliable (staging : StagingBuffer) (driver : TransferDriver)
    (h : driver.Succeeds) (dst : Buffer) (offset : Nat) (src : Payload) (size : Nat) :
    (staging.copyBufferCalls driver dst offset src size).2 =
      (staging.copyBuffer dst offset src size).map fun _ => () := by
  unfold StagingBuffer.copyBufferCalls StagingBuffer.copyBuffer
  split
  · rfl
  · split
    · rfl
    · rw [transfer_reliable driver h]; rfl

/-- With a driver that succeeds, the call-by-call `copyImage` returns exactly
when `StagingBuffer.copyImage` does. -/
theorem copyImageCalls_reliable (staging : StagingBuffer) (driver : TransferDriver)
    (h : driver.Succeeds) (dst : Image2D) (src : Payload) (size : Nat) :
    (staging.copyImageCalls driver dst src size).2 =
      (staging.copyImage dst src size).map fun _ => () := by
  unfold StagingBuffer.copyImageCalls StagingBuffer.copyImage
  split
  · rfl
  · rw [transfer_reliable driver h]; rfl

/-- C11, the code at the failing input: a staging buffer of 16 bytes, a
destination of 100 bytes, `dst_offset = 2 ^ 64 - 8` and `size = 16`. Both are
64-bit values, the exact sum `2 ^ 64 + 8` exceeds `dst.size()`, yet the check on
the wrapped sum passes, the call returns, and a copy of 16 bytes to offset
`2 ^ 64 - 8` of the destination is recorded and submitted. -/
theorem copyBuffer_offset_wraps :
    2 ^ 64 - 8 < 2 ^ 64 ∧ 16 < 2 ^ 64 ∧ (2 ^ 64 - 8) + 16 > 100 ∧
    (StagingBuffer.copyBufferCalls ⟨16⟩ reliableDriver ⟨100, VK_BUFFER_USAGE_VERTEX_BUFFER_BIT⟩
        (2 ^ 64 - 8) .zeroPixel 16).2 = .ok () ∧
    recorded (StagingBuffer.copyBufferCalls ⟨16⟩ reliableDriver
        ⟨100, VK_BUFFER_USAGE_VERTEX_BUFFER_BIT⟩ (2 ^ 64 - 8) .zeroPixel 16).1 =
      [.vkCmdCopyBuffer ⟨100, VK_BUFFER_USAGE_VERTEX_BUFFER_BIT⟩ 0 (2 ^ 64 - 8) 16] ∧
    StagingBuffer.copyBuffer ⟨16⟩ ⟨100, VK_BUFFER_USAGE_VERTEX_BUFFER_BIT⟩ (2 ^ 64 - 8)
        .zeroPixel 16 =
      .ok [.mapMemory 16, .memcpy .zeroPixel 16, .unmapMemory, .beginTransferCommand,
        .cmdCopyBuffer ⟨100, VK_BUFFER_USAGE_VERTEX_BUFFER_BIT⟩ 0 (2 ^ 64 - 8) 16,
        .endTransferCommand] :=
  ⟨by decide, by decide, by decide, by rfl, by rfl, by rfl⟩

/-- C12: when `size` exceeds the staging capacity `copyBuffer` throws before any
call is made, whatever the driver would answer: the staging memory is neither
mapped nor written, no command buffer is allocated, recorded or submitted, and
no command touches the destination buffer. -/
theorem copyBuffer_oversize_no_call (staging : StagingBuffer) (driver : TransferDriver)
    (dst : Buffer) (offset : Nat) (src : Payload) (size : Nat) (h : size > staging.size) :
    staging.copyBufferCalls driver dst offset src size =
      ([], .error "Not enough memory allocated for staging buffer") := by
  simp [StagingBuffer.copyBufferCalls, h]

/-- Witness of C12: 17 bytes for a staging buffer of 16 bytes. -/
theorem copyBuffer_oversize_no_call_witness :
    17 > (⟨16⟩ : StagingBuffer).size ∧
    StagingBuffer.copyBufferCalls ⟨16⟩ reliableDriver ⟨100, VK_BUFFER_USAGE_VERTEX_BUFFER_BIT⟩
        0 .zeroPixel 17 = ([], .error "Not enough memory allocated for staging buffer") :=
  ⟨by decide, copyBuffer_oversize_no_call ⟨16⟩ reliableDriver _ 0 .zeroPixel 17 (by decide)⟩

/-- C13 as stated fails: with 16 bytes for a staging buffer of 16 bytes the size
check passes, but when the queue rejects the submission `copyImage` throws
`Failed to submit staging buffer transfer command`. -/
theorem copyImage_fails_within_capacity :
    ¬ (∀ (staging : StagingBuffer) (driver : TransferDriver) (dst : Image2D) (src : Payload)
        (size : Nat),
        (∃ e, (staging.copyImageCalls driver dst src size).2 = .error e) ↔
          size > staging.size) := by
  intro h
  have h1 := (h ⟨16⟩ rejectingDriver ⟨2, 2⟩ .zeroPixel 16).1
    ⟨"Failed to submit staging buffer transfer command", rfl⟩
  exact absurd h1 (by decide)

/-- C13, amended: `copyImage` fails exactly when `src.size()` exceeds the staging
capacity or one of the driver calls of the transfer (allocating, beginning or
ending the command buffer, submitting it, waiting for the fence) fails; an
oversized source fails before any call is made; and when `copyImage` does not
fail, the commands it recorded are, in this order, the barrier from `UNDEFINED`
to `TRANSFER_DST_OPTIMAL`, the buffer-to-image copy, and the barrier from
`TRANSFER_DST_OPTIMAL` to `SHADER_READ_ONLY_OPTIMAL`. -/
theorem copyImage_spec (staging : StagingBuffer) (driver : TransferDriver) (dst : Image2D)
    (src : Payload) (size : Nat) :
    ((∃ e, (staging.copyImageCalls driver dst src size).2 = .error e) ↔
      (size > staging.size ∨ ¬ driver.Succeeds)) ∧
    (size > staging.size → staging.copyImageCalls driver dst src size =
      ([], .error "Not enough memory allocated for staging buffer")) ∧
    ((staging.copyImageCalls driver dst src size).2 = .ok () →
      recorded (staging.copyImageCalls driver dst src size).1 =
        [.vkCmdPipelineBarrier dst .UNDEFINED .TRANSFER_DST_OPTIMAL,
         .vkCmdCopyBufferToImage dst .TRANSFER_DST_OPTIMAL
           { bufferOffset := 0, bufferRowLength := dst.height,
             bufferImageHeight := dst.width, imageOffset := (0, 0, 0),
             imageExtent := (dst.width, dst.height, 1) },
         .vkCmdPipelineBarrier dst .TRANSFER_DST_OPTIMAL .SHADER_READ_ONLY_OPTIMAL]) := by
  by_cases hs : size > staging.size
  · have hc : staging.copyImageCalls driver dst src size =
        ([], .error "Not enough memory allocated for staging buffer") := by
      simp [StagingBuffer.copyImageCalls, hs]
    refine ⟨⟨fun _ => Or.inl hs, fun _ => ⟨_, by rw [hc]⟩⟩, fun _ => hc, ?_⟩
    rw [hc]; intro h; cases h
  · have hc : staging.copyImageCalls driver dst src size =
        StagingBuffer.transfer driver src size
          [.vkCmdPipelineBarrier dst .UNDEFINED .TRANSFER_DST_OPTIMAL,
           .vkCmdCopyBufferToImage dst .TRANSFER_DST_OPTIMAL
             { bufferOffset := 0, bufferRowLength := dst.height,
               bufferImageHeight := dst.width, imageOffset := (0, 0, 0),
               imageExtent := (dst.width, dst.height, 1) },
           .vkCmdPipelineBarrier dst .TRANSFER_DST_OPTIMAL .SHADER_READ_ONLY_OPTIMAL] := by
      simp [StagingBuffer.copyImageCalls, hs]
    rw [hc]
    refine ⟨⟨?_, ?_⟩, fun h => absurd h hs, ?_⟩
    · rintro ⟨e, he⟩
      refine Or.inr fun hd => ?_
      rw [(transfer_ok_iff driver src size _).2 hd] at he
      cases he
    · rintro (h | h)
      · exact absurd h hs
      · rcases except_unit_cases (StagingBuffer.transfer driver src size
          [.vkCmdPipelineBarrier dst .UNDEFINED .TRANSFER_DST_OPTIMAL,
           .vkCmdCopyBufferToImage dst .TRANSFER_DST_OPTIMAL
             { bufferOffset := 0, bufferRowLength := dst.height,
               bufferImageHeight := dst.width, imageOffset := (0, 0, 0),
               imageExtent := (dst.width, dst.height, 1) },
           .vkCmdPipelineBarrier dst .TRANSFER_DST_OPTIMAL
             .SHADER_READ_ONLY_OPTIMAL]).2 with hok | herr
        · exact absurd ((transfer_ok_iff driver src size _).1 hok) h
        · exact herr
    · intro hok
      rw [transfer_reliable driver ((transfer_ok_iff driver src size _).1 hok)]
      rfl

/-- Witness of C13 (amended): 16 bytes for a staging buffer of 16 bytes and a
driver that succeeds; the copy returns with the three commands recorded. -/
theorem copyImage_spec_witness :
    ((∃ e, (StagingBuffer.copyImageCalls ⟨16⟩ reliableDriver ⟨2, 2⟩ (.pixels "t1") 16).2 =
        .error e) ↔ (16 > (⟨16⟩ : StagingBuffer).size ∨ ¬ reliableDriver.Succeeds)) ∧
    (StagingBuffer.copyImageCalls ⟨16⟩ reliableDriver ⟨2, 2⟩ (.pixels "t1") 16).2 = .ok () ∧
    recorded (StagingBuffer.copyImageCalls ⟨16⟩ reliableDriver ⟨2, 2⟩ (.pixels "t1") 16).1 =
      [.vkCmdPipelineBarrier ⟨2, 2⟩ .UNDEFINED .TRANSFER_DST_OPTIMAL,
       .vkCmdCopyBufferToImage ⟨2, 2⟩ .TRANSFER_DST_OPTIMAL
         { bufferOffset := 0, bufferRowLength := 2, bufferImageHeight := 2,
           imageOffset := (0, 0, 0), imageExtent := (2, 2, 1) },
       .vkCmdPipelineBarrier ⟨2, 2⟩ .TRANSFER_DST_OPTIMAL .SHADER_READ_ONLY_OPTIMAL] :=
  ⟨(copyImage_spec ⟨16⟩ reliableDriver ⟨2, 2⟩ (.pixels "t1") 16).1, by rfl,
    (copyImage_spec ⟨16⟩ reliableDriver ⟨2, 2⟩ (.pixels "t1") 16).2.2 (by rfl)⟩

/-! ## Swapchain: the frame cursor -/

theorem cursor_increment (c K : Nat) (hc : c < K) (hK : K < 2 ^ 32) :
    (c + 1) % 2 ^ 32 % K % 2 ^ 32 = (c + 1) % K := by
  have h1 : (c + 1) % 2 ^ 32 = c + 1 := Nat.mod_eq_of_lt (by omega)
  have h2 : (c + 1) % K < K := Nat.mod_lt _ (by omega)
  rw [h1]
  exact Nat.mod_eq_of_lt (by omega)

theorem step_cursor (sc : Swapchain) (op : SwapchainOp) (K n : Nat) (h1 : 1 ≤ K)
    (hK : K < 2 ^ 32) (hlen : sc.m_images.length = K) (hcur : sc.m_current_frame = n % K) :
    (sc.step op).m_images.length = K ∧
      (sc.step op).m_current_frame = (n + successfulPresents [op]) % K := by
  cases op with
  | acquireImage acquired waited =>
    exact ⟨hlen, by simpa [Swapchain.step, successfulPresents] using hcur⟩
  | presentImage state presented =>
    cases presented with
    | false =>
      exact ⟨hlen, by simpa [Swapchain.step, Swapchain.presentImage, successfulPresents]
        using hcur⟩
    | true =>
      refine ⟨by simpa [Swapchain.step, Swapchain.presentImage] using hlen, ?_⟩
      have hlt : sc.m_current_frame < K := by rw [hcur]; exact Nat.mod_lt _ (by omega)
      have hinc := cursor_increment sc.m_current_frame K hlt hK
      simp only [Swapchain.step, Swapchain.presentImage, successfulPresents, hlen,
        Bool.not_true, Bool.false_eq_true, if_false, List.countP_cons, List.countP_nil,
        if_true, Nat.zero_add]
      rw [hinc, hcur, Nat.add_mod, Nat.mod_mod, ← Nat.add_mod]

theorem successfulPresents_cons (op : SwapchainOp) (ops : List SwapchainOp) :
    successfulPresents (op :: ops) = successfulPresents [op] + successfulPresents ops := by
  simp [successfulPresents, List.countP_cons, Nat.add_comm]

theorem run_cursor (K : Nat) (h1 : 1 ≤ K) (hK : K < 2 ^ 32) (ops : List SwapchainOp) :
    ∀ (sc : Swapchain) (n : Nat), sc.m_images.length = K → sc.m_current_frame = n % K →
      (sc.run ops).m_images.length = K ∧
        (sc.run ops).m_current_frame = (n + successfulPresents ops) % K := by
  induction ops with
  | nil =>
    intro sc n hlen hcur
    exact ⟨hlen, by simpa [Swapchain.run, successfulPresents] using hcur⟩
  | cons op ops ih =>
    intro sc n hlen hcur
    obtain ⟨hl, hc⟩ := step_cursor sc op K n h1 hK hlen hcur
    have := ih (sc.step op) (n + successfulPresents [op]) hl hc
    rw [successfulPresents_cons, ← Nat.add_assoc]
    simpa [Swapchain.run] using this

theorem create_images_length (driver : SwapchainDriver) :
    (Swapchain.create driver).m_images.length = driver.count := by
  simp [Swapchain.create]

theorem rounds_cursor (K : Nat) (h1 : 1 ≤ K) (hK : K < 2 ^ 32) (acquired : List Nat) :
    ∀ (sc : Swapchain) (n : Nat), sc.m_images.length = K → sc.m_current_frame = n % K →
      sc.rounds acquired = (List.range acquired.length).map fun r => (n + r + 1) % K := by
  induction acquired with
  | nil => intro sc n _ _; rfl
  | cons index rest ih =>
    intro sc n hlen hcur
    have hlt : sc.m_current_frame < K := by rw [hcur]; exact Nat.mod_lt _ (by omega)
    have hinc := cursor_increment sc.m_current_frame K hlt hK
    have hnext : (sc.m_current_frame + 1) % K = (n + 1) % K := by
      rw [hcur, Nat.add_mod, Nat.mod_mod, ← Nat.add_mod]
    simp only [Swapchain.rounds, Swapchain.acquireImage, Swapchain.presentImage,
      Bool.not_true, Bool.false_eq_true, if_false, hlen, hinc, hnext]
    rw [ih _ (n + 1) (by simpa using hlen) rfl, List.length_cons, List.range_succ_eq_map,
      List.map_cons, List.map_map]
    refine congrArg₂ _ rfl (List.map_congr_left fun r _ => ?_)
    simp only [Function.comp, Nat.succ_eq_add_one]
    congr 1
    omega

/-- C14: for a swapchain of `K >= 1` images the cursor is 0 after construction;
after any sequence of `acquireImage` and `presentImage` calls it equals the
number of `presentImage` calls that returned, modulo `K`, and so stays below
`K`; `acquireImage` and a `presentImage` that throws leave the swapchain as it
was; and with `K = 3` the cursor after each of seven acquire/present rounds is
1, 2, 0, 1, 2, 0, 1. -/
theorem presentImage_cursor (driver : SwapchainDriver) (h1 : 1 ≤ driver.count)
    (hK : driver.count < 2 ^ 32) :
    (Swapchain.create driver).m_current_frame = 0 ∧
    (∀ ops : List SwapchainOp,
      ((Swapchain.create driver).run ops).m_current_frame =
          successfulPresents ops % driver.count ∧
        ((Swapchain.create driver).run ops).m_current_frame < driver.count) ∧
    (∀ (sc : Swapchain) (acquired : Option Nat) (waited : Bool),
      sc.step (.acquireImage acquired waited) = sc) ∧
    (∀ (sc : Swapchain) (state : FrameState), sc.step (.presentImage state false) = sc) ∧
    (driver.count = 3 → ∀ acquired : List Nat, acquired.length = 7 →
      (Swapchain.create driver).rounds acquired = [1, 2, 0, 1, 2, 0, 1]) := by
  refine ⟨rfl, fun ops => ?_, fun _ _ _ => rfl, fun _ _ => rfl, fun h3 acquired h7 => ?_⟩
  · have h := (run_cursor driver.count h1 hK ops (Swapchain.create driver) 0
      (create_images_length driver) (by simp [Swapchain.create])).2
    rw [Nat.zero_add] at h
    exact ⟨h, by rw [h]; exact Nat.mod_lt _ (by omega)⟩
  · rw [rounds_cursor driver.count h1 hK acquired (Swapchain.create driver) 0
      (create_images_length driver) (by simp [Swapchain.create]), h7, h3]
    rfl

/-- Witness of C14 on three images: two of six calls are returning
`presentImage` calls, and seven rounds give the cursors 1, 2, 0, 1, 2, 0, 1. -/
theorem presentImage_cursor_witness :
    (Swapchain.create threeImages).m_current_frame = 0 ∧
    ((Swapchain.create threeImages).run
        [.acquireImage (some 2) true, .presentImage ⟨2, 22, 70, 60, 52, 12⟩ true,
         .acquireImage none true, .presentImage ⟨0, 20, 71, 61, 50, 10⟩ false,
         .acquireImage (some 0) true, .presentImage ⟨0, 20, 71, 61, 50, 10⟩ true]).m_current_frame
      = 2 ∧
    (Swapchain.create threeImages).rounds [0, 1, 2, 0, 1, 2, 0] = [1, 2, 0, 1, 2, 0, 1] :=
  ⟨(presentImage_cursor threeImages (by decide) (by decide)).1,
    ((presentImage_cursor threeImages (by decide) (by decide)).2.1 _).1,
    (presentImage_cursor threeImages (by decide) (by decide)).2.2.2.2 rfl _ rfl⟩

/-! ## Swapchain: what `acquireImage` synchronises on -/

/-- C15 as stated fails: with the cursor at slot 0 and the presentation engine
returning image 1, `acquireImage` waits for and resets fence 51, the fence of
image 1, while the fence of the cursor slot is fence 50; the frame state carries
fence 51 with the two semaphores of slot 0. -/
theorem acquireImage_fence_counterexample :
    (Swapchain.create threeImages).m_current_frame = 0 ∧
    (Swapchain.create threeImages).m_image_available = [50, 51, 52] ∧
    (Swapchain.create threeImages).acquireImage (some 1) true =
      ([.vkAcquireNextImageKHR 70, .vkWaitForFences 51, .vkResetFences 51],
        .ok { _index := 1, _framebuffer := 21, _draw_ready := 70, _draw_finished := 60,
              _submit_fence := 51, _command := 11 }) ∧
    (Swapchain.create threeImages).m_image_available.getD
      (Swapchain.create threeImages).m_current_frame 0 ≠ 51 :=
  ⟨rfl, rfl, rfl, by decide⟩

/-- C15, amended: `acquireImage` requests the image with the `ready` semaphore
of the cursor slot; the fence it waits for and then resets is the fence of the
image index the presentation engine returned; the frame state carries the two
semaphores of the cursor slot and the fence, framebuffer and command buffer of
the returned image index. When the request fails nothing but the request is
made, and when the wait fails the fence is not reset. -/
theorem acquireImage_spec (sc : Swapchain) (index : Nat) :
    sc.acquireImage (some index) true =
      ([.vkAcquireNextImageKHR (sc.m_image_draw_ready.getD sc.m_current_frame 0),
        .vkWaitForFences (sc.m_image_available.getD index 0),
        .vkResetFences (sc.m_image_available.getD index 0)],
       .ok { _index := index,
             _framebuffer := sc.m_framebuffers.getD index 0,
             _draw_ready := sc.m_image_draw_ready.getD sc.m_current_frame 0,
             _draw_finished := sc.m_image_draw_finished.getD sc.m_current_frame 0,
             _submit_fence := sc.m_image_available.getD index 0,
             _command := sc.m_commands.getD index 0 }) ∧
    sc.acquireImage (some index) false =
      ([.vkAcquireNextImageKHR (sc.m_image_draw_ready.getD sc.m_current_frame 0),
        .vkWaitForFences (sc.m_image_available.getD index 0)],
       .error "Swapchain image available fence timeout") ∧
    (∀ waited, sc.acquireImage none waited =
      ([.vkAcquireNextImageKHR (sc.m_image_draw_ready.getD sc.m_current_frame 0)],
       .error "Failed to acquire next swapchain image")) :=
  ⟨rfl, rfl, fun _ => rfl⟩

/-- Witness of C15 (amended): with the cursor at slot 0 and image 2 returned,
semaphore 70 of slot 0 and fence 52 of image 2 are used. -/
theorem acquireImage_spec_witness :
    (Swapchain.create threeImages).acquireImage (some 2) true =
      ([.vkAcquireNextImageKHR 70, .vkWaitForFences 52, .vkResetFences 52],
        .ok { _index := 2, _framebuffer := 22, _draw_ready := 70, _draw_finished := 60,
              _submit_fence := 52, _command := 12 }) :=
  (acquireImage_spec (Swapchain.create threeImages) 2).1

/-! ## The frame loop: frames in flight -/

theorem acquireImage_state (driver : SwapchainDriver) (s : LoopState)
    (hinv : LoopInvariant driver s) (index : Nat) (calls : List SwapchainCall)
    (state : FrameState) (hindex : index < driver.count)
    (hacquire : s.swapchain.acquireImage (some index) true = (calls, .ok state)) :
    endFrameSubmission state =
      ⟨driver.command index, driver.framebuffer index, driver.image_available index⟩ := by
  simp only [Swapchain.acquireImage, Bool.not_true, Bool.false_eq_true, if_false,
    Prod.mk.injEq, Except.ok.injEq] at hacquire
  obtain ⟨-, rfl⟩ := hacquire
  simp [endFrameSubmission, hinv.commands, hinv.framebuffers, hinv.fences, List.getD,
    List.getElem?_map, List.getElem?_range hindex]

theorem loopInvariant_initial (driver : SwapchainDriver) :
    LoopInvariant driver (LoopState.initial driver) where
  commands := rfl
  framebuffers := rfl
  fences := rfl
  images := by simp [LoopState.initial, Swapchain.create]
  owned := by intro sub h; cases h
  nodup := List.nodup_nil
  unsignalled := by intro sub h; cases h
  recording := by intro state h; cases h

theorem loopInvariant_step (driver : SwapchainDriver) (s t : LoopState) (hinv : LoopInvariant driver s) (hstep : LoopStep s t) :
    LoopInvariant driver t := by
  cases hstep with
  | acquire index calls state hphase hindex hacquire hwait =>
    have hsub := acquireImage_state driver s hinv index calls state
      (by rw [← hinv.images]; exact hindex) hacquire
    refine ⟨hinv.commands, hinv.framebuffers, hinv.fences, hinv.images, hinv.owned,
      hinv.nodup, ?_, ?_⟩
    · intro sub hmem
      show (if sub.fence = state._submit_fence then false else s.signalled sub.fence) = false
      split
      · rfl
      · exact hinv.unsignalled sub hmem
    · intro state2 hrec
      have hst : state2 = state := by
        have : FramePhase.recording state = FramePhase.recording state2 := hrec
        injection this with h
        exact h.symm
      subst hst
      refine ⟨⟨index, by rw [← hinv.images]; exact hindex, hsub⟩, ?_, ?_⟩
      · show (if state2._submit_fence = state2._submit_fence then false
          else s.signalled state2._submit_fence) = false
        simp
      · intro hmem
        obtain ⟨sub, hsubmem, hfence⟩ := List.mem_map.1 hmem
        have := hinv.unsignalled sub hsubmem
        rw [hfence, hwait] at this
        cases this
  | record state hphase => exact hinv
  | submit state hphase =>
    obtain ⟨hown, hsig, hfresh⟩ := hinv.recording state hphase
    refine ⟨hinv.commands, hinv.framebuffers, hinv.fences, hinv.images, ?_, ?_, ?_, ?_⟩
    · intro sub hmem
      rcases List.mem_cons.1 hmem with h | h
      · subst h; exact hown
      · exact hinv.owned sub h
    · show ((endFrameSubmission state :: s.in_flight).map Submission.fence).Nodup
      rw [List.map_cons]
      exact List.nodup_cons.2 ⟨hfresh, hinv.nodup⟩
    · intro sub hmem
      rcases List.mem_cons.1 hmem with h | h
      · subst h; exact hsig
      · exact hinv.unsignalled sub h
    · intro state2 hrec
      cases hrec
  | present state calls next hphase hpresent =>
    have hnext : next = { s.swapchain with
        m_current_frame :=
          (s.swapchain.m_current_frame + 1) % 2 ^ 32 % s.swapchain.m_images.length % 2 ^ 32 } := by
      simp only [Swapchain.presentImage, Bool.not_true, Bool.false_eq_true, if_false,
        Prod.mk.injEq, Except.ok.injEq] at hpresent
      exact hpresent.2.symm
    subst hnext
    refine ⟨hinv.commands, hinv.framebuffers, hinv.fences, hinv.images, hinv.owned,
      hinv.nodup, hinv.unsignalled, ?_⟩
    intro state2 hrec
    cases hrec
  | complete submission hmem =>
    have hsublist : (s.in_flight.erase submission).Sublist s.in_flight :=
      List.erase_sublist _ _
    have hnodup : s.in_flight.Nodup := List.Nodup.of_map _ hinv.nodup
    have hne : ∀ sub ∈ s.in_flight.erase submission, sub.fence ≠ submission.fence := by
      intro sub hsub heq
      have hmem2 : sub ∈ s.in_flight := hsublist.subset hsub
      have : sub = submission :=
        List.inj_on_of_nodup_map hinv.nodup hmem2 hmem heq
      subst this
      exact (List.Nodup.mem_erase_iff hnodup).1 hsub |>.1 rfl
    refine ⟨hinv.commands, hinv.framebuffers, hinv.fences, hinv.images, ?_, ?_, ?_, ?_⟩
    · intro sub hsub
      exact hinv.owned sub (hsublist.subset hsub)
    · exact (hsublist.map Submission.fence).nodup hinv.nodup
    · intro sub hsub
      show (if sub.fence = submission.fence then true else s.signalled sub.fence) = false
      rw [if_neg (hne sub hsub)]
      exact hinv.unsignalled sub (hsublist.subset hsub)
    · intro state hrec
      obtain ⟨hown, hsig, hfresh⟩ := hinv.recording state hrec
      refine ⟨hown, ?_, ?_⟩
      · show (if state._submit_fence = submission.fence then true
          else s.signalled state._submit_fence) = false
        have : state._submit_fence ≠ submission.fence := by
          intro heq
          exact hfresh (heq ▸ List.mem_map_of_mem _ hmem)
        rw [if_neg this]
        exact hsig
      · intro hm
        exact hfresh ((hsublist.map Submission.fence).subset hm)

theorem reachable_invariant (driver : SwapchainDriver) (s : LoopState) (hs : Reachable driver s) : LoopInvariant driver s := by
  induction hs with
  | initial => exact loopInvariant_initial driver
  | step s t _ hstep ih => exact loopInvariant_step driver s t ih hstep

theorem in_flight_length_le (driver : SwapchainDriver) (s : LoopState)
    (hinv : LoopInvariant driver s) : s.in_flight.length ≤ driver.count := by
  have hsub : s.in_flight.map Submission.fence ⊆
      (List.range driver.count).map driver.image_available := by
    intro fence hmem
    obtain ⟨sub, hsubmem, rfl⟩ := List.mem_map.1 hmem
    obtain ⟨i, hi, rfl⟩ := hinv.owned sub hsubmem
    exact List.mem_map.2 ⟨i, List.mem_range.2 hi, rfl⟩
  have := (List.subperm_of_subset hinv.nodup hsub).length_le
  simpa using this

theorem recording_length_lt (driver : SwapchainDriver) (s : LoopState)
    (hinv : LoopInvariant driver s) (state : FrameState)
    (hrec : s.phase = .recording state) : s.in_flight.length + 1 ≤ driver.count := by
  obtain ⟨⟨i, hi, hown⟩, -, hfresh⟩ := hinv.recording state hrec
  have hfence : state._submit_fence = driver.image_available i := by
    have := congrArg Submission.fence hown
    simpa [endFrameSubmission] using this
  have hnodup : (state._submit_fence :: s.in_flight.map Submission.fence).Nodup :=
    List.nodup_cons.2 ⟨hfresh, hinv.nodup⟩
  have hsub : (state._submit_fence :: s.in_flight.map Submission.fence) ⊆
      (List.range driver.count).map driver.image_available := by
    intro fence hmem
    rcases List.mem_cons.1 hmem with h | h
    · rw [h, hfence]
      exact List.mem_map.2 ⟨i, List.mem_range.2 hi, rfl⟩
    · obtain ⟨sub, hsubmem, rfl⟩ := List.mem_map.1 h
      obtain ⟨j, hj, rfl⟩ := hinv.owned sub hsubmem
      exact List.mem_map.2 ⟨j, List.mem_range.2 hj, rfl⟩
  have := (List.subperm_of_subset hnodup hsub).length_le
  simpa using this

theorem in_flight_apart (driver : SwapchainDriver) (hd : driver.Distinct) (s : LoopState)
    (hinv : LoopInvariant driver s) (state : FrameState) (i : Nat) (hi : i < driver.count)
    (hown : endFrameSubmission state =
      ⟨driver.command i, driver.framebuffer i, driver.image_available i⟩)
    (hfresh : ∀ sub ∈ s.in_flight, sub.fence ≠ state._submit_fence) :
    ∀ sub ∈ s.in_flight, sub.command ≠ state._command ∧
      sub.framebuffer ≠ state._framebuffer ∧ sub.fence ≠ state._submit_fence := by
  intro sub hmem
  obtain ⟨j, hj, rfl⟩ := hinv.owned sub hmem
  have hc : state._command = driver.command i := by
    simpa [endFrameSubmission] using congrArg Submission.command hown
  have hf : state._framebuffer = driver.framebuffer i := by
    simpa [endFrameSubmission] using congrArg Submission.framebuffer hown
  have hs : state._submit_fence = driver.image_available i := by
    simpa [endFrameSubmission] using congrArg Submission.fence hown
  have hne : j ≠ i := by
    intro hji
    apply hfresh _ hmem
    rw [hs, hji]
  refine ⟨?_, ?_, hfresh _ hmem⟩
  · intro h
    exact hne (hd j i hj hi (Or.inl (by rw [hc] at h; exact h)))
  · intro h
    exact hne (hd j i hj hi (Or.inr (by rw [hf] at h; exact h)))

/-- C16: in every state the frame loop reaches from the constructed swapchain
of `K` images, through the steps acquire, record, submit with the fence of the
frame, present and completion of a submission on the GPU, at most `K`
submissions are in flight (the frame being recorded included); and whenever
`acquireImage` returns, its fence wait having passed, no submission in flight
uses the command buffer, the framebuffer or the fence of the frame state it
hands out, which stays so while that frame is recorded. -/
theorem frame_loop_in_flight (driver : SwapchainDriver) (hd : driver.Distinct)
    (s : LoopState) (hs : Reachable driver s) :
    s.swapchain.m_images.length = driver.count ∧
    s.in_flight.length ≤ driver.count ∧
    (∀ state, s.phase = .recording state → s.in_flight.length + 1 ≤ driver.count) ∧
    (∀ (index : Nat) (calls : List SwapchainCall) (state : FrameState),
      index < driver.count →
      s.swapchain.acquireImage (some index) true = (calls, .ok state) →
      s.signalled state._submit_fence = true →
      ∀ sub ∈ s.in_flight, sub.command ≠ state._command ∧
        sub.framebuffer ≠ state._framebuffer ∧ sub.fence ≠ state._submit_fence) ∧
    (∀ state, s.phase = .recording state →
      ∀ sub ∈ s.in_flight, sub.command ≠ state._command ∧
        sub.framebuffer ≠ state._framebuffer ∧ sub.fence ≠ state._submit_fence) := by
  have hinv := reachable_invariant driver s hs
  refine ⟨hinv.images, in_flight_length_le driver s hinv,
    fun state hrec => recording_length_lt driver s hinv state hrec, ?_, ?_⟩
  · intro index calls state hindex hacquire hwait
    refine in_flight_apart driver hd s hinv state index hindex
      (acquireImage_state driver s hinv index calls state hindex hacquire) ?_
    intro sub hmem heq
    have := hinv.unsignalled sub hmem
    rw [heq, hwait] at this
    cases this
  · intro state hrec
    obtain ⟨⟨i, hi, hown⟩, -, hfresh⟩ := hinv.recording state hrec
    refine in_flight_apart driver hd s hinv state i hi hown ?_
    intro sub hmem heq
    exact hfresh (heq ▸ List.mem_map_of_mem _ hmem)

/-- Witness of C16: with image 1 of three submitted and not finished, image 2
can be handed out and shares nothing with the submission in flight. -/
theorem frame_loop_in_flight_witness :
    threeImages.Distinct ∧ Reachable threeImages exampleLoopState ∧
    exampleLoopState.in_flight.length ≤ 3 ∧
    ∀ sub ∈ exampleLoopState.in_flight, sub.command ≠ 12 ∧ sub.framebuffer ≠ 22 ∧
      sub.fence ≠ 52 := by
  have hd : threeImages.Distinct := by
    intro i j _ _ h
    simp only [threeImages] at h
    omega
  have hr : Reachable threeImages exampleLoopState :=
    Reachable.step _ _
      (Reachable.step _ _ Reachable.initial
        (LoopStep.acquire (LoopState.initial threeImages) 1 _ exampleFrame rfl (by decide)
          rfl rfl))
      (LoopStep.submit _ exampleFrame rfl)
  exact ⟨hd, hr, (frame_loop_in_flight threeImages hd exampleLoopState hr).2.1,
    (frame_loop_in_flight threeImages hd exampleLoopState hr).2.2.2.1 2 _
      ⟨2, 22, 70, 60, 52, 12⟩ (by decide) rfl rfl⟩

/-! ## Material descriptors: the six image slots -/

theorem forall₂_getElem? {α β : Type} (R : α → β → Prop) (xs : List α) (ys : List β)
    (h : List.Forall₂ R xs ys) (k : Nat) (y : β) (hy : ys[k]? = some y) :
    ∃ x, xs[k]? = some x ∧ R x y := by
  induction h generalizing k with
  | nil => simp at hy
  | cons hr _ ih =>
    cases k with
    | zero =>
      simp only [List.getElem?_cons_zero, Option.some.injEq] at hy
      subst hy
      exact ⟨_, List.getElem?_cons_zero, hr⟩
    | succ k =>
      simp only [List.getElem?_cons_succ] at hy
      simpa using ih k hy

theorem slotViews_ok (resources : Resources) (real : List String) (imgs : List Image2D)
    (hne : "" ∉ real) (himg : List.Forall₂ (ImageOf resources) imgs real)
    (slots : List String) (hslots : ∀ s ∈ slots, s ≠ "" → s ∈ real) :
    ∃ views, slotViews (indexMap (real ++ [""]))
        (createTextureImageViews (imgs ++ [{ width := 1, height := 1 }])) slots = .ok views ∧
      List.Forall₂ (SlotBound resources (real ++ [""])
        (createTextureImageViews (imgs ++ [{ width := 1, height := 1 }]))) views slots := by
  have hlen : imgs.length = real.length := himg.length_eq
  induction slots with
  | nil => exact ⟨[], rfl, List.Forall₂.nil⟩
  | cons s rest ih =>
    obtain ⟨tail, htail, hrel⟩ := ih fun t ht => hslots t (List.mem_cons_of_mem _ ht)
    have hs : s ∈ real ++ [""] := by
      by_cases h : s = ""
      · simp [h]
      · exact List.mem_append_left _ (hslots s (List.mem_cons_self _ _) h)
    obtain ⟨k, hk, hget⟩ := indexMap_spec _ s hs
    by_cases h : s = ""
    · have hkeq : k = real.length := by
        by_contra hk2
        have hklt : k < (real ++ [""]).length := by
          by_contra hge
          rw [List.getElem?_eq_none (by omega)] at hget
          cases hget
        have hklt2 : k < real.length := by
          simp only [List.length_append, List.length_singleton] at hklt
          omega
        rw [List.getElem?_append_left hklt2] at hget
        exact hne (h ▸ List.getElem?_mem hget)
      have hview : (createTextureImageViews (imgs ++ [{ width := 1, height := 1 }]))[k]? =
          some { image := { width := 1, height := 1 } } := by
        rw [hkeq, ← hlen]
        simp [createTextureImageViews]
      refine ⟨({ image := { width := 1, height := 1 } } : ImageView2D) :: tail, ?_,
        List.Forall₂.cons ?_ hrel⟩
      · simp only [slotViews, mapAt, hk, hview, htail]
      · simp [SlotBound, h, createTextureImageViews]
    · have hklt : k < real.length := by
        by_contra hge
        have hklt : k < (real ++ [""]).length := by
          by_contra hge2
          rw [List.getElem?_eq_none (by omega)] at hget
          cases hget
        simp only [List.length_append, List.length_singleton] at hklt
        have hkeq : k = real.length := by omega
        rw [hkeq] at hget
        simp at hget
        exact h hget.symm
      rw [List.getElem?_append_left hklt] at hget
      obtain ⟨img, himgk, hof⟩ := forall₂_getElem? _ _ _ himg k s hget
      have hview : (createTextureImageViews (imgs ++ [{ width := 1, height := 1 }]))[k]? =
          some { image := img } := by
        simp only [createTextureImageViews, List.getElem?_map]
        rw [List.getElem?_append_left (by omega), himgk]
        rfl
      refine ⟨({ image := img } : ImageView2D) :: tail, ?_, List.Forall₂.cons ?_ hrel⟩
      · simp only [slotViews, mapAt, hk, hview, htail]
      · simp only [SlotBound, h, if_false]
        refine ⟨k, ?_, hview, hof⟩
        rw [List.getElem?_append_left hklt]
        exact hget

theorem descriptorLoop_ok (resources : Resources) (real : List String)
    (imgs : List Image2D) (buffers : Buffers) (hne : "" ∉ real)
    (himg : List.Forall₂ (ImageOf resources) imgs real) (names : List String) :
    ∀ i : Nat,
    (∀ n ∈ names, ∃ material, resources.materials n = some material ∧
      ∀ s ∈ material.textures, s ≠ "" → s ∈ real) →
    ∃ sets, descriptorLoop resources (indexMap (real ++ [""]))
        (createTextureImageViews (imgs ++ [{ width := 1, height := 1 }])) buffers i names
          = .ok sets ∧
      List.Forall₂ (fun (set : DescriptorSet) name =>
        ∃ material, resources.materials name = some material ∧
          List.Forall₂ (SlotBound resources (real ++ [""])
            (createTextureImageViews (imgs ++ [{ width := 1, height := 1 }])))
            set.image_views material.textures) sets names := by
  induction names with
  | nil => intro i _; exact ⟨[], rfl, List.Forall₂.nil⟩
  | cons n rest ih =>
    intro i hall
    obtain ⟨material, hmat, hslots⟩ := hall n (List.mem_cons_self _ _)
    obtain ⟨views, hviews, hbound⟩ :=
      slotViews_ok resources real imgs hne himg material.textures hslots
    obtain ⟨tail, htail, hrel⟩ := ih (i + 1) fun m hm => hall m (List.mem_cons_of_mem _ hm)
    refine ⟨(⟨views, buffers.uniform, wrap64 (i * sizeofMaterialUniform),
      sizeofMaterialUniform⟩ : DescriptorSet) :: tail, ?_,
      List.Forall₂.cons ⟨material, hmat, hbound⟩ hrel⟩
    simp only [descriptorLoop, mapAt, hmat, hviews, htail]

theorem real_texture_names (order : HashOrder) (resources : Resources) (ms : List Model)
    (hmat : ∀ m ∈ ms, ∃ material, resources.materials m.material = some material) :
    "" ∉ order.iterate (uniqueTextures resources (order.iterate (uniqueMaterials ms))) ∧
    ∀ n ∈ order.iterate (uniqueMaterials ms),
      ∃ material, resources.materials n = some material ∧
        ∀ s ∈ material.textures, s ≠ "" →
          s ∈ order.iterate (uniqueTextures resources (order.iterate (uniqueMaterials ms))) := by
  refine ⟨fun hin => ((mem_texture_names order resources ms "").1 hin).1 rfl, ?_⟩
  intro n hn
  obtain ⟨material, hmaterial⟩ := materials_present order resources ms hmat n hn
  obtain ⟨m, hm, hmn⟩ := (mem_iterate_uniqueMaterials order ms n).1 hn
  refine ⟨material, hmaterial, fun s hs hne => ?_⟩
  refine (mem_texture_names order resources ms s).2 ⟨hne, m, hm, ?_⟩
  simp only [texturesOf, hmn, hmaterial]
  exact hs

/-- C17: for a batch whose models and materials are in the scene,
`getResourceNames` returns; when the non-empty texture names of its materials
are in the scene too and the driver creates the images, `createTextureImages`
returns; and whenever it has returned, `createMaterialDescriptors` returns, no
lookup throwing, one descriptor set per material of `material_names`, in which
every texture-map slot is bound to a view of `texture_views`: for a set slot the
view at the position of the slot's name, a view of the image of that texture,
and for an unset slot the last view, the view of the 1x1 placeholder image. -/
theorem createMaterialDescriptors_slots (device : Device) (order : HashOrder)
    (resources : Resources) (batch : List String) (ms : List Model) (buffers : Buffers)
    (h : Resolves resources batch ms)
    (hmat : ∀ m ∈ ms, ∃ material, resources.materials m.material = some material) :
    ∃ names, getResourceNames order batch resources = .ok names ∧
      (TexturesPresent resources ms → (∀ w h, device.vkCreateImage w h = true) →
        ∃ textures, createTextureImages device names.texture_names resources
          names.staging_buffer_size = .ok textures) ∧
      ∀ textures, createTextureImages device names.texture_names resources
          names.staging_buffer_size = .ok textures →
        ∃ sets, createMaterialDescriptors names.material_names names.texture_names resources
            buffers (createTextureImageViews textures.texture_images) = .ok sets ∧
          List.Forall₂ (fun (set : DescriptorSet) name =>
            ∃ material, resources.materials name = some material ∧
              set.image_views.length = material.textures.length ∧
              List.Forall₂ (SlotBound resources names.texture_names
                (createTextureImageViews textures.texture_images))
                set.image_views material.textures) sets names.material_names := by
  obtain ⟨names, heq, -, fm, ft, -, -, -⟩ :=
    getResourceNames_fields order resources batch ms h hmat
  obtain ⟨hne, hall⟩ := real_texture_names order resources ms hmat
  have hdrop : names.texture_names.dropLast =
      order.iterate (uniqueTextures resources (order.iterate (uniqueMaterials ms))) := by
    rw [ft]; simp
  refine ⟨names, heq, ?_, ?_⟩
  · intro hpresent hdev
    apply createTextureImages_total device resources _ _ hdev
    intro name hname
    rw [hdrop] at hname
    obtain ⟨hnonempty, m, hm, ht⟩ := (mem_texture_names order resources ms name).1 hname
    exact hpresent m hm name ht hnonempty
  · intro textures htex
    obtain ⟨imgs, himgs, hof, -⟩ := createTextureImages_ok device resources _ _ _ htex
    rw [hdrop] at hof
    obtain ⟨sets, hsets, hrel⟩ := descriptorLoop_ok resources _ imgs buffers hne hof
      (order.iterate (uniqueMaterials ms)) 0 hall
    refine ⟨sets, ?_, ?_⟩
    · rw [createMaterialDescriptors, fm, ft, himgs]
      exact hsets
    · rw [fm, ft, himgs]
      refine List.Forall₂.imp ?_ hrel
      rintro set name ⟨material, hmaterial, hbound⟩
      exact ⟨material, hmaterial, hbound.length_eq, hbound⟩

/-- Witness of C17 on the example scene: `M1` binds `t1`, `t2` and the
placeholder four times, `M2` binds `t2` and the placeholder five times. -/
theorem createMaterialDescriptors_slots_witness :
    Resolves exampleResources exampleBatch exampleModels ∧
    (createTextureImages exampleDevice exampleNames.texture_names exampleResources
      exampleNames.staging_buffer_size).toOption.map TextureImages.texture_images =
        some [⟨2, 2⟩, ⟨4, 4⟩, ⟨1, 1⟩] ∧
    (createMaterialDescriptors ["M1", "M2"] ["t1", "t2", ""] exampleResources
      ⟨⟨224, 130⟩, ⟨36, 66⟩, ⟨128, 18⟩⟩
      (createTextureImageViews [⟨2, 2⟩, ⟨4, 4⟩, ⟨1, 1⟩])).toOption.map
        (List.map DescriptorSet.image_views) =
      some [[⟨⟨2, 2⟩⟩, ⟨⟨4, 4⟩⟩, ⟨⟨1, 1⟩⟩, ⟨⟨1, 1⟩⟩, ⟨⟨1, 1⟩⟩, ⟨⟨1, 1⟩⟩],
            [⟨⟨4, 4⟩⟩, ⟨⟨1, 1⟩⟩, ⟨⟨1, 1⟩⟩, ⟨⟨1, 1⟩⟩, ⟨⟨1, 1⟩⟩, ⟨⟨1, 1⟩⟩]] ∧
    ∃ names, getResourceNames insertionOrder exampleBatch exampleResources = .ok names ∧
      (TexturesPresent exampleResources exampleModels →
        (∀ w h, exampleDevice.vkCreateImage w h = true) →
        ∃ textures, createTextureImages exampleDevice names.texture_names exampleResources
          names.staging_buffer_size = .ok textures) ∧
      ∀ textures, createTextureImages exampleDevice names.texture_names exampleResources
          names.staging_buffer_size = .ok textures →
        ∃ sets, createMaterialDescriptors names.material_names names.texture_names
            exampleResources ⟨⟨224, 130⟩, ⟨36, 66⟩, ⟨128, 18⟩⟩
            (createTextureImageViews textures.texture_images) = .ok sets ∧
          List.Forall₂ (fun (set : DescriptorSet) name =>
            ∃ material, exampleResources.materials name = some material ∧
              set.image_views.length = material.textures.length ∧
              List.Forall₂ (SlotBound exampleResources names.texture_names
                (createTextureImageViews textures.texture_images))
                set.image_views material.textures) sets names.material_names :=
  ⟨exampleBatch_resolves, by rfl, by rfl,
    createMaterialDescriptors_slots exampleDevice insertionOrder exampleResources exampleBatch
      exampleModels _ exampleBatch_resolves exampleModels_materials⟩

/-! ## Material descriptors: the uniform-buffer range -/

theorem build_ok_materials (device : Device) (order : HashOrder) (batch : List String)
    (resources : Resources) (pack : ResourcePack)
    (h : build device order batch resources = .ok pack) :
    ∃ names textures,
      getResourceNames order batch resources = .ok names ∧
      createTextureImages device names.texture_names resources names.staging_buffer_size
        = .ok textures ∧
      createMaterialDescriptors names.material_names names.texture_names resources
        pack.buffers (createTextureImageViews textures.texture_images) = .ok pack.materials ∧
      pack.texture_views = createTextureImageViews textures.texture_images := by
  unfold build at h
  split at h
  · simp at h
  · next names hn =>
    split at h
    · simp at h
    · next buffers vr ir ur hb =>
      split at h
      · simp at h
      · next textures ht =>
        split at h
        · simp at h
        · next memory hm =>
          split at h
          · simp at h
          · next transfers hc =>
            simp only at h
            split at h
            · simp at h
            · next materials hd =>
              simp only [Except.ok.injEq] at h
              subst h
              exact ⟨names, textures, hn, ht, hd, rfl⟩

theorem copyBuffer_ok (staging : StagingBuffer) (dst : Buffer) (offset : Nat) (src : Payload)
    (size : Nat) (effects : List Effect)
    (h : staging.copyBuffer dst offset src size = .ok effects) :
    size ≤ staging.size ∧ wrap64 (offset + size) ≤ dst.size ∧
    effects = [.mapMemory size, .memcpy src size, .unmapMemory, .beginTransferCommand,
      .cmdCopyBuffer dst 0 offset size, .endTransferCommand] := by
  unfold StagingBuffer.copyBuffer at h
  split at h
  · simp at h
  · split at h
    · simp at h
    · simp only [Except.ok.injEq] at h
      exact ⟨by omega, by omega, h.symm⟩

theorem copyResources_uniform (device : Device) (capacity : Nat) (batch : List String)
    (offsets : List ModelOffset) (material_names texture_names : List String)
    (resources : Resources) (buffers : Buffers) (images : List Image2D)
    (transfers : List Effect)
    (h : copyResources device capacity batch offsets material_names texture_names resources
      buffers images = .ok transfers) :
    ∃ records, materialUniforms resources material_names = .ok records ∧
      wrap64 (records.length * sizeofMaterialUniform) ≤ buffers.uniform.size ∧
      ∃ before after, transfers = before ++
        [.mapMemory (wrap64 (records.length * sizeofMaterialUniform)),
         .memcpy (.uniforms records) (wrap64 (records.length * sizeofMaterialUniform)),
         .unmapMemory, .beginTransferCommand,
         .cmdCopyBuffer buffers.uniform 0 0 (wrap64 (records.length * sizeofMaterialUniform)),
         .endTransferCommand] ++ after := by
  unfold copyResources at h
  split at h
  · simp at h
  · next staging hs =>
    split at h
    · simp at h
    · next modelEffects hm =>
      split at h
      · simp at h
      · next records hr =>
        split at h
        · simp at h
        · next uniformEffects hu =>
          split at h
          · simp at h
          · next textureEffects ht =>
            split at h
            · simp at h
            · next placeholder hp =>
              split at h
              · simp at h
              · next placeholderEffects hpe =>
                simp only [Except.ok.injEq] at h
                obtain ⟨-, hfit, heff⟩ := copyBuffer_ok _ _ _ _ _ _ hu
                have hfit2 : wrap64 (records.length * sizeofMaterialUniform) ≤
                    buffers.uniform.size := by
                  simp only [wrap64, Nat.zero_add, Nat.mod_mod] at hfit ⊢
                  exact hfit
                refine ⟨records, hr, hfit2, modelEffects,
                  textureEffects ++ placeholderEffects, ?_⟩
                · rw [← h, heff]
                  simp [List.append_assoc]

theorem materialUniforms_spec (resources : Resources) (names : List String)
    (records : List MaterialUniform) (h : materialUniforms resources names = .ok records) :
    List.Forall₂ (fun (record : MaterialUniform) name =>
      ∃ material, resources.materials name = some material ∧
        record = { diffuse := material.diffuse, ambient := material.ambient,
                   emission := material.emission, roughness := material.roughness,
                   metalness := material.metalness }) records names := by
  induction names generalizing records with
  | nil =>
    simp only [materialUniforms, Except.ok.injEq] at h
    subst h
    exact List.Forall₂.nil
  | cons name rest ih =>
    unfold materialUniforms at h
    split at h
    · simp at h
    · next material hmat =>
      split at h
      · simp at h
      · next tail htail =>
        simp only [Except.ok.injEq] at h
        subst h
        refine List.Forall₂.cons ⟨material, ?_, rfl⟩ (ih tail htail)
        unfold mapAt at hmat
        split at hmat
        · next value hv => simp only [Except.ok.injEq] at hmat; rw [hv, hmat]
        · simp at hmat

theorem descriptorLoop_binding (resources : Resources) (idx : String → Option Nat)
    (views : List ImageView2D) (buffers : Buffers) (names : List String) :
    ∀ (i : Nat) (sets : List DescriptorSet),
      descriptorLoop resources idx views buffers i names = .ok sets →
      sets.length = names.length ∧
      ∀ (k : Nat) (set : DescriptorSet), sets[k]? = some set →
        set.buffer = buffers.uniform ∧
        set.offset = wrap64 ((i + k) * sizeofMaterialUniform) ∧
        set.range = sizeofMaterialUniform := by
  induction names with
  | nil =>
    intro i sets h
    simp only [descriptorLoop, Except.ok.injEq] at h
    subst h
    exact ⟨rfl, fun k set hk => by simp at hk⟩
  | cons name rest ih =>
    intro i sets h
    unfold descriptorLoop at h
    split at h
    · simp at h
    · next material hmat =>
      split at h
      · simp at h
      · next slotviews hviews =>
        split at h
        · simp at h
        · next tail htail =>
          simp only [Except.ok.injEq] at h
          subst h
          obtain ⟨hlen, hall⟩ := ih (i + 1) tail htail
          refine ⟨by simp [hlen], fun k set hk => ?_⟩
          cases k with
          | zero =>
            simp only [List.getElem?_cons_zero, Option.some.injEq] at hk
            subst hk
            exact ⟨rfl, rfl, rfl⟩
          | succ k =>
            simp only [List.getElem?_cons_succ] at hk
            obtain ⟨h1, h2, h3⟩ := hall k set hk
            refine ⟨h1, ?_, h3⟩
            rw [h2]
            congr 2
            omega

/-- C18: in a pack that `build` returns, with `material_names` the material
names of `getResourceNames` (their count times `sizeof(MaterialUniform)` below
`2 ^ 64`, as it is for the keys of a `std::unordered_map` of `Material` objects),
there is one descriptor set per material; the uniform binding of set `i` is the
uniform buffer at offset `i * sizeof(MaterialUniform)` with range
`sizeof(MaterialUniform)`, inside the buffer; `copyResources` uploaded the array
of records to offset 0 of that buffer in one transfer, so the record of
`material_names[i]`, the element `i` of the array, holding the diffuse, ambient
and emission colours, roughness and metalness of that material, lies in exactly
that range; and the ranges of two different sets are disjoint. -/
theorem build_uniform_ranges (device : Device) (order : HashOrder) (batch : List String)
    (resources : Resources) (pack : ResourcePack) (names : ResourceNames)
    (hbuild : build device order batch resources = .ok pack)
    (hnames : getResourceNames order batch resources = .ok names)
    (hu : names.material_names.length * sizeofMaterialUniform < 2 ^ 64) :
    ∃ records, materialUniforms resources names.material_names = .ok records ∧
      records.length = names.material_names.length ∧
      pack.materials.length = names.material_names.length ∧
      pack.buffers.uniform.size = names.material_names.length * sizeofMaterialUniform ∧
      Effect.memcpy (.uniforms records)
        (names.material_names.length * sizeofMaterialUniform) ∈ pack.transfers ∧
      Effect.cmdCopyBuffer pack.buffers.uniform 0 0
        (names.material_names.length * sizeofMaterialUniform) ∈ pack.transfers ∧
      (∀ (i : Nat) (set : DescriptorSet), pack.materials[i]? = some set →
        set.buffer = pack.buffers.uniform ∧
        set.offset = i * sizeofMaterialUniform ∧
        set.range = sizeofMaterialUniform ∧
        set.offset + set.range ≤ pack.buffers.uniform.size ∧
        ∃ name material, names.material_names[i]? = some name ∧
          resources.materials name = some material ∧
          records[i]? = some
            { diffuse := material.diffuse, ambient := material.ambient,
              emission := material.emission, roughness := material.roughness,
              metalness := material.metalness }) ∧
      (∀ (i j : Nat) (si sj : DescriptorSet), i ≠ j → pack.materials[i]? = some si →
        pack.materials[j]? = some sj →
        si.offset + si.range ≤ sj.offset ∨ sj.offset + sj.range ≤ si.offset) := by
  obtain ⟨names1, vr, ir, ur, textures1, hn1, hb, -, -, hc, -, -⟩ :=
    build_ok device order batch resources pack hbuild
  obtain ⟨names2, textures2, hn2, -, hd, -⟩ :=
    build_ok_materials device order batch resources pack hbuild
  have e1 : names1 = names := by rw [hnames] at hn1; injection hn1 with h; exact h.symm
  have e2 : names2 = names := by rw [hnames] at hn2; injection hn2 with h; exact h.symm
  rw [e1] at hb hc
  rw [e2] at hd
  obtain ⟨records, hr, -, before, after, htr⟩ := copyResources_uniform _ _ _ _ _ _ _ _ _ _ hc
  have hrl := materialUniforms_ok_length resources _ records hr
  obtain ⟨-, -, hsize⟩ := createBuffers_ok device _ _ _ vr ir ur pack.buffers hb
  simp only at hsize
  have hw : wrap64 (names.material_names.length * sizeofMaterialUniform) =
      names.material_names.length * sizeofMaterialUniform := Nat.mod_eq_of_lt hu
  rw [hw] at hsize
  rw [hrl, hw] at htr
  unfold createMaterialDescriptors at hd
  obtain ⟨hlen, hbind⟩ := descriptorLoop_binding _ _ _ _ _ 0 pack.materials hd
  have hspec := materialUniforms_spec resources _ records hr
  have hoff : ∀ (i : Nat) (set : DescriptorSet), pack.materials[i]? = some set →
      i < names.material_names.length ∧ set.offset = i * sizeofMaterialUniform ∧
        set.range = sizeofMaterialUniform := by
    intro i set hset
    have hi : i < names.material_names.length := by
      rw [← hlen]
      by_contra hge
      rw [List.getElem?_eq_none (by omega)] at hset
      cases hset
    obtain ⟨-, h2, h3⟩ := hbind i set hset
    refine ⟨hi, ?_, h3⟩
    rw [h2, Nat.zero_add]
    apply Nat.mod_eq_of_lt
    simp only [sizeofMaterialUniform] at hu ⊢
    omega
  refine ⟨records, hr, hrl, hlen, hsize, ?_, ?_, ?_, ?_⟩
  · rw [htr]; simp
  · rw [htr]; simp
  · intro i set hset
    obtain ⟨hi, h2, h3⟩ := hoff i set hset
    refine ⟨(hbind i set hset).1, h2, h3, ?_, ?_⟩
    · rw [h2, h3, hsize]
      simp only [sizeofMaterialUniform]
      omega
    · have hname : names.material_names[i]? = some (names.material_names[i]) :=
        List.getElem?_eq_getElem hi
      obtain ⟨record, hrec, material, hmat, heq⟩ := forall₂_getElem? _ _ _ hspec i _ hname
      exact ⟨_, material, hname, hmat, by rw [hrec, heq]⟩
  · intro i j si sj hij hsi hsj
    obtain ⟨-, hi2, hi3⟩ := hoff i si hsi
    obtain ⟨-, hj2, hj3⟩ := hoff j sj hsj
    rw [hi2, hi3, hj2, hj3]
    simp only [sizeofMaterialUniform]
    omega

/-- Witness of C18 on a scene of two materials with different records: the
sets bind the ranges `[0, 64)` and `[64, 128)` of the uniform buffer. -/
theorem build_uniform_ranges_witness :
    ∃ pack names, build exampleDevice insertionOrder ["U", "V"] paintedResources = .ok pack ∧
      getResourceNames insertionOrder ["U", "V"] paintedResources = .ok names ∧
      names.material_names = ["P", "Q"] ∧
      pack.materials.map (fun set => (set.offset, set.range)) = [(0, 64), (64, 64)] ∧
      ∃ records, materialUniforms paintedResources names.material_names = .ok records ∧
        records = [{ diffuse := (1, 0, 0), ambient := (0, 0, 0), emission := (0, 0, 0),
                     roughness := 3, metalness := 0 },
                   { diffuse := (0, 1, 0), ambient := (0, 0, 0), emission := (0, 0, 0),
                     roughness := 0, metalness := 7 }] ∧
        pack.buffers.uniform.size = names.material_names.length * sizeofMaterialUniform ∧
        Effect.cmdCopyBuffer pack.buffers.uniform 0 0
          (names.material_names.length * sizeofMaterialUniform) ∈ pack.transfers := by
  obtain ⟨pack, hpack, hranges⟩ : ∃ pack,
      build exampleDevice insertionOrder ["U", "V"] paintedResources = .ok pack ∧
      pack.materials.map (fun set => (set.offset, set.range)) = [(0, 64), (64, 64)] :=
    ⟨_, rfl, rfl⟩
  obtain ⟨names, hnames, hmaterials⟩ : ∃ names,
      getResourceNames insertionOrder ["U", "V"] paintedResources = .ok names ∧
      names.material_names = ["P", "Q"] := ⟨_, rfl, rfl⟩
  obtain ⟨records, hr, -, -, hsize, -, hcopy, -, -⟩ :=
    build_uniform_ranges exampleDevice insertionOrder ["U", "V"] paintedResources pack names
      hpack hnames (by rw [hmaterials]; decide)
  refine ⟨pack, names, hpack, hnames, hmaterials, hranges, records, hr, ?_, hsize, hcopy⟩
  rw [hmaterials] at hr
  have : materialUniforms paintedResources ["P", "Q"] = .ok
      [{ diffuse := (1, 0, 0), ambient := (0, 0, 0), emission := (0, 0, 0),
         roughness := 3, metalness := 0 },
       { diffuse := (0, 1, 0), ambient := (0, 0, 0), emission := (0, 0, 0),
         roughness := 0, metalness := 7 }] := rfl
  rw [this] at hr
  injection hr with h
  exact h.symm

/-! ## `build`: what has been created when it fails -/

theorem createBuffersTrace_result (device : Device) (v i u : VkMemoryRequirements) :
    (createBuffersTrace device v i u).2 = createBuffers device v i u := by
  unfold createBuffersTrace createBuffers
  split
  · rfl
  · split
    · rfl
    · split <;> rfl

theorem createBuffersTrace_events (device : Device) (v i u : VkMemoryRequirements) :
    ∀ event ∈ (createBuffersTrace device v i u).1, event.isAllocation = false := by
  unfold createBuffersTrace
  split
  · simp
  · split
    · simp [DeviceEvent.isAllocation]
    · split <;> simp [DeviceEvent.isAllocation]

theorem createTextureImagesTrace_result (device : Device) (names : List String)
    (resources : Resources) (staging : Nat) :
    (createTextureImagesTrace device names resources staging).2 =
      createTextureImages device names resources staging := by
  unfold createTextureImagesTrace
  split <;> simp [*]

theorem createTextureImagesTrace_events (device : Device) (names : List String)
    (resources : Resources) (staging : Nat) :
    ∀ event ∈ (createTextureImagesTrace device names resources staging).1,
      event.isAllocation = false := by
  unfold createTextureImagesTrace
  split
  · intro event hmem
    obtain ⟨image, -, rfl⟩ := List.mem_map.1 hmem
    rfl
  · intro event hmem
    rcases List.mem_append.1 hmem with h | h
    · obtain ⟨image, -, rfl⟩ := List.mem_map.1 h
      rfl
    · obtain ⟨image, -, rfl⟩ := List.mem_map.1 h
      rfl

theorem allocateMemoryTrace_result (device : Device) (v i u : VkMemoryRequirements)
    (textures : List TextureRequirements) :
    (allocateMemoryTrace device v i u textures).2 = allocateMemory device v i u textures := by
  unfold allocateMemoryTrace
  split <;> simp [*]

theorem copyResourcesTrace_result (device : Device) (capacity : Nat) (batch : List String)
    (offsets : List ModelOffset) (material_names texture_names : List String)
    (resources : Resources) (buffers : Buffers) (images : List Image2D) :
    (copyResourcesTrace device capacity batch offsets material_names texture_names resources
      buffers images).2 =
      copyResources device capacity batch offsets material_names texture_names resources
        buffers images := by
  unfold copyResourcesTrace
  split
  · next hcreate =>
    simp only
    split
    · next e hindex => simp [copyResources, StagingBuffer.create, hcreate, hindex]
    · next index hindex =>
      split
      · rfl
      · next halloc => simp [copyResources, StagingBuffer.create, hcreate, hindex, halloc]
  · next hcreate => simp [copyResources, StagingBuffer.create, hcreate]

theorem buildTrace_result (device : Device) (order : HashOrder) (batch : List String)
    (resources : Resources) :
    (buildTrace device order batch resources).2 = build device order batch resources := by
  unfold buildTrace build
  cases hg : getResourceNames order batch resources with
  | error e => rfl
  | ok names =>
    simp only
    have h1 := createBuffersTrace_result device
      { size := names.vertex_buffer_size, alignment := 0, memoryTypeBits := 0 }
      { size := names.index_buffer_size, alignment := 0, memoryTypeBits := 0 }
      { size := wrap64 (names.material_names.length * sizeofMaterialUniform),
        alignment := 0, memoryTypeBits := 0 }
    rcases hbt : buildBuffersTrace device names with ⟨bev, br⟩
    have hbr : buildBuffers device names = br := by
      unfold buildBuffers; rw [← h1]; unfold buildBuffersTrace at hbt; rw [hbt]
    rw [hbr]
    cases br with
    | error e => rfl
    | ok bufs =>
      obtain ⟨buffers, vr, ir, ur⟩ := bufs
      simp only
      have h2 := createTextureImagesTrace_result device names.texture_names resources
        names.staging_buffer_size
      rcases hit : createTextureImagesTrace device names.texture_names resources
        names.staging_buffer_size with ⟨iev, ir2⟩
      rw [hit] at h2
      simp only at h2
      rw [← h2]
      cases ir2 with
      | error e => rfl
      | ok textures =>
        simp only
        have h3 := allocateMemoryTrace_result device vr ir ur textures.requirements
        rcases hmt : allocateMemoryTrace device vr ir ur textures.requirements with ⟨mev, mr⟩
        rw [hmt] at h3
        simp only at h3
        rw [← h3]
        cases mr with
        | error e => rfl
        | ok memory =>
          simp only
          have h4 := copyResourcesTrace_result device textures.staging_buffer_size batch
            names.model_offsets names.material_names names.texture_names resources buffers
            textures.texture_images
          rcases hct : copyResourcesTrace device textures.staging_buffer_size batch
            names.model_offsets names.material_names names.texture_names resources buffers
            textures.texture_images with ⟨cev, cr⟩
          rw [hct] at h4
          simp only at h4
          rw [← h4]
          cases cr with
          | error e => rfl
          | ok transfers =>
            simp only [createMaterialDescriptorsTrace]
            cases createMaterialDescriptors names.material_names names.texture_names resources
                buffers (createTextureImageViews textures.texture_images) with
            | error e => rfl
            | ok materials => rfl

theorem resolves_mem (resources : Resources) (batch : List String) (ms : List Model)
    (h : Resolves resources batch ms) (n : String) (hn : n ∈ batch) :
    ∃ m ∈ ms, resources.models n = some m := by
  unfold Resolves at h
  induction h with
  | nil => cases hn
  | cons hr _ ih =>
    rcases List.mem_cons.1 hn with rfl | hrest
    · exact ⟨_, List.mem_cons_self _ _, hr⟩
    · obtain ⟨m, hm, hres⟩ := ih hrest
      exact ⟨m, List.mem_cons_of_mem _ hm, hres⟩

theorem createTextureImages_missing (device : Device) (resources : Resources)
    (names : List String) (staging : Nat) (t : String) (ht : t ∈ names.dropLast)
    (hnone : resources.textures t = none) :
    ∃ e, createTextureImages device names resources staging = .error e := by
  cases hc : createTextureImages device names resources staging with
  | error e => exact ⟨e, rfl⟩
  | ok textures =>
    exfalso
    obtain ⟨imgs, -, hof, -⟩ := createTextureImages_ok device resources names staging _ hc
    obtain ⟨k, hk⟩ := List.getElem?_of_mem ht
    obtain ⟨img, -, texture, htex, -⟩ := forall₂_getElem? _ _ _ hof k t hk
    rw [hnone] at htex
    cases htex

/-- C19: when the batch names a model absent from the scene, or a model of the
batch names an absent material, or a material of the batch names a non-empty
texture absent from the scene, `build` fails with an error, and among the
device calls made until then there is no memory allocation: neither the block
of the pack nor the memory of the staging buffer has been allocated. -/
theorem build_missing_reference (device : Device) (order : HashOrder) (batch : List String)
    (resources : Resources) (h : MissingReference resources batch) :
    (∃ e, build device order batch resources = .error e) ∧
    (buildTrace device order batch resources).2 = build device order batch resources ∧
    ∀ allocationSize memoryTypeIndex,
      DeviceEvent.vkAllocateMemory allocationSize memoryTypeIndex ∉
        (buildTrace device order batch resources).1 := by
  have hres := buildTrace_result device order batch resources
  suffices hs : (∃ e, (buildTrace device order batch resources).2 = .error e) ∧
      ∀ event ∈ (buildTrace device order batch resources).1, event.isAllocation = false by
    refine ⟨?_, hres, ?_⟩
    · rw [← hres]; exact hs.1
    · intro size type hmem
      have := hs.2 _ hmem
      simp [DeviceEvent.isAllocation] at this
  unfold buildTrace
  cases hg : getResourceNames order batch resources with
  | error e => exact ⟨⟨e, rfl⟩, by simp⟩
  | ok names =>
    obtain ⟨ms, hresolve, hmat⟩ :=
      (getResourceNames_returns_iff order resources batch).1 ⟨names, hg⟩
    obtain ⟨names2, hg2, -, -, ft, -, -, -⟩ :=
      getResourceNames_fields order resources batch ms hresolve hmat
    have hnames : names2 = names := by rw [hg] at hg2; injection hg2 with h; exact h.symm
    rw [hnames] at ft
    have hfail : ∃ e, createTextureImages device names.texture_names resources
        names.staging_buffer_size = .error e := by
      rcases h with ⟨n, hn, hnone⟩ | ⟨n, hn, model, hmodel, hnone⟩ |
        ⟨n, hn, model, material, t, hmodel, hmaterial, ht, hne, hnone⟩
      · obtain ⟨m, -, hm⟩ := resolves_mem resources batch ms hresolve n hn
        rw [hnone] at hm
        cases hm
      · obtain ⟨m, hmem, hm⟩ := resolves_mem resources batch ms hresolve n hn
        rw [hmodel] at hm
        injection hm with hm
        subst hm
        obtain ⟨material, hmaterial⟩ := hmat model hmem
        rw [hnone] at hmaterial
        cases hmaterial
      · obtain ⟨m, hmem, hm⟩ := resolves_mem resources batch ms hresolve n hn
        rw [hmodel] at hm
        injection hm with hm
        subst hm
        apply createTextureImages_missing device resources _ _ t _ hnone
        rw [ft]
        simp only [List.dropLast_concat]
        refine (mem_texture_names order resources ms t).2 ⟨hne, model, hmem, ?_⟩
        simp only [texturesOf, hmaterial]
        exact ht
    obtain ⟨e, he⟩ := hfail
    simp only
    have hbe := createBuffersTrace_events device
      { size := names.vertex_buffer_size, alignment := 0, memoryTypeBits := 0 }
      { size := names.index_buffer_size, alignment := 0, memoryTypeBits := 0 }
      { size := wrap64 (names.material_names.length * sizeofMaterialUniform),
        alignment := 0, memoryTypeBits := 0 }
    rcases hbt : buildBuffersTrace device names with ⟨bev, br⟩
    unfold buildBuffersTrace at hbt
    rw [hbt] at hbe
    simp only at hbe
    cases br with
    | error e2 => exact ⟨⟨e2, rfl⟩, hbe⟩
    | ok bufs =>
      obtain ⟨buffers, vr, ir, ur⟩ := bufs
      simp only
      have h2 := createTextureImagesTrace_result device names.texture_names resources
        names.staging_buffer_size
      have hie := createTextureImagesTrace_events device names.texture_names resources
        names.staging_buffer_size
      rcases hit : createTextureImagesTrace device names.texture_names resources
        names.staging_buffer_size with ⟨iev, ir2⟩
      rw [hit] at h2 hie
      simp only at h2 hie
      rw [he] at h2
      subst h2
      refine ⟨⟨e, rfl⟩, ?_⟩
      intro event hmem
      simp only [List.mem_append] at hmem
      rcases hmem with (hb | hi) | hd
      · exact hbe event hb
      · exact hie event hi
      · simp only [Buffers.destroy, List.mem_cons, List.mem_singleton, List.not_mem_nil,
          or_false] at hd
        rcases hd with rfl | rfl | rfl <;> rfl

/-- Witness of C19: the example scene without texture `t2`; `build` fails in
`createTextureImages` after one image, and nothing has been allocated. -/
theorem build_missing_reference_witness :
    MissingReference missingTextureResources exampleBatch ∧
    (buildTrace exampleDevice insertionOrder exampleBatch missingTextureResources).1 =
      [.vkCreateBuffer ⟨224, 130⟩, .vkCreateBuffer ⟨36, 66⟩, .vkCreateBuffer ⟨128, 18⟩,
       .vkCreateImage ⟨2, 2⟩, .vkDestroyImage ⟨2, 2⟩, .vkDestroyBuffer ⟨128, 18⟩,
       .vkDestroyBuffer ⟨36, 66⟩, .vkDestroyBuffer ⟨224, 130⟩] ∧
    build exampleDevice insertionOrder exampleBatch missingTextureResources =
      .error "unordered_map::at" ∧
    ∀ allocationSize memoryTypeIndex,
      DeviceEvent.vkAllocateMemory allocationSize memoryTypeIndex ∉
        (buildTrace exampleDevice insertionOrder exampleBatch missingTextureResources).1 :=
  have hmissing : MissingReference missingTextureResources exampleBatch :=
    Or.inr (Or.inr ⟨"A", by decide, { material := "M1", vertices := 3, indices := 3 },
      { textures := ["t1", "t2", "", "", "", ""] }, "t2", rfl, rfl, by decide, by decide, rfl⟩)
  ⟨hmissing, by rfl, by rfl,
    (build_missing_reference exampleDevice insertionOrder exampleBatch missingTextureResources
      hmissing).2.2⟩

/-- C20, the code at the failing input: the scene `exampleResources` and the
batch `A, C, B` on a device whose host-visible memory is exhausted. The block of
484 bytes of the pack is allocated, then the constructor of the staging buffer
throws `Failed to allocate staging buffer memory`; the images and the buffers of
the pack are destroyed while `build` unwinds, but `vkFreeMemory` is never called
for the block, nor `vkDestroyBuffer` for the buffer of the staging buffer. -/
theorem build_failure_leaks_memory :
    build noStagingMemoryDevice insertionOrder exampleBatch exampleResources =
      .error "Failed to allocate staging buffer memory" ∧
    (buildTrace noStagingMemoryDevice insertionOrder exampleBatch exampleResources).1 =
      [.vkCreateBuffer ⟨224, 130⟩, .vkCreateBuffer ⟨36, 66⟩, .vkCreateBuffer ⟨128, 18⟩,
       .vkCreateImage ⟨2, 2⟩, .vkCreateImage ⟨4, 4⟩, .vkCreateImage ⟨1, 1⟩,
       .vkAllocateMemory 484 1, .vkCreateBuffer ⟨128, 1⟩,
       .vkDestroyImage ⟨2, 2⟩, .vkDestroyImage ⟨4, 4⟩, .vkDestroyImage ⟨1, 1⟩,
       .vkDestroyBuffer ⟨128, 18⟩, .vkDestroyBuffer ⟨36, 66⟩, .vkDestroyBuffer ⟨224, 130⟩] ∧
    DeviceEvent.vkAllocateMemory 484 1 ∈
      (buildTrace noStagingMemoryDevice insertionOrder exampleBatch exampleResources).1 ∧
    DeviceEvent.vkFreeMemory 484 1 ∉
      (buildTrace noStagingMemoryDevice insertionOrder exampleBatch exampleResources).1 ∧
    DeviceEvent.vkDestroyBuffer ⟨128, 1⟩ ∉
      (buildTrace noStagingMemoryDevice insertionOrder exampleBatch exampleResources).1 :=
  ⟨by rfl, by rfl, by decide, by decide, by decide⟩

/-! ## The copy region of `copyImage` -/

theorem copyImage_region (staging : StagingBuffer) (dst : Image2D) (src : Payload) (size : Nat)
    (h : size ≤ staging.size) :
    recorded (staging.copyImageCalls reliableDriver dst src size).1 =
      [.vkCmdPipelineBarrier dst .UNDEFINED .TRANSFER_DST_OPTIMAL,
       .vkCmdCopyBufferToImage dst .TRANSFER_DST_OPTIMAL
         { bufferOffset := 0, bufferRowLength := dst.height, bufferImageHeight := dst.width,
           imageOffset := (0, 0, 0), imageExtent := (dst.width, dst.height, 1) },
       .vkCmdPipelineBarrier dst .TRANSFER_DST_OPTIMAL .SHADER_READ_ONLY_OPTIMAL] := by
  have hs : ¬ size > staging.size := by omega
  simp only [StagingBuffer.copyImageCalls, hs, if_false]
  rw [transfer_reliable reliableDriver (by decide)]
  rfl

/-- C27, the code at the failing input: for a destination image of width 4 and
height 2 and 32 bytes of pixels, `copyImage` records a region with
`bufferRowLength = 2`, the height, and `bufferImageHeight = 4`, the width, for
the extent `(4, 2, 1)`: the two fields are assigned crosswise, so the row
length is the width only for square images. -/
theorem copyImage_region_swapped :
    recorded (StagingBuffer.copyImageCalls ⟨32⟩ reliableDriver ⟨4, 2⟩ (.pixels "t") 32).1 =
      [.vkCmdPipelineBarrier ⟨4, 2⟩ .UNDEFINED .TRANSFER_DST_OPTIMAL,
       .vkCmdCopyBufferToImage ⟨4, 2⟩ .TRANSFER_DST_OPTIMAL
         { bufferOffset := 0, bufferRowLength := 2, bufferImageHeight := 4,
           imageOffset := (0, 0, 0), imageExtent := (4, 2, 1) },
       .vkCmdPipelineBarrier ⟨4, 2⟩ .TRANSFER_DST_OPTIMAL .SHADER_READ_ONLY_OPTIMAL] ∧
    StagingBuffer.copyImage ⟨32⟩ ⟨4, 2⟩ (.pixels "t") 32 =
      .ok [.mapMemory 32, .memcpy (.pixels "t") 32, .unmapMemory, .beginTransferCommand,
        .cmdPipelineBarrier ⟨4, 2⟩ .UNDEFINED .TRANSFER_DST_OPTIMAL,
        .cmdCopyBufferToImage ⟨4, 2⟩
          { bufferOffset := 0, bufferRowLength := 2, bufferImageHeight := 4,
            imageOffset := (0, 0, 0), imageExtent := (4, 2, 1) },
        .cmdPipelineBarrier ⟨4, 2⟩ .TRANSFER_DST_OPTIMAL .SHADER_READ_ONLY_OPTIMAL,
        .endTransferCommand] ∧
    (2 : Nat) ≠ 4 :=
  ⟨by rfl, by rfl, by decide⟩

/-! ## Device selection -/

theorem isSuitable_type_mask (device : PhysicalDevice) (info : PhysicalDeviceInfo)
    (h : device.deviceType &&& 3 = 0) :
    Device.isSuitable device info = .ok (false, { info with deviceType := device.deviceType }) := by
  have h3 : (VK_PHYSICAL_DEVICE_TYPE_DISCRETE_GPU ||| VK_PHYSICAL_DEVICE_TYPE_INTEGRATED_GPU) = 3 := by
    decide
  simp [Device.isSuitable, h3, h]

/-- C30, the code at the failing input: a physical device of type
`VK_PHYSICAL_DEVICE_TYPE_VIRTUAL_GPU` that supports the swapchain extension,
every feature, a queue family for graphics, compute, transfer and presentation
and a depth format. The type test is the bitwise AND of the enumeration value
with `DISCRETE_GPU | INTEGRATED_GPU = 3`; the value 3 of `VIRTUAL_GPU` passes it
and `isSuitable` returns `true`. For the types `OTHER = 0` and `CPU = 4` the AND
is zero and `isSuitable` returns `false` for the same device. -/
theorem isSuitable_virtual_gpu :
    VK_PHYSICAL_DEVICE_TYPE_VIRTUAL_GPU ≠ VK_PHYSICAL_DEVICE_TYPE_DISCRETE_GPU ∧
    VK_PHYSICAL_DEVICE_TYPE_VIRTUAL_GPU ≠ VK_PHYSICAL_DEVICE_TYPE_INTEGRATED_GPU ∧
    (Device.isSuitable (capableDevice VK_PHYSICAL_DEVICE_TYPE_VIRTUAL_GPU) blankInfo).toOption.map
      Prod.fst = some true ∧
    (Device.isSuitable (capableDevice VK_PHYSICAL_DEVICE_TYPE_OTHER) blankInfo).toOption.map
      Prod.fst = some false ∧
    (Device.isSuitable (capableDevice VK_PHYSICAL_DEVICE_TYPE_CPU) blankInfo).toOption.map
      Prod.fst = some false :=
  ⟨by decide, by decide, by rfl, by rfl, by rfl⟩

/-! ## Determinism of the sizing step -/

theorem resourceNames_agree (o₁ o₂ : HashOrder) (resources : Resources) (batch : List String)
    (ms : List Model) (h : Resolves resources batch ms)
    (hmat : ∀ m ∈ ms, ∃ material, resources.materials m.material = some material)
    (r₁ : ResourceNames) (h₁ : getResourceNames o₁ batch resources = .ok r₁) :
    ∃ r₂, getResourceNames o₂ batch resources = .ok r₂ ∧
      r₁.vertex_buffer_size = r₂.vertex_buffer_size ∧
      r₁.index_buffer_size = r₂.index_buffer_size ∧
      r₁.staging_buffer_size = r₂.staging_buffer_size ∧
      r₁.material_names.length = r₂.material_names.length ∧
      r₁.model_offsets.map (fun e => (e.vertex_offset, e.index_offset, e.index_count)) =
        r₂.model_offsets.map (fun e => (e.vertex_offset, e.index_offset, e.index_count)) ∧
      r₁.material_names.Perm r₂.material_names ∧
      r₁.texture_names.Perm r₂.texture_names := by
  obtain ⟨n₁, e₁, fo₁, fm₁, ft₁, fv₁, fi₁, fs₁⟩ :=
    getResourceNames_fields o₁ resources batch ms h hmat
  obtain ⟨r₂, e₂, fo₂, fm₂, ft₂, fv₂, fi₂, fs₂⟩ :=
    getResourceNames_fields o₂ resources batch ms h hmat
  have hn : n₁ = r₁ := by rw [h₁] at e₁; injection e₁ with h; exact h.symm
  rw [hn] at fo₁ fm₁ ft₁ fv₁ fi₁ fs₁
  have hperm : (o₁.iterate (uniqueMaterials ms)).Perm (o₂.iterate (uniqueMaterials ms)) :=
    (o₁.perm _).trans (o₂.perm _).symm
  have hlen := hperm.length_eq
  refine ⟨r₂, e₂, by rw [fv₁, fv₂], by rw [fi₁, fi₂], by rw [fs₁, fs₂, hlen],
    by rw [fm₁, fm₂, hlen], ?_, by rw [fm₁, fm₂]; exact hperm, ?_⟩
  · rw [fo₁, fo₂,
      zipWith_withMaterialIndex_map _
        (fun e => (e.vertex_offset, e.index_offset, e.index_count)) (fun _ _ => rfl) _ _
        (entriesFrom_length 0 0 ms),
      zipWith_withMaterialIndex_map _
        (fun e => (e.vertex_offset, e.index_offset, e.index_count)) (fun _ _ => rfl) _ _
        (entriesFrom_length 0 0 ms)]
  · rw [ft₁, ft₂]
    refine List.Perm.append_right _ ?_
    refine (List.perm_ext_iff_of_nodup ?_ ?_).2 fun t => ?_
    · exact (o₁.perm _).nodup_iff.2 (nodup_uniqueTextures resources _)
    · exact (o₂.perm _).nodup_iff.2 (nodup_uniqueTextures resources _)
    · rw [mem_texture_names, mem_texture_names]

/-- C21: the sizing step is a function of the scene, the batch and the order
in which the two deduplication sets are enumerated, and its results do not
depend on that order. If `getResourceNames` returns under one enumeration
order it returns under every other, with the same vertex, index and staging
sizes, the same uniform buffer size and the same three buffers requested from
the device, the same `{vertex_offset, index_offset, index_count}` table in
batch order, and material and texture name lists that are rearrangements of
each other; if it fails under one order it fails under every other. -/
theorem getResourceNames_deterministic (o₁ o₂ : HashOrder) (resources : Resources)
    (batch : List String) :
    (∀ r₁, getResourceNames o₁ batch resources = .ok r₁ →
      ∃ r₂, getResourceNames o₂ batch resources = .ok r₂ ∧
        r₁.vertex_buffer_size = r₂.vertex_buffer_size ∧
        r₁.index_buffer_size = r₂.index_buffer_size ∧
        wrap64 (r₁.material_names.length * sizeofMaterialUniform) =
          wrap64 (r₂.material_names.length * sizeofMaterialUniform) ∧
        r₁.staging_buffer_size = r₂.staging_buffer_size ∧
        (∀ device, buildBuffers device r₁ = buildBuffers device r₂) ∧
        r₁.model_offsets.map (fun e => (e.vertex_offset, e.index_offset, e.index_count)) =
          r₂.model_offsets.map (fun e => (e.vertex_offset, e.index_offset, e.index_count)) ∧
        r₁.material_names.Perm r₂.material_names ∧
        r₁.texture_names.Perm r₂.texture_names ∧
        (∀ x, x ∈ r₁.material_names ↔ x ∈ r₂.material_names) ∧
        (∀ x, x ∈ r₁.texture_names ↔ x ∈ r₂.texture_names)) ∧
    ((∃ e, getResourceNames o₁ batch resources = .error e) →
      ∃ e, getResourceNames o₂ batch resources = .error e) := by
  constructor
  · intro r₁ h₁
    obtain ⟨ms, h, hmat⟩ := (getResourceNames_returns_iff o₁ resources batch).1 ⟨r₁, h₁⟩
    obtain ⟨r₂, e₂, hv, hi, hs, hl, ho, hm, ht⟩ :=
      resourceNames_agree o₁ o₂ resources batch ms h hmat r₁ h₁
    refine ⟨r₂, e₂, hv, hi, by rw [hl], hs, ?_, ho, hm, ht, fun x => hm.mem_iff,
      fun x => ht.mem_iff⟩
    intro device
    simp only [buildBuffers, hv, hi, hl]
  · rintro ⟨e, he⟩
    cases h₂ : getResourceNames o₂ batch resources with
    | error e₂ => exact ⟨e₂, rfl⟩
    | ok r₂ =>
      exfalso
      obtain ⟨ms, h, hmat⟩ := (getResourceNames_returns_iff o₂ resources batch).1 ⟨r₂, h₂⟩
      obtain ⟨r₁, h₁⟩ := (getResourceNames_returns_iff o₁ resources batch).2 ⟨ms, h, hmat⟩
      rw [h₁] at he
      cases he

/-- Witness of C21 on the example scene: insertion order and its reverse give
the material names `M1, M2` and `M2, M1`, and the same sizes and offsets. -/
theorem getResourceNames_deterministic_witness :
    (getResourceNames insertionOrder exampleBatch exampleResources).toOption.map
      ResourceNames.material_names = some ["M1", "M2"] ∧
    (getResourceNames reverseOrder exampleBatch exampleResources).toOption.map
      ResourceNames.material_names = some ["M2", "M1"] ∧
    ∃ r₂, getResourceNames reverseOrder exampleBatch exampleResources = .ok r₂ ∧
      exampleNames.vertex_buffer_size = r₂.vertex_buffer_size ∧
      exampleNames.index_buffer_size = r₂.index_buffer_size ∧
      wrap64 (exampleNames.material_names.length * sizeofMaterialUniform) =
        wrap64 (r₂.material_names.length * sizeofMaterialUniform) ∧
      exampleNames.staging_buffer_size = r₂.staging_buffer_size ∧
      (∀ device, buildBuffers device exampleNames = buildBuffers device r₂) ∧
      exampleNames.model_offsets.map
          (fun e => (e.vertex_offset, e.index_offset, e.index_count)) =
        r₂.model_offsets.map (fun e => (e.vertex_offset, e.index_offset, e.index_count)) ∧
      exampleNames.material_names.Perm r₂.material_names ∧
      exampleNames.texture_names.Perm r₂.texture_names ∧
      (∀ x, x ∈ exampleNames.material_names ↔ x ∈ r₂.material_names) ∧
      (∀ x, x ∈ exampleNames.texture_names ↔ x ∈ r₂.texture_names) :=
  ⟨by rfl, by rfl,
    (getResourceNames_deterministic insertionOrder reverseOrder exampleResources
      exampleBatch).1 exampleNames (by rfl)⟩

/-! ## Texture requirements and image bindings -/

theorem textureImagesLoop_requirements (device : Device) (resources : Resources)
    (names : List String) :
    ∀ (i : Nat) (st st' : TextureImages),
      textureImagesLoop device resources i names st = .ok st' →
      ∃ imgs, imgs.length = names.length ∧
        st'.texture_images = st.texture_images ++ imgs ∧
        st'.requirements = st.requirements ++
          (imgs.enumFrom i).map fun p => (p.1, p.2.memoryRequirements device) := by
  induction names with
  | nil =>
    intro i st st' h
    simp only [textureImagesLoop, Except.ok.injEq] at h
    subst h
    exact ⟨[], rfl, by simp, by simp⟩
  | cons name rest ih =>
    intro i st st' h
    unfold textureImagesLoop at h
    split at h
    · simp at h
    · next texture htex =>
      split at h
      · simp at h
      · next image himg =>
        obtain ⟨imgs, hl, h1, h2⟩ := ih _ _ _ h
        refine ⟨image :: imgs, by simp [hl], ?_, ?_⟩
        · rw [h1]; simp
        · rw [h2]; simp [List.enumFrom]

theorem createTextureImages_indexed (device : Device) (resources : Resources)
    (names : List String) (staging : Nat) (ti : TextureImages) (hne : names ≠ [])
    (hlen : names.length < 2 ^ 64)
    (h : createTextureImages device names resources staging = .ok ti) :
    ti.texture_images.length = names.length ∧
    ti.requirements =
      List.insertionSort byAlignment (indexedRequirements device ti.texture_images) := by
  unfold createTextureImages at h
  split at h
  · simp at h
  · next st hst =>
    obtain ⟨imgs, hl, h1, h2⟩ := textureImagesLoop_requirements device resources _ _ _ _ hst
    split at h
    · simp at h
    · next image himg =>
      simp only [Except.ok.injEq] at h
      subst h
      simp only [List.nil_append] at h1 h2
      have hpos : 0 < names.length := List.length_pos.2 hne
      have hdl : imgs.length = names.length - 1 := by rw [hl, List.length_dropLast]
      have hw : wrap64 (names.length + (2 ^ 64 - 1)) = imgs.length := by
        rw [hdl]
        simp only [wrap64]
        omega
      refine ⟨by simp [h1, hdl]; omega, ?_⟩
      simp only [h1, h2, hw, indexedRequirements, List.enum_append, List.map_append]
      rfl

/-- C26: when `createTextureImages` has returned for the texture names of a
pack (`n >= 1` names, the last being the placeholder), the image list has one
image per name in name order, and the requirement list is a rearrangement of
the pairs `(i, requirements of image i)`, `i = 0 .. n-1`, in which an entry
never precedes one of larger alignment. When `allocateMemory` then returns, it
has made one `bindMemory` call per entry of the list, in list order: the image
bound is the image of the entry's index, every image index `0 .. n-1` occurs
once, and the offset is the one `memoryOffset` computes from the requirements
of that same image, a multiple of its alignment. -/
theorem createTextureImages_requirements (device : Device) (resources : Resources)
    (names : List String) (staging : Nat) (ti : TextureImages) (hne : names ≠ [])
    (hlen : names.length < 2 ^ 64)
    (h : createTextureImages device names resources staging = .ok ti) :
    ti.texture_images.length = names.length ∧
    (∃ imgs, ti.texture_images = imgs ++ [{ width := 1, height := 1 }] ∧
      List.Forall₂ (ImageOf resources) imgs names.dropLast) ∧
    ti.requirements.Perm (indexedRequirements device ti.texture_images) ∧
    ti.requirements.Sorted (fun a b => b.2.alignment ≤ a.2.alignment) ∧
    (∀ req ∈ ti.requirements, ∃ image, ti.texture_images[req.1]? = some image ∧
      req.2 = image.memoryRequirements device) ∧
    ∀ v i u a, allocateMemory device v i u ti.requirements = .ok a →
      a.image_bindings.length = names.length ∧
      (a.image_bindings.map Prod.fst).Perm (List.range names.length) ∧
      a.image_bindings = List.zip (ti.requirements.map Prod.fst)
        (memoryOffsets (afterBuffers v i u) (ti.requirements.map Prod.snd)).1 ∧
      List.Forall₂ (fun (binding : Nat × Nat) (req : TextureRequirements) =>
          binding.1 = req.1 ∧ binding.2 % req.2.alignment = 0)
        a.image_bindings ti.requirements := by
  obtain ⟨hcount, hreq⟩ := createTextureImages_indexed device resources names staging ti hne hlen h
  obtain ⟨imgs, himgs, hof, -⟩ := createTextureImages_ok device resources names staging ti h
  have hperm : ti.requirements.Perm (indexedRequirements device ti.texture_images) := by
    rw [hreq]; exact List.perm_insertionSort _ _
  have hfst : (ti.requirements.map Prod.fst).Perm (List.range names.length) := by
    have := hperm.map Prod.fst
    rw [indexedRequirements, List.map_map] at this
    have hcomp : (Prod.fst ∘ fun (p : Nat × Image2D) => (p.1, p.2.memoryRequirements device)) =
        Prod.fst := rfl
    rw [hcomp, List.enum_map_fst, hcount] at this
    exact this
  refine ⟨hcount, ⟨imgs, himgs, hof⟩, hperm, ?_, ?_, ?_⟩
  · rw [hreq]
    exact List.sorted_insertionSort byAlignment _
  · intro req hmem
    have hin := hperm.mem_iff.1 hmem
    obtain ⟨p, hp, rfl⟩ := List.mem_map.1 hin
    obtain ⟨k, hk⟩ := List.getElem?_of_mem hp
    rw [List.getElem?_enum] at hk
    cases himg : ti.texture_images[k]? with
    | none => rw [himg] at hk; cases hk
    | some image =>
      rw [himg] at hk
      simp only [Option.map_some', Option.some.injEq] at hk
      subst hk
      exact ⟨image, himg, rfl⟩
  · intro v i u a ha
    have hb : a.image_bindings = List.zip (ti.requirements.map Prod.fst)
        (memoryOffsets (afterBuffers v i u) (ti.requirements.map Prod.snd)).1 := by
      unfold allocateMemory at ha
      simp only at ha
      split at ha
      · simp at ha
      · split at ha
        · simp only [Except.ok.injEq] at ha
          subst ha
          rfl
        · simp at ha
    have hl : (memoryOffsets (afterBuffers v i u) (ti.requirements.map Prod.snd)).1.length =
        (ti.requirements.map Prod.fst).length := by
      rw [memoryOffsets_length]; simp
    have hm : a.image_bindings.map Prod.fst = ti.requirements.map Prod.fst := by
      rw [hb]
      exact List.map_fst_zip _ _ (by omega)
    refine ⟨?_, by rw [hm]; exact hfst, hb, ?_⟩
    · have := congrArg List.length hm
      simp only [List.length_map] at this
      rw [this, hperm.length_eq, indexedRequirements, List.length_map, List.enum_length, hcount]
    · rw [hb]
      exact image_bindings_aligned _ _

/-- Witness of C26 on the example scene with alignments 16, 64 and 4 for the
images of `t1`, `t2` and the placeholder: the images keep that order, the
requirements come out as image 1, image 0, image 2, and the three images are
bound in that order at the offsets 448, 512 and 528. -/
theorem createTextureImages_requirements_witness :
    createTextureImages alignedDevice ["t1", "t2", ""] exampleResources 128 = .ok
      { texture_images := [⟨2, 2⟩, ⟨4, 4⟩, ⟨1, 1⟩]
        requirements := [(1, ⟨64, 64, 2⟩), (0, ⟨16, 16, 2⟩), (2, ⟨4, 4, 2⟩)]
        staging_buffer_size := 128 } ∧
    (allocateMemory alignedDevice ⟨224, 16, 3⟩ ⟨36, 16, 3⟩ ⟨128, 16, 3⟩
      [(1, ⟨64, 64, 2⟩), (0, ⟨16, 16, 2⟩), (2, ⟨4, 4, 2⟩)]).toOption.map
        Allocation.image_bindings = some [(1, 448), (0, 512), (2, 528)] ∧
    ([(1, ⟨64, 64, 2⟩), (0, ⟨16, 16, 2⟩), (2, ⟨4, 4, 2⟩)] : List TextureRequirements).Perm
      (indexedRequirements alignedDevice [⟨2, 2⟩, ⟨4, 4⟩, ⟨1, 1⟩]) :=
  ⟨by rfl, by rfl,
    (createTextureImages_requirements alignedDevice exampleResources ["t1", "t2", ""] 128
      _ (by decide) (by decide) (by rfl)).2.2.1⟩

/-! ## Pipeline directories -/

theorem stageOf_eq_iff (entry : DirectoryEntry) (stage : Stage) :
    stageOf entry = .ok stage ↔ entry.stem = stage.fileStem := by
  unfold stageOf
  by_cases h1 : entry.stem = "vert"
  · cases stage <;> simp [h1, Stage.fileStem]
  by_cases h2 : entry.stem = "frag"
  · cases stage <;> simp [h2, Stage.fileStem]
  by_cases h3 : entry.stem = "tesc"
  · cases stage <;> simp [h3, Stage.fileStem]
  by_cases h4 : entry.stem = "tese"
  · cases stage <;> simp [h4, Stage.fileStem]
  by_cases h5 : entry.stem = "geom"
  · cases stage <;> simp [h5, Stage.fileStem]
  cases stage <;> simp [h1, h2, h3, h4, h5, Stage.fileStem]

theorem stageOf_ok_iff (entry : DirectoryEntry) :
    (∃ stage, stageOf entry = .ok stage) ↔
      entry.stem ∈ ["vert", "frag", "tesc", "tese", "geom"] := by
  constructor
  · rintro ⟨stage, h⟩
    rw [stageOf_eq_iff] at h
    cases stage <;> simp [h, Stage.fileStem]
  · intro h
    simp only [List.mem_cons, List.mem_singleton, List.not_mem_nil, or_false] at h
    rcases h with h | h | h | h | h
    · exact ⟨.Vertex, (stageOf_eq_iff _ _).2 h⟩
    · exact ⟨.Fragment, (stageOf_eq_iff _ _).2 h⟩
    · exact ⟨.TessellationControl, (stageOf_eq_iff _ _).2 h⟩
    · exact ⟨.TessellationEval, (stageOf_eq_iff _ _).2 h⟩
    · exact ⟨.Geometry, (stageOf_eq_iff _ _).2 h⟩

theorem hasStage_emplaceSource (source : ProgramSource) (stage : Stage) (bytes : List Nat)
    (s : Stage) :
    hasStage (emplaceSource source stage bytes) s = true ↔
      hasStage source s = true ∨ s = stage := by
  unfold emplaceSource
  split
  · next h =>
    constructor
    · exact Or.inl
    · rintro (h1 | h1)
      · exact h1
      · rw [h1]; exact h
  · simp only [hasStage, List.any_append, List.any_cons, List.any_nil, Bool.or_false,
      Bool.or_eq_true, beq_iff_eq]
    constructor
    · rintro (h1 | h1)
      · exact Or.inl h1
      · exact Or.inr h1.symm
    · rintro (h1 | h1)
      · exact Or.inl h1
      · exact Or.inr h1.symm

theorem sourceLoop_ok_iff (entries : List DirectoryEntry) :
    ∀ source : ProgramSource,
      (∃ result, sourceLoop entries source = .ok result) ↔
        ∀ e ∈ entries, e.is_regular_file = true → e.Accepted := by
  induction entries with
  | nil => intro source; simp [sourceLoop]
  | cons entry rest ih =>
    intro source
    unfold sourceLoop
    by_cases hreg : entry.is_regular_file = true
    · simp only [hreg, if_true]
      by_cases hext : entry.extension = ".spv"
      · simp only [hext, ne_eq, not_true_eq_false, if_false]
        cases hstage : stageOf entry with
        | error e =>
          simp only [false_iff, not_forall, reduceCtorEq, exists_false]
          refine ⟨entry, List.mem_cons_self _ _, hreg, ?_⟩
          rintro ⟨-, hstem, -⟩
          obtain ⟨stage, hs⟩ := (stageOf_ok_iff entry).2 hstem
          rw [hstage] at hs
          cases hs
        | ok stage =>
          cases hload : entry.loadShaderSource with
          | error e =>
            simp only [false_iff, not_forall, reduceCtorEq, exists_false]
            refine ⟨entry, List.mem_cons_self _ _, hreg, ?_⟩
            rintro ⟨-, -, bytes, hb⟩
            rw [hload] at hb
            cases hb
          | ok bytes =>
            simp only
            rw [ih]
            constructor
            · intro h e he hr
              rcases List.mem_cons.1 he with rfl | he
              · exact ⟨hext, (stageOf_ok_iff _).1 ⟨stage, hstage⟩, bytes, hload⟩
              · exact h e he hr
            · intro h e he hr
              exact h e (List.mem_cons_of_mem _ he) hr
      · simp only [ne_eq, hext, not_false_eq_true, if_true, false_iff, not_forall,
          reduceCtorEq, exists_false]
        exact ⟨entry, List.mem_cons_self _ _, hreg, fun h => hext h.1⟩
    · have hf : entry.is_regular_file = false := by simpa using hreg
      simp only [hf, Bool.false_eq_true, if_false]
      rw [ih]
      constructor
      · intro h e he hr
        rcases List.mem_cons.1 he with rfl | he
        · exact absurd hr hreg
        · exact h e he hr
      · intro h e he hr
        exact h e (List.mem_cons_of_mem _ he) hr

theorem sourceLoop_stages (entries : List DirectoryEntry) :
    ∀ (source result : ProgramSource), sourceLoop entries source = .ok result →
      ∀ stage, hasStage result stage = true ↔
        hasStage source stage = true ∨
          ∃ e ∈ entries, e.is_regular_file = true ∧ e.stem = stage.fileStem := by
  induction entries with
  | nil =>
    intro source result h stage
    simp only [sourceLoop, Except.ok.injEq] at h
    subst h
    simp
  | cons entry rest ih =>
    intro source result h stage
    unfold sourceLoop at h
    by_cases hreg : entry.is_regular_file = true
    · simp only [hreg, if_true] at h
      split at h
      · simp at h
      · split at h
        · simp at h
        · next st hst =>
          split at h
          · simp at h
          · next bytes hb =>
            rw [ih _ _ h stage, hasStage_emplaceSource]
            have hiff := stageOf_eq_iff entry stage
            constructor
            · rintro ((h1 | h1) | ⟨e, he, hr, hs⟩)
              · exact Or.inl h1
              · refine Or.inr ⟨entry, List.mem_cons_self _ _, hreg, hiff.1 ?_⟩
                rw [hst, h1]
              · exact Or.inr ⟨e, List.mem_cons_of_mem _ he, hr, hs⟩
            · rintro (h1 | ⟨e, he, hr, hs⟩)
              · exact Or.inl (Or.inl h1)
              · rcases List.mem_cons.1 he with rfl | he
                · have := hiff.2 hs
                  rw [hst] at this
                  injection this with this
                  exact Or.inl (Or.inr this.symm)
                · exact Or.inr ⟨e, he, hr, hs⟩
    · have hf : entry.is_regular_file = false := by simpa using hreg
      simp only [hf, Bool.false_eq_true, if_false] at h
      rw [ih _ _ h stage]
      constructor
      · rintro (h1 | ⟨e, he, hr, hs⟩)
        · exact Or.inl h1
        · exact Or.inr ⟨e, List.mem_cons_of_mem _ he, hr, hs⟩
      · rintro (h1 | ⟨e, he, hr, hs⟩)
        · exact Or.inl h1
        · rcases List.mem_cons.1 he with rfl | he
          · exact absurd hr hreg
          · exact Or.inr ⟨e, he, hr, hs⟩

/-- C23 as stated fails: a directory with the regular files `vert.spv` and
`frag.spv` meets the three conditions of the claim, but when `vert.spv` cannot
be read `loadShaderSource` throws and `buildPipeline` is not reached. -/
theorem programSource_counterexample :
    ¬ (∀ (dir : String) (entries : List DirectoryEntry),
        (∃ source, programSource dir entries = .ok source) ↔
          ((∀ e ∈ entries, e.is_regular_file = true →
              e.extension = ".spv" ∧ e.stem ∈ ["vert", "frag", "tesc", "tese", "geom"]) ∧
            (∃ e ∈ entries, e.is_regular_file = true ∧ e.stem = "vert") ∧
            (∃ e ∈ entries, e.is_regular_file = true ∧ e.stem = "frag"))) := by
  intro h
  have hfiles := (h "shaders"
    [shaderFile "vert" (.error "basic_ios::clear"), shaderFile "frag" (.ok [7])]).2
    ⟨by
      intro e he _
      simp only [List.mem_cons, List.mem_singleton, List.not_mem_nil, or_false] at he
      rcases he with rfl | rfl <;> exact ⟨rfl, by decide⟩,
     ⟨_, List.mem_cons_self _ _, rfl, rfl⟩,
     ⟨_, List.mem_cons_of_mem _ (List.mem_cons_self _ _), rfl, rfl⟩⟩
  obtain ⟨source, hs⟩ := hfiles
  have : programSource "shaders"
      [shaderFile "vert" (.error "basic_ios::clear"), shaderFile "frag" (.ok [7])] =
      .error "basic_ios::clear" := rfl
  rw [this] at hs
  cases hs

/-- C23, amended: the constructor of `GraphicsPipeline` reaches `buildPipeline`
exactly when every regular file of the directory has the extension `.spv`, a
stem among `vert`, `frag`, `tesc`, `tese`, `geom` and contents that
`loadShaderSource` can read, and a `vert` file and a `frag` file are among
them. The source handed to `buildPipeline` then holds the stage of a stem
exactly when a regular file of that stem is present (`vert` for the vertex,
`frag` for the fragment, `tesc` and `tese` for the two tessellation stages,
`geom` for the geometry stage), and the constructor returns a pipeline exactly
when `buildPipeline` succeeds. In every other case the constructor throws and
no pipeline is created. -/
theorem programSource_spec (dir : String) (entries : List DirectoryEntry)
    (buildPipeline : ProgramSource → Except String Unit) :
    ((∃ source, programSource dir entries = .ok source) ↔
      ((∀ e ∈ entries, e.is_regular_file = true → e.Accepted) ∧
        (∃ e ∈ entries, e.is_regular_file = true ∧ e.stem = "vert") ∧
        (∃ e ∈ entries, e.is_regular_file = true ∧ e.stem = "frag"))) ∧
    (∀ source, programSource dir entries = .ok source →
      (∀ stage, hasStage source stage = true ↔
        ∃ e ∈ entries, e.is_regular_file = true ∧ e.stem = stage.fileStem) ∧
      GraphicsPipeline.create dir entries buildPipeline =
        (buildPipeline source).map fun _ => { source := source }) ∧
    (∀ e, programSource dir entries = .error e →
      GraphicsPipeline.create dir entries buildPipeline = .error e) := by
  have hstages : ∀ source, sourceLoop entries [] = .ok source →
      ∀ stage, hasStage source stage = true ↔
        ∃ e ∈ entries, e.is_regular_file = true ∧ e.stem = stage.fileStem := by
    intro source hs stage
    rw [sourceLoop_stages entries [] source hs stage]
    simp [hasStage]
  refine ⟨?_, ?_, ?_⟩
  · constructor
    · rintro ⟨source, hs⟩
      unfold programSource at hs
      split at hs
      · simp at hs
      · next loaded hl =>
        split at hs
        · next hboth =>
          simp only [Bool.and_eq_true] at hboth
          exact ⟨(sourceLoop_ok_iff entries []).1 ⟨loaded, hl⟩,
            (hstages loaded hl .Vertex).1 hboth.1, (hstages loaded hl .Fragment).1 hboth.2⟩
        · simp at hs
    · rintro ⟨hall, hvert, hfrag⟩
      obtain ⟨loaded, hl⟩ := (sourceLoop_ok_iff entries []).2 hall
      refine ⟨loaded, ?_⟩
      unfold programSource
      rw [hl]
      simp only
      rw [(hstages loaded hl .Vertex).2 hvert, (hstages loaded hl .Fragment).2 hfrag]
      rfl
  · intro source hs
    refine ⟨?_, ?_⟩
    · unfold programSource at hs
      split at hs
      · simp at hs
      · next loaded hl =>
        split at hs
        · simp only [Except.ok.injEq] at hs
          subst hs
          exact hstages loaded hl
        · simp at hs
    · unfold GraphicsPipeline.create
      rw [hs]
      simp only
      cases buildPipeline source <;> rfl
  · intro e he
    unfold GraphicsPipeline.create
    rw [he]

/-- Witness of C23 (amended): a directory with a subdirectory, `vert.spv` and
`frag.spv`, both readable; the source holds the two stages. -/
theorem programSource_spec_witness :
    programSource "shaders"
      [{ is_regular_file := false, path := "shaders/include", stem := "include",
         extension := "", loadShaderSource := .error "" },
       shaderFile "vert" (.ok [3]), shaderFile "frag" (.ok [7])] =
      .ok [(.Vertex, [3]), (.Fragment, [7])] ∧
    ((∃ source, programSource "shaders"
        [{ is_regular_file := false, path := "shaders/include", stem := "include",
           extension := "", loadShaderSource := .error "" },
         shaderFile "vert" (.ok [3]), shaderFile "frag" (.ok [7])] = .ok source) ↔
      ((∀ e ∈ [{ is_regular_file := false, path := "shaders/include", stem := "include",
                 extension := "", loadShaderSource := .error "" },
               shaderFile "vert" (.ok [3]), shaderFile "frag" (.ok [7])],
          e.is_regular_file = true → e.Accepted) ∧
        (∃ e ∈ [{ is_regular_file := false, path := "shaders/include", stem := "include",
                  extension := "", loadShaderSource := .error "" },
                shaderFile "vert" (.ok [3]), shaderFile "frag" (.ok [7])],
          e.is_regular_file = true ∧ e.stem = "vert") ∧
        (∃ e ∈ [{ is_regular_file := false, path := "shaders/include", stem := "include",
                  extension := "", loadShaderSource := .error "" },
                shaderFile "vert" (.ok [3]), shaderFile "frag" (.ok [7])],
          e.is_regular_file = true ∧ e.stem = "frag"))) :=
  ⟨by rfl, (programSource_spec "shaders" _ (fun _ => .ok ())).1⟩

/-! ## Handles returned by `Context` -/

theorem forall₂_getElem?_left {α β : Type} (R : α → β → Prop) (xs : List α) (ys : List β)
    (h : List.Forall₂ R xs ys) (k : Nat) (x : α) (hx : xs[k]? = some x) :
    ∃ y, ys[k]? = some y ∧ R x y := by
  induction h generalizing k with
  | nil => simp at hx
  | cons hr _ ih =>
    cases k with
    | zero =>
      simp only [List.getElem?_cons_zero, Option.some.injEq] at hx
      subst hx
      exact ⟨_, List.getElem?_cons_zero, hr⟩
    | succ k =>
      simp only [List.getElem?_cons_succ] at hx
      simpa using ih k hx

theorem build_ok_model_indices (device : Device) (order : HashOrder) (batch : List String)
    (resources : Resources) (pack : ResourcePack)
    (h : build device order batch resources = .ok pack) :
    pack.model_indices = indexMap batch := by
  unfold build at h
  split at h
  · simp at h
  · split at h
    · simp at h
    · split at h
      · simp at h
      · split at h
        · simp at h
        · split at h
          · simp at h
          · simp only at h
            split at h
            · simp at h
            · simp only [Except.ok.injEq] at h
              subst h
              rfl

theorem handlesLoop_spec (pack : ResourcePack) (pack_index : Nat) (names : List String) :
    ∀ handles₀ : String → Option ModelHandle,
      (∀ n ∈ names, ∃ k, pack.model_indices n = some k) →
      (∀ n h, handles₀ n = some h →
        ∃ k, pack.model_indices n = some k ∧ h = { pack := pack_index, index := k }) →
      ∃ handles, handlesLoop pack pack_index names handles₀ = .ok handles ∧
        (∀ n h, handles n = some h →
          ∃ k, pack.model_indices n = some k ∧ h = { pack := pack_index, index := k }) ∧
        (∀ n, (handles₀ n).isSome = true → (handles n).isSome = true) ∧
        ∀ n ∈ names, (handles n).isSome = true := by
  induction names with
  | nil => intro handles₀ _ hinv; exact ⟨handles₀, rfl, hinv, fun _ h => h, by simp⟩
  | cons name rest ih =>
    intro handles₀ hall hinv
    obtain ⟨k, hk⟩ := hall name (List.mem_cons_self _ _)
    have hinv2 : ∀ n h, emplaceHandle handles₀ name { pack := pack_index, index := k } n = some h →
        ∃ k, pack.model_indices n = some k ∧ h = { pack := pack_index, index := k } := by
      intro n h hn
      unfold emplaceHandle at hn
      split at hn
      · next heq =>
        subst heq
        split at hn
        · next old hold => rw [← hold] at hn; exact hinv _ _ hn
        · simp only [Option.some.injEq] at hn
          exact ⟨k, hk, hn.symm⟩
      · exact hinv _ _ hn
    have hkeep : ∀ n, (handles₀ n).isSome = true →
        (emplaceHandle handles₀ name { pack := pack_index, index := k } n).isSome = true := by
      intro n hn
      unfold emplaceHandle
      split
      · next heq =>
        subst heq
        cases hh : handles₀ n with
        | none => rw [hh] at hn; cases hn
        | some old => rfl
      · exact hn
    have hnew : (emplaceHandle handles₀ name { pack := pack_index, index := k } name).isSome
        = true := by
      unfold emplaceHandle
      simp only [if_true]
      cases handles₀ name <;> rfl
    obtain ⟨handles, hloop, h1, h2, h3⟩ :=
      ih _ (fun n hn => hall n (List.mem_cons_of_mem _ hn)) hinv2
    refine ⟨handles, ?_, h1, fun n hn => h2 n (hkeep n hn), ?_⟩
    · simp only [handlesLoop, ResourcePack.model_index, mapAt, hk]
      exact hloop
    · intro n hn
      rcases List.mem_cons.1 hn with rfl | hn
      · exact h2 _ hnew
      · exact h3 n hn

theorem loadResources_ok (ctx : Context) (order : HashOrder) (model_names : List String)
    (resources : Resources) (next : Context) (handles : String → Option ModelHandle)
    (h : ctx.loadResources order model_names resources = .ok (next, handles)) :
    ∃ pack, build ctx.device order model_names resources = .ok pack ∧
      next = { ctx with m_resource_packs := ctx.m_resource_packs ++ [pack] } ∧
      handlesLoop pack ctx.m_resource_packs.length model_names (fun _ => none) = .ok handles := by
  unfold Context.loadResources at h
  split at h
  · simp at h
  · next pack hpack =>
    simp only [List.length_append, List.length_singleton, Nat.add_sub_cancel] at h
    split at h
    · simp at h
    · next loaded hl =>
      simp only [Except.ok.injEq, Prod.mk.injEq] at h
      obtain ⟨h1, h2⟩ := h
      subst h2
      exact ⟨pack, hpack, h1.symm, hl⟩

theorem loadResources_total (ctx : Context) (order : HashOrder) (model_names : List String)
    (resources : Resources) (pack : ResourcePack)
    (h : build ctx.device order model_names resources = .ok pack) :
    ∃ handles, ctx.loadResources order model_names resources =
      .ok ({ ctx with m_resource_packs := ctx.m_resource_packs ++ [pack] }, handles) := by
  have hidx := build_ok_model_indices _ _ _ _ _ h
  obtain ⟨handles, hloop, -, -, -⟩ :=
    handlesLoop_spec pack ctx.m_resource_packs.length model_names (fun _ => none)
      (fun n hn => by
        obtain ⟨k, hk, -⟩ := indexMap_spec model_names n hn
        exact ⟨k, by rw [hidx]; exact hk⟩)
      (fun n h hn => by cases hn)
  refine ⟨handles, ?_⟩
  unfold Context.loadResources
  rw [h]
  simp only [List.length_append, List.length_singleton, Nat.add_sub_cancel, hloop]

theorem load_device (ctx : Context) (op : LoadOp) : (ctx.load op).device = ctx.device := by
  cases op with
  | loadPipeline dir entries buildPipeline =>
    cases h : GraphicsPipeline.create dir entries buildPipeline <;>
      simp only [Context.load, Context.loadPipeline, h]
  | loadResources order model_names resources =>
    cases h : ctx.loadResources order model_names resources with
    | error e => simp only [Context.load, h]
    | ok r =>
      obtain ⟨next, handles⟩ := r
      obtain ⟨pack, -, hnext, -⟩ := loadResources_ok ctx order model_names resources _ _ h
      simp only [Context.load, h]
      rw [hnext]

theorem loadPipeline_ok (ctx : Context) (dir : String) (entries : List DirectoryEntry)
    (buildPipeline : ProgramSource → Except String Unit) (next : Context)
    (handle : PipelineHandle)
    (h : ctx.loadPipeline dir entries buildPipeline = .ok (next, handle)) :
    ∃ pipeline, GraphicsPipeline.create dir entries buildPipeline = .ok pipeline ∧
      next = { ctx with m_pipelines := ctx.m_pipelines ++ [pipeline] } ∧
      handle.index = ctx.m_pipelines.length := by
  unfold Context.loadPipeline at h
  split at h
  · simp at h
  · next pipeline hp =>
    simp only [List.length_append, List.length_singleton, Nat.add_sub_cancel, Except.ok.injEq,
      Prod.mk.injEq] at h
    obtain ⟨h1, h2⟩ := h
    subst h2
    exact ⟨pipeline, hp, h1.symm, rfl⟩

theorem loadAll_counts (ops : List LoadOp) :
    ∀ ctx : Context,
      (ctx.loadAll ops).1.device = ctx.device ∧
      (ctx.loadAll ops).1.m_resource_packs.length =
        ctx.m_resource_packs.length + (ctx.loadAll ops).2.1 ∧
      (ctx.loadAll ops).1.m_pipelines.length = ctx.m_pipelines.length + (ctx.loadAll ops).2.2 := by
  induction ops with
  | nil => intro ctx; exact ⟨rfl, rfl, rfl⟩
  | cons op rest ih =>
    intro ctx
    obtain ⟨hd, hp, hq⟩ := ih (ctx.load op)
    cases op with
    | loadPipeline dir entries buildPipeline =>
      simp only [Context.loadAll]
      refine ⟨hd.trans (load_device ctx _), ?_, ?_⟩
      · rw [hp]
        cases h : GraphicsPipeline.create dir entries buildPipeline <;>
          simp only [Context.load, Context.loadPipeline, h]
      · rw [hq]
        cases h : ctx.loadPipeline dir entries buildPipeline with
        | error e => simp [Context.load, Context.loads, h, Except.toBool]
        | ok r =>
          obtain ⟨next, handle⟩ := r
          obtain ⟨pipeline, -, hnext, -⟩ := loadPipeline_ok ctx dir entries buildPipeline _ _ h
          simp only [Context.load, Context.loads, h, Except.toBool, if_true]
          rw [hnext]
          simp only [List.length_append, List.length_singleton]
          omega
    | loadResources order model_names resources =>
      simp only [Context.loadAll]
      refine ⟨hd.trans (load_device ctx _), ?_, ?_⟩
      · rw [hp]
        cases h : ctx.loadResources order model_names resources with
        | error e => simp [Context.load, Context.loads, h, Except.toBool]
        | ok r =>
          obtain ⟨next, handles⟩ := r
          obtain ⟨pack, -, hnext, -⟩ := loadResources_ok ctx order model_names resources _ _ h
          simp only [Context.load, Context.loads, h, Except.toBool, if_true]
          rw [hnext]
          simp only [List.length_append, List.length_singleton]
          omega
      · rw [hq]
        cases h : ctx.loadResources order model_names resources with
        | error e => simp only [Context.load, h]
        | ok r =>
          obtain ⟨next, handles⟩ := r
          obtain ⟨pack, -, hnext, -⟩ := loadResources_ok ctx order model_names resources _ _ h
          simp only [Context.load, h]
          rw [hnext]

/-- C22: when `Context::loadResources` returns, the pack built from the batch
has been appended to `m_resource_packs`, and every name of the batch has a
handle: its pack index is the number of `loadResources` calls that returned
before (the position of the appended pack), its in-pack index is below
`model_names.size()` and is a position of that name in the batch, and the
offset entry at that index is the one computed for the model of that name.
Likewise a returning `loadPipeline` gives the number of `loadPipeline` calls
that returned before, the position of the appended pipeline. -/
theorem loadResources_handles (device : Device) (driver : SwapchainDriver) (ops : List LoadOp)
    (order : HashOrder) (model_names : List String) (resources : Resources)
    (next : Context) (handles : String → Option ModelHandle)
    (h : ((Context.create device driver).loadAll ops).1.loadResources order model_names resources
      = .ok (next, handles)) :
    (∃ pack names ms,
      build device order model_names resources = .ok pack ∧
      getResourceNames order model_names resources = .ok names ∧
      Resolves resources model_names ms ∧
      pack.model_offsets = names.model_offsets ∧
      next.m_resource_packs
        = ((Context.create device driver).loadAll ops).1.m_resource_packs ++ [pack] ∧
      ∀ name ∈ model_names, ∃ handle entry model,
        handles name = some handle ∧
        handle.pack = ((Context.create device driver).loadAll ops).2.1 ∧
        next.m_resource_packs[handle.pack]? = some pack ∧
        handle.index < model_names.length ∧
        model_names[handle.index]? = some name ∧
        pack.model_offsets[handle.index]? = some entry ∧
        resources.models name = some model ∧
        ms[handle.index]? = some model ∧
        entry.index_count = model.indices) ∧
    ∀ dir entries buildPipeline after handle,
      ((Context.create device driver).loadAll ops).1.loadPipeline dir entries buildPipeline
        = .ok (after, handle) →
      handle.index = ((Context.create device driver).loadAll ops).2.2 ∧
      ∃ pipeline, GraphicsPipeline.create dir entries buildPipeline = .ok pipeline ∧
        after.m_pipelines
          = ((Context.create device driver).loadAll ops).1.m_pipelines ++ [pipeline] ∧
        after.m_pipelines[handle.index]? = some pipeline := by
  have hcounts := loadAll_counts ops (Context.create device driver)
  have hdev : ((Context.create device driver).loadAll ops).1.device = device := hcounts.1
  have hpacks : ((Context.create device driver).loadAll ops).1.m_resource_packs.length
      = ((Context.create device driver).loadAll ops).2.1 :=
    hcounts.2.1.trans (Nat.zero_add _)
  have hpipes : ((Context.create device driver).loadAll ops).1.m_pipelines.length
      = ((Context.create device driver).loadAll ops).2.2 :=
    hcounts.2.2.trans (Nat.zero_add _)
  constructor
  · obtain ⟨pack, hbuild, hnext, hloop⟩ := loadResources_ok _ _ _ _ _ _ h
    rw [hdev] at hbuild
    have hidx := build_ok_model_indices _ _ _ _ _ hbuild
    obtain ⟨names, vr, ir, ur, textures, hnames, -, -, -, -, hoff, -⟩ :=
      build_ok _ _ _ _ _ hbuild
    obtain ⟨ms, hms, hmat⟩ := (getResourceNames_returns_iff order resources model_names).1
      ⟨names, hnames⟩
    obtain ⟨names', hnames', fo, -⟩ := getResourceNames_fields order resources model_names ms
      hms hmat
    rw [hnames] at hnames'
    simp only [Except.ok.injEq] at hnames'
    subst hnames'
    refine ⟨pack, names, ms, hbuild, hnames, hms, hoff, by rw [hnext], ?_⟩
    obtain ⟨handles', hloop', hp, -, hall⟩ :=
      handlesLoop_spec pack
        ((Context.create device driver).loadAll ops).1.m_resource_packs.length
        model_names (fun _ => none)
        (fun n hn => by
          obtain ⟨k, hk, -⟩ := indexMap_spec model_names n hn
          exact ⟨k, by rw [hidx]; exact hk⟩)
        (fun n h hn => by cases hn)
    rw [hloop] at hloop'
    simp only [Except.ok.injEq] at hloop'
    subst hloop'
    intro name hname
    obtain ⟨handle, hhandle⟩ := Option.isSome_iff_exists.1 (hall name hname)
    obtain ⟨k, hk, hh⟩ := hp name handle hhandle
    obtain ⟨k', hk', hget⟩ := indexMap_spec model_names name hname
    rw [hidx, hk'] at hk
    simp only [Option.some.injEq] at hk
    subst hk
    obtain ⟨model, hmodel, hres⟩ := forall₂_getElem?_left _ _ _ hms k' name hget
    have hcount := entries_index_count
      (indexMap (order.iterate (uniqueMaterials ms))) ms 0 0
    rw [← fo, ← hoff] at hcount
    obtain ⟨entry, hentry, hec⟩ := forall₂_getElem? _ _ _ hcount k' model hmodel
    have hlt : k' < model_names.length := by
      by_contra hge
      rw [List.getElem?_eq_none (by omega)] at hget
      cases hget
    refine ⟨handle, entry, model, hhandle, ?_, ?_, ?_, ?_, ?_, hres, ?_, hec⟩
    · rw [hh]; exact hpacks
    · rw [hh, hnext]
      simp only
      rw [List.getElem?_append_right (le_refl _)]
      simp
    · rw [hh]; exact hlt
    · rw [hh]; exact hget
    · rw [hh]; exact hentry
    · rw [hh]; exact hmodel
  · intro dir entries buildPipeline after handle hload
    obtain ⟨pipeline, hcreate, hafter, hindex⟩ := loadPipeline_ok _ _ _ _ _ _ hload
    refine ⟨by rw [hindex]; exact hpipes, pipeline, hcreate, by rw [hafter], ?_⟩
    rw [hindex, hafter]
    simp only
    rw [List.getElem?_append_right (le_refl _)]
    simp

/-- Witness of C22: after one pack and one pipeline were loaded and one load
failed, the example batch is loaded as pack 1, with the in-pack indices of its
three names. -/
theorem loadResources_handles_witness :
    ∃ next handles,
      ((Context.create exampleDevice threeImages).loadAll exampleLoads).1.loadResources
        insertionOrder exampleBatch exampleResources = .ok (next, handles) ∧
      (handles "A").map (fun handle => (handle.pack, handle.index)) = some (1, 0) ∧
      (handles "C").map (fun handle => (handle.pack, handle.index)) = some (1, 1) ∧
      (handles "B").map (fun handle => (handle.pack, handle.index)) = some (1, 2) ∧
      next.m_resource_packs.length = 2 ∧
      ∃ pack names ms,
        build exampleDevice insertionOrder exampleBatch exampleResources = .ok pack ∧
        getResourceNames insertionOrder exampleBatch exampleResources = .ok names ∧
        Resolves exampleResources exampleBatch ms ∧
        pack.model_offsets = names.model_offsets ∧
        next.m_resource_packs
          = ((Context.create exampleDevice threeImages).loadAll exampleLoads).1.m_resource_packs
            ++ [pack] ∧
        ∀ name ∈ exampleBatch, ∃ handle entry model,
          handles name = some handle ∧
          handle.pack = ((Context.create exampleDevice threeImages).loadAll exampleLoads).2.1 ∧
          next.m_resource_packs[handle.pack]? = some pack ∧
          handle.index < exampleBatch.length ∧
          exampleBatch[handle.index]? = some name ∧
          pack.model_offsets[handle.index]? = some entry ∧
          exampleResources.models name = some model ∧
          ms[handle.index]? = some model ∧
          entry.index_count = model.indices := by
  obtain ⟨next, handles, h, h1, h2, h3, h4⟩ : ∃ next handles,
      ((Context.create exampleDevice threeImages).loadAll exampleLoads).1.loadResources
        insertionOrder exampleBatch exampleResources = .ok (next, handles) ∧
      (handles "A").map (fun handle => (handle.pack, handle.index)) = some (1, 0) ∧
      (handles "C").map (fun handle => (handle.pack, handle.index)) = some (1, 1) ∧
      (handles "B").map (fun handle => (handle.pack, handle.index)) = some (1, 2) ∧
      next.m_resource_packs.length = 2 := ⟨_, _, rfl, rfl, rfl, rfl, rfl⟩
  exact ⟨next, handles, h, h1, h2, h3, h4,
    (loadResources_handles exampleDevice threeImages exampleLoads insertionOrder exampleBatch
      exampleResources next handles h).1⟩

/-! ## `ResourcePack::draw` -/

theorem copyModels_mem (staging : StagingBuffer) (resources : Resources) (buffers : Buffers)
    (names : List String) :
    ∀ (offsets : List ModelOffset) (effects : List Effect),
      copyModels staging resources buffers names offsets = .ok effects →
      ∀ (i : Nat) (name : String) (entry : ModelOffset),
        names[i]? = some name → offsets[i]? = some entry →
        ∃ model, resources.models name = some model ∧
          Effect.cmdCopyBuffer buffers.index 0 (wrap64 (entry.index_offset * sizeofIndex))
            (wrap64 (entry.index_count * sizeofIndex)) ∈ effects ∧
          Effect.cmdCopyBuffer buffers.vertex 0 (wrap64 (entry.vertex_offset * sizeofVertex))
            (wrap64 (model.vertices * sizeofVertex)) ∈ effects := by
  induction names with
  | nil => intro offsets effects _ i name entry hn; simp at hn
  | cons first rest ih =>
    intro offsets effects h i name entry hn he
    cases offsets with
    | nil => simp at he
    | cons offset more =>
      unfold copyModels at h
      split at h
      · simp at h
      · next model hmodel =>
        split at h
        · simp at h
        · next indexEffects hidx =>
          split at h
          · simp at h
          · next vertexEffects hvtx =>
            split at h
            · simp at h
            · next tail htail =>
              simp only [Except.ok.injEq] at h
              subst h
              cases i with
              | zero =>
                simp only [List.getElem?_cons_zero, Option.some.injEq] at hn he
                subst hn he
                obtain ⟨-, -, e1⟩ := copyBuffer_ok _ _ _ _ _ _ hidx
                obtain ⟨-, -, e2⟩ := copyBuffer_ok _ _ _ _ _ _ hvtx
                refine ⟨model, ?_, ?_, ?_⟩
                · unfold mapAt at hmodel
                  split at hmodel
                  · next m hm => simp only [Except.ok.injEq] at hmodel; rw [hm, hmodel]
                  · simp at hmodel
                · rw [e1]; simp
                · rw [e2]; simp
              | succ i =>
                simp only [List.getElem?_cons_succ] at hn he
                obtain ⟨m, hm, h1, h2⟩ := ih more tail htail i name entry hn he
                exact ⟨m, hm, List.mem_append_right _ h1, List.mem_append_right _ h2⟩

theorem copyModels_block (staging : StagingBuffer) (resources : Resources) (buffers : Buffers)
    (names : List String) :
    ∀ (offsets : List ModelOffset) (effects : List Effect),
      copyModels staging resources buffers names offsets = .ok effects →
      ∀ (i : Nat) (name : String) (entry : ModelOffset),
        names[i]? = some name → offsets[i]? = some entry →
        ∃ model before after, resources.models name = some model ∧
          before.length = 12 * i ∧
          effects = before ++
            [.mapMemory (wrap64 (entry.index_count * sizeofIndex)),
             .memcpy (.indices name) (wrap64 (entry.index_count * sizeofIndex)),
             .unmapMemory, .beginTransferCommand,
             .cmdCopyBuffer buffers.index 0 (wrap64 (entry.index_offset * sizeofIndex))
               (wrap64 (entry.index_count * sizeofIndex)),
             .endTransferCommand,
             .mapMemory (wrap64 (model.vertices * sizeofVertex)),
             .memcpy (.vertices name) (wrap64 (model.vertices * sizeofVertex)),
             .unmapMemory, .beginTransferCommand,
             .cmdCopyBuffer buffers.vertex 0 (wrap64 (entry.vertex_offset * sizeofVertex))
               (wrap64 (model.vertices * sizeofVertex)),
             .endTransferCommand] ++ after := by
  induction names with
  | nil => intro offsets effects _ i name entry hn; simp at hn
  | cons first rest ih =>
    intro offsets effects h i name entry hn he
    cases offsets with
    | nil => simp at he
    | cons offset more =>
      unfold copyModels at h
      split at h
      · simp at h
      · next model hmodel =>
        split at h
        · simp at h
        · next indexEffects hidx =>
          split at h
          · simp at h
          · next vertexEffects hvtx =>
            split at h
            · simp at h
            · next tail htail =>
              simp only [Except.ok.injEq] at h
              subst h
              obtain ⟨-, -, e1⟩ := copyBuffer_ok _ _ _ _ _ _ hidx
              obtain ⟨-, -, e2⟩ := copyBuffer_ok _ _ _ _ _ _ hvtx
              cases i with
              | zero =>
                simp only [List.getElem?_cons_zero, Option.some.injEq] at hn he
                subst hn he
                refine ⟨model, [], tail, ?_, rfl, ?_⟩
                · unfold mapAt at hmodel
                  split at hmodel
                  · next m hm => simp only [Except.ok.injEq] at hmodel; rw [hm, hmodel]
                  · simp at hmodel
                · rw [e1, e2]
                  rfl
              | succ i =>
                simp only [List.getElem?_cons_succ] at hn he
                obtain ⟨m, before, after, hm, hlen, htl⟩ := ih more tail htail i name entry hn he
                refine ⟨m, indexEffects ++ vertexEffects ++ before, after, hm, ?_, ?_⟩
                · rw [e1, e2]
                  simp only [List.length_append, List.length_cons, List.length_nil, hlen]
                  omega
                · rw [htl]
                  simp only [List.append_assoc]

theorem copyResources_models (device : Device) (capacity : Nat) (batch : List String)
    (offsets : List ModelOffset) (material_names texture_names : List String)
    (resources : Resources) (buffers : Buffers) (images : List Image2D)
    (transfers : List Effect)
    (h : copyResources device capacity batch offsets material_names texture_names resources
      buffers images = .ok transfers) :
    ∃ staging modelEffects after,
      copyModels staging resources buffers batch offsets = .ok modelEffects ∧
      transfers = modelEffects ++ after := by
  unfold copyResources at h
  split at h
  · simp at h
  · next staging hs =>
    split at h
    · simp at h
    · next modelEffects hm =>
      split at h
      · simp at h
      · split at h
        · simp at h
        · next uniformEffects hu =>
          split at h
          · simp at h
          · next textureEffects ht =>
            split at h
            · simp at h
            · split at h
              · simp at h
              · next placeholderEffects hpe =>
                simp only [Except.ok.injEq] at h
                exact ⟨staging, modelEffects,
                  uniformEffects ++ textureEffects ++ placeholderEffects, hm,
                  by rw [← h]; simp [List.append_assoc]⟩

/-- C24, counterexample to the claim as stated: the pack built from a model of
`2 ^ 32` indices has `index_count` `2 ^ 32` at position 0, and `draw` issues
the indexed draw with index count 0; and in the pack built from the batch
`X, X, Y, X, X` of models of `2 ^ 58 - 1` vertices the model at position 4
has `vertex_offset` `3 * 2 ^ 58 - 1`, and `draw` binds the vertex buffer at
byte offset `2 ^ 63 - 32`, not at the product `3 * 2 ^ 63 - 32`. -/
theorem draw_index_count_counterexample :
    ¬ (∀ (device : Device) (order : HashOrder) (batch : List String) (resources : Resources)
        (pack : ResourcePack) (cmd i : Nat) (entry : ModelOffset),
        build device order batch resources = .ok pack →
        pack.model_offsets[i]? = some entry →
        ∃ commands, pack.draw cmd i = .ok commands ∧
          Command.vkCmdDrawIndexed cmd entry.index_count 1 0 0 0 ∈ commands) ∧
    ∃ pack, build exampleDevice insertionOrder ["X", "X", "Y", "X", "X"] hugeVertexResources
        = .ok pack ∧
      pack.model_offsets[4]? = some ⟨3 * 2 ^ 58 - 1, 12, 3, 0⟩ ∧
      (pack.draw 7 4).toOption.map (fun commands => commands.map Command.operand)
        = some [2 ^ 63 - 32, 48, 0, 3] ∧
      (3 * 2 ^ 58 - 1) * sizeofVertex = 3 * 2 ^ 63 - 32 ∧
      (2 ^ 63 - 32 : Nat) ≠ 3 * 2 ^ 63 - 32 := by
  constructor
  · intro hall
    obtain ⟨pack, hpack, hoffsets, hdraw⟩ : ∃ pack,
        build exampleDevice insertionOrder ["m"] largeIndexResources = .ok pack ∧
        pack.model_offsets[0]? = some ⟨0, 0, 2 ^ 32, 0⟩ ∧
        (pack.draw 7 0).toOption.map (fun commands => commands.drop 3)
          = some [Command.vkCmdDrawIndexed 7 0 1 0 0 0] := ⟨_, rfl, rfl, rfl⟩
    obtain ⟨commands, hc, hmem⟩ :=
      hall exampleDevice insertionOrder ["m"] largeIndexResources pack 7 0 _ hpack hoffsets
    rw [hc] at hdraw
    simp only [Except.toOption, Option.map_some', Option.some.injEq] at hdraw
    unfold ResourcePack.draw at hc
    rw [hoffsets] at hc
    simp only at hc
    split at hc
    · simp at hc
    · simp only [Except.ok.injEq] at hc
      subst hc
      simp only [List.drop_succ_cons, List.drop_zero, List.cons.injEq, and_true] at hdraw
      simp only [List.mem_cons, List.mem_singleton, List.not_mem_nil, or_false] at hmem
      rcases hmem with hmem | hmem | hmem | hmem
      · cases hmem
      · cases hmem
      · cases hmem
      · injection hmem with _ h2
        revert h2
        decide
  · exact ⟨_, rfl, rfl, rfl, by decide, by decide⟩

/-- C24, amended: for every built pack and every position `i` of the batch,
`draw` records exactly four commands into the given command buffer. It binds
the vertex buffer at `vertex_offset_i * sizeof(Vertex)` and the index buffer at
`index_offset_i * sizeof(uint32_t)`, both computed modulo `2 ^ 64` (the exact
products when the total vertex bytes and index bytes of the batch are below
`2 ^ 64`). These are the destination offsets of the transfers `copyResources`
issued for model `i`: transfers `12 * i` to `12 * i + 11` of the pack stage the
indices of the model named at position `i` and copy them to the index buffer
at that index offset, then stage the vertices of that model and copy them to
the vertex buffer at that vertex offset. It binds the descriptor set at
`material_index_i`, the set of the model's material, and it issues one indexed
draw of `index_count_i` modulo `2 ^ 32` indices (the count is passed as a
`uint32_t`), one instance, first index 0, vertex offset 0. -/
theorem draw_spec (device : Device) (order : HashOrder) (batch : List String)
    (resources : Resources) (pack : ResourcePack) (cmd i : Nat) (name : String)
    (h : build device order batch resources = .ok pack) (hi : batch[i]? = some name) :
    ∃ names entry model set ms,
      getResourceNames order batch resources = .ok names ∧
      pack.model_offsets[i]? = some entry ∧
      names.model_offsets[i]? = some entry ∧
      resources.models name = some model ∧
      entry.index_count = model.indices ∧
      pack.materials[entry.material_index]? = some set ∧
      names.material_names[entry.material_index]? = some model.material ∧
      pack.draw cmd i = .ok
        [.vkCmdBindVertexBuffers cmd pack.buffers.vertex
            (wrap64 (entry.vertex_offset * sizeofVertex)),
         .vkCmdBindIndexBuffer cmd pack.buffers.index
            (wrap64 (entry.index_offset * sizeofIndex)),
         .vkCmdBindDescriptorSets cmd set,
         .vkCmdDrawIndexed cmd (entry.index_count % 2 ^ 32) 1 0 0 0] ∧
      Effect.cmdCopyBuffer pack.buffers.vertex 0 (wrap64 (entry.vertex_offset * sizeofVertex))
        (wrap64 (model.vertices * sizeofVertex)) ∈ pack.transfers ∧
      Effect.cmdCopyBuffer pack.buffers.index 0 (wrap64 (entry.index_offset * sizeofIndex))
        (wrap64 (entry.index_count * sizeofIndex)) ∈ pack.transfers ∧
      (∃ before after, before.length = 12 * i ∧
        pack.transfers = before ++
          [.mapMemory (wrap64 (model.indices * sizeofIndex)),
           .memcpy (.indices name) (wrap64 (model.indices * sizeofIndex)),
           .unmapMemory, .beginTransferCommand,
           .cmdCopyBuffer pack.buffers.index 0 (wrap64 (entry.index_offset * sizeofIndex))
             (wrap64 (model.indices * sizeofIndex)),
           .endTransferCommand,
           .mapMemory (wrap64 (model.vertices * sizeofVertex)),
           .memcpy (.vertices name) (wrap64 (model.vertices * sizeofVertex)),
           .unmapMemory, .beginTransferCommand,
           .cmdCopyBuffer pack.buffers.vertex 0 (wrap64 (entry.vertex_offset * sizeofVertex))
             (wrap64 (model.vertices * sizeofVertex)),
           .endTransferCommand] ++ after) ∧
      Resolves resources batch ms ∧
      ms[i]? = some model ∧
      ((ms.map Model.vertices).sum * sizeofVertex < 2 ^ 64 →
        (ms.map Model.indices).sum * sizeofIndex < 2 ^ 64 →
        wrap64 (entry.vertex_offset * sizeofVertex) = entry.vertex_offset * sizeofVertex ∧
        wrap64 (entry.index_offset * sizeofIndex) = entry.index_offset * sizeofIndex) := by
  obtain ⟨names, vr, ir, ur, textures, hnames, -, -, -, hcopy, hoff, -⟩ :=
    build_ok _ _ _ _ _ h
  obtain ⟨names2, textures2, hn2, -, hd, -⟩ := build_ok_materials _ _ _ _ _ h
  have e2 : names2 = names := by rw [hnames] at hn2; injection hn2 with h; exact h.symm
  rw [e2] at hd
  unfold createMaterialDescriptors at hd
  obtain ⟨hlen, -⟩ := descriptorLoop_binding _ _ _ _ _ 0 pack.materials hd
  obtain ⟨ms, hms, hmat⟩ := (getResourceNames_returns_iff order resources batch).1
    ⟨names, hnames⟩
  obtain ⟨names', hnames', fo, fm, -⟩ := getResourceNames_fields order resources batch ms
    hms hmat
  rw [hnames] at hnames'
  simp only [Except.ok.injEq] at hnames'
  subst hnames'
  obtain ⟨model, hmodel, hres⟩ := forall₂_getElem?_left _ _ _ hms i name hi
  have hcount := entries_index_count (indexMap (order.iterate (uniqueMaterials ms))) ms 0 0
  rw [← fo] at hcount
  obtain ⟨entry, hentry, hec⟩ := forall₂_getElem? _ _ _ hcount i model hmodel
  have hzip : (entry, model) ∈ List.zip names.model_offsets ms := by
    apply List.getElem?_mem (n := i)
    rw [List.getElem?_zip_eq_some]
    exact ⟨hentry, hmodel⟩
  have hmi := zip_withMaterialIndex (indexMap (order.iterate (uniqueMaterials ms)))
    (entriesFrom 0 0 ms) ms
  rw [← fo] at hmi
  have hmi2 := hmi _ hzip
  simp only at hmi2
  have hin : model.material ∈ order.iterate (uniqueMaterials ms) :=
    (mem_iterate_uniqueMaterials order ms _).2 ⟨model, List.getElem?_mem hmodel, rfl⟩
  obtain ⟨k, hk, hkget⟩ := indexMap_spec _ _ hin
  rw [hk] at hmi2
  simp only [Option.getD_some] at hmi2
  rw [← fm] at hkget
  have hklt : k < names.material_names.length := by
    by_contra hge
    rw [List.getElem?_eq_none (by omega)] at hkget
    cases hkget
  have hset : pack.materials[entry.material_index]? = some
      (pack.materials.get ⟨k, by rw [hlen]; exact hklt⟩) := by
    rw [hmi2]
    exact List.getElem?_eq_getElem _
  obtain ⟨staging, modelEffects, after, hmodels, htr⟩ := copyResources_models _ _ _ _ _ _ _ _ _ _
    hcopy
  obtain ⟨model2, hres2, hci, hcv⟩ := copyModels_mem _ _ _ _ _ _ hmodels i name entry hi hentry
  have em : model2 = model := by rw [hres] at hres2; injection hres2 with h; exact h.symm
  rw [em] at hcv
  obtain ⟨model3, before, rest, hres3, hblen, hblock⟩ :=
    copyModels_block _ _ _ _ _ _ hmodels i name entry hi hentry
  have em3 : model3 = model := by rw [hres] at hres3; injection hres3 with h; exact h.symm
  rw [em3, hec] at hblock
  refine ⟨names, entry, model, _, ms, hnames, by rw [hoff]; exact hentry, hentry, hres, hec,
    hset, by rw [hmi2]; exact hkget, ?_, ?_, ?_, ?_, hms, hmodel, ?_⟩
  · unfold ResourcePack.draw
    rw [hoff, hentry]
    simp only
    rw [hset]
  · rw [htr]; exact List.mem_append_left _ hcv
  · rw [htr]; exact List.mem_append_left _ hci
  · refine ⟨before, rest ++ after, hblen, ?_⟩
    rw [htr, hblock]
    simp only [List.append_assoc]
  · intro hv hx
    simp only [sizeofVertex, sizeofIndex] at hv hx ⊢
    have hb := entries_bounds (indexMap (order.iterate (uniqueMaterials ms))) ms 0 0
      (by omega) (by omega)
    rw [← fo] at hb
    obtain ⟨entry2, hentry2, q1, q2, -⟩ := forall₂_getElem? _ _ _ hb i model hmodel
    have ee : entry2 = entry := by rw [hentry] at hentry2; injection hentry2 with h; exact h.symm
    rw [ee] at q1 q2
    unfold wrap64
    constructor
    · apply Nat.mod_eq_of_lt; omega
    · apply Nat.mod_eq_of_lt; omega

/-- Witness of C24: the draw of model `B`, position 2 of the example batch;
transfers 24 to 35 of the pack stage and copy the indices and the vertices of
`B`. -/
theorem draw_spec_witness :
    ∃ pack, build exampleDevice insertionOrder exampleBatch exampleResources = .ok pack ∧
      exampleBatch[2]? = some "B" ∧
      (pack.draw 7 2).toOption.map (fun commands => commands.map Command.operand)
        = some [96, 12, 0, 6] ∧
      (pack.transfers.drop 24).take 12 =
        [.mapMemory 24, .memcpy (.indices "B") 24, .unmapMemory, .beginTransferCommand,
         .cmdCopyBuffer pack.buffers.index 0 12 24, .endTransferCommand,
         .mapMemory 128, .memcpy (.vertices "B") 128, .unmapMemory, .beginTransferCommand,
         .cmdCopyBuffer pack.buffers.vertex 0 96 128, .endTransferCommand] ∧
      ∃ names entry model set ms,
        getResourceNames insertionOrder exampleBatch exampleResources = .ok names ∧
        pack.model_offsets[2]? = some entry ∧
        names.model_offsets[2]? = some entry ∧
        exampleResources.models "B" = some model ∧
        entry.index_count = model.indices ∧
        pack.materials[entry.material_index]? = some set ∧
        names.material_names[entry.material_index]? = some model.material ∧
        pack.draw 7 2 = .ok
          [.vkCmdBindVertexBuffers 7 pack.buffers.vertex
              (wrap64 (entry.vertex_offset * sizeofVertex)),
           .vkCmdBindIndexBuffer 7 pack.buffers.index
              (wrap64 (entry.index_offset * sizeofIndex)),
           .vkCmdBindDescriptorSets 7 set,
           .vkCmdDrawIndexed 7 (entry.index_count % 2 ^ 32) 1 0 0 0] ∧
        Effect.cmdCopyBuffer pack.buffers.vertex 0
          (wrap64 (entry.vertex_offset * sizeofVertex))
          (wrap64 (model.vertices * sizeofVertex)) ∈ pack.transfers ∧
        Effect.cmdCopyBuffer pack.buffers.index 0
          (wrap64 (entry.index_offset * sizeofIndex))
          (wrap64 (entry.index_count * sizeofIndex)) ∈ pack.transfers ∧
        (∃ before after, before.length = 12 * 2 ∧
          pack.transfers = before ++
            [.mapMemory (wrap64 (model.indices * sizeofIndex)),
             .memcpy (.indices "B") (wrap64 (model.indices * sizeofIndex)),
             .unmapMemory, .beginTransferCommand,
             .cmdCopyBuffer pack.buffers.index 0 (wrap64 (entry.index_offset * sizeofIndex))
               (wrap64 (model.indices * sizeofIndex)),
             .endTransferCommand,
             .mapMemory (wrap64 (model.vertices * sizeofVertex)),
             .memcpy (.vertices "B") (wrap64 (model.vertices * sizeofVertex)),
             .unmapMemory, .beginTransferCommand,
             .cmdCopyBuffer pack.buffers.vertex 0
               (wrap64 (entry.vertex_offset * sizeofVertex))
               (wrap64 (model.vertices * sizeofVertex)),
             .endTransferCommand] ++ after) ∧
        Resolves exampleResources exampleBatch ms ∧
        ms[2]? = some model ∧
        ((ms.map Model.vertices).sum * sizeofVertex < 2 ^ 64 →
          (ms.map Model.indices).sum * sizeofIndex < 2 ^ 64 →
          wrap64 (entry.vertex_offset * sizeofVertex) = entry.vertex_offset * sizeofVertex ∧
          wrap64 (entry.index_offset * sizeofIndex) = entry.index_offset * sizeofIndex) := by
  obtain ⟨pack, hpack, hdraw, htransfers⟩ : ∃ pack,
      build exampleDevice insertionOrder exampleBatch exampleResources = .ok pack ∧
      (pack.draw 7 2).toOption.map (fun commands => commands.map Command.operand)
        = some [96, 12, 0, 6] ∧
      (pack.transfers.drop 24).take 12 =
        [.mapMemory 24, .memcpy (.indices "B") 24, .unmapMemory, .beginTransferCommand,
         .cmdCopyBuffer pack.buffers.index 0 12 24, .endTransferCommand,
         .mapMemory 128, .memcpy (.vertices "B") 128, .unmapMemory, .beginTransferCommand,
         .cmdCopyBuffer pack.buffers.vertex 0 96 128, .endTransferCommand] :=
    ⟨_, rfl, rfl, rfl⟩
  exact ⟨pack, hpack, rfl, hdraw, htransfers,
    draw_spec exampleDevice insertionOrder exampleBatch exampleResources pack 7 2 "B" hpack rfl⟩

/-! ## One frame of `Context` -/

theorem draw_valid (pack : ResourcePack) (cmd i : Nat) (offsets : ModelOffset)
    (h1 : pack.model_offsets[i]? = some offsets)
    (h2 : offsets.material_index < pack.materials.length) :
    ∃ commands, pack.draw cmd i = .ok commands ∧
      (∀ c ∈ commands, c.commandBuffer = some cmd) ∧
      ∀ command offset size matrix,
        Command.vkCmdPushConstants command offset size matrix ∉ commands := by
  unfold ResourcePack.draw
  rw [h1]
  simp only
  rw [List.getElem?_eq_getElem h2]
  refine ⟨_, rfl, ?_, ?_⟩
  · intro c hc
    simp only [List.mem_cons, List.mem_singleton, List.not_mem_nil, or_false] at hc
    rcases hc with rfl | rfl | rfl | rfl <;> rfl
  · intro command offset size matrix hc
    simp only [List.mem_cons, List.mem_singleton, List.not_mem_nil, or_false] at hc
    rcases hc with hc | hc | hc | hc <;> cases hc

theorem recordOp_valid (ctx : Context) (op : FrameOp) (h : ctx.ValidOp op) :
    ∃ commands, ctx.recordOp op = .ok commands ∧
      (∀ c ∈ commands, c.commandBuffer = some ctx.m_frame_state._command) ∧
      (∀ command offset size matrix,
        Command.vkCmdPushConstants command offset size matrix ∈ commands →
        command = ctx.m_frame_state._command ∧ offset = sizeofMat4 ∧ size = sizeofMat4 ∧
          ∃ model, op = .draw model matrix) ∧
      ∀ model transform, op = .draw model transform →
        Command.vkCmdPushConstants ctx.m_frame_state._command sizeofMat4 sizeofMat4 transform
          ∈ commands := by
  cases op with
  | bindPipeline pipeline =>
    simp only [Context.ValidOp] at h
    simp only [Context.recordOp, Context.bindPipeline, List.getElem?_eq_getElem h]
    refine ⟨_, rfl, ?_, ?_, ?_⟩
    · intro c hc
      simp only [List.mem_singleton] at hc
      subst hc
      rfl
    · intro command offset size matrix hc
      simp only [List.mem_singleton] at hc
      cases hc
    · intro model transform hop
      cases hop
  | draw model transform =>
    obtain ⟨pack, offsets, hpack, hoffsets, hmat⟩ := h
    obtain ⟨commands, hdraw, hbuf, hpush⟩ :=
      draw_valid pack ctx.m_frame_state._command model.index offsets hoffsets hmat
    simp only [Context.recordOp, Context.draw, hpack, hdraw]
    refine ⟨_, rfl, ?_, ?_, ?_⟩
    · intro c hc
      rcases List.mem_cons.1 hc with rfl | hc
      · rfl
      · exact hbuf c hc
    · intro command offset size matrix hc
      rcases List.mem_cons.1 hc with hc | hc
      · injection hc with e1 e2 e3 e4
        exact ⟨e1, e2, e3, model, by rw [e4]⟩
      · exact absurd hc (hpush _ _ _ _)
    · intro model2 transform2 hop
      injection hop with _ e2
      rw [e2]
      exact List.mem_cons_self _ _

theorem record_valid (ctx : Context) (ops : List FrameOp) (h : ∀ op ∈ ops, ctx.ValidOp op) :
    ∃ body, ctx.record ops = .ok body ∧
      (∀ c ∈ body, c.commandBuffer = some ctx.m_frame_state._command) ∧
      (∀ command offset size matrix,
        Command.vkCmdPushConstants command offset size matrix ∈ body →
        command = ctx.m_frame_state._command ∧ offset = sizeofMat4 ∧ size = sizeofMat4 ∧
          ∃ model, FrameOp.draw model matrix ∈ ops) ∧
      ∀ model transform, FrameOp.draw model transform ∈ ops →
        Command.vkCmdPushConstants ctx.m_frame_state._command sizeofMat4 sizeofMat4 transform
          ∈ body := by
  induction ops with
  | nil =>
    refine ⟨[], rfl, ?_, ?_, ?_⟩
    · intro c hc; cases hc
    · intro _ _ _ _ hc; cases hc
    · intro _ _ hc; cases hc
  | cons op rest ih =>
    obtain ⟨commands, hop, h1, h2, h3⟩ := recordOp_valid ctx op (h op (List.mem_cons_self _ _))
    obtain ⟨tail, hrest, t1, t2, t3⟩ := ih (fun o ho => h o (List.mem_cons_of_mem _ ho))
    refine ⟨commands ++ tail, by simp only [Context.record, hop, hrest], ?_, ?_, ?_⟩
    · intro c hc
      rcases List.mem_append.1 hc with hc | hc
      · exact h1 c hc
      · exact t1 c hc
    · intro command offset size matrix hc
      rcases List.mem_append.1 hc with hc | hc
      · obtain ⟨a, b, c, model, hm⟩ := h2 _ _ _ _ hc
        exact ⟨a, b, c, model, by rw [hm]; exact List.mem_cons_self _ _⟩
      · obtain ⟨a, b, c, model, hm⟩ := t2 _ _ _ _ hc
        exact ⟨a, b, c, model, List.mem_cons_of_mem _ hm⟩
    · intro model transform hc
      rcases List.mem_cons.1 hc with hc | hc
      · exact List.mem_append_left _ (h3 model transform hc.symm)
      · exact List.mem_append_right _ (t3 model transform hc)

/-- C25: one `beginFrame(camera)`, any sequence of `bindPipeline` and `draw`
calls with loaded handles, and `endFrame()`, every Vulkan call succeeding.
The frame returns; every command is recorded into the command buffer of the
`FrameState` acquired by `beginFrame`; `endFrame` submits that command buffer
once, waiting on the frame's ready semaphore and signalling its draw-finished
semaphore and its fence, and then presents the acquired image index waiting
on the draw-finished semaphore; the camera is pushed at push-constant offset 0
and every transform at offset `sizeof(mat4)`, each of size `sizeof(mat4)`,
inside the range of `2 * sizeof(mat4)` bytes the layout declares; and the
swapchain cursor advances by one (modulo the image count). -/
theorem frame_commands (ctx : Context) (camera index : Nat) (ops : List FrameOp)
    (hvalid : ∀ op ∈ ops, ctx.ValidOp op)
    (hcur : ctx.m_swapchain.m_current_frame < ctx.m_swapchain.m_images.length)
    (hK : ctx.m_swapchain.m_images.length < 2 ^ 32) :
    ∃ calls state body next,
      ctx.m_swapchain.acquireImage (some index) true = (calls, .ok state) ∧
      calls = [.vkAcquireNextImageKHR state._draw_ready, .vkWaitForFences state._submit_fence,
        .vkResetFences state._submit_fence] ∧
      state._index = index ∧
      ({ ctx with m_frame_state := state } : Context).record ops = .ok body ∧
      ctx.frame camera (some index) true ops true true true = .ok (next,
        calls.map .swapchain ++
          ([.vkBeginCommandBuffer state._command,
            .vkCmdBeginRenderPass state._command state._framebuffer,
            .vkCmdPushConstants state._command 0 sizeofMat4 camera] ++ body ++
           [.vkCmdEndRenderPass state._command, .vkEndCommandBuffer state._command]) ++
          [.vkQueueSubmit state._command state._draw_ready state._draw_finished
             state._submit_fence,
           .swapchain (.vkQueuePresentKHR state._index state._draw_finished)]) ∧
      (∀ c ∈ [Command.vkBeginCommandBuffer state._command,
            .vkCmdBeginRenderPass state._command state._framebuffer,
            .vkCmdPushConstants state._command 0 sizeofMat4 camera] ++ body ++
           [.vkCmdEndRenderPass state._command, .vkEndCommandBuffer state._command],
        c.commandBuffer = some state._command) ∧
      (∀ command wait signal fence, Command.vkQueueSubmit command wait signal fence ∉ body) ∧
      (∀ call, Command.swapchain call ∉ body) ∧
      (∀ command offset size matrix,
        Command.vkCmdPushConstants command offset size matrix ∈ body →
        command = state._command ∧ offset = sizeofMat4 ∧ size = sizeofMat4 ∧
          offset + size ≤ pushConstantRangeSize ∧ ∃ model, FrameOp.draw model matrix ∈ ops) ∧
      (∀ model transform, FrameOp.draw model transform ∈ ops →
        Command.vkCmdPushConstants state._command sizeofMat4 sizeofMat4 transform ∈ body) ∧
      0 + sizeofMat4 ≤ pushConstantRangeSize ∧
      next.m_frame_state = state ∧
      next.m_resource_packs = ctx.m_resource_packs ∧
      next.m_pipelines = ctx.m_pipelines ∧
      next.m_swapchain.m_images = ctx.m_swapchain.m_images ∧
      next.m_swapchain.m_current_frame
        = (ctx.m_swapchain.m_current_frame + 1) % ctx.m_swapchain.m_images.length := by
  obtain ⟨body, hbody, h1, h2, h3⟩ :=
    record_valid
      ({ ctx with m_frame_state :=
          { _index := index,
            _framebuffer := ctx.m_swapchain.m_framebuffers.getD index 0,
            _draw_ready := ctx.m_swapchain.m_image_draw_ready.getD
              ctx.m_swapchain.m_current_frame 0,
            _draw_finished := ctx.m_swapchain.m_image_draw_finished.getD
              ctx.m_swapchain.m_current_frame 0,
            _submit_fence := ctx.m_swapchain.m_image_available.getD index 0,
            _command := ctx.m_swapchain.m_commands.getD index 0 } } : Context) ops hvalid
  refine ⟨_, _, body,
    { ctx with
      m_frame_state :=
        { _index := index,
          _framebuffer := ctx.m_swapchain.m_framebuffers.getD index 0,
          _draw_ready := ctx.m_swapchain.m_image_draw_ready.getD
            ctx.m_swapchain.m_current_frame 0,
          _draw_finished := ctx.m_swapchain.m_image_draw_finished.getD
            ctx.m_swapchain.m_current_frame 0,
          _submit_fence := ctx.m_swapchain.m_image_available.getD index 0,
          _command := ctx.m_swapchain.m_commands.getD index 0 }
      m_swapchain :=
        { ctx.m_swapchain with
          m_current_frame := (ctx.m_swapchain.m_current_frame + 1) % 2 ^ 32 %
            ctx.m_swapchain.m_images.length % 2 ^ 32 } },
    rfl, rfl, rfl, hbody, ?_, ?_, ?_, ?_, ?_, h3, by decide, rfl, rfl, rfl, rfl, ?_⟩
  · simp only [Context.frame, Context.beginFrame, Swapchain.acquireImage, Bool.not_true,
      Bool.false_eq_true, if_false, hbody, Context.endFrame, Swapchain.presentImage,
      List.map_cons, List.map_nil, List.append_assoc, List.cons_append, List.nil_append]
  · intro c hc
    simp only [List.mem_append, List.mem_cons, List.mem_singleton, List.not_mem_nil,
      or_false] at hc
    rcases hc with ((rfl | rfl | rfl) | hc) | rfl | rfl
    · rfl
    · rfl
    · rfl
    · exact h1 c hc
    · rfl
    · rfl
  · intro command wait signal fence hc
    have := h1 _ hc
    simp [Command.commandBuffer] at this
  · intro call hc
    have := h1 _ hc
    simp [Command.commandBuffer] at this
  · intro command offset size matrix hc
    obtain ⟨a, b, c, d⟩ := h2 _ _ _ _ hc
    exact ⟨a, b, c, by rw [b, c]; decide, d⟩
  · exact cursor_increment _ _ hcur hK

/-- Witness of C25: a frame of the example context on image 2 of three, with
one pipeline bound and two models drawn. All sixteen recorded commands go to
command buffer 12, the submit and the four swapchain calls name none. -/
theorem frame_commands_witness :
    (∀ op ∈ exampleOps, exampleContext.ValidOp op) ∧
    exampleContext.m_swapchain.m_current_frame < exampleContext.m_swapchain.m_images.length ∧
    exampleContext.m_swapchain.m_images.length < 2 ^ 32 ∧
    (exampleContext.frame 4 (some 2) true exampleOps true true true).toOption.map
        (fun r => (r.1.m_swapchain.m_current_frame, r.2.map Command.commandBuffer))
      = some (1, [none, none, none, some 12, some 12, some 12, some 12, some 12, some 12,
          some 12, some 12, some 12, some 12, some 12, some 12, some 12, some 12, some 12,
          some 12, none, none]) ∧
    ∃ calls state body next,
      exampleContext.m_swapchain.acquireImage (some 2) true = (calls, .ok state) ∧
      calls = [.vkAcquireNextImageKHR state._draw_ready, .vkWaitForFences state._submit_fence,
        .vkResetFences state._submit_fence] ∧
      state._index = 2 ∧
      ({ exampleContext with m_frame_state := state } : Context).record exampleOps = .ok body ∧
      exampleContext.frame 4 (some 2) true exampleOps true true true = .ok (next,
        calls.map .swapchain ++
          ([.vkBeginCommandBuffer state._command,
            .vkCmdBeginRenderPass state._command state._framebuffer,
            .vkCmdPushConstants state._command 0 sizeofMat4 4] ++ body ++
           [.vkCmdEndRenderPass state._command, .vkEndCommandBuffer state._command]) ++
          [.vkQueueSubmit state._command state._draw_ready state._draw_finished
             state._submit_fence,
           .swapchain (.vkQueuePresentKHR state._index state._draw_finished)]) ∧
      (∀ c ∈ [Command.vkBeginCommandBuffer state._command,
            .vkCmdBeginRenderPass state._command state._framebuffer,
            .vkCmdPushConstants state._command 0 sizeofMat4 4] ++ body ++
           [.vkCmdEndRenderPass state._command, .vkEndCommandBuffer state._command],
        c.commandBuffer = some state._command) ∧
      (∀ command wait signal fence, Command.vkQueueSubmit command wait signal fence ∉ body) ∧
      (∀ call, Command.swapchain call ∉ body) ∧
      (∀ command offset size matrix,
        Command.vkCmdPushConstants command offset size matrix ∈ body →
        command = state._command ∧ offset = sizeofMat4 ∧ size = sizeofMat4 ∧
          offset + size ≤ pushConstantRangeSize ∧
          ∃ model, FrameOp.draw model matrix ∈ exampleOps) ∧
      (∀ model transform, FrameOp.draw model transform ∈ exampleOps →
        Command.vkCmdPushConstants state._command sizeofMat4 sizeofMat4 transform ∈ body) ∧
      0 + sizeofMat4 ≤ pushConstantRangeSize ∧
      next.m_frame_state = state ∧
      next.m_resource_packs = exampleContext.m_resource_packs ∧
      next.m_pipelines = exampleContext.m_pipelines ∧
      next.m_swapchain.m_images = exampleContext.m_swapchain.m_images ∧
      next.m_swapchain.m_current_frame
        = (exampleContext.m_swapchain.m_current_frame + 1) %
            exampleContext.m_swapchain.m_images.length := by
  have hvalid : ∀ op ∈ exampleOps, exampleContext.ValidOp op := by
    intro op hop
    simp only [exampleOps, List.mem_cons, List.mem_singleton, List.not_mem_nil, or_false] at hop
    rcases hop with rfl | rfl | rfl
    · exact (by decide : (0 : Nat) < 1)
    · exact ⟨_, _, rfl, rfl, by decide⟩
    · exact ⟨_, _, rfl, rfl, by decide⟩
  exact ⟨hvalid, by decide, by decide, rfl,
    frame_commands exampleContext 4 2 exampleOps hvalid (by decide) (by decide)⟩

/-! ## `Model::load`: the vectors of an inserted model -/

theorem push_counted (d : MeshData) (vert : Model.Vertex) (h : d.Counted) :
    (d.push vert).Counted ∧ (d.push vert).vertices.length = d.vertices.length + 1 := by
  unfold MeshData.Counted at h ⊢
  simp only [MeshData.push, List.length_append, List.length_singleton, List.range_succ,
    List.map_append, List.map_cons, List.map_nil]
  exact ⟨by rw [h], trivial⟩

theorem cornersFrom_ok (attrib : attrib_t) (mesh : mesh_t) (index_offset : Nat) (count : Nat) :
    ∀ (v : Nat) (d d' : MeshData),
      cornersFrom attrib mesh index_offset count v d = .ok d' → d.Counted →
      d'.Counted ∧ d'.vertices.length = d.vertices.length + count := by
  induction count with
  | zero =>
    intro v d d' h hd
    simp only [cornersFrom, Except.ok.injEq] at h
    subst h
    exact ⟨hd, rfl⟩
  | succ count ih =>
    intro v d d' h hd
    unfold cornersFrom at h
    split at h
    · simp at h
    · split at h
      · simp at h
      · next vert _ =>
        obtain ⟨h1, h2⟩ := push_counted d vert hd
        obtain ⟨h3, h4⟩ := ih _ _ _ h h1
        exact ⟨h3, by rw [h4, h2]; omega⟩

theorem drop_take_succ {α : Type} (l : List α) (f count : Nat) (x : α) (h : l[f]? = some x) :
    (l.drop f).take (count + 1) = x :: (l.drop (f + 1)).take count := by
  have hlt : f < l.length := by
    by_contra hge
    rw [List.getElem?_eq_none (by omega)] at h
    cases h
  rw [List.drop_eq_getElem_cons hlt, List.take_succ_cons]
  rw [List.getElem?_eq_getElem hlt] at h
  injection h with h
  rw [h]

theorem facesFrom_ok (attrib : attrib_t) (mesh : mesh_t) (count : Nat) :
    ∀ (f index_offset : Nat) (data data' : MeshMap),
      facesFrom attrib mesh count f index_offset data = .ok data' →
      (∀ k, (data.get k).Counted) →
      (∀ k, (data'.get k).Counted) ∧
      (∀ k, (data'.get k).vertices.length = (data.get k).vertices.length +
        3 * (((mesh.material_ids.drop f).take count).map toSizeT).count k) ∧
      ∀ k, k ∈ data'.keys ↔
        k ∈ data.keys ∨ k ∈ ((mesh.material_ids.drop f).take count).map toSizeT := by
  induction count with
  | zero =>
    intro f index_offset data data' h hd
    simp only [facesFrom, Except.ok.injEq] at h
    subst h
    exact ⟨hd, by simp, by simp⟩
  | succ count ih =>
    intro f index_offset data data' h hd
    unfold facesFrom at h
    split at h
    · simp at h
    · next id hid =>
      simp only at h
      split at h
      · simp at h
      · next d hcorners =>
        obtain ⟨c1, c2⟩ := cornersFrom_ok _ _ _ _ _ _ _ hcorners (hd _)
        have hset : ∀ k, ((data.set (toSizeT id) d).get k).Counted := by
          intro k
          simp only [MeshMap.set]
          split
          · exact c1
          · exact hd k
        obtain ⟨h1, h2, h3⟩ := ih _ _ _ _ h hset
        rw [drop_take_succ _ _ _ _ hid]
        refine ⟨h1, ?_, ?_⟩
        · intro k
          rw [h2 k]
          simp only [MeshMap.set, List.map_cons, List.count_cons]
          by_cases hk : k = toSizeT id
          · subst hk
            simp only [if_true, beq_self_eq_true]
            rw [c2]
            omega
          · have hk2 : ¬ toSizeT id = k := fun e => hk e.symm
            simp only [hk, if_false, beq_iff_eq, hk2]
            omega
        · intro k
          rw [h3 k]
          simp only [MeshMap.set, List.map_cons, List.mem_cons]
          by_cases hmem : toSizeT id ∈ data.keys
          · simp only [hmem, if_true]
            constructor
            · rintro (h | h)
              · exact Or.inl h
              · exact Or.inr (Or.inr h)
            · rintro (h | h | h)
              · exact Or.inl h
              · exact Or.inl (h ▸ hmem)
              · exact Or.inr h
          · simp only [hmem, if_false, List.mem_append, List.mem_singleton]
            tauto

theorem insertModels_spec (stem shape_name : String) (material_names : List String)
    (data : MeshMap) (ks : List Nat) :
    ∀ (models : String → Option ModelData) (name : String) (model : ModelData),
      (insertModels stem shape_name material_names data ks models).1 name = some model →
      models name = some model ∨
        (models name = none ∧ ∃ k ∈ ks, ∃ material_name,
          material_names[k]? = some material_name ∧
          name = modelName stem shape_name material_name ∧
          model = { m_material := material_name, m_vertices := (data.get k).vertices,
                    m_indices := (data.get k).indices }) := by
  induction ks with
  | nil => intro models name model h; exact Or.inl h
  | cons k rest ih =>
    intro models name model h
    unfold insertModels at h
    split at h
    · exact Or.inl h
    · next material_name hmn =>
      simp only at h
      rcases ih _ _ _ h with h1 | ⟨h1, k', hk', mn, h2, h3, h4⟩
      · unfold tryEmplace at h1
        split at h1
        · next heq =>
          subst heq
          split at h1
          · next old hold => left; rw [hold, ← h1]
          · next hnone =>
            right
            simp only [Option.some.injEq] at h1
            exact ⟨hnone, k, List.mem_cons_self _ _, material_name, hmn, rfl, h1.symm⟩
        · exact Or.inl h1
      · right
        refine ⟨?_, k', List.mem_cons_of_mem _ hk', mn, h2, h3, h4⟩
        unfold tryEmplace at h1
        split at h1
        · next heq =>
          subst heq
          split at h1
          · cases h1
          · next hnone => exact hnone
        · exact h1

theorem shapesLoop_spec (order : KeyOrder) (stem : String) (attrib : attrib_t)
    (material_names : List String) (shapes : List shape_t) :
    ∀ (models : String → Option ModelData) (name : String) (model : ModelData),
      (shapesLoop order stem attrib material_names shapes models).1 name = some model →
      models name = some model ∨
        (models name = none ∧ ∃ shape ∈ shapes, ∃ data key material_name,
          facesFrom attrib shape.mesh shape.mesh.num_face_vertices.length 0 0 MeshMap.empty
            = .ok data ∧
          key ∈ data.keys ∧
          material_names[key]? = some material_name ∧
          name = modelName stem shape.name material_name ∧
          model = { m_material := material_name, m_vertices := (data.get key).vertices,
                    m_indices := (data.get key).indices }) := by
  induction shapes with
  | nil => intro models name model h; exact Or.inl h
  | cons shape rest ih =>
    intro models name model h
    unfold shapesLoop at h
    split at h
    · exact Or.inl h
    · next data hdata =>
      have hstep : ∀ model', (insertModels stem shape.name material_names data
          (order.iterate data.keys) models).1 name = some model' →
          models name = some model' ∨
          (models name = none ∧ ∃ data key material_name,
            facesFrom attrib shape.mesh shape.mesh.num_face_vertices.length 0 0 MeshMap.empty
              = .ok data ∧
            key ∈ data.keys ∧
            material_names[key]? = some material_name ∧
            name = modelName stem shape.name material_name ∧
            model' = { m_material := material_name, m_vertices := (data.get key).vertices,
                       m_indices := (data.get key).indices }) := by
        intro model' hm
        rcases insertModels_spec _ _ _ _ _ _ _ _ hm with h1 | ⟨h1, k, hk, mn, h2, h3, h4⟩
        · exact Or.inl h1
        · exact Or.inr ⟨h1, data, k, mn, hdata, (order.perm _).mem_iff.1 hk, h2, h3, h4⟩
      split at h
      · next inserted e hins =>
        have hins1 : (insertModels stem shape.name material_names data
            (order.iterate data.keys) models).1 = inserted := by rw [hins]
        rw [← hins1] at h
        rcases hstep _ h with h1 | ⟨h1, d, k, mn, r⟩
        · exact Or.inl h1
        · exact Or.inr ⟨h1, shape, List.mem_cons_self _ _, d, k, mn, r⟩
      · next inserted _ hins =>
        have hins1 : (insertModels stem shape.name material_names data
            (order.iterate data.keys) models).1 = inserted := by rw [hins]
        rcases ih _ _ _ h with h1 | ⟨h1, shape', hs', r⟩
        · rw [← hins1] at h1
          rcases hstep _ h1 with h2 | ⟨h2, d, k, mn, r⟩
          · exact Or.inl h2
          · exact Or.inr ⟨h2, shape, List.mem_cons_self _ _, d, k, mn, r⟩
        · right
          refine ⟨?_, shape', List.mem_cons_of_mem _ hs', r⟩
          rw [← hins1] at h1
          cases hm : models name with
          | none => rfl
          | some old =>
            exfalso
            have hkeep : ∀ (ks : List Nat) (models : String → Option ModelData),
                models name = some old →
                (insertModels stem shape.name material_names data ks models).1 name
                  = some old := by
              intro ks
              induction ks with
              | nil => intro models hm; exact hm
              | cons k ks ihk =>
                intro models hm
                unfold insertModels
                split
                · exact hm
                · simp only
                  apply ihk
                  unfold tryEmplace
                  split
                  · next heq => subst heq; rw [hm]
                  · exact hm
            rw [hkeep _ _ hm] at h1
            cases h1

theorem materialsFrom_models (fs : FileSystem) (stem root_path : String)
    (materials : List material_t) :
    ∀ (i : Nat) (resources : Scene) (material_names : List String),
      (materialsFrom fs stem root_path materials i resources material_names).1.models
        = resources.models := by
  induction materials with
  | nil => intro i resources material_names; rfl
  | cons material rest ih =>
    intro i resources material_names
    unfold materialsFrom
    simp only
    split
    · exact ih _ _ _
    · split
      · rfl
      · rw [ih]

theorem load_inserted (fs : FileSystem) (order : KeyOrder) (filepath stem root_path : String)
    (parsed : Except String ObjReader) (resources : Scene) (name : String) (model : ModelData)
    (hnew : resources.models name = none)
    (hmodel : (Model.load fs order filepath stem root_path parsed resources).1.models name
      = some model) :
    ∃ reader shape key loaded material_names, parsed = .ok reader ∧ shape ∈ reader.shapes ∧
      materialsFrom fs stem root_path reader.materials 0 resources []
        = (loaded, .ok material_names) ∧
      material_names[key]? = some model.m_material ∧
      name = modelName stem shape.name model.m_material ∧
      0 < facesOf shape.mesh key ∧
      model.m_vertices.length = 3 * facesOf shape.mesh key ∧
      model.m_indices = (List.range model.m_vertices.length).map (fun k => k % 2 ^ 32) := by
  unfold Model.load at hmodel
  split at hmodel
  · rw [hnew] at hmodel
    cases hmodel
  · next reader =>
    have hm := materialsFrom_models fs stem root_path reader.materials 0 resources []
    split at hmodel
    · next loaded e hl =>
      have : loaded.models = resources.models := by rw [← hm, hl]
      rw [this, hnew] at hmodel
      cases hmodel
    · next loaded material_names hl =>
      have hlm : loaded.models = resources.models := by rw [← hm, hl]
      simp only at hmodel
      rcases shapesLoop_spec _ _ _ _ _ _ _ _ hmodel with h1 | ⟨-, shape, hs, data, key, mn, hf,
        hkey, hmn, hname, hmd⟩
      · rw [hlm, hnew] at h1
        cases h1
      · obtain ⟨f1, f2, f3⟩ := facesFrom_ok _ _ _ _ _ _ _ hf
          (fun k => by simp [MeshMap.empty, MeshData.Counted])
        have hlen := f2 key
        simp only [MeshMap.empty, List.length_nil, Nat.zero_add, List.drop_zero] at hlen
        have hin := (f3 key).1 hkey
        simp only [MeshMap.empty, List.not_mem_nil, false_or, List.drop_zero] at hin
        refine ⟨reader, shape, key, loaded, material_names, rfl, hs, hl, ?_, ?_,
          List.count_pos_iff.2 hin, ?_, ?_⟩
        · rw [hmd]; exact hmn
        · rw [hmd]; exact hname
        · rw [hmd]
          exact hlen
        · rw [hmd]
          exact f1 key

theorem cornersFrom_total (attrib : attrib_t) (mesh : mesh_t) (index_offset : Nat)
    (count : Nat) :
    ∀ (v : Nat) (d : MeshData),
      (∀ j, v ≤ j → j < v + count → ∃ index vert,
        mesh.indices[wrap64 (index_offset + j)]? = some index ∧
        makeVertex attrib index = .ok vert) →
      ∃ d', cornersFrom attrib mesh index_offset count v d = .ok d' := by
  induction count with
  | zero => intro v d _; exact ⟨d, rfl⟩
  | succ count ih =>
    intro v d h
    obtain ⟨index, vert, h1, h2⟩ := h v (le_refl _) (by omega)
    obtain ⟨d', hd'⟩ := ih (v + 1) (d.push vert) (fun j hj1 hj2 => h j (by omega) (by omega))
    exact ⟨d', by simp only [cornersFrom, h1, h2, hd']⟩

theorem facesFrom_total (attrib : attrib_t) (mesh : mesh_t) (count : Nat) :
    ∀ (f : Nat) (data : MeshMap),
      3 * (f + count) < 2 ^ 64 →
      (∀ j, j < count → ∃ id, mesh.material_ids[f + j]? = some id) →
      (∀ j, j < 3 * (f + count) → ∃ index vert,
        mesh.indices[j]? = some index ∧ makeVertex attrib index = .ok vert) →
      ∃ data', facesFrom attrib mesh count f (3 * f) data = .ok data' := by
  induction count with
  | zero => intro f data _ _ _; exact ⟨data, rfl⟩
  | succ count ih =>
    intro f data hb hids hidx
    obtain ⟨id, hid⟩ := hids 0 (by omega)
    rw [Nat.add_zero] at hid
    obtain ⟨d, hd⟩ := cornersFrom_total attrib mesh (3 * f) 3 0 (data.get (toSizeT id))
      (fun j _ hj => by
        have hw : wrap64 (3 * f + j) = 3 * f + j := Nat.mod_eq_of_lt (by omega)
        rw [hw]
        exact hidx _ (by omega))
    have hw : wrap64 (3 * f + 3) = 3 * (f + 1) := by
      unfold wrap64
      rw [Nat.mod_eq_of_lt (by omega)]
      omega
    obtain ⟨data', hdata'⟩ := ih (f + 1) (data.set (toSizeT id) d) (by omega)
      (fun j hj => by
        obtain ⟨id', h'⟩ := hids (j + 1) (by omega)
        exact ⟨id', by rw [← h']; congr 1; omega⟩)
      (fun j hj => hidx j (by omega))
    exact ⟨data', by simp only [facesFrom, hid, hd, hw, hdata']⟩

theorem tryEmplace_isSome {α : Type} (map : String → Option α) (key : String) (value : α)
    (k : String) (h : (map k).isSome = true ∨ k = key) :
    (tryEmplace map key value k).isSome = true := by
  unfold tryEmplace
  split
  · next heq =>
    subst heq
    cases map k <;> rfl
  · next hne =>
    rcases h with h | h
    · exact h
    · exact absurd h hne

theorem insertModels_total (stem shape_name : String) (material_names : List String)
    (data : MeshMap) (ks : List Nat) (hks : ∀ k ∈ ks, k < material_names.length) :
    ∀ (models : String → Option ModelData),
      (insertModels stem shape_name material_names data ks models).2 = .ok () ∧
      (∀ name, (models name).isSome = true →
        ((insertModels stem shape_name material_names data ks models).1 name).isSome = true) ∧
      ∀ k ∈ ks, ∃ material_name, material_names[k]? = some material_name ∧
        ((insertModels stem shape_name material_names data ks models).1
          (modelName stem shape_name material_name)).isSome = true := by
  induction ks with
  | nil => intro models; exact ⟨rfl, fun _ h => h, by simp⟩
  | cons k rest ih =>
    intro models
    have hk := hks k (List.mem_cons_self _ _)
    have hget : material_names[k]? = some material_names[k] := List.getElem?_eq_getElem hk
    obtain ⟨h1, h2, h3⟩ := ih (fun k' hk' => hks k' (List.mem_cons_of_mem _ hk'))
      (tryEmplace models (modelName stem shape_name material_names[k])
        { m_material := material_names[k], m_vertices := (data.get k).vertices,
          m_indices := (data.get k).indices })
    simp only [insertModels, hget]
    refine ⟨h1, ?_, ?_⟩
    · intro name hn
      exact h2 name (tryEmplace_isSome _ _ _ _ (Or.inl hn))
    · intro k' hk'
      rcases List.mem_cons.1 hk' with rfl | hk'
      · exact ⟨_, hget, h2 _ (tryEmplace_isSome _ _ _ _ (Or.inr rfl))⟩
      · exact h3 k' hk'

theorem facesOf_pos_lt (attrib : attrib_t) (materials : Nat) (mesh : mesh_t)
    (h : mesh.WellFormed attrib materials) (key : Nat) (hkey : 0 < facesOf mesh key) :
    key < materials := by
  unfold facesOf at hkey
  obtain ⟨id, hid, rfl⟩ := List.mem_map.1 (List.count_pos_iff.1 hkey)
  obtain ⟨f, hf⟩ := List.getElem?_of_mem hid
  have hlt : f < mesh.num_face_vertices.length := by
    by_contra hge
    rw [List.getElem?_take_eq_none (by omega)] at hf
    cases hf
  rw [List.getElem?_take_of_lt hlt] at hf
  obtain ⟨id', h1, h2⟩ := h.2.1 f hlt
  rw [hf] at h1
  injection h1 with h1
  rw [h1]
  exact h2

theorem shapesLoop_total (order : KeyOrder) (stem : String) (attrib : attrib_t)
    (material_names : List String) (shapes : List shape_t)
    (hwf : ∀ shape ∈ shapes, shape.mesh.WellFormed attrib material_names.length) :
    ∀ (models : String → Option ModelData),
      (shapesLoop order stem attrib material_names shapes models).2 = .ok () ∧
      (∀ name, (models name).isSome = true →
        ((shapesLoop order stem attrib material_names shapes models).1 name).isSome = true) ∧
      ∀ shape ∈ shapes, ∀ key, 0 < facesOf shape.mesh key →
        ∃ material_name, material_names[key]? = some material_name ∧
          ((shapesLoop order stem attrib material_names shapes models).1
            (modelName stem shape.name material_name)).isSome = true := by
  induction shapes with
  | nil => intro models; exact ⟨rfl, fun _ h => h, by simp⟩
  | cons shape rest ih =>
    intro models
    have hshape := hwf shape (List.mem_cons_self _ _)
    obtain ⟨data, hdata⟩ := facesFrom_total attrib shape.mesh
      shape.mesh.num_face_vertices.length 0 MeshMap.empty
      (by rw [Nat.zero_add]; exact hshape.1)
      (fun j hj => by
        obtain ⟨id, hid, -⟩ := hshape.2.1 j hj
        exact ⟨id, by rw [Nat.zero_add]; exact hid⟩)
      (fun j hj => hshape.2.2 j (by rw [Nat.zero_add] at hj; exact hj))
    rw [Nat.mul_zero] at hdata
    obtain ⟨-, -, f3⟩ := facesFrom_ok _ _ _ _ _ _ _ hdata
      (fun k => by simp [MeshMap.empty, MeshData.Counted])
    have hkeys : ∀ k, k ∈ data.keys ↔ 0 < facesOf shape.mesh k := by
      intro k
      rw [f3 k]
      simp only [MeshMap.empty, List.not_mem_nil, false_or, List.drop_zero, facesOf,
        List.count_pos_iff]
    obtain ⟨i1, i2, i3⟩ := insertModels_total stem shape.name material_names data
      (order.iterate data.keys)
      (fun k hk => facesOf_pos_lt attrib _ _ hshape k
        ((hkeys k).1 ((order.perm _).mem_iff.1 hk))) models
    obtain ⟨r1, r2, r3⟩ := ih (fun s hs => hwf s (List.mem_cons_of_mem _ hs))
      (insertModels stem shape.name material_names data (order.iterate data.keys) models).1
    have hloop : shapesLoop order stem attrib material_names (shape :: rest) models
        = shapesLoop order stem attrib material_names rest
            (insertModels stem shape.name material_names data
              (order.iterate data.keys) models).1 := by
      rw [shapesLoop, hdata]
      simp only
      split
      · next inserted e hins => rw [hins] at i1; cases i1
      · next inserted _ hins => rw [hins]
    rw [hloop]
    refine ⟨r1, fun name hn => r2 name (i2 name hn), ?_⟩
    intro s hs key hkey
    rcases List.mem_cons.1 hs with rfl | hs
    · obtain ⟨mn, h1, h2⟩ := i3 key ((order.perm _).mem_iff.2 ((hkeys key).2 hkey))
      exact ⟨mn, h1, r2 _ h2⟩
    · exact r3 s hs key hkey

theorem load_total (fs : FileSystem) (order : KeyOrder) (filepath stem root_path : String)
    (reader : ObjReader) (resources loaded : Scene) (material_names : List String)
    (hm : materialsFrom fs stem root_path reader.materials 0 resources []
      = (loaded, .ok material_names))
    (hwf : ∀ shape ∈ reader.shapes, shape.mesh.WellFormed reader.attrib material_names.length) :
    (Model.load fs order filepath stem root_path (.ok reader) resources).2 = .ok () ∧
    ∀ shape ∈ reader.shapes, ∀ key, 0 < facesOf shape.mesh key →
      ∃ material_name, material_names[key]? = some material_name ∧
        ((Model.load fs order filepath stem root_path (.ok reader) resources).1.models
          (modelName stem shape.name material_name)).isSome = true := by
  obtain ⟨h1, -, h3⟩ := shapesLoop_total order stem reader.attrib material_names reader.shapes
    hwf loaded.models
  simp only [Model.load, hm]
  exact ⟨h1, h3⟩

theorem largeMesh_wellFormed : largeMesh.WellFormed largeObj.attrib 1 := by
  have hn : largeMesh.num_face_vertices.length = largeFaceCount := List.length_replicate _ _
  refine ⟨?_, ?_, ?_⟩
  · rw [hn]; decide
  · intro f hf
    rw [hn] at hf
    refine ⟨0, ?_, by decide⟩
    show (List.replicate largeFaceCount (0 : Int))[f]? = some 0
    rw [List.getElem?_replicate, if_pos hf]
  · intro j hj
    rw [hn] at hj
    refine ⟨⟨0, -1, -1⟩, { pos := (10, 11, 12) }, ?_, by rfl⟩
    show (List.replicate (3 * largeFaceCount) (⟨0, -1, -1⟩ : index_t))[j]? = some ⟨0, -1, -1⟩
    rw [List.getElem?_replicate, if_pos hj]

theorem largeMesh_facesOf (key : Nat) :
    facesOf largeMesh key = if key = 0 then largeFaceCount else 0 := by
  have hn : largeMesh.num_face_vertices.length = largeFaceCount := List.length_replicate _ _
  unfold facesOf
  rw [hn]
  show (((List.replicate largeFaceCount (0 : Int)).take largeFaceCount).map toSizeT).count key
    = _
  rw [List.take_replicate, List.map_replicate, Nat.min_self, List.count_replicate]
  have h0 : toSizeT 0 = 0 := by decide
  rw [h0]
  by_cases hk : key = 0
  · subst hk; simp
  · have : ¬ (0 = key) := fun e => hk e.symm
    simp [hk, this]

/-- C28, counterexample to the claim as stated: the model `load` inserts for a
shape of 1431655766 triangles of one material has `2 ^ 32 + 2` indices, and
its index at position `2 ^ 32` is 0. -/
theorem load_indices_counterexample :
    ¬ (∀ (fs : FileSystem) (order : KeyOrder) (filepath stem root_path : String)
        (parsed : Except String ObjReader) (resources : Scene) (name : String)
        (model : ModelData),
        resources.models name = none →
        (Model.load fs order filepath stem root_path parsed resources).1.models name
          = some model →
        ∀ k, k < model.m_indices.length → model.m_indices[k]? = some k) := by
  intro hall
  obtain ⟨loaded, hm⟩ : ∃ loaded,
      materialsFrom exampleFiles "big" "" largeObj.materials 0 Scene.empty []
        = (loaded, .ok ["big.mat0"]) := ⟨_, rfl⟩
  obtain ⟨-, hins⟩ := load_total exampleFiles insertionKeys "big.obj" "big" "" largeObj
    Scene.empty loaded ["big.mat0"] hm
    (fun shape hs => by
      have : shape = { name := "s", mesh := largeMesh } := by
        simpa [largeObj] using hs
      subst this
      exact largeMesh_wellFormed)
  obtain ⟨mn, -, hsome⟩ := hins { name := "s", mesh := largeMesh }
    (by simp [largeObj]) 0
    (by rw [largeMesh_facesOf]; decide)
  obtain ⟨model, hmodel⟩ := Option.isSome_iff_exists.1 hsome
  obtain ⟨reader, shape, key, -, -, hparsed, hs, -, -, -, hpos, hlen, hidx⟩ :=
    load_inserted exampleFiles insertionKeys "big.obj" "big" "" (.ok largeObj) Scene.empty _
      model rfl hmodel
  injection hparsed with hparsed
  subst hparsed
  have hshape : shape = { name := "s", mesh := largeMesh } := by
    simpa [largeObj] using hs
  subst hshape
  simp only at hpos hlen
  rw [largeMesh_facesOf] at hpos hlen
  have hkey : key = 0 := by
    by_contra hne
    rw [if_neg hne] at hpos
    exact absurd hpos (by decide)
  rw [if_pos hkey] at hlen
  have hilen : model.m_indices.length = 3 * largeFaceCount := by
    rw [hidx, List.length_map, List.length_range, hlen]
  have hbig : 2 ^ 32 < 3 * largeFaceCount := by decide
  have h1 := hall exampleFiles insertionKeys "big.obj" "big" "" (.ok largeObj) Scene.empty _
    model rfl hmodel (2 ^ 32) (by rw [hilen]; exact hbig)
  rw [hidx, List.getElem?_map, List.getElem?_range (by rw [hlen]; exact hbig)] at h1
  simp only [Option.map_some', Option.some.injEq] at h1
  revert h1
  decide

/-- C28, amended: every model `load` inserts into the scene comes from a shape
of the file and a material id that some face of the shape carries; its
vertices and indices have the same length, 3 times the number of faces of the
shape carrying that id; `indices[k]` is `k` converted to `uint32_t`, that is
`k` modulo `2 ^ 32`, which is `k` for every `k` below `2 ^ 32`; and every
index is smaller than the vertex count of the model. -/
theorem load_indices (fs : FileSystem) (order : KeyOrder) (filepath stem root_path : String)
    (parsed : Except String ObjReader) (resources : Scene) (name : String) (model : ModelData)
    (hnew : resources.models name = none)
    (hmodel : (Model.load fs order filepath stem root_path parsed resources).1.models name
      = some model) :
    ∃ reader shape key loaded material_names, parsed = .ok reader ∧ shape ∈ reader.shapes ∧
      materialsFrom fs stem root_path reader.materials 0 resources []
        = (loaded, .ok material_names) ∧
      material_names[key]? = some model.m_material ∧
      name = modelName stem shape.name model.m_material ∧
      0 < facesOf shape.mesh key ∧
      model.m_vertices.length = 3 * facesOf shape.mesh key ∧
      model.m_indices.length = model.m_vertices.length ∧
      (∀ k, k < model.m_indices.length → model.m_indices[k]? = some (k % 2 ^ 32)) ∧
      (∀ k, k < model.m_indices.length → k < 2 ^ 32 → model.m_indices[k]? = some k) ∧
      ∀ index ∈ model.m_indices, index < model.m_vertices.length := by
  obtain ⟨reader, shape, key, loaded, material_names, h1, h2, h3, h4, h5, h6, h7, h8⟩ :=
    load_inserted fs order filepath stem root_path parsed resources name model hnew hmodel
  have hlen : model.m_indices.length = model.m_vertices.length := by
    rw [h8, List.length_map, List.length_range]
  have hget : ∀ k, k < model.m_indices.length → model.m_indices[k]? = some (k % 2 ^ 32) := by
    intro k hk
    rw [hlen] at hk
    rw [h8, List.getElem?_map, List.getElem?_range hk]
    rfl
  refine ⟨reader, shape, key, loaded, material_names, h1, h2, h3, h4, h5, h6, h7, hlen, hget,
    ?_, ?_⟩
  · intro k hk hsmall
    rw [hget k hk, Nat.mod_eq_of_lt hsmall]
  · intro index hindex
    obtain ⟨k, hk⟩ := List.getElem?_of_mem hindex
    have hklt : k < model.m_indices.length := by
      by_contra hge
      rw [List.getElem?_eq_none (by omega)] at hk
      cases hk
    rw [hget k hklt] at hk
    injection hk with hk
    have := Nat.mod_le k (2 ^ 32)
    omega

/-- Witness of C28: the model of the two triangles of the example file that
carry material 0 has six vertices and the indices 0 to 5. -/
theorem load_indices_witness :
    Scene.empty.models "box.cube.mat0" = none ∧
    (Model.load exampleFiles insertionKeys "models/box.obj" "box" "models" (.ok exampleObj)
      Scene.empty).1.models "box.cube.mat0" = some
        { m_material := "box.mat0",
          m_vertices := [{ pos := (10, 11, 12), norm := (1, 2, 3), tex := (5, 6) },
                         { pos := (20, 21, 22) }, { pos := (30, 31, 32) },
                         { pos := (20, 21, 22) }, { pos := (30, 31, 32) },
                         { pos := (10, 11, 12) }],
          m_indices := [0, 1, 2, 3, 4, 5] } ∧
    ∃ reader shape key loaded material_names,
      (.ok exampleObj : Except String ObjReader) = .ok reader ∧ shape ∈ reader.shapes ∧
      materialsFrom exampleFiles "box" "models" reader.materials 0 Scene.empty []
        = (loaded, .ok material_names) ∧
      material_names[key]? = some "box.mat0" ∧
      "box.cube.mat0" = modelName "box" shape.name "box.mat0" ∧
      0 < facesOf shape.mesh key ∧
      6 = 3 * facesOf shape.mesh key :=
  have h := load_indices exampleFiles insertionKeys "models/box.obj" "box" "models"
    (.ok exampleObj) Scene.empty "box.cube.mat0"
    { m_material := "box.mat0",
      m_vertices := [{ pos := (10, 11, 12), norm := (1, 2, 3), tex := (5, 6) },
                     { pos := (20, 21, 22) }, { pos := (30, 31, 32) },
                     { pos := (20, 21, 22) }, { pos := (30, 31, 32) },
                     { pos := (10, 11, 12) }],
      m_indices := [0, 1, 2, 3, 4, 5] } rfl (by rfl)
  ⟨rfl, by rfl, by
    obtain ⟨reader, shape, key, loaded, material_names, h1, h2, h3, h4, h5, h6, h7, -⟩ := h
    exact ⟨reader, shape, key, loaded, material_names, h1, h2, h3, h4, h5, h6, h7⟩⟩

/-- C29: a parsed file without materials whose only face has the material id
`-1`. The id converts to `SIZE_MAX` as key of `data`, `material_names` is
empty, and `load` indexes `material_names` with `SIZE_MAX`, out of range. -/
theorem load_material_id_out_of_range :
    unassignedObj.shapes.map (fun shape => shape.mesh.material_ids) = [[-1]] ∧
    toSizeT (-1) = SIZE_MAX ∧
    (materialsFrom exampleFiles "tri" "models" unassignedObj.materials 0 Scene.empty []).2
      = .ok [] ∧
    (facesFrom unassignedObj.attrib
        { indices := [⟨0, -1, -1⟩, ⟨1, -1, -1⟩, ⟨2, -1, -1⟩], num_face_vertices := [3],
          material_ids := [-1] } 1 0 0 MeshMap.empty).toOption.map (fun data => data.keys)
      = some [SIZE_MAX] ∧
    ([] : List String)[SIZE_MAX]? = none ∧
    (Model.load exampleFiles insertionKeys "models/tri.obj" "tri" "models" (.ok unassignedObj)
      Scene.empty).2 = .error "material_names index out of range" :=
  ⟨rfl, by decide, rfl, by rfl, rfl, by rfl⟩

end vks
